import Mathlib

/-!
# OpenRCT2 tile element store

A shallow embedding of the tile element store of `src/openrct2/world/Map.cpp`
(the backing array `gTileElements`, the pointer table `gTileElementTilePointers`
and the bump pointer `gNextFreeTileElement`) together with the operations that
read and mutate it.

Pointers into `gTileElements` are array indices.  An operation returns `none`
when the C++ code would access memory outside the object it indexes (an element
read or written at an index not below the array size, a pointer table entry
outside the table, a null pointer that is dereferenced).
-/

namespace OpenRCT2

/-! ## Constants and the element record -/

/-- Build constants that live in headers outside the sources at hand
(`Map.h`, `StringIds.h`).  The game is built with
`MAXIMUM_MAP_SIZE_TECHNICAL = 256`. -/
structure Config where
  MAXIMUM_MAP_SIZE_TECHNICAL : Nat
  MAX_TILE_ELEMENTS : Nat
  STR_ERR_LANDSCAPE_DATA_AREA_FULL : Nat
deriving DecidableEq, Repr

/-- An unsigned byte. -/
abbrev uint8_t := Fin 256

/-- Conversion of an unsigned value to `uint8_t` (keeps the low eight bits). -/
def toU8 (n : Nat) : uint8_t := ⟨n % 256, Nat.mod_lt n (by decide)⟩

/-- Conversion of an `int32_t` to `uint8_t` (keeps the low eight bits). -/
def intToU8 (z : Int) : uint8_t := ⟨(z % 256).toNat, by omega⟩

/-- The 8-byte tile element: `type`, `flags`, `base_height`, `clearance_height`
and the four payload bytes `pad_04[4]`. -/
structure TileElement where
  type : uint8_t
  flags : uint8_t
  base_height : uint8_t
  clearance_height : uint8_t
  pad_04_0 : uint8_t
  pad_04_1 : uint8_t
  pad_04_2 : uint8_t
  pad_04_3 : uint8_t
deriving DecidableEq, Repr

/-- Bit 7 of `flags` (`TILE_ELEMENT_FLAG_LAST_TILE` of `TileElement.h`). -/
def TILE_ELEMENT_FLAG_LAST_TILE : Nat := 0x80

/-- The complement `~TILE_ELEMENT_FLAG_LAST_TILE` as a 32-bit pattern. -/
def NOT_TILE_ELEMENT_FLAG_LAST_TILE : Nat := 0xFFFFFFFF - TILE_ELEMENT_FLAG_LAST_TILE

/-- The method `TileElementBase::IsLastForTile`. -/
def TileElement.IsLastForTile (e : TileElement) : Bool :=
  e.flags.val &&& TILE_ELEMENT_FLAG_LAST_TILE != 0

/-- An element of eight zero bytes (what `memset(..., 0, ...)` leaves). -/
def zeroElement : TileElement := ⟨0, 0, 0, 0, 0, 0, 0, 0⟩

/-- The element with its last-for-tile bit cleared
(`flags &= ~TILE_ELEMENT_FLAG_LAST_TILE`). -/
def TileElement.clearLast (e : TileElement) : TileElement :=
  { e with flags := toU8 (e.flags.val &&& NOT_TILE_ELEMENT_FLAG_LAST_TILE) }

/-- The element with its last-for-tile bit set
(`flags |= TILE_ELEMENT_FLAG_LAST_TILE`). -/
def TileElement.setLast (e : TileElement) : TileElement :=
  { e with flags := toU8 (e.flags.val ||| TILE_ELEMENT_FLAG_LAST_TILE) }

/-- The element with its base height overwritten by 255
(`base_height = 255`, `base_height = 0xFF`). -/
def TileElement.invalidate (e : TileElement) : TileElement :=
  { e with base_height := 255 }

/-- The element that `tile_element_insert` writes for height `z` and the
value `flags` of its flags variable: type 0, both heights `z`, zero payload. -/
def newElement (z : Int) (flags : Nat) : TileElement :=
  { type := 0, flags := toU8 flags, base_height := intToU8 z, clearance_height := intToU8 z,
    pad_04_0 := 0, pad_04_1 := 0, pad_04_2 := 0, pad_04_3 := 0 }

/-- Number of entries of `gTileElementTilePointers`. -/
def MAX_TILE_TILE_ELEMENT_POINTERS (cfg : Config) : Nat :=
  cfg.MAXIMUM_MAP_SIZE_TECHNICAL * cfg.MAXIMUM_MAP_SIZE_TECHNICAL

/-- Number of elements of `gTileElements[MAX_TILE_TILE_ELEMENT_POINTERS * 3]`. -/
def arraySize (cfg : Config) : Nat := MAX_TILE_TILE_ELEMENT_POINTERS cfg * 3

/-- The globals of the tile element store.  `reorganiseCalls` is a ghost
counter of the calls of `map_reorganise_elements`; the code has no such
variable. -/
structure Store where
  gTileElements : Nat → TileElement
  gTileElementTilePointers : Nat → Nat
  gNextFreeTileElement : Nat
  gGameCommandErrorText : Nat
  reorganiseCalls : Nat

/-! ## Loops -/

/-- A counted loop `for (i = 0; i < n; i++) body`. -/
def forLoop {σ : Type} (n : Nat) (body : Nat → σ → Option σ) (st : σ) : Option σ :=
  (List.range n).foldlM (fun acc i => body i acc) st

/-- The idiom `while (!(p++)->IsLastForTile());` started with `p = i`: the
value of `p` after the loop.  `fuel` is the number of elements that may still
be read. -/
def scanToLast (mem : Nat → TileElement) : Nat → Nat → Option Nat
  | 0, _ => none
  | fuel + 1, i =>
    if (mem i).IsLastForTile then some (i + 1) else scanToLast mem fuel (i + 1)

/-- The elements `mem[start], ..., mem[start + num - 1]`. -/
def readRun (mem : Nat → TileElement) (start num : Nat) : List TileElement :=
  (List.range num).map (fun i => mem (start + i))

/-! ## Access -/

/-- The function `map_get_first_element_at`; `none` is `nullptr`. -/
def map_get_first_element_at (cfg : Config) (s : Store) (x y : Int) : Option Nat :=
  if x < 0 ∨ y < 0 ∨ x > (cfg.MAXIMUM_MAP_SIZE_TECHNICAL : Int) - 1
      ∨ y > (cfg.MAXIMUM_MAP_SIZE_TECHNICAL : Int) - 1 then
    none
  else
    some (s.gTileElementTilePointers (x + y * (cfg.MAXIMUM_MAP_SIZE_TECHNICAL : Int)).toNat)

/-- The cursor of the loops of `map_update_tile_pointers`: the table being
filled, the position `tile` in it and the element pointer `tileElement`. -/
structure TilePointerCursor where
  table : Nat → Nat
  tile : Nat
  tileElement : Nat

/-- One iteration of the inner loop of `map_update_tile_pointers`:
`*tile++ = tileElement; while (!(tileElement++)->IsLastForTile());`. -/
def map_update_tile_pointers_body (cfg : Config) (mem : Nat → TileElement)
    (c : TilePointerCursor) : Option TilePointerCursor :=
  (scanToLast mem (arraySize cfg - c.tileElement) c.tileElement).map fun e =>
    { table := Function.update c.table c.tile c.tileElement
      tile := c.tile + 1
      tileElement := e }

/-- The function `map_update_tile_pointers`.  The first loop, which fills the
table with `TILE_UNDEFINED_TILE_ELEMENT`, is not visible in the result: the
second loop overwrites every entry. -/
def map_update_tile_pointers (cfg : Config) (s : Store) : Option Store :=
  (forLoop cfg.MAXIMUM_MAP_SIZE_TECHNICAL
      (fun _ => forLoop cfg.MAXIMUM_MAP_SIZE_TECHNICAL
        (fun _ => map_update_tile_pointers_body cfg s.gTileElements))
      ⟨s.gTileElementTilePointers, 0, 0⟩).map fun c =>
    { s with gTileElementTilePointers := c.table, gNextFreeTileElement := c.tileElement }

/-- The surface element that the loop of `map_init` writes: type surface (0),
only the last-for-tile flag, heights 14, and the payload left by the surface
setters (`Surface.cpp`, not among the sources): flat slope, grass terrain,
rock edge, no water, `GRASS_LENGTH_CLEAR_0`, unowned, no fences. -/
def initialSurfaceElement : TileElement :=
  { type := 0, flags := toU8 TILE_ELEMENT_FLAG_LAST_TILE, base_height := 14,
    clearance_height := 14, pad_04_0 := 0, pad_04_1 := 0, pad_04_2 := 1, pad_04_3 := 0 }

/-- The store part of `map_init`: the initial fill of the first
`MAX_TILE_TILE_ELEMENT_POINTERS` elements followed by `map_update_tile_pointers`. -/
def map_init (cfg : Config) (s : Store) : Option Store :=
  map_update_tile_pointers cfg
    { s with gTileElements := fun i =>
        if i < MAX_TILE_TILE_ELEMENT_POINTERS cfg then initialSurfaceElement
        else s.gTileElements i }

/-! ## Defragmentation -/

/-- One iteration of the inner loop of `map_reorganise_elements`: the run of
tile `(x, y)` is appended to the scratch buffer `buf`, which has room for
`arraySize` elements. -/
def map_reorganise_elements_body (cfg : Config) (s : Store) (y x : Nat)
    (buf : List TileElement) : Option (List TileElement) :=
  (map_get_first_element_at cfg s x y).bind fun startElement =>
  (scanToLast s.gTileElements (arraySize cfg - startElement) startElement).bind fun endElement =>
    let num_elements := endElement - startElement
    if buf.length + num_elements ≤ arraySize cfg then
      some (buf ++ readRun s.gTileElements startElement num_elements)
    else none

/-- The function `map_reorganise_elements`.  `mallocSucceeds` tells whether the
allocation of the scratch buffer succeeds; when it fails the function returns
without touching the store. -/
def map_reorganise_elements (cfg : Config) (mallocSucceeds : Bool) (s0 : Store) : Option Store :=
  let s := { s0 with reorganiseCalls := s0.reorganiseCalls + 1 }
  if mallocSucceeds then
    (forLoop cfg.MAXIMUM_MAP_SIZE_TECHNICAL
        (fun y => forLoop cfg.MAXIMUM_MAP_SIZE_TECHNICAL
          (fun x => map_reorganise_elements_body cfg s y x)) []).bind fun new_tile_elements =>
      let num_elements := new_tile_elements.length
      map_update_tile_pointers cfg
        { s with gTileElements := fun i =>
            if i < num_elements then new_tile_elements.getD i zeroElement
            else if i < arraySize cfg then zeroElement
            else s.gTileElements i }
  else some s

/-- The function `map_check_free_elements_and_reorganise`. -/
def map_check_free_elements_and_reorganise (cfg : Config) (mallocSucceeds : Bool)
    (s : Store) (numElements : Int) : Option (Bool × Store) :=
  if numElements ≠ 0 then
    if (s.gNextFreeTileElement : Int) + numElements > (cfg.MAX_TILE_ELEMENTS : Int) then
      (map_reorganise_elements cfg mallocSucceeds s).map fun s1 =>
        if (s1.gNextFreeTileElement : Int) + numElements > (cfg.MAX_TILE_ELEMENTS : Int) then
          (false, { s1 with gGameCommandErrorText := cfg.STR_ERR_LANDSCAPE_DATA_AREA_FULL })
        else (true, s1)
    else some (true, s)
  else some (true, s)

/-! ## Insertion -/

/-- The local variables of `tile_element_insert` that its loops change. -/
structure InsertCursor where
  mem : Nat → TileElement
  originalTileElement : Nat
  newTileElement : Nat
  flags : Nat

/-- The first loop of `tile_element_insert`
(`while (z >= originalTileElement->base_height)`). -/
def tile_element_insert_below (cfg : Config) (z : Int) : Nat → InsertCursor → Option InsertCursor
  | 0, _ => none
  | fuel + 1, c =>
    if c.originalTileElement < arraySize cfg then
      if z ≥ ((c.mem c.originalTileElement).base_height.val : Int) then
        if c.newTileElement < arraySize cfg then
          let mem1 := Function.update c.mem c.newTileElement (c.mem c.originalTileElement)
          let mem2 := Function.update mem1 c.originalTileElement
            (mem1 c.originalTileElement).invalidate
          if (mem2 c.newTileElement).flags.val &&& TILE_ELEMENT_FLAG_LAST_TILE ≠ 0 then
            some
              { mem := Function.update mem2 c.newTileElement (mem2 c.newTileElement).clearLast
                originalTileElement := c.originalTileElement + 1
                newTileElement := c.newTileElement + 1
                flags := c.flags ||| TILE_ELEMENT_FLAG_LAST_TILE }
          else
            tile_element_insert_below cfg z fuel
              { mem := mem2
                originalTileElement := c.originalTileElement + 1
                newTileElement := c.newTileElement + 1
                flags := c.flags }
        else none
      else some c
    else none

/-- The second loop of `tile_element_insert` (the `do ... while` that copies
the elements above the insert height). -/
def tile_element_insert_above (cfg : Config) : Nat → InsertCursor → Option InsertCursor
  | 0, _ => none
  | fuel + 1, c =>
    if c.originalTileElement < arraySize cfg ∧ c.newTileElement < arraySize cfg then
      let mem1 := Function.update c.mem c.newTileElement (c.mem c.originalTileElement)
      let mem2 := Function.update mem1 c.originalTileElement
        (mem1 c.originalTileElement).invalidate
      let c1 : InsertCursor :=
        { mem := mem2
          originalTileElement := c.originalTileElement + 1
          newTileElement := c.newTileElement + 1
          flags := c.flags }
      if (mem2 c.newTileElement).IsLastForTile then some c1
      else tile_element_insert_above cfg fuel c1
    else none

/-- The copying part of `tile_element_insert`, from the first loop to the end
of the second one: the elements below the insert height are copied, the new
element is written, and the elements above are copied unless the new element
is flagged last-for-tile.  The result is the cursor after the copy and the
pointer `insertedElement`. -/
def tile_element_insert_copy (cfg : Config) (z : Int) (c0 : InsertCursor) :
    Option (InsertCursor × Nat) :=
  (tile_element_insert_below cfg z (arraySize cfg + 1) c0).bind fun c1 =>
    if c1.newTileElement < arraySize cfg then
      let c2 : InsertCursor :=
        { mem := Function.update c1.mem c1.newTileElement (newElement z c1.flags)
          originalTileElement := c1.originalTileElement
          newTileElement := c1.newTileElement + 1
          flags := c1.flags }
      (if c2.flags &&& TILE_ELEMENT_FLAG_LAST_TILE = 0 then
          tile_element_insert_above cfg (arraySize cfg) c2
        else some c2).map fun c3 => (c3, c1.newTileElement)
    else none

/-- The function `tile_element_insert`.  `flags` is the bit pattern of the
`int32_t` argument.  The result is the store and the returned pointer
(`none` is `nullptr`). -/
def tile_element_insert (cfg : Config) (mallocSucceeds : Bool) (s0 : Store)
    (x y z : Int) (flags : Nat) : Option (Store × Option Nat) :=
  (map_check_free_elements_and_reorganise cfg mallocSucceeds s0 1).bind fun r =>
    if r.1 = false then some (r.2, none)
    else
      let s := r.2
      let index := y * (cfg.MAXIMUM_MAP_SIZE_TECHNICAL : Int) + x
      if 0 ≤ index ∧ index < (MAX_TILE_TILE_ELEMENT_POINTERS cfg : Int) then
        (tile_element_insert_copy cfg z
            { mem := s.gTileElements
              originalTileElement := s.gTileElementTilePointers index.toNat
              newTileElement := s.gNextFreeTileElement
              flags := flags }).map fun r =>
          ({ s with gTileElements := r.1.mem
                    gTileElementTilePointers :=
                      Function.update s.gTileElementTilePointers index.toNat
                        s.gNextFreeTileElement
                    gNextFreeTileElement := r.1.newTileElement }, some r.2)
      else none

/-! ## Removal -/

/-- The loop of `tile_element_remove`
(`do { *tileElement = *(tileElement + 1); } while (!(++tileElement)->IsLastForTile());`):
the memory and the value of `tileElement` after it. -/
def tile_element_remove_shift (cfg : Config) :
    Nat → (Nat → TileElement) → Nat → Option ((Nat → TileElement) × Nat)
  | 0, _, _ => none
  | fuel + 1, mem, tileElement =>
    if tileElement + 1 < arraySize cfg then
      let mem1 := Function.update mem tileElement (mem (tileElement + 1))
      if (mem1 (tileElement + 1)).IsLastForTile then some (mem1, tileElement + 1)
      else tile_element_remove_shift cfg fuel mem1 (tileElement + 1)
    else none

/-- The function `tile_element_remove`. -/
def tile_element_remove (cfg : Config) (s : Store) (tileElement : Nat) : Option Store :=
  if tileElement < arraySize cfg then
    (if (s.gTileElements tileElement).IsLastForTile then some (s.gTileElements, tileElement)
      else tile_element_remove_shift cfg (arraySize cfg) s.gTileElements tileElement).bind fun r =>
      let mem := r.1
      let last := r.2
      if 0 < last then
        let mem1 := Function.update mem (last - 1) (mem (last - 1)).setLast
        let mem2 := Function.update mem1 last (mem1 last).invalidate
        some { s with gTileElements := mem2
                      gNextFreeTileElement :=
                        if last + 1 = s.gNextFreeTileElement then s.gNextFreeTileElement - 1
                        else s.gNextFreeTileElement }
      else none
  else none

/-! ## Iteration -/

/-- The struct `tile_element_iterator`; `element = none` is `nullptr`. -/
structure tile_element_iterator where
  x : Int
  y : Int
  element : Option Nat
deriving DecidableEq, Repr

/-- The function `tile_element_iterator_begin`. -/
def tile_element_iterator_begin (cfg : Config) (s : Store) : tile_element_iterator :=
  { x := 0, y := 0, element := map_get_first_element_at cfg s 0 0 }

/-- The function `tile_element_iterator_next`: the returned `int32_t` and the
iterator after the call. -/
def tile_element_iterator_next (cfg : Config) (s : Store) (it : tile_element_iterator) :
    Option (Int × tile_element_iterator) :=
  match it.element with
  | none => some (1, { it with element := map_get_first_element_at cfg s it.x it.y })
  | some e =>
    if e < arraySize cfg then
      if !(s.gTileElements e).IsLastForTile then
        some (1, { it with element := some (e + 1) })
      else if it.x < (cfg.MAXIMUM_MAP_SIZE_TECHNICAL : Int) - 1 then
        some (1, { it with x := it.x + 1
                           element := map_get_first_element_at cfg s (it.x + 1) it.y })
      else if it.y < (cfg.MAXIMUM_MAP_SIZE_TECHNICAL : Int) - 1 then
        some (1, { x := 0, y := it.y + 1
                   element := map_get_first_element_at cfg s 0 (it.y + 1) })
      else some (0, it)
    else none

/-- The function `tile_element_iterator_restart_for_tile`. -/
def tile_element_iterator_restart_for_tile (it : tile_element_iterator) : tile_element_iterator :=
  { it with element := none }

/-! ## Runs and the store invariant -/

/-- The `k` elements from index `p` form a run: there is at least one element
and exactly one of them, the final one, is flagged last-for-tile. -/
def IsRun (mem : Nat → TileElement) (p k : Nat) : Prop :=
  0 < k ∧ ∀ i, i < k → ((mem (p + i)).IsLastForTile = true ↔ i + 1 = k)

instance (mem : Nat → TileElement) (p k : Nat) : Decidable (IsRun mem p k) := by
  unfold IsRun; infer_instance

/-- Where a traversal of the run of the tile with table index `t` stops
(one past its last-for-tile element). -/
def tileRunEnd (cfg : Config) (s : Store) (t : Nat) : Option Nat :=
  scanToLast s.gTileElements (arraySize cfg - s.gTileElementTilePointers t)
    (s.gTileElementTilePointers t)

/-- The elements that a traversal of the run of tile `t` reads, in order. -/
def tileRun (cfg : Config) (s : Store) (t : Nat) : Option (List TileElement) :=
  (tileRunEnd cfg s t).map fun e =>
    readRun s.gTileElements (s.gTileElementTilePointers t) (e - s.gTileElementTilePointers t)

/-- Number of elements of the run of tile `t`. -/
def tileRunLength (cfg : Config) (s : Store) (t : Nat) : Nat :=
  match tileRunEnd cfg s t with
  | some e => e - s.gTileElementTilePointers t
  | none => 0

/-- Sum of the lengths `len 0 + ... + len (t - 1)`. -/
def prefixSum (len : Nat → Nat) (t : Nat) : Nat := ((List.range t).map len).sum

/-- The elements of the first `n` runs, back to back; run `t` consists of the
`len t` elements from `ptr t`. -/
def concatRuns (mem : Nat → TileElement) (ptr len : Nat → Nat) : Nat → List TileElement
  | 0 => []
  | n + 1 => concatRuns mem ptr len n ++ readRun mem (ptr n) (len n)

/-- The runs of the tiles with table indices `t1` and `t2` do not overlap. -/
def RunsDisjoint (s : Store) (t1 t2 : Nat) : Prop :=
  ∀ k1, k1 ≤ s.gNextFreeTileElement → ∀ k2, k2 ≤ s.gNextFreeTileElement →
    IsRun s.gTileElements (s.gTileElementTilePointers t1) k1 →
    IsRun s.gTileElements (s.gTileElementTilePointers t2) k2 →
      s.gTileElementTilePointers t1 + k1 ≤ s.gTileElementTilePointers t2
        ∨ s.gTileElementTilePointers t2 + k2 ≤ s.gTileElementTilePointers t1

instance (s : Store) (t1 t2 : Nat) : Decidable (RunsDisjoint s t1 t2) := by
  unfold RunsDisjoint; infer_instance

/-- The store invariant: for every tile the run starting at its pointer table
entry lies inside `[0, gNextFreeTileElement)`, has at least one element and
exactly one element flagged last-for-tile (its final one), and the runs of
different tiles do not overlap. -/
def StoreInvariant (cfg : Config) (s : Store) : Prop :=
  (∀ t, t < MAX_TILE_TILE_ELEMENT_POINTERS cfg →
    ∃ k, k ≤ s.gNextFreeTileElement ∧ IsRun s.gTileElements (s.gTileElementTilePointers t) k
      ∧ s.gTileElementTilePointers t + k ≤ s.gNextFreeTileElement) ∧
  (∀ t1, t1 < MAX_TILE_TILE_ELEMENT_POINTERS cfg → ∀ t2, t2 < MAX_TILE_TILE_ELEMENT_POINTERS cfg →
    t1 ≠ t2 → RunsDisjoint s t1 t2)

instance (cfg : Config) (s : Store) : Decidable (StoreInvariant cfg s) := by
  unfold StoreInvariant; infer_instance

/-- A well-formed store: the store invariant holds and `gNextFreeTileElement`
does not point beyond the end of `gTileElements`. -/
def WellFormed (cfg : Config) (s : Store) : Prop :=
  StoreInvariant cfg s ∧ s.gNextFreeTileElement ≤ arraySize cfg

instance (cfg : Config) (s : Store) : Decidable (WellFormed cfg s) := by
  unfold WellFormed; infer_instance

/-! ## A small map -/

/-- Build constants of a map of 2 x 2 tiles with a backing array of 12 elements. -/
def smallConfig : Config :=
  { MAXIMUM_MAP_SIZE_TECHNICAL := 2, MAX_TILE_ELEMENTS := 12, STR_ERR_LANDSCAPE_DATA_AREA_FULL := 1 }

/-- An element with the given flags, base height and payload byte. -/
def sampleElement (flags base_height payload : uint8_t) : TileElement :=
  { type := 0, flags := flags, base_height := base_height, clearance_height := base_height,
    pad_04_0 := payload, pad_04_1 := 0, pad_04_2 := 0, pad_04_3 := 0 }

/-- A fragmented store for `smallConfig`: tiles 0, 2 and 3 have one element at
indices 0, 2 and 3, tile 1 has the three elements at indices 6 to 8, and the
slots 1, 4 and 5 are holes left by earlier insertions. -/
def sampleStore : Store :=
  { gTileElements := fun i =>
      match i with
      | 0 => sampleElement 0x80 14 1
      | 1 => sampleElement 0x80 255 2
      | 2 => sampleElement 0x80 14 3
      | 3 => sampleElement 0x80 14 4
      | 4 => sampleElement 0x00 255 5
      | 5 => sampleElement 0x80 255 6
      | 6 => sampleElement 0x00 10 7
      | 7 => sampleElement 0x10 14 8
      | 8 => sampleElement 0x80 14 9
      | _ => zeroElement
    gTileElementTilePointers := fun t =>
      match t with
      | 0 => 0
      | 1 => 6
      | 2 => 2
      | 3 => 3
      | _ => 0
    gNextFreeTileElement := 9
    gGameCommandErrorText := 0
    reorganiseCalls := 0 }

/-! ## Closed forms used by the proofs -/

/-- The store that `map_reorganise_elements` produces from `s` when the run of
tile `t` is `len t` elements long. -/
def compacted (cfg : Config) (s : Store) (len : Nat → Nat) : Store :=
  { gTileElements := fun i =>
      if i < (concatRuns s.gTileElements s.gTileElementTilePointers len
          (MAX_TILE_TILE_ELEMENT_POINTERS cfg)).length then
        (concatRuns s.gTileElements s.gTileElementTilePointers len
          (MAX_TILE_TILE_ELEMENT_POINTERS cfg)).getD i zeroElement
      else if i < arraySize cfg then zeroElement
      else s.gTileElements i
    gTileElementTilePointers := fun u =>
      if u < MAX_TILE_TILE_ELEMENT_POINTERS cfg then prefixSum len u
      else s.gTileElementTilePointers u
    gNextFreeTileElement := prefixSum len (MAX_TILE_TILE_ELEMENT_POINTERS cfg)
    gGameCommandErrorText := s.gGameCommandErrorText
    reorganiseCalls := s.reorganiseCalls + 1 }

/-- What `tile_element_insert_copy` leaves, for a run of `k` elements at `p`
copied to `n` with insert height `z` and flags `flags`: the position `m` of the
new element and the cursor `c3` after the copy. -/
def InsertCopyResult (c0 : InsertCursor) (z : Int) (k m : Nat) (c3 : InsertCursor) : Prop :=
  m ≤ k ∧
  (∀ i, i < m → ((c0.mem (c0.originalTileElement + i)).base_height.val : Int) ≤ z) ∧
  (m < k → z < ((c0.mem (c0.originalTileElement + m)).base_height.val : Int)) ∧
  c3.newTileElement = c0.newTileElement
    + (if m < k ∧ c0.flags &&& TILE_ELEMENT_FLAG_LAST_TILE ≠ 0 then m + 1 else k + 1) ∧
  (∀ i, i < m → c3.mem (c0.newTileElement + i)
    = if i + 1 = k then (c0.mem (c0.originalTileElement + i)).clearLast
      else c0.mem (c0.originalTileElement + i)) ∧
  c3.mem (c0.newTileElement + m)
    = newElement z (if m = k then c0.flags ||| TILE_ELEMENT_FLAG_LAST_TILE else c0.flags) ∧
  (c0.flags &&& TILE_ELEMENT_FLAG_LAST_TILE = 0 → ∀ i, m ≤ i → i < k →
    c3.mem (c0.newTileElement + i + 1) = c0.mem (c0.originalTileElement + i)) ∧
  (∀ x, (x < c0.originalTileElement ∨ c0.originalTileElement + k ≤ x) →
    (x < c0.newTileElement ∨ c3.newTileElement ≤ x) → c3.mem x = c0.mem x)

/-! ## Position of an inserted element -/

/-- Index in the pointer table of tile `(x, y)`, as `tile_element_insert`
computes it (`y * MAXIMUM_MAP_SIZE_TECHNICAL + x`). -/
def tileIndex (cfg : Config) (x y : Nat) : Nat := y * cfg.MAXIMUM_MAP_SIZE_TECHNICAL + x

/-- Position, within the new run of tile `(x, y)`, of the element whose pointer
`tile_element_insert` returns. -/
def insertedIndex (cfg : Config) (mallocSucceeds : Bool) (s : Store) (x y : Nat) (z : Int)
    (flags : Nat) : Option Nat :=
  (tile_element_insert cfg mallocSucceeds s x y z flags).bind fun r =>
    r.2.map fun p => p - r.1.gTileElementTilePointers (tileIndex cfg x y)

/-- The placement rule in the words of the specification: the new element
stands at the position of the first existing element of the run whose
`base_height` is at least `z` (at the end of the run when there is none). -/
def InsertsBeforeFirstAtOrAbove (cfg : Config) (mallocSucceeds : Bool) (s : Store) (x y : Nat)
    (z : Int) (flags : Nat) : Prop :=
  insertedIndex cfg mallocSucceeds s x y z flags
    = (tileRun cfg s (tileIndex cfg x y)).map fun old =>
        old.findIdx (fun e => decide (z ≤ (e.base_height.val : Int)))

instance (cfg : Config) (b : Bool) (s : Store) (x y : Nat) (z : Int) (flags : Nat) :
    Decidable (InsertsBeforeFirstAtOrAbove cfg b s x y z flags) := by
  unfold InsertsBeforeFirstAtOrAbove; infer_instance

/-- A run is ascending when its base heights never decrease from one element
to a later one. -/
def Ascending (run : List TileElement) : Prop :=
  run.Pairwise (fun a b => a.base_height ≤ b.base_height)

/-! ## A store without free space -/

/-- A store for `smallConfig` without free space: every tile has three
elements and the twelve elements fill the array. -/
def fullStore : Store :=
  { gTileElements := fun i =>
      sampleElement (if i % 3 = 2 then 0x80 else 0x00) (toU8 (10 + i % 3)) (toU8 i)
    gTileElementTilePointers := fun t => 3 * t
    gNextFreeTileElement := 12
    gGameCommandErrorText := 0
    reorganiseCalls := 0 }

/-! ## Traversal with the iterator -/

/-- The traversal idiom of `Map.cpp`,
`tile_element_iterator_begin(&it); do { ... } while (tile_element_iterator_next(&it));`,
started at the cursor `it`: the cursor values at which the loop body runs, in
order.  `fuel` bounds the number of calls of `tile_element_iterator_next`. -/
def iterateTiles (cfg : Config) (s : Store) : Nat → tile_element_iterator →
    Option (List tile_element_iterator)
  | 0, _ => none
  | fuel + 1, it =>
    (tile_element_iterator_next cfg s it).bind fun r =>
      if r.1 = 0 then some [it]
      else (iterateTiles cfg s fuel r.2).map fun visited => it :: visited

/-- The cursor on tile `(x, y)` at the elements `e, e + 1, ..., e + d - 1`. -/
def restOfTile (x y : Int) : Nat → Nat → List tile_element_iterator
  | _, 0 => []
  | e, d + 1 => { x := x, y := y, element := some e } :: restOfTile x y (e + 1) d

/-- The cursor on every element of the tile with table index `t`, from the
head of its run to its last element. -/
def tileVisits (cfg : Config) (s : Store) (t : Nat) : List tile_element_iterator :=
  restOfTile ((t % cfg.MAXIMUM_MAP_SIZE_TECHNICAL : Nat) : Int)
    ((t / cfg.MAXIMUM_MAP_SIZE_TECHNICAL : Nat) : Int)
    (s.gTileElementTilePointers t) (tileRunLength cfg s t)

/-- The cursor on every element of the `c` tiles with table indices
`t, t + 1, ..., t + c - 1`, tile after tile. -/
def visitsFromTile (cfg : Config) (s : Store) : Nat → Nat → List tile_element_iterator
  | 0, _ => []
  | c + 1, t => tileVisits cfg s t ++ visitsFromTile cfg s c (t + 1)

/-- The cursor on every element of every tile: tiles in raster order (table
index `x + y * MAXIMUM_MAP_SIZE_TECHNICAL` ascending, so `x` runs fastest),
within a tile from the run head to the last element. -/
def expectedVisits (cfg : Config) (s : Store) : List tile_element_iterator :=
  visitsFromTile cfg s (MAX_TILE_TILE_ELEMENT_POINTERS cfg) 0

/-! ## Surface elements and slopes -/

/-- Modelled from the spec: the mask `TILE_ELEMENT_TYPE_MASK` of `TileElement.h`,
which is not among the sources at hand; `type` packs the type tag in bits 2 to 5
(the tags of `RCT12TileElementType` are multiples of 4 up to `15 << 2`). -/
def TILE_ELEMENT_TYPE_MASK : Nat := 0x3C

/-- Modelled from the spec: the tag `TILE_ELEMENT_TYPE_SURFACE` of `TileElement.h`
(`Surface = (0 << 2)` in `RCT12TileElementType`). -/
def TILE_ELEMENT_TYPE_SURFACE : Nat := 0

/-- Modelled from the spec: the method `TileElementBase::GetType`, whose body is
not among the sources at hand: the type tag of the `type` byte. -/
def TileElement.GetType (e : TileElement) : Nat := e.type.val &&& TILE_ELEMENT_TYPE_MASK

/-- Modelled from the spec: the method `SurfaceElement::GetSlope`, whose body is
not among the sources at hand: the low five bits of payload byte 4
(`slope; // 4 0xE0 Edge Style, 0x1F Slope`). -/
def TileElement.GetSlope (e : TileElement) : Nat := e.pad_04_0.val &&& 0x1F

/-- Modelled from the spec: the method `SurfaceElement::GetWaterHeight`, whose
body is not among the sources at hand: the low five bits of payload byte 5
(`terrain; // 5 0xE0 Terrain Style, 0x1F Water height`). -/
def TileElement.GetWaterHeight (e : TileElement) : Nat := e.pad_04_1.val &&& 0x1F

/-- Modelled from the spec: the slope constant `TILE_ELEMENT_SLOPE_FLAT` of
`TileElement.h` (no corner raised). -/
def TILE_ELEMENT_SLOPE_FLAT : Nat := 0x00

/-- Modelled from the spec: the slope constant `TILE_ELEMENT_SLOPE_ALL_CORNERS_UP` of
`TileElement.h` (the four corner-up bits). -/
def TILE_ELEMENT_SLOPE_ALL_CORNERS_UP : Nat := 0x0F

/-- Modelled from the spec: the slope bit `TILE_ELEMENT_SLOPE_N_CORNER_UP` of
`TileElement.h` (corner 0). -/
def TILE_ELEMENT_SLOPE_N_CORNER_UP : Nat := 1

/-- Modelled from the spec: the slope bit `TILE_ELEMENT_SLOPE_E_CORNER_UP` of
`TileElement.h` (corner 1). -/
def TILE_ELEMENT_SLOPE_E_CORNER_UP : Nat := 2

/-- Modelled from the spec: the slope bit `TILE_ELEMENT_SLOPE_S_CORNER_UP` of
`TileElement.h` (corner 2). -/
def TILE_ELEMENT_SLOPE_S_CORNER_UP : Nat := 4

/-- Modelled from the spec: the slope bit `TILE_ELEMENT_SLOPE_W_CORNER_UP` of
`TileElement.h` (corner 3). -/
def TILE_ELEMENT_SLOPE_W_CORNER_UP : Nat := 8

/-- Modelled from the spec: the slope bit `TILE_ELEMENT_SLOPE_DOUBLE_HEIGHT` of
`TileElement.h` (the fifth bit, `0x10`). -/
def TILE_ELEMENT_SLOPE_DOUBLE_HEIGHT : Nat := 0x10

/-- Modelled from the spec: `TILE_ELEMENT_SLOPE_W_CORNER_DN` of `TileElement.h`:
every corner raised but the west one. -/
def TILE_ELEMENT_SLOPE_W_CORNER_DN : Nat :=
  TILE_ELEMENT_SLOPE_ALL_CORNERS_UP - TILE_ELEMENT_SLOPE_W_CORNER_UP

/-- Modelled from the spec: `TILE_ELEMENT_SLOPE_S_CORNER_DN` of `TileElement.h`:
every corner raised but the south one. -/
def TILE_ELEMENT_SLOPE_S_CORNER_DN : Nat :=
  TILE_ELEMENT_SLOPE_ALL_CORNERS_UP - TILE_ELEMENT_SLOPE_S_CORNER_UP

/-- Modelled from the spec: `TILE_ELEMENT_SLOPE_E_CORNER_DN` of `TileElement.h`:
every corner raised but the east one. -/
def TILE_ELEMENT_SLOPE_E_CORNER_DN : Nat :=
  TILE_ELEMENT_SLOPE_ALL_CORNERS_UP - TILE_ELEMENT_SLOPE_E_CORNER_UP

/-- Modelled from the spec: `TILE_ELEMENT_SLOPE_N_CORNER_DN` of `TileElement.h`:
every corner raised but the north one. -/
def TILE_ELEMENT_SLOPE_N_CORNER_DN : Nat :=
  TILE_ELEMENT_SLOPE_ALL_CORNERS_UP - TILE_ELEMENT_SLOPE_N_CORNER_UP

/-- Modelled from the spec: `TILE_ELEMENT_SLOPE_NE_SIDE_UP` of `TileElement.h`. -/
def TILE_ELEMENT_SLOPE_NE_SIDE_UP : Nat :=
  TILE_ELEMENT_SLOPE_N_CORNER_UP ||| TILE_ELEMENT_SLOPE_E_CORNER_UP

/-- Modelled from the spec: `TILE_ELEMENT_SLOPE_SE_SIDE_UP` of `TileElement.h`. -/
def TILE_ELEMENT_SLOPE_SE_SIDE_UP : Nat :=
  TILE_ELEMENT_SLOPE_S_CORNER_UP ||| TILE_ELEMENT_SLOPE_E_CORNER_UP

/-- Modelled from the spec: `TILE_ELEMENT_SLOPE_NW_SIDE_UP` of `TileElement.h`. -/
def TILE_ELEMENT_SLOPE_NW_SIDE_UP : Nat :=
  TILE_ELEMENT_SLOPE_N_CORNER_UP ||| TILE_ELEMENT_SLOPE_W_CORNER_UP

/-- Modelled from the spec: `TILE_ELEMENT_SLOPE_SW_SIDE_UP` of `TileElement.h`. -/
def TILE_ELEMENT_SLOPE_SW_SIDE_UP : Nat :=
  TILE_ELEMENT_SLOPE_S_CORNER_UP ||| TILE_ELEMENT_SLOPE_W_CORNER_UP

/-- Modelled from the spec: `TILE_ELEMENT_SLOPE_W_E_VALLEY` of `TileElement.h`
(east and west corners raised). -/
def TILE_ELEMENT_SLOPE_W_E_VALLEY : Nat :=
  TILE_ELEMENT_SLOPE_E_CORNER_UP ||| TILE_ELEMENT_SLOPE_W_CORNER_UP

/-- Modelled from the spec: `TILE_ELEMENT_SLOPE_N_S_VALLEY` of `TileElement.h`
(north and south corners raised). -/
def TILE_ELEMENT_SLOPE_N_S_VALLEY : Nat :=
  TILE_ELEMENT_SLOPE_N_CORNER_UP ||| TILE_ELEMENT_SLOPE_S_CORNER_UP

/-- Conversion of an integer to `int8_t` (two's complement wrap). -/
def toInt8 (v : Int) : Int := (v + 128) % 256 - 128

/-- Conversion of an integer to `int16_t` (two's complement wrap). -/
def toInt16 (v : Int) : Int := (v + 32768) % 65536 - 32768

/-- Conversion of an integer to `uint16_t` (keeps the low sixteen bits). -/
def toU16 (v : Int) : Int := v % 65536

/-- The bit pattern `(unsigned)x` of an `int32_t`. -/
def toU32 (x : Int) : Nat := (x % 4294967296).toNat

/-- The loop of `map_get_surface_element_at` started at element `i`: the outer
`none` is a read outside `gTileElements`, the inner `none` is `nullptr`.  `fuel`
is the number of elements that may still be read. -/
def map_get_surface_element_at_loop (mem : Nat → TileElement) : Nat → Nat → Option (Option Nat)
  | 0, _ => none
  | fuel + 1, i =>
    if (mem i).GetType ≠ TILE_ELEMENT_TYPE_SURFACE then
      if (mem i).IsLastForTile then some none
      else map_get_surface_element_at_loop mem fuel (i + 1)
    else some (some i)

/-- The function `map_get_surface_element_at(int32_t x, int32_t y)`: the outer
`none` is a read outside `gTileElements`, the inner `none` is `nullptr`. -/
def map_get_surface_element_at (cfg : Config) (s : Store) (x y : Int) : Option (Option Nat) :=
  match map_get_first_element_at cfg s x y with
  | none => some none
  | some tileElement =>
    map_get_surface_element_at_loop s.gTileElements (arraySize cfg - tileElement) tileElement

/-- The overload `map_get_surface_element_at(const CoordsXY coords)`, which
divides both coordinates by 32 (rounding towards zero). -/
def map_get_surface_element_at_coords (cfg : Config) (s : Store) (x y : Int) :
    Option (Option Nat) :=
  map_get_surface_element_at cfg s (Int.tdiv x 32) (Int.tdiv y 32)

/-! ## Heights -/

/-- The block "One corner up" of `tile_element_height`: the value of `height`
after it.  `quad` is an `int8_t`, `height` a `uint16_t`, and the division
rounds towards zero. -/
def tile_element_height_one_corner_up (slope : Nat) (xl yl height : Int) : Int :=
  let TILE_SIZE : Int := 31
  if slope = TILE_ELEMENT_SLOPE_N_CORNER_UP ∨ slope = TILE_ELEMENT_SLOPE_E_CORNER_UP
      ∨ slope = TILE_ELEMENT_SLOPE_S_CORNER_UP ∨ slope = TILE_ELEMENT_SLOPE_W_CORNER_UP then
    let quad : Int :=
      if slope = TILE_ELEMENT_SLOPE_N_CORNER_UP then toInt8 (xl + yl - TILE_SIZE)
      else if slope = TILE_ELEMENT_SLOPE_E_CORNER_UP then toInt8 (xl - yl)
      else if slope = TILE_ELEMENT_SLOPE_S_CORNER_UP then toInt8 (TILE_SIZE - yl - xl)
      else toInt8 (yl - xl)
    -- If the element is in the quadrant with the slope, raise its height
    if quad > 0 then toU16 (height + Int.tdiv quad 2) else height
  else height

/-- The block "One side up" of `tile_element_height`: the value of `height`
after it. -/
def tile_element_height_one_side_up (slope : Nat) (xl yl height : Int) : Int :=
  let TILE_SIZE : Int := 31
  if slope = TILE_ELEMENT_SLOPE_NE_SIDE_UP then toU16 (height + (Int.tdiv xl 2 + 1))
  else if slope = TILE_ELEMENT_SLOPE_SE_SIDE_UP then toU16 (height + Int.tdiv (TILE_SIZE - yl) 2)
  else if slope = TILE_ELEMENT_SLOPE_NW_SIDE_UP then toU16 (toU16 (height + Int.tdiv yl 2) + 1)
  else if slope = TILE_ELEMENT_SLOPE_SW_SIDE_UP then toU16 (height + Int.tdiv (TILE_SIZE - xl) 2)
  else height

/-- The block "Valleys" of `tile_element_height` and the final `return height`
(a conversion of the `uint16_t` to `int16_t`). -/
def tile_element_height_valleys (slope : Nat) (xl yl height : Int) : Int :=
  let TILE_SIZE : Int := 31
  if slope = TILE_ELEMENT_SLOPE_W_E_VALLEY then
    if xl + yl ≤ TILE_SIZE + 1 then toInt16 height
    else
      let quad : Int := toInt8 (TILE_SIZE - xl - yl)
      toInt16 (if quad > 0 then toU16 (height + Int.tdiv quad 2) else height)
  else if slope = TILE_ELEMENT_SLOPE_N_S_VALLEY then
    let quad : Int := toInt8 (xl - yl)
    toInt16 (if quad > 0 then toU16 (height + Int.tdiv quad 2) else height)
  else toInt16 height

/-- The block "One corner down" of `tile_element_height` and what follows it:
the value returned.  `quad` and `quad_extra` are `int8_t`. -/
def tile_element_height_one_corner_down (slope extra_height : Nat) (xl yl height : Int) : Int :=
  let TILE_SIZE : Int := 31
  if slope = TILE_ELEMENT_SLOPE_W_CORNER_DN ∨ slope = TILE_ELEMENT_SLOPE_S_CORNER_DN
      ∨ slope = TILE_ELEMENT_SLOPE_E_CORNER_DN ∨ slope = TILE_ELEMENT_SLOPE_N_CORNER_DN then
    let quad_extra : Int :=
      if slope = TILE_ELEMENT_SLOPE_W_CORNER_DN then toInt8 (xl + TILE_SIZE - yl)
      else if slope = TILE_ELEMENT_SLOPE_S_CORNER_DN then toInt8 (xl + yl)
      else if slope = TILE_ELEMENT_SLOPE_E_CORNER_DN then toInt8 (TILE_SIZE - xl + yl)
      else toInt8 ((TILE_SIZE - xl) + (TILE_SIZE - yl))
    let quad : Int :=
      if slope = TILE_ELEMENT_SLOPE_W_CORNER_DN then toInt8 (xl - yl)
      else if slope = TILE_ELEMENT_SLOPE_S_CORNER_DN then toInt8 (xl + yl - TILE_SIZE - 1)
      else if slope = TILE_ELEMENT_SLOPE_E_CORNER_DN then toInt8 (yl - xl)
      else toInt8 (TILE_SIZE - yl - xl - 1)
    if extra_height ≠ 0 then
      toInt16 (toU16 (toU16 (height + Int.tdiv quad_extra 2) + 1))
    else
      -- This tile is essentially at the next height level
      let height : Int := toU16 (height + 0x10)
      -- so we move *down* the slope
      let height : Int := if quad < 0 then toU16 (height + Int.tdiv quad 2) else height
      tile_element_height_valleys slope xl yl height
  else tile_element_height_valleys slope xl yl height

/-- The part of `tile_element_height` after the surface element has been
found: the height of the surface `e` at the offsets `xl`, `yl` inside its
tile. -/
def tile_element_height_of_surface (e : TileElement) (xl yl : Int) : Int :=
  let height : Int := toU16 ((e.base_height.val <<< 3 : Nat) : Int)
  let slope : Nat := e.GetSlope
  -- 0x10 is the 5th bit - sets slope to double height
  let extra_height : Nat := ((slope &&& TILE_ELEMENT_SLOPE_DOUBLE_HEIGHT) >>> 4) % 256
  -- Remove the extra height bit
  let slope : Nat := slope &&& TILE_ELEMENT_SLOPE_ALL_CORNERS_UP
  let height := tile_element_height_one_corner_up slope xl yl height
  let height := tile_element_height_one_side_up slope xl yl height
  tile_element_height_one_corner_down slope extra_height xl yl height

/-- The function `tile_element_height` for `int32_t` arguments `x`, `y`;
`none` is a read outside `gTileElements`. -/
def tile_element_height (cfg : Config) (s : Store) (x y : Int) : Option Int :=
  -- Off the map
  if toU32 x ≥ 8192 ∨ toU32 y ≥ 8192 then some 16
  else
    -- Truncate subtile coordinates
    let x_tile : Int := ((toU32 x &&& 0xFFFFFFE0 : Nat) : Int)
    let y_tile : Int := ((toU32 y &&& 0xFFFFFFE0 : Nat) : Int)
    match map_get_surface_element_at_coords cfg s x_tile y_tile with
    | none => none
    | some none => some 16
    | some (some tileElement) =>
      some (tile_element_height_of_surface (s.gTileElements tileElement)
        ((toU32 x &&& 0x1f : Nat) : Int) ((toU32 y &&& 0x1f : Nat) : Int))

/-- The function `tile_element_water_height` for `int32_t` arguments `x`, `y`;
`none` is a read outside `gTileElements`. -/
def tile_element_water_height (cfg : Config) (s : Store) (x y : Int) : Option Int :=
  -- Off the map
  if toU32 x ≥ 8192 ∨ toU32 y ≥ 8192 then some 0
  else
    let x_tile : Int := ((toU32 x &&& 0xFFFFFFE0 : Nat) : Int)
    let y_tile : Int := ((toU32 y &&& 0xFFFFFFE0 : Nat) : Int)
    match map_get_surface_element_at_coords cfg s x_tile y_tile with
    | none => none
    | some none => some 0
    | some (some tileElement) =>
      some (toInt16 (toU16 (((s.gTileElements tileElement).GetWaterHeight <<< 4 : Nat) : Int)))

/-- The function `map_get_corner_height`; `slope` is the bit pattern of the
`int32_t` argument, and `z` is an `int32_t` far enough from `INT32_MAX` for
`z + 4` not to overflow. -/
def map_get_corner_height (z : Int) (slope : Nat) (direction : Int) : Int :=
  if direction = 0 then
    if slope &&& TILE_ELEMENT_SLOPE_N_CORNER_UP ≠ 0 then
      if slope = (TILE_ELEMENT_SLOPE_S_CORNER_DN ||| TILE_ELEMENT_SLOPE_DOUBLE_HEIGHT) then
        z + 2 + 2
      else z + 2
    else z
  else if direction = 1 then
    if slope &&& TILE_ELEMENT_SLOPE_E_CORNER_UP ≠ 0 then
      if slope = (TILE_ELEMENT_SLOPE_W_CORNER_DN ||| TILE_ELEMENT_SLOPE_DOUBLE_HEIGHT) then
        z + 2 + 2
      else z + 2
    else z
  else if direction = 2 then
    if slope &&& TILE_ELEMENT_SLOPE_S_CORNER_UP ≠ 0 then
      if slope = (TILE_ELEMENT_SLOPE_N_CORNER_DN ||| TILE_ELEMENT_SLOPE_DOUBLE_HEIGHT) then
        z + 2 + 2
      else z + 2
    else z
  else if direction = 3 then
    if slope &&& TILE_ELEMENT_SLOPE_W_CORNER_UP ≠ 0 then
      if slope = (TILE_ELEMENT_SLOPE_E_CORNER_DN ||| TILE_ELEMENT_SLOPE_DOUBLE_HEIGHT) then
        z + 2 + 2
      else z + 2
    else z
  else z

/-! ## Rotation -/

/-- Modelled from the spec: `TILE_ELEMENT_DIRECTION_WEST` of `TileElement.h`
(rotation 0, the identity). -/
def TILE_ELEMENT_DIRECTION_WEST : Int := 0

/-- Modelled from the spec: `TILE_ELEMENT_DIRECTION_NORTH` of `TileElement.h`
(rotation 1). -/
def TILE_ELEMENT_DIRECTION_NORTH : Int := 1

/-- Modelled from the spec: `TILE_ELEMENT_DIRECTION_EAST` of `TileElement.h`
(rotation 2). -/
def TILE_ELEMENT_DIRECTION_EAST : Int := 2

/-- Modelled from the spec: `TILE_ELEMENT_DIRECTION_SOUTH` of `TileElement.h`
(rotation 3). -/
def TILE_ELEMENT_DIRECTION_SOUTH : Int := 3

/-- The function `rotate_map_coordinates`: the values of `*x` and `*y` after
the call.  The negations are computed in `int` and stored as `int16_t`. -/
def rotate_map_coordinates (x y : Int) (rotation : Int) : Int × Int :=
  if rotation = TILE_ELEMENT_DIRECTION_WEST then (x, y)
  else if rotation = TILE_ELEMENT_DIRECTION_NORTH then
    let temp := x
    (y, toInt16 (-temp))
  else if rotation = TILE_ELEMENT_DIRECTION_EAST then
    (toInt16 (-x), toInt16 (-y))
  else if rotation = TILE_ELEMENT_DIRECTION_SOUTH then
    let temp := y
    (toInt16 (-temp), x)
  else (x, y)

/-- The coordinates after `n` successive calls
`rotate_map_coordinates(&x, &y, rotation)` started from the pair `p`. -/
def rotate_map_coordinates_times (rotation : Int) : Nat → Int × Int → Int × Int
  | 0, p => p
  | n + 1, p =>
    rotate_map_coordinates_times rotation n (rotate_map_coordinates p.1 p.2 rotation)

/-! ## Heights at the corners of a tile -/

/-- The four extreme offsets inside a tile. -/
def extremeOffsets : List (Nat × Nat) := [(0, 0), (31, 0), (0, 31), (31, 31)]

/-- The height that `tile_element_height` reports at offset `c` of tile
`(tx, ty)`. -/
def heightAtOffset (cfg : Config) (s : Store) (tx ty : Nat) (c : Nat × Nat) : Option Int :=
  tile_element_height cfg s ((32 * tx + c.1 : Nat) : Int) ((32 * ty + c.2 : Nat) : Int)

/-- The extreme offset towards which a slope with a single raised corner
rises. -/
def raisedCornerOffset (slope : Nat) : Nat × Nat :=
  if slope = TILE_ELEMENT_SLOPE_N_CORNER_UP then (31, 31)
  else if slope = TILE_ELEMENT_SLOPE_E_CORNER_UP then (31, 0)
  else if slope = TILE_ELEMENT_SLOPE_S_CORNER_UP then (0, 0)
  else (0, 31)

/-- The reading "`b * 8` at the three non-raised corners and `b * 8 + 8`, give
or take one, at the raised corner" of the heights at the extreme offsets of
tile `(tx, ty)`. -/
def CornerHeightsWithinEight (cfg : Config) (s : Store) (tx ty : Nat) (b : Int) : Prop :=
  ∃ r ∈ extremeOffsets,
    (heightAtOffset cfg s tx ty r = some (b * 8 + 7)
      ∨ heightAtOffset cfg s tx ty r = some (b * 8 + 8)
      ∨ heightAtOffset cfg s tx ty r = some (b * 8 + 9)) ∧
    ∀ c ∈ extremeOffsets, c ≠ r → heightAtOffset cfg s tx ty c = some (b * 8)

instance (cfg : Config) (s : Store) (tx ty : Nat) (b : Int) :
    Decidable (CornerHeightsWithinEight cfg s tx ty b) := by
  unfold CornerHeightsWithinEight; infer_instance

/-- The store `sampleStore` with the only element of tile 0 turned into a path
element, so that tile 0 has no surface element. -/
def noSurfaceStore : Store :=
  { sampleStore with
    gTileElements := fun i =>
      if i = 0 then { type := 4, flags := 0x80, base_height := 14, clearance_height := 14,
                      pad_04_0 := 1, pad_04_1 := 0, pad_04_2 := 0, pad_04_3 := 0 }
      else sampleStore.gTileElements i }

/-- The corner-up bit of corner `d` (0 = N, 1 = E, 2 = S, 3 = W). -/
def cornerUpBit (d : Int) : Nat :=
  if d = 0 then TILE_ELEMENT_SLOPE_N_CORNER_UP
  else if d = 1 then TILE_ELEMENT_SLOPE_E_CORNER_UP
  else if d = 2 then TILE_ELEMENT_SLOPE_S_CORNER_UP
  else TILE_ELEMENT_SLOPE_W_CORNER_UP

/-- The slope whose only lowered corner lies opposite corner `d`. -/
def oppositeCornerDown (d : Int) : Nat :=
  if d = 0 then TILE_ELEMENT_SLOPE_S_CORNER_DN
  else if d = 1 then TILE_ELEMENT_SLOPE_W_CORNER_DN
  else if d = 2 then TILE_ELEMENT_SLOPE_N_CORNER_DN
  else TILE_ELEMENT_SLOPE_E_CORNER_DN

/-! ## Game actions -/

/-- Modelled from the spec: the error codes `GA_ERROR` of `GameAction.h`, which
is not among the sources at hand.  The actions at hand name `OK` and
`INVALID_PARAMETERS`; `OTHER` stands for the remaining enumerators. -/
inductive GA_ERROR where
  | OK
  | INVALID_PARAMETERS
  | OTHER (code : Nat)
deriving DecidableEq, Repr

/-- Modelled from the spec: the class `GameActionResult` of `GameAction.h`, which
is not among the sources at hand: an error code, an error title and message
(string ids), a position, a cost (`money32`) and an expenditure type. -/
structure GameActionResult where
  Error : GA_ERROR
  ErrorTitle : Nat
  ErrorMessage : Nat
  Position : Int × Int × Int
  Cost : Int
  ExpenditureType : Nat
deriving DecidableEq, Repr

/-- Constants that the actions take from headers outside the sources at hand
(`StringIds.h`, `audio.h`, `RideConstruction.h`, `Sprite.h`, `Peep.h`,
`Staff.h`, `GameAction.h`).  `RESULT_POSITION` and `RESULT_EXPENDITURE_TYPE` are
the position and expenditure type of a freshly constructed result. -/
structure ActionConstants where
  STR_NONE : Nat
  STR_CANT_LOWER_WATER_LEVEL_HERE : Nat
  RCT_EXPENDITURE_TYPE_LANDSCAPING : Nat
  SOUND_LAYING_OUT_WATER : Nat
  TRACK_SELECTION_FLAG_RECHECK : Nat
  MAX_SPRITES : Nat
  PEEP_TYPE_STAFF : Nat
  STAFF_TYPE_ENTERTAINER : Nat
  PEEP_FLAGS_SLOW_WALK : Nat
  RESULT_POSITION : Int × Int × Int
  RESULT_EXPENDITURE_TYPE : Nat
deriving DecidableEq, Repr

/-- Modelled from the spec: the result that `MakeResult()` and
`std::make_unique<GameActionResult>()` construct: no error, no message, no
cost. -/
def MakeResult (k : ActionConstants) : GameActionResult :=
  { Error := GA_ERROR.OK, ErrorTitle := k.STR_NONE, ErrorMessage := k.STR_NONE,
    Position := k.RESULT_POSITION, Cost := 0, ExpenditureType := k.RESULT_EXPENDITURE_TYPE }

/-- Modelled from the spec: the result that
`std::make_unique<GameActionResult>(error, message)` constructs. -/
def MakeErrorResult (k : ActionConstants) (error : GA_ERROR) (message : Nat) : GameActionResult :=
  { Error := error, ErrorTitle := k.STR_NONE, ErrorMessage := message,
    Position := k.RESULT_POSITION, Cost := 0, ExpenditureType := k.RESULT_EXPENDITURE_TYPE }

/-- The result `result` after `result->ErrorTitle = title`. -/
def GameActionResult.setErrorTitle (result : GameActionResult) (title : Nat) : GameActionResult :=
  { Error := result.Error, ErrorTitle := title, ErrorMessage := result.ErrorMessage,
    Position := result.Position, Cost := result.Cost, ExpenditureType := result.ExpenditureType }

/-- The result `res` after `res->Cost += cost`. -/
def GameActionResult.addCost (res : GameActionResult) (cost : Int) : GameActionResult :=
  { Error := res.Error, ErrorTitle := res.ErrorTitle, ErrorMessage := res.ErrorMessage,
    Position := res.Position, Cost := res.Cost + cost, ExpenditureType := res.ExpenditureType }

/-- The result `res` after the assignments to `res->Position`. -/
def GameActionResult.setPosition (res : GameActionResult) (position : Int × Int × Int) :
    GameActionResult :=
  { Error := res.Error, ErrorTitle := res.ErrorTitle, ErrorMessage := res.ErrorMessage,
    Position := position, Cost := res.Cost, ExpenditureType := res.ExpenditureType }

/-- The result `res` after `res->ExpenditureType = type`. -/
def GameActionResult.setExpenditureType (res : GameActionResult) (type : Nat) :
    GameActionResult :=
  { Error := res.Error, ErrorTitle := res.ErrorTitle, ErrorMessage := res.ErrorMessage,
    Position := res.Position, Cost := res.Cost, ExpenditureType := type }

/-- The global state that `WaterLowerAction` reads and writes: the tile element
store, `gMapSizeMaxXY` and `_currentTrackSelectionFlags`.  `audio` is a ghost
log of the calls of `audio_play_sound_at_location` (sound id and position). -/
structure GameState where
  store : Store
  gMapSizeMaxXY : Int
  _currentTrackSelectionFlags : Nat
  audio : List (Nat × Int × Int × Int)

/-- Modelled from the spec: the type `MapRange` of `Location.hpp`, which is not
among the sources at hand, with the values of `GetLeft()`, `GetTop()`,
`GetRight()` and `GetBottom()`. -/
structure MapRange where
  Left : Int
  Top : Int
  Right : Int
  Bottom : Int
deriving DecidableEq, Repr

/-- The arguments of a nested `WaterSetHeightAction`: the coordinates, the raw
target height (a `uint8_t`) and the flags given by `SetFlags`. -/
structure WaterSetHeightAction where
  x : Int
  y : Int
  height : Nat
  flags : Nat
deriving DecidableEq, Repr

/-- The functions `GameActions::ExecuteNested` and `GameActions::QueryNested` on
a `WaterSetHeightAction`; neither they nor the action are among the sources at
hand, so they are parameters: each yields a result and the state it leaves. -/
structure NestedActions where
  ExecuteNested : WaterSetHeightAction → GameState → GameActionResult × GameState
  QueryNested : WaterSetHeightAction → GameState → GameActionResult × GameState

/-- The call `isExecuting ? GameActions::ExecuteNested(&a) : GameActions::QueryNested(&a)`. -/
def NestedActions.call (nested : NestedActions) (isExecuting : Bool) (a : WaterSetHeightAction)
    (st : GameState) : GameActionResult × GameState :=
  if isExecuting then nested.ExecuteNested a st else nested.QueryNested a st

/-- The values of the loop variable of `for (v = first; v <= last; v += 32)`. -/
def loopSteps (first last : Int) : List Int :=
  if first ≤ last then
    (List.range ((last - first) / 32 + 1).toNat).map (fun (i : Nat) => first + 32 * (i : Int))
  else []

/-- The pairs `(x, y)` that the nested loops over a range visit, in order: `y`
in the outer loop, `x` in the inner one. -/
def rangeCoords (range : MapRange) : List (Int × Int) :=
  (loopSteps range.Top range.Bottom).foldr
    (fun y acc => (loopSteps range.Left range.Right).map (fun x => (x, y)) ++ acc) []

/-- The body of the loops of `WaterLowerAction::GetLowestHeight` at `(x, y)`:
the value of `minHeight` after it; `none` is a read outside `gTileElements`. -/
def WaterLowerAction.GetLowestHeight_body (cfg : Config) (s : Store) (minHeight : Nat)
    (xy : Int × Int) : Option Nat :=
  match map_get_surface_element_at_coords cfg s xy.1 xy.2 with
  | none => none
  | some none => some minHeight
  | some (some tile_element) =>
    let height : Nat := (s.gTileElements tile_element).GetWaterHeight % 256
    if height = 0 then some minHeight
    else
      let height : Nat := (height * 2) % 256
      if height > minHeight then some height else some minHeight

/-- The method `WaterLowerAction::GetLowestHeight`; `none` is a read outside
`gTileElements`. -/
def WaterLowerAction.GetLowestHeight (cfg : Config) (range : MapRange) (s : Store) : Option Nat :=
  (rangeCoords range).foldlM (WaterLowerAction.GetLowestHeight_body cfg s) 0

/-- The variables of the loops of `WaterLowerAction::QueryExecute`: `res`,
`hasChanged`, the global state, and the value returned from inside the loop, if
any.  `issued` is a ghost log of the nested actions issued so far. -/
structure WaterLowerLoop where
  res : GameActionResult
  hasChanged : Bool
  state : GameState
  returned : Option GameActionResult
  issued : List WaterSetHeightAction

/-- The body of the loops of `WaterLowerAction::QueryExecute` at `(x, y)`;
`none` is a read outside `gTileElements`. -/
def WaterLowerAction.QueryExecute_body (cfg : Config) (k : ActionConstants)
    (nested : NestedActions) (flags : Nat) (isExecuting : Bool) (minHeight : Nat)
    (l : WaterLowerLoop) (xy : Int × Int) : Option WaterLowerLoop :=
  match map_get_surface_element_at cfg l.state.store (Int.tdiv xy.1 32) (Int.tdiv xy.2 32) with
  | none => none
  | some none => some l
  | some (some tileElement) =>
    let height : Nat := (l.state.store.gTileElements tileElement).GetWaterHeight % 256
    if height = 0 then some l
    else
      let height : Nat := (height * 2) % 256
      if height < minHeight then some l
      else
        let height : Nat := (height + 256 - 2) % 256
        let waterSetHeightAction : WaterSetHeightAction := ⟨xy.1, xy.2, height, flags⟩
        let result := nested.call isExecuting waterSetHeightAction l.state
        if result.1.Error = GA_ERROR.OK then
          some ⟨l.res.addCost result.1.Cost, true, result.2, l.returned,
            l.issued ++ [waterSetHeightAction]⟩
        else
          some ⟨l.res, l.hasChanged, result.2,
            some (result.1.setErrorTitle k.STR_CANT_LOWER_WATER_LEVEL_HERE),
            l.issued ++ [waterSetHeightAction]⟩

/-- The nested loops of `WaterLowerAction::QueryExecute` over the remaining
coordinates; they stop at a `return`. -/
def WaterLowerAction.QueryExecute_loop (cfg : Config) (k : ActionConstants)
    (nested : NestedActions) (flags : Nat) (isExecuting : Bool) (minHeight : Nat) :
    List (Int × Int) → WaterLowerLoop → Option WaterLowerLoop
  | [], l => some l
  | xy :: rest, l =>
    match WaterLowerAction.QueryExecute_body cfg k nested flags isExecuting minHeight l xy with
    | none => none
    | some l1 =>
      if l1.returned.isSome then some l1
      else WaterLowerAction.QueryExecute_loop cfg k nested flags isExecuting minHeight rest l1

/-- What a call of `WaterLowerAction::Query` or `Execute` leaves: the result
returned, the global state, and the ghost log of the nested actions issued. -/
structure WaterLowerOutcome where
  result : GameActionResult
  state : GameState
  issued : List WaterSetHeightAction

/-- The range `validRange` of `WaterLowerAction::QueryExecute`: the requested
range clamped to `[32, gMapSizeMaxXY]` on both axes. -/
def WaterLowerAction.validRange (range : MapRange) (st : GameState) : MapRange :=
  let aX := max 32 range.Left
  let bX := min st.gMapSizeMaxXY range.Right
  let aY := max 32 range.Top
  let bY := min st.gMapSizeMaxXY range.Bottom
  ⟨aX, aY, bX, bY⟩

/-- The method `WaterLowerAction::QueryExecute` for the range `_range` and the
flags `GetFlags()`; `none` is a read outside `gTileElements`. -/
def WaterLowerAction.QueryExecute (cfg : Config) (k : ActionConstants) (nested : NestedActions)
    (range : MapRange) (flags : Nat) (isExecuting : Bool) (st : GameState) :
    Option WaterLowerOutcome :=
  let res := MakeResult k
  -- Keep big coordinates within map boundaries
  let validRange := WaterLowerAction.validRange range st
  let px : Int := Int.tdiv (validRange.Left + validRange.Right) 2 + 16
  let py : Int := Int.tdiv (validRange.Top + validRange.Bottom) 2 + 16
  match tile_element_height cfg st.store px py, tile_element_water_height cfg st.store px py with
  | some z, some waterHeight =>
    let z : Int := if waterHeight ≠ 0 then waterHeight else z
    let res := (res.setPosition (px, py, z)).setExpenditureType k.RCT_EXPENDITURE_TYPE_LANDSCAPING
    match WaterLowerAction.GetLowestHeight cfg range st.store with
    | none => none
    | some minHeight =>
      match WaterLowerAction.QueryExecute_loop cfg k nested flags isExecuting minHeight
          (rangeCoords validRange) ⟨res, false, st, none, []⟩ with
      | none => none
      | some l =>
        match l.returned with
        | some result => some ⟨result, l.state, l.issued⟩
        | none =>
          let audio :=
            if isExecuting && l.hasChanged then
              l.state.audio ++ [(k.SOUND_LAYING_OUT_WATER, l.res.Position)]
            else l.state.audio
          -- Force ride construction to recheck area
          some ⟨l.res,
            ⟨l.state.store, l.state.gMapSizeMaxXY,
              l.state._currentTrackSelectionFlags ||| k.TRACK_SELECTION_FLAG_RECHECK, audio⟩,
            l.issued⟩
  | _, _ => none

/-- The method `WaterLowerAction::Query`. -/
def WaterLowerAction.Query (cfg : Config) (k : ActionConstants) (nested : NestedActions)
    (range : MapRange) (flags : Nat) (st : GameState) : Option WaterLowerOutcome :=
  WaterLowerAction.QueryExecute cfg k nested range flags false st

/-- The method `WaterLowerAction::Execute`. -/
def WaterLowerAction.Execute (cfg : Config) (k : ActionConstants) (nested : NestedActions)
    (range : MapRange) (flags : Nat) (st : GameState) : Option WaterLowerOutcome :=
  WaterLowerAction.QueryExecute cfg k nested range flags true st

/-! ## Nested actions in sequence -/

/-- The nested actions `actions` issued one after the other from state `st`
with nothing in between: their results and the state they leave. -/
def NestedActions.run (nested : NestedActions) (isExecuting : Bool) :
    List WaterSetHeightAction → GameState → List GameActionResult × GameState
  | [], st => ([], st)
  | a :: rest, st =>
    let r := nested.call isExecuting a st
    let rs := NestedActions.run nested isExecuting rest r.2
    (r.1 :: rs.1, rs.2)

/-- The sum of the costs of a list of results. -/
def totalCost (results : List GameActionResult) : Int := (results.map (fun r => r.Cost)).sum

/-- The water height of the surface element of tile `(tx, ty)`: the outer
`none` is a read outside `gTileElements`, the inner `none` a tile without a
surface element. -/
def waterHeightAt (cfg : Config) (s : Store) (tx ty : Int) : Option (Option Nat) :=
  match map_get_surface_element_at cfg s tx ty with
  | none => none
  | some none => some none
  | some (some e) => some (some (s.gTileElements e).GetWaterHeight)

/-- The tile of the coordinates `(x, y)` has a surface element. -/
def hasSurfaceAt (cfg : Config) (s : Store) (xy : Int × Int) : Bool :=
  match waterHeightAt cfg s (Int.tdiv xy.1 32) (Int.tdiv xy.2 32) with
  | some (some _) => true
  | _ => false

/-! ## A map with water -/

/-- Build constants of a map of 4 x 4 tiles with a backing array of 48 elements. -/
def waterConfig : Config :=
  { MAXIMUM_MAP_SIZE_TECHNICAL := 4, MAX_TILE_ELEMENTS := 48, STR_ERR_LANDSCAPE_DATA_AREA_FULL := 1 }

/-- A store for `waterConfig`: every tile has a single flat surface element of
base height 14 with water height 3. -/
def waterStore : Store :=
  { gTileElements := fun i =>
      if i < 16 then
        { type := 0, flags := 0x80, base_height := 14, clearance_height := 14,
          pad_04_0 := 0, pad_04_1 := 3, pad_04_2 := 0, pad_04_3 := 0 }
      else zeroElement
    gTileElementTilePointers := fun t => if t < 16 then t else 0
    gNextFreeTileElement := 16
    gGameCommandErrorText := 0
    reorganiseCalls := 0 }

/-- A game state on `waterStore`; `gMapSizeMaxXY` is `4 * 32 - 33` and no track
selection flag is set. -/
def waterState : GameState :=
  { store := waterStore, gMapSizeMaxXY := 95, _currentTrackSelectionFlags := 0, audio := [] }

/-- Values for the constants of the actions. -/
def sampleConstants : ActionConstants :=
  { STR_NONE := 65535, STR_CANT_LOWER_WATER_LEVEL_HERE := 1000,
    RCT_EXPENDITURE_TYPE_LANDSCAPING := 3, SOUND_LAYING_OUT_WATER := 7,
    TRACK_SELECTION_FLAG_RECHECK := 8, MAX_SPRITES := 4, PEEP_TYPE_STAFF := 1,
    STAFF_TYPE_ENTERTAINER := 3, PEEP_FLAGS_SLOW_WALK := 2, RESULT_POSITION := (0, 0, 0),
    RESULT_EXPENDITURE_TYPE := 0 }

/-! ## Outcomes of `WaterLowerAction` -/

/-- What the loops of `WaterLowerAction::QueryExecute` have established when
they started from the result `res0` and the state `st0`: the state evolved
through the nested actions alone; while nothing was returned every nested
action succeeded and `res` holds the sum of their costs; a returned value is
the result of a failing nested action, the last one issued, with its error
title replaced. -/
def WaterLowerLoop.Consistent (nested : NestedActions) (isExecuting : Bool)
    (k : ActionConstants) (res0 : GameActionResult) (st0 : GameState) (l : WaterLowerLoop) :
    Prop :=
  match l.returned with
  | none =>
    l.state = (nested.run isExecuting l.issued st0).2 ∧
    (∀ r ∈ (nested.run isExecuting l.issued st0).1, r.Error = GA_ERROR.OK) ∧
    l.res = res0.addCost (totalCost (nested.run isExecuting l.issued st0).1) ∧
    l.hasChanged = !l.issued.isEmpty
  | some result =>
    ∃ init a, l.issued = init ++ [a] ∧
      (∀ r ∈ (nested.run isExecuting init st0).1, r.Error = GA_ERROR.OK) ∧
      (nested.call isExecuting a (nested.run isExecuting init st0).2).1.Error ≠ GA_ERROR.OK ∧
      result = (nested.call isExecuting a (nested.run isExecuting init st0).2).1.setErrorTitle
        k.STR_CANT_LOWER_WATER_LEVEL_HERE ∧
      l.state = (nested.call isExecuting a (nested.run isExecuting init st0).2).2

/-- The outcome `out` of a call from state `st` in which every nested action
succeeded: the result has no error and the sum of the nested costs, and the
state is the one left by the nested actions with the recheck flag set and, when
executing and something changed, one sound played. -/
def WaterLowerOutcome.Succeeded (nested : NestedActions) (isExecuting : Bool)
    (k : ActionConstants) (st : GameState) (out : WaterLowerOutcome) : Prop :=
  (∀ r ∈ (nested.run isExecuting out.issued st).1, r.Error = GA_ERROR.OK) ∧
  out.result.Error = GA_ERROR.OK ∧
  out.result.Cost = totalCost (nested.run isExecuting out.issued st).1 ∧
  out.state.store = (nested.run isExecuting out.issued st).2.store ∧
  out.state.gMapSizeMaxXY = (nested.run isExecuting out.issued st).2.gMapSizeMaxXY ∧
  out.state._currentTrackSelectionFlags
    = (nested.run isExecuting out.issued st).2._currentTrackSelectionFlags
        ||| k.TRACK_SELECTION_FLAG_RECHECK ∧
  out.state.audio
    = (nested.run isExecuting out.issued st).2.audio
        ++ (if isExecuting && !out.issued.isEmpty then
              [(k.SOUND_LAYING_OUT_WATER, out.result.Position)] else [])

/-- The outcome `out` of a call from state `st` in which a nested action
failed: the failing action is the last one issued, the ones before it
succeeded, the result is the failing action's own result with the error title
replaced, and the state is the one the failing action left. -/
def WaterLowerOutcome.Failed (nested : NestedActions) (isExecuting : Bool)
    (k : ActionConstants) (st : GameState) (out : WaterLowerOutcome) : Prop :=
  ∃ init a, out.issued = init ++ [a] ∧
    (∀ r ∈ (nested.run isExecuting init st).1, r.Error = GA_ERROR.OK) ∧
    (nested.call isExecuting a (nested.run isExecuting init st).2).1.Error ≠ GA_ERROR.OK ∧
    out.result = (nested.call isExecuting a (nested.run isExecuting init st).2).1.setErrorTitle
      k.STR_CANT_LOWER_WATER_LEVEL_HERE ∧
    out.state = (nested.call isExecuting a (nested.run isExecuting init st).2).2

/-- The reading "the failed result retains the cost of the earlier
sub-actions": the cost of the result is at least the sum of the costs of the
nested actions issued before the last one. -/
def WaterLowerOutcome.RetainsEarlierCosts (nested : NestedActions) (isExecuting : Bool)
    (st : GameState) (out : WaterLowerOutcome) : Prop :=
  totalCost (nested.run isExecuting out.issued.dropLast st).1 ≤ out.result.Cost

instance (nested : NestedActions) (isExecuting : Bool) (st : GameState)
    (out : WaterLowerOutcome) : Decidable (out.RetainsEarlierCosts nested isExecuting st) := by
  unfold WaterLowerOutcome.RetainsEarlierCosts; infer_instance

/-! ## Ranges with water at one height -/

/-- The tile coordinates of the position `(x, y)` (division rounding towards
zero, as in the code). -/
def tileOf (xy : Int × Int) : Int × Int := (Int.tdiv xy.1 32, Int.tdiv xy.2 32)

/-- Every tile of the positions `coords` that has a surface element has water
height `h`, and looking up the surface stays inside the array. -/
def UniformWater (cfg : Config) (s : Store) (h : Nat) (coords : List (Int × Int)) : Prop :=
  ∀ xy ∈ coords,
    waterHeightAt cfg s (tileOf xy).1 (tileOf xy).2 = some none
      ∨ waterHeightAt cfg s (tileOf xy).1 (tileOf xy).2 = some (some h)

instance (cfg : Config) (s : Store) (h : Nat) (coords : List (Int × Int)) :
    Decidable (UniformWater cfg s h coords) := by
  unfold UniformWater; infer_instance

/-- The nested action that lowers the water at `xy` from height `h` by one
step: raw target height `2 * h - 2`. -/
def lowerWaterAt (h flags : Nat) (xy : Int × Int) : WaterSetHeightAction :=
  ⟨xy.1, xy.2, 2 * h - 2, flags⟩

/-- The nested executions that lower the water from height `h` at the
positions `coords` behave on the states satisfying `Inv`: the action succeeds,
`Inv` holds again afterwards, and the water height recorded for every tile but
the action's own is as before. -/
def NestedActions.LowersWater (cfg : Config) (nested : NestedActions) (Inv : GameState → Prop)
    (h flags : Nat) (coords : List (Int × Int)) : Prop :=
  ∀ xy ∈ coords, ∀ st, Inv st →
    (nested.ExecuteNested (lowerWaterAt h flags xy) st).1.Error = GA_ERROR.OK ∧
    Inv (nested.ExecuteNested (lowerWaterAt h flags xy) st).2 ∧
    ∀ tx ty, (tx, ty) ≠ tileOf xy →
      waterHeightAt cfg (nested.ExecuteNested (lowerWaterAt h flags xy) st).2.store tx ty
        = waterHeightAt cfg st.store tx ty

/-! ## A nested action that sets the water height -/

/-- Modelled from the spec: the method `SurfaceElement::SetWaterHeight`, whose
body is not among the sources at hand: the low five bits of payload byte 5 are
replaced by the new water height. -/
def TileElement.SetWaterHeight (e : TileElement) (newWaterHeight : Nat) : TileElement :=
  { type := e.type, flags := e.flags, base_height := e.base_height,
    clearance_height := e.clearance_height, pad_04_0 := e.pad_04_0,
    pad_04_1 := toU8 ((e.pad_04_1.val &&& 0xE0) ||| (newWaterHeight &&& 0x1F)),
    pad_04_2 := e.pad_04_2, pad_04_3 := e.pad_04_3 }

/-- The game state `st` with element `i` of `gTileElements` replaced by `e`. -/
def GameState.setElement (st : GameState) (i : Nat) (e : TileElement) : GameState :=
  { store :=
      { gTileElements := Function.update st.store.gTileElements i e
        gTileElementTilePointers := st.store.gTileElementTilePointers
        gNextFreeTileElement := st.store.gNextFreeTileElement
        gGameCommandErrorText := st.store.gGameCommandErrorText
        reorganiseCalls := st.store.reorganiseCalls }
    gMapSizeMaxXY := st.gMapSizeMaxXY
    _currentTrackSelectionFlags := st._currentTrackSelectionFlags
    audio := st.audio }

/-- Modelled from the spec: a nested `WaterSetHeightAction` on the map of
`waterConfig` (the action is not among the sources at hand).  At a position
that is not `blocked`, on a tile with a surface element, it costs 10 and, when
executed, sets the water height of the surface to `height / 2`.  At a blocked
position it fails with error `OTHER 5`, message 77 and cost 0, and on a tile
without a surface element with error `OTHER 1`.  A failing action and a query
leave the state alone. -/
def waterSetHeightActions (blocked : Int × Int → Bool) : NestedActions :=
  { ExecuteNested := fun a st =>
      if blocked (a.x, a.y) then (MakeErrorResult sampleConstants (GA_ERROR.OTHER 5) 77, st)
      else
        match map_get_surface_element_at_coords waterConfig st.store a.x a.y with
        | some (some e) =>
          (GameActionResult.addCost (MakeResult sampleConstants) 10,
            st.setElement e ((st.store.gTileElements e).SetWaterHeight (a.height / 2)))
        | _ => (MakeErrorResult sampleConstants (GA_ERROR.OTHER 1) 78, st)
    QueryNested := fun a st =>
      if blocked (a.x, a.y) then (MakeErrorResult sampleConstants (GA_ERROR.OTHER 5) 77, st)
      else
        match map_get_surface_element_at_coords waterConfig st.store a.x a.y with
        | some (some _) => (GameActionResult.addCost (MakeResult sampleConstants) 10, st)
        | _ => (MakeErrorResult sampleConstants (GA_ERROR.OTHER 1) 78, st) }

/-- The nested actions without a blocked position. -/
def lowerWaterActions : NestedActions := waterSetHeightActions (fun _ => false)

/-- The nested actions that are blocked at the positions with `x = 64`. -/
def obstructedWaterActions : NestedActions := waterSetHeightActions (fun xy => decide (xy.1 = 64))

/-- The states that `waterSetHeightActions` reaches from `waterState`: the pointer
table and the types of the elements are those of `waterStore`. -/
def waterInvariant (st : GameState) : Prop :=
  (∀ t, st.store.gTileElementTilePointers t = waterStore.gTileElementTilePointers t) ∧
  ∀ i, (st.store.gTileElements i).type = (waterStore.gTileElements i).type

/-! ## The action `StaffSetCostumeAction` -/

/-- Modelled from the spec: the fields of `Peep` (`Peep.h`, not among the
sources at hand) that `StaffSetCostumeAction` reads and writes. -/
structure Peep where
  type : Nat
  staff_type : Nat
  sprite_type : Nat
  peep_flags : Nat
  action_frame : Nat
  x : Int
  y : Int
  z : Int
deriving DecidableEq, Repr

/-- The table `peep_slow_walking_types` (rct2: 0x00982134). -/
def peep_slow_walking_types : List Bool :=
  [ false, -- PEEP_SPRITE_TYPE_NORMAL
    false, -- PEEP_SPRITE_TYPE_HANDYMAN
    false, -- PEEP_SPRITE_TYPE_MECHANIC
    false, -- PEEP_SPRITE_TYPE_SECURITY
    false, -- PEEP_SPRITE_TYPE_ENTERTAINER_PANDA
    false, -- PEEP_SPRITE_TYPE_ENTERTAINER_TIGER
    false, -- PEEP_SPRITE_TYPE_ENTERTAINER_ELEPHANT
    false, -- PEEP_SPRITE_TYPE_ENTERTAINER_ROMAN
    false, -- PEEP_SPRITE_TYPE_ENTERTAINER_GORILLA
    false, -- PEEP_SPRITE_TYPE_ENTERTAINER_SNOWMAN
    false, -- PEEP_SPRITE_TYPE_ENTERTAINER_KNIGHT
    true,  -- PEEP_SPRITE_TYPE_ENTERTAINER_ASTRONAUT
    false, -- PEEP_SPRITE_TYPE_ENTERTAINER_BANDIT
    false, -- PEEP_SPRITE_TYPE_ENTERTAINER_SHERIFF
    true,  -- PEEP_SPRITE_TYPE_ENTERTAINER_PIRATE
    true ] -- PEEP_SPRITE_TYPE_BALLOON

/-- The sprite list as `StaffSetCostumeAction` sees it: `GET_PEEP(i)` is
`sprites i`, defined for `i < MAX_SPRITES`. -/
abbrev SpriteList := Nat → Peep

/-- The conversion `static_cast<PeepSpriteType>(_costume + 4)` of a `uint8_t`
costume; `PeepSpriteType` is an enumeration over `uint8_t`. -/
def spriteTypeOfCostume (costume : Nat) : Nat := (costume + 4) % 256

/-- The method `StaffSetCostumeAction::Query` for the members `_spriteIndex`
(a `uint16_t`) and `_costume` (a `uint8_t`). -/
def StaffSetCostumeAction.Query (k : ActionConstants) (sprites : SpriteList)
    (spriteIndex costume : Nat) : GameActionResult :=
  if spriteIndex ≥ k.MAX_SPRITES then
    MakeErrorResult k GA_ERROR.INVALID_PARAMETERS k.STR_NONE
  else
    let peep := sprites spriteIndex
    if peep.type ≠ k.PEEP_TYPE_STAFF ∨ peep.staff_type ≠ k.STAFF_TYPE_ENTERTAINER then
      MakeErrorResult k GA_ERROR.INVALID_PARAMETERS k.STR_NONE
    else
      let spriteType := spriteTypeOfCostume costume
      if spriteType > peep_slow_walking_types.length then
        MakeErrorResult k GA_ERROR.INVALID_PARAMETERS k.STR_NONE
      else MakeResult k

/-- The method `StaffSetCostumeAction::Execute`: the result and the sprite list
it leaves; `none` is a read or write outside the sprite list or outside the
table `peep_slow_walking_types`.  `UpdateCurrentActionSpriteType` stands for
the method of that name, which is not among the sources at hand; the calls
that only redraw (`Invalidate`, `window_invalidate_by_number`,
`context_broadcast_intent`) leave the sprite list alone. -/
def StaffSetCostumeAction.Execute (k : ActionConstants)
    (UpdateCurrentActionSpriteType : Peep → Peep) (sprites : SpriteList)
    (spriteIndex costume : Nat) : Option (GameActionResult × SpriteList) :=
  if spriteIndex < k.MAX_SPRITES then
    let peep := sprites spriteIndex
    let spriteType := spriteTypeOfCostume costume
    match peep_slow_walking_types[spriteType]? with
    | none => none
    | some slow =>
      let peep_flags := peep.peep_flags &&& (0xFFFFFFFF - k.PEEP_FLAGS_SLOW_WALK)
      let peep_flags := if slow then peep_flags ||| k.PEEP_FLAGS_SLOW_WALK else peep_flags
      let peep : Peep :=
        UpdateCurrentActionSpriteType
          { type := peep.type, staff_type := peep.staff_type, sprite_type := spriteType,
            peep_flags := peep_flags, action_frame := 0, x := peep.x, y := peep.y, z := peep.z }
      some ((MakeResult k).setPosition (peep.x, peep.y, peep.z),
        Function.update sprites spriteIndex peep)
  else none

/-- A sprite list whose sprite 0 is a handyman (staff, not an entertainer)
walking slowly, and whose sprite 1 is an entertainer. -/
def sampleSprites : SpriteList := fun i =>
  if i = 0 then
    { type := 1, staff_type := 0, sprite_type := 1, peep_flags := 2, action_frame := 5,
      x := 100, y := 200, z := 16 }
  else
    { type := 1, staff_type := 3, sprite_type := 4, peep_flags := 0, action_frame := 0,
      x := 0, y := 0, z := 0 }

/-! ## Surfaces with a chosen slope -/

/-- The store `sampleStore` with the surface of tile (0, 0) given the base
height `base` and the slope byte `slope`. -/
def slopedStore (base slope : uint8_t) : Store :=
  { sampleStore with
    gTileElements := fun i =>
      if i = 0 then sampleElement 0x80 base slope else sampleStore.gTileElements i }

/-- The quantity `quad` of the corner-down slopes in the words of the
specification: `xl - yl` (W down), `xl + yl - 32` (S down), `yl - xl` (E down),
`30 - xl - yl` (N down). -/
def spec_corner_down_quad (slope : Nat) (xl yl : Int) : Int :=
  if slope = TILE_ELEMENT_SLOPE_W_CORNER_DN then xl - yl
  else if slope = TILE_ELEMENT_SLOPE_S_CORNER_DN then xl + yl - 32
  else if slope = TILE_ELEMENT_SLOPE_E_CORNER_DN then yl - xl
  else 30 - xl - yl

/-- The quantity `quad_extra` of the corner-down slopes in the words of the
specification: `xl + 31 - yl` (W), `xl + yl` (S), `31 - xl + yl` (E),
`62 - xl - yl` (N). -/
def spec_corner_down_quad_extra (slope : Nat) (xl yl : Int) : Int :=
  if slope = TILE_ELEMENT_SLOPE_W_CORNER_DN then xl + 31 - yl
  else if slope = TILE_ELEMENT_SLOPE_S_CORNER_DN then xl + yl
  else if slope = TILE_ELEMENT_SLOPE_E_CORNER_DN then 31 - xl + yl
  else 62 - xl - yl

/-- The height on a corner-down slope in the words of the specification, for
the base height `base`, the slope without its double-height flag, and the
flag. -/
def spec_corner_down_height (base : Int) (slope : Nat) (double : Bool) (xl yl : Int) : Int :=
  if double then base * 8 + spec_corner_down_quad_extra slope xl yl / 2 + 1
  else base * 8 + 16
    + (if spec_corner_down_quad slope xl yl < 0 then
        Int.tdiv (spec_corner_down_quad slope xl yl) 2 else 0)

/-- The offset of the lowered corner of a corner-down slope: W at (0, 31), S at
(0, 0), E at (31, 0), N at (31, 31). -/
def loweredCornerOffset (slope : Nat) : Nat × Nat :=
  if slope = TILE_ELEMENT_SLOPE_W_CORNER_DN then (0, 31)
  else if slope = TILE_ELEMENT_SLOPE_S_CORNER_DN then (0, 0)
  else if slope = TILE_ELEMENT_SLOPE_E_CORNER_DN then (31, 0)
  else (31, 31)

/-- The offset of the corner opposite the lowered one. -/
def oppositeCornerOffset (slope : Nat) : Nat × Nat :=
  (31 - (loweredCornerOffset slope).1, 31 - (loweredCornerOffset slope).2)

/-! ## Projection to the screen -/

/-- The function `coordinate_3d_to_2d` for the fields `x`, `y`, `z` of the
`LocationXYZ16` argument: the fields `x` and `y` of the `LocationXY16` returned.
The sums are computed in `int`, `>> 1` is the arithmetic shift, and the results
are stored as `int16_t`. -/
def coordinate_3d_to_2d (x y z : Int) (rotation : Int) : Int × Int :=
  if rotation = 1 then
    (toInt16 (-y - x), toInt16 (((y - x) >>> 1) - z))
  else if rotation = 2 then
    (toInt16 (-y + x), toInt16 (((-y - x) >>> 1) - z))
  else if rotation = 3 then
    (toInt16 (y + x), toInt16 (((-y + x) >>> 1) - z))
  else
    (toInt16 (y - x), toInt16 (((y + x) >>> 1) - z))

/-! ## Wall elements -/

/-- Modelled from the spec: `TILE_ELEMENT_QUADRANT_MASK` of `TileElement.h`, which
is not among the sources at hand: bits 6 and 7 of `type` (the getter shifts the
masked value right by 6). -/
def TILE_ELEMENT_QUADRANT_MASK : Nat := 0xC0

/-- Modelled from the spec: `TILE_ELEMENT_COLOUR_MASK` of `TileElement.h`: the
low five bits (`colour_1; // 6 0b_2221_1111` in `RCT12.h`). -/
def TILE_ELEMENT_COLOUR_MASK : Nat := 0x1F

/-- Modelled from the spec: `WALL_ANIMATION_FLAG_ACROSS_TRACK` of `Wall.h`: bit 2
of `animation` (`animation; // 7 0b_dfff_ft00` in `RCT12.h`). -/
def WALL_ANIMATION_FLAG_ACROSS_TRACK : Nat := 1 <<< 2

/-- Modelled from the spec: `WALL_ANIMATION_FLAG_DIRECTION_BACKWARD` of `Wall.h`:
bit 7 of `animation`. -/
def WALL_ANIMATION_FLAG_DIRECTION_BACKWARD : Nat := 1 <<< 7

/-- Modelled from the spec: `WALL_ANIMATION_FLAG_ALL_FLAGS` of `Wall.h`: the two
flags of `animation` together. -/
def WALL_ANIMATION_FLAG_ALL_FLAGS : Nat :=
  WALL_ANIMATION_FLAG_ACROSS_TRACK ||| WALL_ANIMATION_FLAG_DIRECTION_BACKWARD

/-- The complement `~m` of an `int` constant as a 32-bit pattern. -/
def bitNot32 (m : Nat) : Nat := 0xFFFFFFFF - m

/-- Modelled from the spec: the field `entryIndex` of `WallElement`
(`TileElement.h`), laid out as in `RCT12WallElement`: payload byte 4. -/
def TileElement.entryIndex (e : TileElement) : uint8_t := e.pad_04_0

/-- Modelled from the spec: the field `colour_3` of `WallElement`: payload
byte 5. -/
def TileElement.colour_3 (e : TileElement) : uint8_t := e.pad_04_1

/-- Modelled from the spec: the field `colour_1` of `WallElement`: payload
byte 6. -/
def TileElement.colour_1 (e : TileElement) : uint8_t := e.pad_04_2

/-- Modelled from the spec: the field `animation` of `WallElement`: payload
byte 7. -/
def TileElement.animation (e : TileElement) : uint8_t := e.pad_04_3

/-- The method `WallElement::SetSlope`. -/
def WallElement.SetSlope (e : TileElement) (newSlope : uint8_t) : TileElement :=
  let type := e.type.val &&& bitNot32 TILE_ELEMENT_QUADRANT_MASK
  { e with type := toU8 (type ||| (newSlope.val <<< 6)) }

/-- The method `WallElement::SetPrimaryColour` (the caller keeps
`newColour <= 31`, which the method asserts). -/
def WallElement.SetPrimaryColour (e : TileElement) (newColour : uint8_t) : TileElement :=
  let colour_1 := e.colour_1.val &&& bitNot32 TILE_ELEMENT_COLOUR_MASK
  { e with pad_04_2 := toU8 (colour_1 ||| newColour.val) }

/-- The method `WallElement::SetSecondaryColour`. -/
def WallElement.SetSecondaryColour (e : TileElement) (newColour : uint8_t) : TileElement :=
  let colour_1 := e.colour_1.val &&& TILE_ELEMENT_COLOUR_MASK
  let colour_1 := toU8 (colour_1 ||| ((newColour.val &&& 0x7) <<< 5))
  let flags := e.flags.val &&& bitNot32 0x60
  let flags := toU8 (flags ||| ((newColour.val &&& 0x18) <<< 2))
  { e with pad_04_2 := colour_1, flags := flags }

/-- The method `WallElement::SetTertiaryColour` (the caller keeps
`newColour <= 31`, which the method asserts). -/
def WallElement.SetTertiaryColour (e : TileElement) (newColour : uint8_t) : TileElement :=
  let colour_3 := e.colour_3.val &&& bitNot32 TILE_ELEMENT_COLOUR_MASK
  { e with pad_04_1 := toU8 (colour_3 ||| newColour.val) }

/-- The method `WallElement::SetAnimationFrame`. -/
def WallElement.SetAnimationFrame (e : TileElement) (frameNum : uint8_t) : TileElement :=
  let animation := e.animation.val &&& WALL_ANIMATION_FLAG_ALL_FLAGS
  { e with pad_04_3 := toU8 (animation ||| ((frameNum.val &&& 0xF) <<< 3)) }

/-- The method `WallElement::SetEntryIndex`. -/
def WallElement.SetEntryIndex (e : TileElement) (newIndex : uint8_t) : TileElement :=
  { e with pad_04_0 := newIndex }

/-- The method `WallElement::SetAcrossTrack`. -/
def WallElement.SetAcrossTrack (e : TileElement) (acrossTrack : Bool) : TileElement :=
  let animation := e.animation.val &&& bitNot32 WALL_ANIMATION_FLAG_ACROSS_TRACK
  let animation := if acrossTrack then animation ||| WALL_ANIMATION_FLAG_ACROSS_TRACK
    else animation
  { e with pad_04_3 := toU8 animation }

/-- The method `WallElement::SetAnimationIsBackwards`. -/
def WallElement.SetAnimationIsBackwards (e : TileElement) (isBackwards : Bool) : TileElement :=
  let animation := e.animation.val &&& bitNot32 WALL_ANIMATION_FLAG_DIRECTION_BACKWARD
  let animation := if isBackwards then animation ||| WALL_ANIMATION_FLAG_DIRECTION_BACKWARD
    else animation
  { e with pad_04_3 := toU8 animation }

/-- A call of one of the mutators of `WallElement` with its argument. -/
inductive WallMutator where
  | SetSlope (newSlope : uint8_t)
  | SetPrimaryColour (newColour : uint8_t)
  | SetSecondaryColour (newColour : uint8_t)
  | SetTertiaryColour (newColour : uint8_t)
  | SetAnimationFrame (frameNum : uint8_t)
  | SetEntryIndex (newIndex : uint8_t)
  | SetAcrossTrack (acrossTrack : Bool)
  | SetAnimationIsBackwards (isBackwards : Bool)
deriving DecidableEq, Repr

/-- The element after the call `m` on the element `e`. -/
def WallMutator.call (m : WallMutator) (e : TileElement) : TileElement :=
  match m with
  | .SetSlope v => WallElement.SetSlope e v
  | .SetPrimaryColour v => WallElement.SetPrimaryColour e v
  | .SetSecondaryColour v => WallElement.SetSecondaryColour e v
  | .SetTertiaryColour v => WallElement.SetTertiaryColour e v
  | .SetAnimationFrame v => WallElement.SetAnimationFrame e v
  | .SetEntryIndex v => WallElement.SetEntryIndex e v
  | .SetAcrossTrack v => WallElement.SetAcrossTrack e v
  | .SetAnimationIsBackwards v => WallElement.SetAnimationIsBackwards e v

/-- The calls that keep the precondition `newColour <= 31` of
`SetPrimaryColour` and `SetTertiaryColour`. -/
def WallMutator.Allowed (m : WallMutator) : Prop :=
  match m with
  | .SetPrimaryColour v => v.val ≤ 31
  | .SetTertiaryColour v => v.val ≤ 31
  | _ => True

instance (m : WallMutator) : Decidable m.Allowed := by
  unfold WallMutator.Allowed; split <;> infer_instance

/-- The bits of the sub-field that a mutator is for, as an element whose bytes
are masks: the slope is bits 6 and 7 of `type`, the primary colour bits 0 to 4
of `colour_1`, the secondary colour bits 5 to 7 of `colour_1` and bits 5 and 6
of `flags`, the tertiary colour bits 0 to 4 of `colour_3`, the animation frame
bits 3 to 6 of `animation`, the across-track flag its bit 2, the direction flag
its bit 7, and the entry index the whole of `entryIndex`. -/
def WallMutator.ownBits (m : WallMutator) : TileElement :=
  match m with
  | .SetSlope _ => { zeroElement with type := 0xC0 }
  | .SetPrimaryColour _ => { zeroElement with pad_04_2 := 0x1F }
  | .SetSecondaryColour _ => { zeroElement with pad_04_2 := 0xE0, flags := 0x60 }
  | .SetTertiaryColour _ => { zeroElement with pad_04_1 := 0x1F }
  | .SetAnimationFrame _ => { zeroElement with pad_04_3 := 0x78 }
  | .SetEntryIndex _ => { zeroElement with pad_04_0 := 0xFF }
  | .SetAcrossTrack _ => { zeroElement with pad_04_3 := 0x04 }
  | .SetAnimationIsBackwards _ => { zeroElement with pad_04_3 := 0x80 }

/-- The bits that a mutator can change: those of its sub-field and, for
`SetAnimationFrame`, bits 0 and 1 of `animation` as well. -/
def WallMutator.touchedBits (m : WallMutator) : TileElement :=
  match m with
  | .SetAnimationFrame _ => { zeroElement with pad_04_3 := 0x7B }
  | _ => m.ownBits

/-- The eight bytes of an element with the bits of `mask` cleared. -/
def TileElement.outside (e mask : TileElement) : List Nat :=
  [e.type.val &&& (255 - mask.type.val), e.flags.val &&& (255 - mask.flags.val),
   e.base_height.val &&& (255 - mask.base_height.val),
   e.clearance_height.val &&& (255 - mask.clearance_height.val),
   e.pad_04_0.val &&& (255 - mask.pad_04_0.val), e.pad_04_1.val &&& (255 - mask.pad_04_1.val),
   e.pad_04_2.val &&& (255 - mask.pad_04_2.val), e.pad_04_3.val &&& (255 - mask.pad_04_3.val)]

/-- The reading "the call changes only the bits of its own sub-field": every
other bit of the eight bytes is the same before and after. -/
def WallMutator.ChangesOnlyOwnBits (m : WallMutator) (e : TileElement) : Prop :=
  (m.call e).outside m.ownBits = e.outside m.ownBits

instance (m : WallMutator) (e : TileElement) : Decidable (m.ChangesOnlyOwnBits e) := by
  unfold WallMutator.ChangesOnlyOwnBits; infer_instance

/-- A wall element with the two low bits of `animation` set. -/
def sampleWall : TileElement :=
  { type := 0x15, flags := 0x20, base_height := 14, clearance_height := 18,
    pad_04_0 := 7, pad_04_1 := 0x25, pad_04_2 := 0x4A, pad_04_3 := 0x93 }


/-! ## Typed views of an `RCT12TileElement` -/

/-- The enumerator `RCT12TileElementType::Surface`. -/
def RCT12TileElementType.Surface : Nat := 0 <<< 2

/-- The enumerator `RCT12TileElementType::Path`. -/
def RCT12TileElementType.Path : Nat := 1 <<< 2

/-- The enumerator `RCT12TileElementType::Track`. -/
def RCT12TileElementType.Track : Nat := 2 <<< 2

/-- The enumerator `RCT12TileElementType::SmallScenery`. -/
def RCT12TileElementType.SmallScenery : Nat := 3 <<< 2

/-- The enumerator `RCT12TileElementType::Entrance`. -/
def RCT12TileElementType.Entrance : Nat := 4 <<< 2

/-- The enumerator `RCT12TileElementType::Wall`. -/
def RCT12TileElementType.Wall : Nat := 5 <<< 2

/-- The enumerator `RCT12TileElementType::LargeScenery`. -/
def RCT12TileElementType.LargeScenery : Nat := 6 <<< 2

/-- The enumerator `RCT12TileElementType::Banner`. -/
def RCT12TileElementType.Banner : Nat := 7 <<< 2

/-- The enumerator `RCT12TileElementType::Corrupt`. -/
def RCT12TileElementType.Corrupt : Nat := 8 <<< 2

/-- The enumerator `RCT12TileElementType::EightCarsCorrupt14`. -/
def RCT12TileElementType.EightCarsCorrupt14 : Nat := 14 <<< 2

/-- The enumerator `RCT12TileElementType::EightCarsCorrupt15`. -/
def RCT12TileElementType.EightCarsCorrupt15 : Nat := 15 <<< 2

/-- The template `RCT12TileElement::as<TType, TClass>` for the element at the
address `this`: `none` is `nullptr`.  The body of
`RCT12TileElementBase::GetType` is not among the sources at hand; `GetType` is
the `uint8_t` that it returns for the elements. -/
def RCT12TileElement.as (GetType : TileElement → uint8_t) (TClass : Nat) (e : TileElement)
    (this : Nat) : Option Nat :=
  if (GetType e).val = TClass then some this else none

/-- The method `RCT12TileElement::AsSurface`. -/
def RCT12TileElement.AsSurface (GetType : TileElement → uint8_t) (e : TileElement)
    (this : Nat) : Option Nat :=
  RCT12TileElement.as GetType RCT12TileElementType.Surface e this

/-- The method `RCT12TileElement::AsPath`. -/
def RCT12TileElement.AsPath (GetType : TileElement → uint8_t) (e : TileElement)
    (this : Nat) : Option Nat :=
  RCT12TileElement.as GetType RCT12TileElementType.Path e this

/-- The method `RCT12TileElement::AsTrack`. -/
def RCT12TileElement.AsTrack (GetType : TileElement → uint8_t) (e : TileElement)
    (this : Nat) : Option Nat :=
  RCT12TileElement.as GetType RCT12TileElementType.Track e this

/-- The method `RCT12TileElement::AsSmallScenery`. -/
def RCT12TileElement.AsSmallScenery (GetType : TileElement → uint8_t) (e : TileElement)
    (this : Nat) : Option Nat :=
  RCT12TileElement.as GetType RCT12TileElementType.SmallScenery e this

/-- The method `RCT12TileElement::AsLargeScenery`. -/
def RCT12TileElement.AsLargeScenery (GetType : TileElement → uint8_t) (e : TileElement)
    (this : Nat) : Option Nat :=
  RCT12TileElement.as GetType RCT12TileElementType.LargeScenery e this

/-- The method `RCT12TileElement::AsWall`. -/
def RCT12TileElement.AsWall (GetType : TileElement → uint8_t) (e : TileElement)
    (this : Nat) : Option Nat :=
  RCT12TileElement.as GetType RCT12TileElementType.Wall e this

/-- The method `RCT12TileElement::AsEntrance`. -/
def RCT12TileElement.AsEntrance (GetType : TileElement → uint8_t) (e : TileElement)
    (this : Nat) : Option Nat :=
  RCT12TileElement.as GetType RCT12TileElementType.Entrance e this

/-- The method `RCT12TileElement::AsBanner`. -/
def RCT12TileElement.AsBanner (GetType : TileElement → uint8_t) (e : TileElement)
    (this : Nat) : Option Nat :=
  RCT12TileElement.as GetType RCT12TileElementType.Banner e this

/-- The results of the eight typed views of one element, in the order
Surface, Path, Track, SmallScenery, Entrance, Wall, LargeScenery, Banner. -/
def RCT12TileElement.views (GetType : TileElement → uint8_t) (e : TileElement)
    (this : Nat) : List (Option Nat) :=
  [RCT12TileElement.AsSurface GetType e this, RCT12TileElement.AsPath GetType e this,
   RCT12TileElement.AsTrack GetType e this, RCT12TileElement.AsSmallScenery GetType e this,
   RCT12TileElement.AsEntrance GetType e this, RCT12TileElement.AsWall GetType e this,
   RCT12TileElement.AsLargeScenery GetType e this, RCT12TileElement.AsBanner GetType e this]

/-- The type tags of the eight typed views, in the order of `views`. -/
def RCT12TileElement.viewTags : List Nat :=
  [RCT12TileElementType.Surface, RCT12TileElementType.Path, RCT12TileElementType.Track,
   RCT12TileElementType.SmallScenery, RCT12TileElementType.Entrance,
   RCT12TileElementType.Wall, RCT12TileElementType.LargeScenery, RCT12TileElementType.Banner]

/-! ## Scenery saved with a track design -/

/-- The constant `TRACK_MAX_SAVED_TILE_ELEMENTS`. -/
def TRACK_MAX_SAVED_TILE_ELEMENTS : Nat := 1500

/-- Modelled from the spec: the tag `TILE_ELEMENT_TYPE_PATH` of `TileElement.h`
(`Path = (1 << 2)` in `RCT12TileElementType`). -/
def TILE_ELEMENT_TYPE_PATH : Nat := 1 <<< 2

/-- Modelled from the spec: the tag `TILE_ELEMENT_TYPE_SMALL_SCENERY` of
`TileElement.h` (`SmallScenery = (3 << 2)` in `RCT12TileElementType`). -/
def TILE_ELEMENT_TYPE_SMALL_SCENERY : Nat := 3 <<< 2

/-- Modelled from the spec: the tag `TILE_ELEMENT_TYPE_ENTRANCE` of
`TileElement.h` (`Entrance = (4 << 2)` in `RCT12TileElementType`). -/
def TILE_ELEMENT_TYPE_ENTRANCE : Nat := 4 <<< 2

/-- Modelled from the spec: the tag `TILE_ELEMENT_TYPE_WALL` of `TileElement.h`
(`Wall = (5 << 2)` in `RCT12TileElementType`). -/
def TILE_ELEMENT_TYPE_WALL : Nat := 5 <<< 2

/-- Modelled from the spec: the tag `TILE_ELEMENT_TYPE_LARGE_SCENERY` of
`TileElement.h` (`LargeScenery = (6 << 2)` in `RCT12TileElementType`). -/
def TILE_ELEMENT_TYPE_LARGE_SCENERY : Nat := 6 <<< 2

/-- Modelled from the spec: the mask `TILE_ELEMENT_DIRECTION_MASK` of
`TileElement.h`: the two low bits of `type`. -/
def TILE_ELEMENT_DIRECTION_MASK : Nat := 3

/-- Modelled from the spec: the method `TileElementBase::GetDirection`, whose
body is not among the sources at hand: the two low bits of `type`. -/
def TileElement.GetDirection (e : TileElement) : Nat := e.type.val &&& TILE_ELEMENT_DIRECTION_MASK

/-- Modelled from the spec: `VIEWPORT_INTERACTION_ITEM_SCENERY` of `Viewport.h`. -/
def VIEWPORT_INTERACTION_ITEM_SCENERY : Int := 5

/-- Modelled from the spec: `VIEWPORT_INTERACTION_ITEM_FOOTPATH` of `Viewport.h`. -/
def VIEWPORT_INTERACTION_ITEM_FOOTPATH : Int := 6

/-- Modelled from the spec: `VIEWPORT_INTERACTION_ITEM_WALL` of `Viewport.h`. -/
def VIEWPORT_INTERACTION_ITEM_WALL : Int := 9

/-- Modelled from the spec: `VIEWPORT_INTERACTION_ITEM_LARGE_SCENERY` of
`Viewport.h`. -/
def VIEWPORT_INTERACTION_ITEM_LARGE_SCENERY : Int := 10

/-- Modelled from the spec: `OBJECT_TYPE_SMALL_SCENERY` of `Object.h`. -/
def OBJECT_TYPE_SMALL_SCENERY : Nat := 1

/-- Modelled from the spec: `OBJECT_TYPE_WALLS` of `Object.h`. -/
def OBJECT_TYPE_WALLS : Nat := 3

/-- Modelled from the spec: `OBJECT_TYPE_PATHS` of `Object.h`. -/
def OBJECT_TYPE_PATHS : Nat := 5

/-- Modelled from the spec: the record `rct_object_entry` of `Object.h`, which is
not among the sources at hand; here the number that identifies an object. -/
abbrev rct_object_entry := Nat

/-- Modelled from the spec: the record `rct_td6_scenery_element` of
`TrackDesign.h`, which is not among the sources at hand.  The fields `x`, `y`
and `z` are `int8_t`: `track_design_save_copy_scenery_to_td6` reads them as
`(uint8_t)scenery->x`, stores `(int8_t)x`, and lets the stored `z` go down to
-126. -/
structure rct_td6_scenery_element where
  scenery_object : rct_object_entry
  x : Int
  y : Int
  z : Int
  flags : uint8_t
  primary_colour : uint8_t
  secondary_colour : uint8_t
deriving DecidableEq, Repr

/-- The method `WallElement::GetEntryIndex`. -/
def WallElement.GetEntryIndex (e : TileElement) : Nat := e.entryIndex.val

/-- The method `WallElement::GetPrimaryColour`. -/
def WallElement.GetPrimaryColour (e : TileElement) : Nat :=
  e.colour_1.val &&& TILE_ELEMENT_COLOUR_MASK

/-- The method `WallElement::GetSecondaryColour`. -/
def WallElement.GetSecondaryColour (e : TileElement) : Nat :=
  let secondaryColour := toU8 ((e.colour_1.val &&& bitNot32 TILE_ELEMENT_COLOUR_MASK) >>> 5)
  (toU8 (secondaryColour.val ||| ((e.flags.val &&& 0x60) >>> 2))).val

/-- The method `WallElement::GetTertiaryColour`. -/
def WallElement.GetTertiaryColour (e : TileElement) : Nat :=
  e.colour_3.val &&& TILE_ELEMENT_COLOUR_MASK

/-- The statics `_trackSavedTileElementsCount`, `_trackSavedTileElements`,
`_trackSavedTileElementsDescCount` and `_trackSavedTileElementsDesc`.  A saved
element is a pointer into `gTileElements`, here the index; `none` is
`nullptr`. -/
structure TrackDesignSave where
  _trackSavedTileElementsCount : Nat
  _trackSavedTileElements : Nat → Option Nat
  _trackSavedTileElementsDescCount : Nat
  _trackSavedTileElementsDesc : Nat → rct_td6_scenery_element

/-- The functions that `TrackDesignSave.cpp` calls on objects and on tile
elements and whose bodies are not among the sources at hand: they are
parameters.  `large_scenery_tile_count` is the number of tiles that
`tile_element_get_total_element_count` counts in the entry of a large scenery
element; `add_large_scenery` and `remove_large_scenery` are the functions
`track_design_save_add_large_scenery` and `track_design_save_remove_large_scenery`,
which walk the tiles of a large scenery object through functions that are not
at hand either. -/
structure SceneryFunctions where
  object_entry_get_entry : Nat → Nat → rct_object_entry
  object_entry_compare : rct_object_entry → rct_object_entry → Bool
  object_entry_get_type : rct_object_entry → Nat
  SmallScenery_GetEntryIndex : TileElement → uint8_t
  SmallScenery_GetSceneryQuadrant : TileElement → uint8_t
  SmallScenery_GetPrimaryColour : TileElement → uint8_t
  SmallScenery_GetSecondaryColour : TileElement → uint8_t
  Path_GetPathEntryIndex : TileElement → uint8_t
  Path_GetEdges : TileElement → uint8_t
  Path_GetSlopeDirection : TileElement → uint8_t
  Path_IsSloped : TileElement → Bool
  Path_IsQueue : TileElement → Bool
  large_scenery_tile_count : TileElement → Nat
  add_large_scenery : TrackDesignSave → Int → Int → Nat → Option TrackDesignSave
  remove_large_scenery : TrackDesignSave → Int → Int → Nat → Option TrackDesignSave

/-- The saved elements `_trackSavedTileElements[0 .. count - 1]`. -/
def TrackDesignSave.savedElements (st : TrackDesignSave) : List (Option Nat) :=
  (List.range st._trackSavedTileElementsCount).map st._trackSavedTileElements

/-- The saved descriptions `_trackSavedTileElementsDesc[0 .. descCount - 1]`. -/
def TrackDesignSave.savedDescs (st : TrackDesignSave) : List rct_td6_scenery_element :=
  (List.range st._trackSavedTileElementsDescCount).map st._trackSavedTileElementsDesc

/-- The function `track_design_save_init`. -/
def track_design_save_init : TrackDesignSave :=
  { _trackSavedTileElementsCount := 0
    _trackSavedTileElements := fun _ => none
    _trackSavedTileElementsDescCount := 0
    _trackSavedTileElementsDesc := fun _ => ⟨0, 0, 0, 0, 0, 0, 0⟩ }

/-- The function `track_design_save_contains_tile_element`. -/
def track_design_save_contains_tile_element (st : TrackDesignSave) (tileElement : Nat) : Bool :=
  (List.range st._trackSavedTileElementsCount).any
    (fun i => st._trackSavedTileElements i == some tileElement)

/-- The function `tile_element_get_total_element_count`. -/
def tile_element_get_total_element_count (fn : SceneryFunctions) (e : TileElement) : Nat :=
  if e.GetType = TILE_ELEMENT_TYPE_PATH ∨ e.GetType = TILE_ELEMENT_TYPE_SMALL_SCENERY
      ∨ e.GetType = TILE_ELEMENT_TYPE_WALL then 1
  else if e.GetType = TILE_ELEMENT_TYPE_LARGE_SCENERY then fn.large_scenery_tile_count e
  else 0

/-- The function `track_design_save_can_add_tile_element`; the subtraction is
one of `size_t` values. -/
def track_design_save_can_add_tile_element (fn : SceneryFunctions) (st : TrackDesignSave)
    (e : TileElement) : Bool :=
  let newElementCount := tile_element_get_total_element_count fn e
  if newElementCount = 0 then false
  else
    -- Get number of spare elements left
    let spareSavedElements :=
      (TRACK_MAX_SAVED_TILE_ELEMENTS + 2 ^ 64 - st._trackSavedTileElementsCount % 2 ^ 64) % 2 ^ 64
    if newElementCount > spareSavedElements then false else true

/-- The function `track_design_save_push_tile_element`. -/
def track_design_save_push_tile_element (st : TrackDesignSave) (tileElement : Nat) :
    TrackDesignSave :=
  if st._trackSavedTileElementsCount < TRACK_MAX_SAVED_TILE_ELEMENTS then
    { st with
      _trackSavedTileElements :=
        Function.update st._trackSavedTileElements st._trackSavedTileElementsCount
          (some tileElement)
      _trackSavedTileElementsCount := st._trackSavedTileElementsCount + 1 }
  else st

/-- The function `track_design_save_push_tile_element_desc`; `none` is a write
behind the end of `_trackSavedTileElementsDesc`. -/
def track_design_save_push_tile_element_desc (st : TrackDesignSave) (entry : rct_object_entry)
    (x y z : Int) (flags primaryColour secondaryColour : uint8_t) : Option TrackDesignSave :=
  if st._trackSavedTileElementsDescCount < TRACK_MAX_SAVED_TILE_ELEMENTS then
    some { st with
      _trackSavedTileElementsDesc :=
        Function.update st._trackSavedTileElementsDesc st._trackSavedTileElementsDescCount
          { scenery_object := entry
            x := toInt8 (Int.tdiv x 32)
            y := toInt8 (Int.tdiv y 32)
            z := toInt8 z
            flags := flags
            primary_colour := primaryColour
            secondary_colour := secondaryColour }
      _trackSavedTileElementsDescCount := st._trackSavedTileElementsDescCount + 1 }
  else none

/-- The flags that `track_design_save_add_scenery` and
`track_design_save_remove_scenery` compute for a small scenery element. -/
def sceneryFlags (fn : SceneryFunctions) (e : TileElement) : uint8_t :=
  let flags := toU8 (0 ||| e.GetDirection)
  toU8 (flags.val ||| ((fn.SmallScenery_GetSceneryQuadrant e).val <<< 2))

/-- The flags that `track_design_save_add_wall` and
`track_design_save_remove_wall` compute for a wall. -/
def wallFlags (e : TileElement) : uint8_t :=
  let flags := toU8 (0 ||| e.GetDirection)
  toU8 (flags.val ||| (WallElement.GetTertiaryColour e <<< 2))

/-- The flags that `track_design_save_add_footpath` computes for a path. -/
def footpathFlags (fn : SceneryFunctions) (e : TileElement) : uint8_t :=
  let flags := toU8 (0 ||| (fn.Path_GetEdges e).val)
  let flags := toU8 (flags.val ||| ((fn.Path_GetSlopeDirection e).val <<< 5))
  let flags := if fn.Path_IsSloped e then toU8 (flags.val ||| 0b00010000) else flags
  if fn.Path_IsQueue e then toU8 (flags.val ||| (1 <<< 7)) else flags

/-- The flags that `track_design_save_remove_footpath` computes for a path
(the slope bit is set before the slope direction). -/
def footpathFlagsRemove (fn : SceneryFunctions) (e : TileElement) : uint8_t :=
  let flags := toU8 (0 ||| (fn.Path_GetEdges e).val)
  let flags := if fn.Path_IsSloped e then toU8 (flags.val ||| (1 <<< 4)) else flags
  let flags := toU8 (flags.val ||| ((fn.Path_GetSlopeDirection e).val <<< 5))
  if fn.Path_IsQueue e then toU8 (flags.val ||| (1 <<< 7)) else flags

/-- The function `track_design_save_add_scenery`; `none` is a call through the
null pointer that `AsSmallScenery()` returns for an element of another type,
or a write behind the end of the descriptions. -/
def track_design_save_add_scenery (fn : SceneryFunctions) (mem : Nat → TileElement)
    (st : TrackDesignSave) (x y : Int) (tileElement : Nat) : Option TrackDesignSave :=
  let e := mem tileElement
  if e.GetType = TILE_ELEMENT_TYPE_SMALL_SCENERY then
    let entryType := (fn.SmallScenery_GetEntryIndex e).val
    let entry := fn.object_entry_get_entry OBJECT_TYPE_SMALL_SCENERY entryType
    let flags := sceneryFlags fn e
    let primaryColour := fn.SmallScenery_GetPrimaryColour e
    let secondaryColour := fn.SmallScenery_GetSecondaryColour e
    track_design_save_push_tile_element_desc (track_design_save_push_tile_element st tileElement)
      entry x y e.base_height.val flags primaryColour secondaryColour
  else none

/-- The function `track_design_save_add_wall`; `none` as for
`track_design_save_add_scenery`. -/
def track_design_save_add_wall (fn : SceneryFunctions) (mem : Nat → TileElement)
    (st : TrackDesignSave) (x y : Int) (tileElement : Nat) : Option TrackDesignSave :=
  let e := mem tileElement
  if e.GetType = TILE_ELEMENT_TYPE_WALL then
    let entryType := WallElement.GetEntryIndex e
    let entry := fn.object_entry_get_entry OBJECT_TYPE_WALLS entryType
    let flags := wallFlags e
    let secondaryColour := toU8 (WallElement.GetSecondaryColour e)
    let primaryColour := toU8 (WallElement.GetPrimaryColour e)
    track_design_save_push_tile_element_desc (track_design_save_push_tile_element st tileElement)
      entry x y e.base_height.val flags primaryColour secondaryColour
  else none

/-- The function `track_design_save_add_footpath`; `none` as for
`track_design_save_add_scenery`. -/
def track_design_save_add_footpath (fn : SceneryFunctions) (mem : Nat → TileElement)
    (st : TrackDesignSave) (x y : Int) (tileElement : Nat) : Option TrackDesignSave :=
  let e := mem tileElement
  if e.GetType = TILE_ELEMENT_TYPE_PATH then
    let entryType := (fn.Path_GetPathEntryIndex e).val
    let entry := fn.object_entry_get_entry OBJECT_TYPE_PATHS entryType
    let flags := footpathFlags fn e
    track_design_save_push_tile_element_desc (track_design_save_push_tile_element st tileElement)
      entry x y e.base_height.val flags 0 0
  else none

/-- The function `track_design_save_add_tile_element`: the statics after the
call and the value returned. -/
def track_design_save_add_tile_element (fn : SceneryFunctions) (mem : Nat → TileElement)
    (st : TrackDesignSave) (interactionType x y : Int) (tileElement : Nat) :
    Option (TrackDesignSave × Bool) :=
  if ¬ track_design_save_can_add_tile_element fn st (mem tileElement) then some (st, false)
  else if interactionType = VIEWPORT_INTERACTION_ITEM_SCENERY then
    (track_design_save_add_scenery fn mem st x y tileElement).map fun st1 => (st1, true)
  else if interactionType = VIEWPORT_INTERACTION_ITEM_LARGE_SCENERY then
    (fn.add_large_scenery st x y tileElement).map fun st1 => (st1, true)
  else if interactionType = VIEWPORT_INTERACTION_ITEM_WALL then
    (track_design_save_add_wall fn mem st x y tileElement).map fun st1 => (st1, true)
  else if interactionType = VIEWPORT_INTERACTION_ITEM_FOOTPATH then
    (track_design_save_add_footpath fn mem st x y tileElement).map fun st1 => (st1, true)
  else some (st, false)

/-- The index that the search loops of `track_design_save_pop_tile_element` and
`track_design_save_pop_tile_element_desc` leave in `removeIndex`: the last
index below `count` at which `hit` holds (`none` is `SIZE_MAX`). -/
def lastIndexWhere (count : Nat) (hit : Nat → Bool) : Option Nat :=
  (List.range count).foldl (fun removeIndex i => if hit i then some i else removeIndex) none

/-- The array after `memmove(&a[removeIndex], &a[removeIndex + 1], ...)` of the
items up to index `count - 1`. -/
def memmoveDown {α : Type} (a : Nat → α) (removeIndex count : Nat) : Nat → α :=
  fun i => if removeIndex ≤ i ∧ i + 1 < count then a (i + 1) else a i

/-- The function `track_design_save_pop_tile_element`. -/
def track_design_save_pop_tile_element (st : TrackDesignSave) (tileElement : Nat) :
    TrackDesignSave :=
  -- Find index of map element to remove
  match lastIndexWhere st._trackSavedTileElementsCount
      (fun i => st._trackSavedTileElements i == some tileElement) with
  | none => st
  | some removeIndex =>
    -- Remove map element from list
    let elements :=
      memmoveDown st._trackSavedTileElements removeIndex st._trackSavedTileElementsCount
    { st with
      _trackSavedTileElementsCount := st._trackSavedTileElementsCount - 1
      _trackSavedTileElements :=
        Function.update elements (st._trackSavedTileElementsCount - 1) none }

/-- The function `track_design_save_pop_tile_element_desc`.  The `int8_t`
fields of an item are compared with the `int` values `x / 32`, `y / 32` and
`z`. -/
def track_design_save_pop_tile_element_desc (fn : SceneryFunctions) (st : TrackDesignSave)
    (entry : rct_object_entry) (x y z : Int) (flags : uint8_t) : TrackDesignSave :=
  match lastIndexWhere st._trackSavedTileElementsDescCount
      (fun i =>
        let item := st._trackSavedTileElementsDesc i
        item.x == Int.tdiv x 32 && item.y == Int.tdiv y 32 && item.z == z
          && item.flags == flags && fn.object_entry_compare item.scenery_object entry) with
  | none => st
  | some removeIndex =>
    { st with
      _trackSavedTileElementsDesc :=
        memmoveDown st._trackSavedTileElementsDesc removeIndex
          st._trackSavedTileElementsDescCount
      _trackSavedTileElementsDescCount := st._trackSavedTileElementsDescCount - 1 }

/-- The function `track_design_save_remove_scenery`; `none` is a call through
the null pointer that `AsSmallScenery()` returns for an element of another
type. -/
def track_design_save_remove_scenery (fn : SceneryFunctions) (mem : Nat → TileElement)
    (st : TrackDesignSave) (x y : Int) (tileElement : Nat) : Option TrackDesignSave :=
  let e := mem tileElement
  if e.GetType = TILE_ELEMENT_TYPE_SMALL_SCENERY then
    let entryType := (fn.SmallScenery_GetEntryIndex e).val
    let entry := fn.object_entry_get_entry OBJECT_TYPE_SMALL_SCENERY entryType
    let flags := sceneryFlags fn e
    some (track_design_save_pop_tile_element_desc fn
      (track_design_save_pop_tile_element st tileElement) entry x y e.base_height.val flags)
  else none

/-- The function `track_design_save_remove_wall`; `none` as for
`track_design_save_remove_scenery`. -/
def track_design_save_remove_wall (fn : SceneryFunctions) (mem : Nat → TileElement)
    (st : TrackDesignSave) (x y : Int) (tileElement : Nat) : Option TrackDesignSave :=
  let e := mem tileElement
  if e.GetType = TILE_ELEMENT_TYPE_WALL then
    let entryType := WallElement.GetEntryIndex e
    let entry := fn.object_entry_get_entry OBJECT_TYPE_WALLS entryType
    let flags := wallFlags e
    some (track_design_save_pop_tile_element_desc fn
      (track_design_save_pop_tile_element st tileElement) entry x y e.base_height.val flags)
  else none

/-- The function `track_design_save_remove_footpath`; `none` as for
`track_design_save_remove_scenery`. -/
def track_design_save_remove_footpath (fn : SceneryFunctions) (mem : Nat → TileElement)
    (st : TrackDesignSave) (x y : Int) (tileElement : Nat) : Option TrackDesignSave :=
  let e := mem tileElement
  if e.GetType = TILE_ELEMENT_TYPE_PATH then
    let entryType := (fn.Path_GetPathEntryIndex e).val
    let entry := fn.object_entry_get_entry OBJECT_TYPE_PATHS entryType
    let flags := footpathFlagsRemove fn e
    some (track_design_save_pop_tile_element_desc fn
      (track_design_save_pop_tile_element st tileElement) entry x y e.base_height.val flags)
  else none

/-- The function `track_design_save_remove_tile_element`. -/
def track_design_save_remove_tile_element (fn : SceneryFunctions) (mem : Nat → TileElement)
    (st : TrackDesignSave) (interactionType x y : Int) (tileElement : Nat) :
    Option TrackDesignSave :=
  if interactionType = VIEWPORT_INTERACTION_ITEM_SCENERY then
    track_design_save_remove_scenery fn mem st x y tileElement
  else if interactionType = VIEWPORT_INTERACTION_ITEM_LARGE_SCENERY then
    fn.remove_large_scenery st x y tileElement
  else if interactionType = VIEWPORT_INTERACTION_ITEM_WALL then
    track_design_save_remove_wall fn mem st x y tileElement
  else if interactionType = VIEWPORT_INTERACTION_ITEM_FOOTPATH then
    track_design_save_remove_footpath fn mem st x y tileElement
  else some st

/-- The function `track_design_save_select_tile_element`: the statics after the
call (the error window that it may open is not part of them). -/
def track_design_save_select_tile_element (fn : SceneryFunctions) (mem : Nat → TileElement)
    (st : TrackDesignSave) (interactionType x y : Int) (tileElement : Nat) (collect : Bool) :
    Option TrackDesignSave :=
  if track_design_save_contains_tile_element st tileElement then
    if ¬ collect then track_design_save_remove_tile_element fn mem st interactionType x y tileElement
    else some st
  else
    if collect then
      (track_design_save_add_tile_element fn mem st interactionType x y tileElement).map
        fun r => r.1
    else some st


/-- The arguments of one call of `track_design_save_add_tile_element` or
`track_design_save_select_tile_element`. -/
structure SceneryCall where
  interactionType : Int
  x : Int
  y : Int
  tileElement : Nat
deriving DecidableEq, Repr

/-- The call is for a small scenery element, a wall or a footpath, with the
interaction type of that kind of element. -/
def SceneryCall.SingleTile (mem : Nat → TileElement) (c : SceneryCall) : Prop :=
  (c.interactionType = VIEWPORT_INTERACTION_ITEM_SCENERY
      ∧ (mem c.tileElement).GetType = TILE_ELEMENT_TYPE_SMALL_SCENERY)
    ∨ (c.interactionType = VIEWPORT_INTERACTION_ITEM_WALL
      ∧ (mem c.tileElement).GetType = TILE_ELEMENT_TYPE_WALL)
    ∨ (c.interactionType = VIEWPORT_INTERACTION_ITEM_FOOTPATH
      ∧ (mem c.tileElement).GetType = TILE_ELEMENT_TYPE_PATH)

instance (mem : Nat → TileElement) (c : SceneryCall) : Decidable (c.SingleTile mem) := by
  unfold SceneryCall.SingleTile; infer_instance

/-- The calls `track_design_save_add_tile_element` for the arguments `calls`,
one after the other: the statics after the last call and the values that the
calls returned. -/
def track_design_save_add_all (fn : SceneryFunctions) (mem : Nat → TileElement) :
    TrackDesignSave → List SceneryCall → Option (TrackDesignSave × List Bool)
  | st, [] => some (st, [])
  | st, c :: cs =>
    (track_design_save_add_tile_element fn mem st c.interactionType c.x c.y c.tileElement).bind
      fun r => (track_design_save_add_all fn mem r.1 cs).map fun q => (q.1, r.2 :: q.2)

/-- Sample functions on objects and elements: an entry is numbered by its type
and index, two entries compare equal when they are the same, and the fields
of small scenery and paths are read from the payload bytes. -/
def sampleSceneryFunctions : SceneryFunctions :=
  { object_entry_get_entry := fun t i => t * 256 + i
    object_entry_compare := fun a b => a == b
    object_entry_get_type := fun a => a / 256
    SmallScenery_GetEntryIndex := fun e => e.pad_04_0
    SmallScenery_GetSceneryQuadrant := fun e => toU8 (e.type.val >>> 6)
    SmallScenery_GetPrimaryColour := fun e => toU8 (e.pad_04_2.val &&& 0x1F)
    SmallScenery_GetSecondaryColour := fun e => toU8 (e.pad_04_3.val &&& 0x1F)
    Path_GetPathEntryIndex := fun e => toU8 (e.pad_04_0.val >>> 4)
    Path_GetEdges := fun e => toU8 (e.pad_04_2.val &&& 0xF)
    Path_GetSlopeDirection := fun e => toU8 (e.pad_04_0.val &&& 3)
    Path_IsSloped := fun e => e.pad_04_0.val &&& 4 != 0
    Path_IsQueue := fun e => e.type.val &&& 1 != 0
    large_scenery_tile_count := fun _ => 1
    add_large_scenery := fun st _ _ _ => some st
    remove_large_scenery := fun st _ _ _ => some st }

/-- Sample elements: a wall at index 0, a small scenery element at index 1, a
path with base height 200 at index 2, and surface elements elsewhere. -/
def sceneryMem : Nat → TileElement := fun i =>
  match i with
  | 0 => { type := 0x15, flags := 0, base_height := 10, clearance_height := 14,
           pad_04_0 := 3, pad_04_1 := 0x02, pad_04_2 := 0x4A, pad_04_3 := 0 }
  | 1 => { type := 0x4E, flags := 0, base_height := 5, clearance_height := 9,
           pad_04_0 := 9, pad_04_1 := 0, pad_04_2 := 7, pad_04_3 := 8 }
  | 2 => { type := 0x04, flags := 0x80, base_height := 200, clearance_height := 204,
           pad_04_0 := 0x10, pad_04_1 := 0, pad_04_2 := 5, pad_04_3 := 0 }
  | _ => sampleElement 0x80 14 0


/-! ## Export of the saved scenery -/

/-- Modelled from the spec: the record `LocationXYZ16` of `Location.hpp`, which
is not among the sources at hand: three `int16_t` coordinates (the type of
`gTrackPreviewOrigin` and of the argument of `coordinate_3d_to_2d`). -/
structure LocationXYZ16 where
  x : Int
  y : Int
  z : Int
deriving DecidableEq, Repr

/-- The `switch` on the object type in the loop of
`track_design_save_copy_scenery_to_td6`: the value of `scenery->flags` after
it.  `none` is the shift `(direction << 4) >> _trackSaveDirection` of an `int`
by 32 bits or more. -/
def td6_rotate_flags (fn : SceneryFunctions) (_trackSaveDirection : uint8_t)
    (scenery : rct_td6_scenery_element) : Option uint8_t :=
  let objectType := fn.object_entry_get_type scenery.scenery_object
  if objectType = OBJECT_TYPE_PATHS then
    let slope := toU8 ((scenery.flags.val &&& 0x60) >>> 5)
    let slope := intToU8 ((slope.val : Int) - (_trackSaveDirection.val : Int))
    let flags := toU8 (scenery.flags.val &&& 0x9F)
    let flags := toU8 (flags.val ||| ((slope.val &&& 3) <<< 5))
    -- Direction of connection on path
    let direction := toU8 (flags.val &&& 0xF)
    -- Rotate the direction by the track direction
    if _trackSaveDirection.val < 32 then
      let direction := toU8 ((direction.val <<< 4) >>> _trackSaveDirection.val)
      let flags := toU8 (flags.val &&& 0xF0)
      some (toU8 (flags.val ||| ((direction.val &&& 0xF) ||| (direction.val >>> 4))))
    else none
  else if objectType = OBJECT_TYPE_WALLS then
    let direction := toU8 (scenery.flags.val &&& 3)
    let direction := intToU8 ((direction.val : Int) - (_trackSaveDirection.val : Int))
    let flags := toU8 (scenery.flags.val &&& 0xFC)
    some (toU8 (flags.val ||| (direction.val &&& 3)))
  else
    let direction := toU8 (scenery.flags.val &&& 3)
    let quadrant := toU8 ((scenery.flags.val &&& 0x0C) >>> 2)
    let direction := intToU8 ((direction.val : Int) - (_trackSaveDirection.val : Int))
    let quadrant := intToU8 ((quadrant.val : Int) - (_trackSaveDirection.val : Int))
    let flags := toU8 (scenery.flags.val &&& 0xF0)
    some (toU8 (flags.val ||| ((direction.val &&& 3) ||| ((quadrant.val &&& 3) <<< 2))))

/-- The rotation `(0 - _trackSaveDirection) & 3` that the export passes to
`rotate_map_coordinates`. -/
def backwardRotation (_trackSaveDirection : uint8_t) : Int :=
  ((toU32 (0 - (_trackSaveDirection.val : Int)) &&& 3 : Nat) : Int)

/-- The values of the `int16_t` variables `x` and `y` of the loop of
`track_design_save_copy_scenery_to_td6` when they are tested. -/
def td6_scenery_xy (gTrackPreviewOrigin : LocationXYZ16) (_trackSaveDirection : uint8_t)
    (scenery : rct_td6_scenery_element) : Int × Int :=
  let x := toInt16 ((scenery.x % 256) * 32 - gTrackPreviewOrigin.x)
  let y := toInt16 ((scenery.y % 256) * 32 - gTrackPreviewOrigin.y)
  let r := rotate_map_coordinates x y (backwardRotation _trackSaveDirection)
  (toInt16 (Int.tdiv r.1 32), toInt16 (Int.tdiv r.2 32))

/-- The value of the `int32_t` variable `z` of the loop of
`track_design_save_copy_scenery_to_td6` when it is tested. -/
def td6_scenery_z (gTrackPreviewOrigin : LocationXYZ16) (scenery : rct_td6_scenery_element) :
    Int :=
  let z := scenery.z * 8 - gTrackPreviewOrigin.z
  Int.tdiv z 8

/-- The element loop of `track_design_save_copy_scenery_to_td6` on the copied
descriptions: the outer `none` is an undefined shift, the inner `none` is the
return of false (the copy is freed), and a list is the content of
`td6->scenery_elements` at the return of true. -/
def track_design_save_copy_scenery_loop (fn : SceneryFunctions)
    (gTrackPreviewOrigin : LocationXYZ16) (_trackSaveDirection : uint8_t) :
    List rct_td6_scenery_element → Option (Option (List rct_td6_scenery_element))
  | [] => some (some [])
  | scenery :: rest =>
    match td6_rotate_flags fn _trackSaveDirection scenery with
    | none => none
    | some flags =>
      let xy := td6_scenery_xy gTrackPreviewOrigin _trackSaveDirection scenery
      if xy.1 > 127 ∨ xy.2 > 127 ∨ xy.1 < -126 ∨ xy.2 < -126 then some none
      else
        let z := td6_scenery_z gTrackPreviewOrigin scenery
        if z > 127 ∨ z < -126 then some none
        else
          (track_design_save_copy_scenery_loop fn gTrackPreviewOrigin _trackSaveDirection
              rest).map fun r => r.map fun l =>
            { scenery with flags := flags, x := toInt8 xy.1, y := toInt8 xy.2, z := toInt8 z } :: l

/-- The function `track_design_save_copy_scenery_to_td6` (with an allocation
that succeeds): `some none` is the return of false, `some (some l)` the return
of true with `l` in `td6->scenery_elements`. -/
def track_design_save_copy_scenery_to_td6 (fn : SceneryFunctions) (st : TrackDesignSave)
    (gTrackPreviewOrigin : LocationXYZ16) (_trackSaveDirection : uint8_t) :
    Option (Option (List rct_td6_scenery_element)) :=
  track_design_save_copy_scenery_loop fn gTrackPreviewOrigin _trackSaveDirection st.savedDescs

/-- The rotation of `rotate_map_coordinates` on integers, without the
conversions to `int16_t`. -/
def spec_rotate (x y rotation : Int) : Int × Int :=
  if rotation = 1 then (y, -x)
  else if rotation = 2 then (-x, -y)
  else if rotation = 3 then (-y, x)
  else (x, y)

/-- The position of a saved scenery element in the words of the specification:
the tile coordinates of the element, moved to the origin of the track and
rotated backwards by the direction of the track, in tiles, and the base height
of the element moved to the origin, in height units.  The tile coordinates and
the base height of the element (each 0..255) are the three stored bytes read
as unsigned. -/
def spec_td6_position (origin : LocationXYZ16) (direction : uint8_t)
    (scenery : rct_td6_scenery_element) : Int × Int × Int :=
  let r := spec_rotate ((scenery.x % 256) * 32 - origin.x) ((scenery.y % 256) * 32 - origin.y)
    ((4 - (direction.val : Int) % 4) % 4)
  (Int.tdiv r.1 32, Int.tdiv r.2 32, Int.tdiv ((scenery.z % 256) * 8 - origin.z) 8)

/-- The position lies outside -126..127 in one of its coordinates. -/
def OutsideTd6Range (p : Int × Int × Int) : Prop :=
  p.1 > 127 ∨ p.1 < -126 ∨ p.2.1 > 127 ∨ p.2.1 < -126 ∨ p.2.2 > 127 ∨ p.2.2 < -126

instance (p : Int × Int × Int) : Decidable (OutsideTd6Range p) := by
  unfold OutsideTd6Range; infer_instance

/-- The statics after the wall, the small scenery element and the path of
`sceneryMem` have been added on the tiles (2, 1), (2, 2) and (3, 2). -/
def sampleSavedScenery : TrackDesignSave :=
  ((track_design_save_add_all sampleSceneryFunctions sceneryMem track_design_save_init
      [⟨VIEWPORT_INTERACTION_ITEM_WALL, 64, 32, 0⟩, ⟨VIEWPORT_INTERACTION_ITEM_SCENERY, 64, 64, 1⟩,
       ⟨VIEWPORT_INTERACTION_ITEM_FOOTPATH, 96, 64, 2⟩]).map fun r => r.1).getD
    track_design_save_init

/-- The statics after the path of `sceneryMem`, an element of base height 200
on the tile (3, 2), has been added. -/
def highSavedScenery : TrackDesignSave :=
  ((track_design_save_add_all sampleSceneryFunctions sceneryMem track_design_save_init
      [⟨VIEWPORT_INTERACTION_ITEM_FOOTPATH, 96, 64, 2⟩]).map fun r => r.1).getD
    track_design_save_init


/-! ## Entrances of an exported track design -/

/-- The constant `RCT12_MAX_STATIONS_PER_RIDE` of `RCT12.h`. -/
def RCT12_MAX_STATIONS_PER_RIDE : Nat := 4

/-- Modelled from the spec: the record `rct_td6_entrance_element` of
`TrackDesign.h`, which is not among the sources at hand: `z` is an `int8_t`
at offset 0 (it is compared with -1, and the terminator is written through a
`uint8_t*` to the start of a record), `direction` a `uint8_t`, `x` and `y` are
`int16_t`. -/
structure rct_td6_entrance_element where
  z : Int
  direction : uint8_t
  x : Int
  y : Int
deriving DecidableEq, Repr

/-- Modelled from the spec: what the export reads of a `Ride` (`Ride.h`, not
among the sources at hand): the field `stations[i].Height` and the results of
`ride_get_entrance_location` and `ride_get_exit_location`, a tile position or
`none` when `isNull()` holds. -/
structure RideStations where
  Height : Nat → uint8_t
  ride_get_entrance_location : Nat → Option (Int × Int)
  ride_get_exit_location : Nat → Option (Int × Int)

/-- The loop that looks for the entrance element at height `z` in the export
of a tracked ride, started at element `i`: the value of `tile_element` after
it (`none` is a read outside `gTileElements`).
`do { if (type != ENTRANCE) continue; if (base_height == z) break; }
while (!(tile_element++)->IsLastForTile());` -/
def entrance_scan (cfg : Config) (mem : Nat → TileElement) (z : Int) : Nat → Nat → Option Nat
  | 0, _ => none
  | fuel + 1, i =>
    if i < arraySize cfg then
      if (mem i).GetType = TILE_ELEMENT_TYPE_ENTRANCE ∧ ((mem i).base_height.val : Int) = z then
        some i
      else if (mem i).IsLastForTile then some (i + 1)
      else entrance_scan cfg mem z fuel (i + 1)
    else none

/-- What one pass of the body of the entrance loop does. -/
inductive EntranceStep where
  | skipped
  | failed
  | saved (e : rct_td6_entrance_element)
deriving DecidableEq, Repr

/-- The body of the entrance loop of
`track_design_save_to_td6_for_tracked_ride` for the pass `i` (0 entrances, 1
exits) and the station `station_index`; `none` is a read through a null
pointer or outside `gTileElements`. -/
def track_design_save_entrance_body (cfg : Config) (s : Store) (ride : RideStations)
    (gTrackPreviewOrigin : LocationXYZ16) (_trackSaveDirection : uint8_t)
    (i station_index : Nat) : Option EntranceStep :=
  let z : Int := (ride.Height station_index).val
  let location :=
    if i = 0 then ride.ride_get_entrance_location station_index
    else ride.ride_get_exit_location station_index
  match location with
  | none => some EntranceStep.skipped
  | some (lx, ly) =>
    let x := toInt16 (lx * 32)
    let y := toInt16 (ly * 32)
    match map_get_first_element_at cfg s (x >>> 5) (y >>> 5) with
    | none => none
    | some first =>
      match entrance_scan cfg s.gTileElements z (arraySize cfg) first with
      | none => none
      | some tile_element =>
        if tile_element < arraySize cfg then
          let entrance_direction := toU8 (s.gTileElements tile_element).GetDirection
          let entrance_direction :=
            intToU8 ((entrance_direction.val : Int) - (_trackSaveDirection.val : Int))
          let entrance_direction := toU8 (entrance_direction.val &&& TILE_ELEMENT_DIRECTION_MASK)
          let x := toInt16 (x - gTrackPreviewOrigin.x)
          let y := toInt16 (y - gTrackPreviewOrigin.y)
          -- Rotate entrance coordinates backwards to the correct direction
          let r := rotate_map_coordinates x y (backwardRotation _trackSaveDirection)
          let z := z * 8
          let z := z - gTrackPreviewOrigin.z
          let z := Int.tdiv z 8
          if z > 127 ∨ z < -126 then some EntranceStep.failed
          else
            let z := if z = 0xFF then 0x80 else z
            -- If this is the exit version
            let direction :=
              if i = 1 then toU8 (entrance_direction.val ||| (1 <<< 7)) else entrance_direction
            some (EntranceStep.saved ⟨toInt8 z, direction, r.1, r.2⟩)
        else none

/-- The pairs `(i, station_index)` of the two nested loops, in the order of
the passes. -/
def entrancePasses : List (Nat × Nat) :=
  (List.range 2).flatMap fun i => (List.range RCT12_MAX_STATIONS_PER_RIDE).map fun st => (i, st)

/-- The entrance loop on the passes `passes`: the outer `none` is an undefined
read, the inner `none` the return of 0, and a list the records saved. -/
def track_design_save_entrance_loop (cfg : Config) (s : Store) (ride : RideStations)
    (gTrackPreviewOrigin : LocationXYZ16) (_trackSaveDirection : uint8_t) :
    List (Nat × Nat) → Option (Option (List rct_td6_entrance_element))
  | [] => some (some [])
  | p :: rest =>
    match track_design_save_entrance_body cfg s ride gTrackPreviewOrigin _trackSaveDirection
        p.1 p.2 with
    | none => none
    | some EntranceStep.failed => some none
    | some EntranceStep.skipped =>
      track_design_save_entrance_loop cfg s ride gTrackPreviewOrigin _trackSaveDirection rest
    | some (EntranceStep.saved e) =>
      (track_design_save_entrance_loop cfg s ride gTrackPreviewOrigin _trackSaveDirection
          rest).map fun r => r.map fun l => e :: l

/-- The function `track_design_save_to_td6_for_tracked_ride` from the point
where the track pieces have been collected.  The part before it calls
functions that are not among the sources at hand; `trackPart` is its outcome:
`none` when it returns false, and otherwise the values that it leaves in
`gTrackPreviewOrigin` and `_trackSaveDirection`.  The result `some none` is the
return of false, and `some (some l)` the return of true with the records `l`
in `td6->entrance_elements`. -/
def track_design_save_to_td6_for_tracked_ride (cfg : Config) (s : Store) (ride : RideStations)
    (trackPart : Option (LocationXYZ16 × uint8_t)) :
    Option (Option (List rct_td6_entrance_element)) :=
  match trackPart with
  | none => some none
  | some (gTrackPreviewOrigin, _trackSaveDirection) =>
    track_design_save_entrance_loop cfg s ride gTrackPreviewOrigin _trackSaveDirection
      entrancePasses

/-- The array `td6->entrance_elements` after the export: the records saved,
then the record whose first byte is the terminator `0xFF`; `none` lies behind
the allocation. -/
def entrance_elements (l : List rct_td6_entrance_element) (i : Nat) :
    Option rct_td6_entrance_element :=
  if i < l.length then l[i]?
  else if i = l.length then some ⟨toInt8 0xFF, 0, 0, 0⟩
  else none

/-- The function `track_design_get_entrance_elements_count` on the array
`arr`, with `count` records counted so far; `none` is a read behind the
allocation. -/
def track_design_get_entrance_elements_count (arr : Nat → Option rct_td6_entrance_element) :
    Nat → Nat → Option Nat
  | 0, _ => none
  | fuel + 1, count =>
    match arr count with
    | none => none
    | some entranceElement =>
      if entranceElement.z ≠ -1 then
        track_design_get_entrance_elements_count arr fuel (count + 1)
      else some count

/-- The store `sampleStore` with the second element of tile (1, 0) turned into
an entrance element of direction 2 at base height 14. -/
def entranceStore : Store :=
  { sampleStore with
    gTileElements := fun i =>
      if i = 7 then { type := 0x12, flags := 0x10, base_height := 14, clearance_height := 18,
                      pad_04_0 := 0, pad_04_1 := 0, pad_04_2 := 0, pad_04_3 := 0 }
      else sampleStore.gTileElements i }

/-- A ride whose station 0 has height 14 and its entrance and its exit on tile
(1, 0); the other stations have none. -/
def sampleRide : RideStations :=
  { Height := fun _ => 14
    ride_get_entrance_location := fun i => if i = 0 then some (1, 0) else none
    ride_get_exit_location := fun i => if i = 0 then some (1, 0) else none }

/-! ## Flags of an element -/

/-- Modelled from the spec: `TILE_ELEMENT_FLAG_GHOST` of `TileElement.h`, which is
not among the sources at hand: bit 4 of `flags`. -/
def TILE_ELEMENT_FLAG_GHOST : Nat := 1 <<< 4


/-! ## Flags of an exported footpath -/

/-- The flags that the `OBJECT_TYPE_PATHS` case of the `switch` in
`track_design_save_copy_scenery_to_td6` computes from the flags `f` for a save
direction `d` below 32 (the statements of `td6_rotate_flags` for that case). -/
def td6_path_flags (f d : uint8_t) : uint8_t :=
  let slope := toU8 ((f.val &&& 0x60) >>> 5)
  let slope := intToU8 ((slope.val : Int) - (d.val : Int))
  let flags := toU8 (f.val &&& 0x9F)
  let flags := toU8 (flags.val ||| ((slope.val &&& 3) <<< 5))
  let direction := toU8 (flags.val &&& 0xF)
  let direction := toU8 ((direction.val <<< 4) >>> d.val)
  let flags := toU8 (flags.val &&& 0xF0)
  toU8 (flags.val ||| ((direction.val &&& 0xF) ||| (direction.val >>> 4)))

/-- A path object for the sample functions on objects (its type is
`OBJECT_TYPE_PATHS`), with the flags of a sloped queue with two edges. -/
def samplePathRecord : rct_td6_scenery_element :=
  ⟨OBJECT_TYPE_PATHS * 256 + 1, 3, 2, 10, 0xD6, 0, 0⟩


/-! ## Elements of a ride -/

/-- Modelled from the spec: the tag `TILE_ELEMENT_TYPE_TRACK` of `TileElement.h`
(`Track = (2 << 2)` in `RCT12TileElementType`). -/
def TILE_ELEMENT_TYPE_TRACK : Nat := 2 <<< 2

/-- Modelled from the spec: `ENTRANCE_TYPE_RIDE_ENTRANCE` of `Entrance.h`, which
is not among the sources at hand. -/
def ENTRANCE_TYPE_RIDE_ENTRANCE : Nat := 0

/-- Modelled from the spec: `ENTRANCE_TYPE_RIDE_EXIT` of `Entrance.h`, an
enumerator different from `ENTRANCE_TYPE_RIDE_ENTRANCE`. -/
def ENTRANCE_TYPE_RIDE_EXIT : Nat := 1

/-- The accessors of path, track and entrance elements that
`TrackDesignSave.cpp` calls for the ride of an element and whose bodies are not
among the sources at hand: they are parameters. -/
structure RideElementFunctions where
  Path_GetRideIndex : TileElement → Nat
  Track_GetRideIndex : TileElement → Nat
  Entrance_GetEntranceType : TileElement → Nat
  Entrance_GetRideIndex : TileElement → Nat

/-- The function `track_design_save_should_select_scenery_around`. -/
def track_design_save_should_select_scenery_around (fn : SceneryFunctions)
    (rf : RideElementFunctions) (rideIndex : Nat) (tileElement : TileElement) : Bool :=
  if tileElement.GetType = TILE_ELEMENT_TYPE_PATH then
    if fn.Path_IsQueue tileElement = true ∧ rf.Path_GetRideIndex tileElement = rideIndex then true
    else false
  else if tileElement.GetType = TILE_ELEMENT_TYPE_TRACK then
    if rf.Track_GetRideIndex tileElement = rideIndex then true else false
  else if tileElement.GetType = TILE_ELEMENT_TYPE_ENTRANCE then
    -- FIXME: This will always break and return false!
    if rf.Entrance_GetEntranceType tileElement ≠ ENTRANCE_TYPE_RIDE_ENTRANCE then false
    else if rf.Entrance_GetEntranceType tileElement ≠ ENTRANCE_TYPE_RIDE_EXIT then false
    else if rf.Entrance_GetRideIndex tileElement = rideIndex then true
    else false
  else false


/-! ## The circular buffer -/

/-- The members of `CircularBuffer<_TType, _TMax>`; the array `_elements` has
`_TMax` entries, and `_TMax` is a parameter of the methods. -/
structure CircularBuffer (α : Type) where
  _head : Nat
  _tail : Nat
  _size : Nat
  _elements : Nat → α

/-- The method `CircularBuffer::capacity`. -/
def CircularBuffer.capacity {α : Type} (_TMax : Nat) (_ : CircularBuffer α) : Nat := _TMax

/-- The method `CircularBuffer::size`. -/
def CircularBuffer.size {α : Type} (b : CircularBuffer α) : Nat := b._size

/-- The method `CircularBuffer::clear`. -/
def CircularBuffer.clear {α : Type} (b : CircularBuffer α) : CircularBuffer α :=
  { b with _head := 0, _tail := 0, _size := 0 }

/-- The method `CircularBuffer::front`. -/
def CircularBuffer.front {α : Type} (b : CircularBuffer α) : α := b._elements b._head

/-- The method `CircularBuffer::back`. -/
def CircularBuffer.back {α : Type} (b : CircularBuffer α) : α := b._elements b._tail

/-- The method `CircularBuffer::operator[]`. -/
def CircularBuffer.index {α : Type} (_TMax : Nat) (b : CircularBuffer α) (idx : Nat) : α :=
  let idx := (b._head + idx) % b.capacity _TMax
  b._elements idx

/-- The method `CircularBuffer::push_back`. -/
def CircularBuffer.push_back {α : Type} (_TMax : Nat) (b : CircularBuffer α) (val : α) :
    CircularBuffer α :=
  if b._size = 0 then
    { b with
      _elements := Function.update b._elements b._head val
      _tail := b._head
      _size := b._size + 1 }
  else if b._size ≠ b.capacity _TMax then
    let tail := b._tail + 1
    let tail := if tail = b.capacity _TMax then 0 else tail
    { b with
      _tail := tail
      _size := b._size + 1
      _elements := Function.update b._elements tail val }
  else
    let head := b._head + 1
    let head := if head = b.capacity _TMax then 0 else head
    let tail := b._tail + 1
    let tail := if tail = b.capacity _TMax then 0 else tail
    { b with
      _head := head
      _tail := tail
      _elements := Function.update b._elements tail val }

/-- The buffer after the calls `push_back` for the values `vals`, in order. -/
def CircularBuffer.push_all {α : Type} (_TMax : Nat) (b : CircularBuffer α) (vals : List α) :
    CircularBuffer α :=
  vals.foldl (CircularBuffer.push_back _TMax) b

/-- A buffer of numbers in its initial state. -/
def sampleBuffer : CircularBuffer Nat :=
  { _head := 0, _tail := 0, _size := 0, _elements := fun _ => 0 }

/-- What `k` calls of `push_back` (the values `l`) leave in a buffer of
capacity `N`. -/
def CircularBuffer.Holds {α : Type} (N : Nat) (b : CircularBuffer α) (l : List α) : Prop :=
  b._size = min l.length N
    ∧ b._head = (l.length - b._size) % N
    ∧ (0 < l.length → b._tail = (l.length - 1) % N)
    ∧ ∀ m, l.length - b._size ≤ m → m < l.length → l[m]? = some (b._elements (m % N))

/-! ## The highest point of a tile -/

/-- The function `map_get_highest_z`: `none` is a read outside `gTileElements`;
`z` is a `uint32_t`, returned as `int32_t`. -/
def map_get_highest_z (cfg : Config) (s : Store) (tileX tileY : Int) : Option Int :=
  match map_get_surface_element_at cfg s tileX tileY with
  | none => none
  | some none => some (-1)
  | some (some tileElement) =>
    let e := s.gTileElements tileElement
    let z : Nat := e.base_height.val * 8
    -- Raise z so that is above highest point of land and water on tile
    let z : Nat :=
      if (e.GetSlope &&& TILE_ELEMENT_SLOPE_ALL_CORNERS_UP) ≠ TILE_ELEMENT_SLOPE_FLAT then z + 16
      else z
    let z : Nat := if (e.GetSlope &&& TILE_ELEMENT_SLOPE_DOUBLE_HEIGHT) ≠ 0 then z + 16 else z
    let z : Nat := max z (e.GetWaterHeight * 16)
    some (z : Int)

/-! ## Selection of the scenery near a ride -/

/-- Modelled from the spec: `VIEWPORT_INTERACTION_ITEM_NONE` of `Viewport.h`. -/
def VIEWPORT_INTERACTION_ITEM_NONE : Int := 0

/-- The macro `TRACK_NEARBY_SCENERY_DISTANCE`. -/
def TRACK_NEARBY_SCENERY_DISTANCE : Int := 1

/-- The values of the loop variable of `for (v = first; v <= last; v++)`. -/
def unitSteps (first last : Int) : List Int :=
  (List.range (last + 1 - first).toNat).map (fun (i : Nat) => first + (i : Int))

/-- The tiles `(x, y)` that the nested loops of
`track_design_save_select_nearby_scenery_for_tile` visit, in order: `y` in the
outer loop, `x` in the inner one. -/
def nearbySceneryTiles (cx cy : Int) : List (Int × Int) :=
  (unitSteps (cy - TRACK_NEARBY_SCENERY_DISTANCE) (cy + TRACK_NEARBY_SCENERY_DISTANCE)).flatMap
    fun y =>
      (unitSteps (cx - TRACK_NEARBY_SCENERY_DISTANCE) (cx + TRACK_NEARBY_SCENERY_DISTANCE)).map
        fun x => (x, y)

/-- The `switch` in the loop body of
`track_design_save_select_nearby_scenery_for_tile`: the value of
`interactionType` after it. -/
def nearby_scenery_interaction_type (fn : SceneryFunctions) (rf : RideElementFunctions)
    (rideIndex : Nat) (tileElement : TileElement) : Int :=
  if tileElement.GetType = TILE_ELEMENT_TYPE_PATH then
    if ¬ fn.Path_IsQueue tileElement = true then VIEWPORT_INTERACTION_ITEM_FOOTPATH
    else if rf.Path_GetRideIndex tileElement = rideIndex then VIEWPORT_INTERACTION_ITEM_FOOTPATH
    else VIEWPORT_INTERACTION_ITEM_NONE
  else if tileElement.GetType = TILE_ELEMENT_TYPE_SMALL_SCENERY then
    VIEWPORT_INTERACTION_ITEM_SCENERY
  else if tileElement.GetType = TILE_ELEMENT_TYPE_WALL then VIEWPORT_INTERACTION_ITEM_WALL
  else if tileElement.GetType = TILE_ELEMENT_TYPE_LARGE_SCENERY then
    VIEWPORT_INTERACTION_ITEM_LARGE_SCENERY
  else VIEWPORT_INTERACTION_ITEM_NONE

/-- The `do ... while (!(tileElement++)->IsLastForTile())` loop of
`track_design_save_select_nearby_scenery_for_tile` on the tile `(x, y)`, started
at element `i`; `none` is a read outside `gTileElements` or a failure inside
`track_design_save_add_tile_element`.  `fuel` is the number of elements that
may still be read. -/
def track_design_save_select_nearby_scenery_run (cfg : Config) (fn : SceneryFunctions)
    (rf : RideElementFunctions) (mem : Nat → TileElement) (rideIndex : Nat) (x y : Int) :
    Nat → Nat → TrackDesignSave → Option TrackDesignSave
  | 0, _, _ => none
  | fuel + 1, i, st =>
    if i < arraySize cfg then
      let interactionType := nearby_scenery_interaction_type fn rf rideIndex (mem i)
      let added : Option TrackDesignSave :=
        if interactionType ≠ VIEWPORT_INTERACTION_ITEM_NONE then
          if ¬ track_design_save_contains_tile_element st i = true then
            (track_design_save_add_tile_element fn mem st interactionType (x * 32) (y * 32) i).map
              Prod.fst
          else some st
        else some st
      match added with
      | none => none
      | some st1 =>
        if (mem i).IsLastForTile then some st1
        else track_design_save_select_nearby_scenery_run cfg fn rf mem rideIndex x y fuel (i + 1) st1
    else none

/-- The body of the nested loops of
`track_design_save_select_nearby_scenery_for_tile` at the tile `(x, y)`; `none`
is a read through the null pointer that `map_get_first_element_at` returned, a
read outside `gTileElements` or a failure inside
`track_design_save_add_tile_element`. -/
def track_design_save_select_nearby_scenery_body (cfg : Config) (fn : SceneryFunctions)
    (rf : RideElementFunctions) (s : Store) (rideIndex : Nat) (st : TrackDesignSave)
    (xy : Int × Int) : Option TrackDesignSave :=
  match map_get_first_element_at cfg s xy.1 xy.2 with
  | none => none
  | some tileElement =>
    track_design_save_select_nearby_scenery_run cfg fn rf s.gTileElements rideIndex xy.1 xy.2
      (arraySize cfg - tileElement) tileElement st

/-- The function `track_design_save_select_nearby_scenery_for_tile`; `none` is
a read through a null pointer or outside `gTileElements`, or a failure inside
`track_design_save_add_tile_element`. -/
def track_design_save_select_nearby_scenery_for_tile (cfg : Config) (fn : SceneryFunctions)
    (rf : RideElementFunctions) (s : Store) (st : TrackDesignSave) (rideIndex : Nat)
    (cx cy : Int) : Option TrackDesignSave :=
  (nearbySceneryTiles cx cy).foldlM
    (track_design_save_select_nearby_scenery_body cfg fn rf s rideIndex) st

/-- A build with the map size of the game, 256 by 256 tiles. -/
def gameConfig : Config := ⟨256, 196608, 1⟩

/-- Sample accessors of the ride fields of elements: the ride index is read
from the second payload byte and the entrance type from the first. -/
def sampleRideElementFunctions : RideElementFunctions :=
  { Path_GetRideIndex := fun e => e.pad_04_1.val
    Track_GetRideIndex := fun e => e.pad_04_1.val
    Entrance_GetEntranceType := fun e => e.pad_04_0.val
    Entrance_GetRideIndex := fun e => e.pad_04_1.val }

/-- A store of the 256 by 256 grid in which every tile holds one element, a
track element of ride 7 that is the last of its tile. -/
def trackStore : Store :=
  { gTileElements := fun _ =>
      { type := ⟨TILE_ELEMENT_TYPE_TRACK, by decide⟩, flags := 0x80, base_height := 14,
        clearance_height := 18, pad_04_0 := 0, pad_04_1 := 7, pad_04_2 := 0, pad_04_3 := 0 }
    gTileElementTilePointers := fun i => i
    gNextFreeTileElement := 65536
    gGameCommandErrorText := 0
    reorganiseCalls := 0 }

/-! ## The water that `WaterLowerAction` lowers -/

/-- The nested action that lowers the water at the position `xy` when its tile
has a surface with non-zero water height `w` and `minHeight ≤ 2 * w`; `none`
when the tile is skipped. -/
def expectedLowerAction (cfg : Config) (s : Store) (minHeight flags : Nat) (xy : Int × Int) :
    Option WaterSetHeightAction :=
  match waterHeightAt cfg s (tileOf xy).1 (tileOf xy).2 with
  | some (some w) => if w ≠ 0 ∧ minHeight ≤ 2 * w then some (lowerWaterAt w flags xy) else none
  | _ => none

/-- The tile of the position `xy` has a surface with a non-zero water height
whose double is `m`. -/
def hasWaterLevelAt (cfg : Config) (s : Store) (m : Nat) (xy : Int × Int) : Bool :=
  match waterHeightAt cfg s (tileOf xy).1 (tileOf xy).2 with
  | some (some w) => decide (w ≠ 0 ∧ 2 * w = m)
  | _ => false

/-- The nested actions that lower the water at the positions `coords` behave
on the states satisfying `Inv`, whatever the height they lower from: the
action succeeds, `Inv` holds again afterwards, and the water height recorded
for every tile but the action's own is as before. -/
def NestedActions.SucceedsOnOwnTile (cfg : Config) (nested : NestedActions) (isExecuting : Bool)
    (Inv : GameState → Prop) (flags : Nat) (coords : List (Int × Int)) : Prop :=
  ∀ xy ∈ coords, ∀ h st, Inv st →
    (nested.call isExecuting (lowerWaterAt h flags xy) st).1.Error = GA_ERROR.OK ∧
    Inv (nested.call isExecuting (lowerWaterAt h flags xy) st).2 ∧
    ∀ tx ty, (tx, ty) ≠ tileOf xy →
      waterHeightAt cfg (nested.call isExecuting (lowerWaterAt h flags xy) st).2.store tx ty
        = waterHeightAt cfg st.store tx ty

/-- The left and top of the range are tile-aligned as far as the clamping
lets them matter: each is at least 32 or a multiple of 32. -/
def MapRange.Aligned (range : MapRange) : Prop :=
  (32 ≤ range.Left ∨ range.Left % 32 = 0) ∧ (32 ≤ range.Top ∨ range.Top % 32 = 0)

instance (range : MapRange) : Decidable range.Aligned := by
  unfold MapRange.Aligned; infer_instance

/-- A store for `waterConfig` with water at different heights: the tiles
(2, 1) and (1, 2) have water height 5, the tile (2, 2) has water height 2 and
every other tile has water height 3. -/
def mixedWaterStore : Store :=
  { gTileElements := fun i =>
      if i < 16 then
        { type := 0, flags := 0x80, base_height := 14, clearance_height := 14,
          pad_04_0 := 0, pad_04_1 := if i = 6 ∨ i = 9 then 5 else if i = 10 then 2 else 3,
          pad_04_2 := 0, pad_04_3 := 0 }
      else zeroElement
    gTileElementTilePointers := fun t => if t < 16 then t else 0
    gNextFreeTileElement := 16
    gGameCommandErrorText := 0
    reorganiseCalls := 0 }

/-- A game state on `mixedWaterStore`. -/
def mixedWaterState : GameState :=
  { store := mixedWaterStore, gMapSizeMaxXY := 95, _currentTrackSelectionFlags := 0, audio := [] }

/-! ## Removal of walls -/

/-- The tests of the loop body of `wall_remove_at` on one element: `true` when
none of the three `continue` statements is taken.  `z0` and `z1` are the
values after the division by 8. -/
def wall_remove_at_test (z0 z1 : Int) (e : TileElement) : Bool :=
  if e.GetType ≠ TILE_ELEMENT_TYPE_WALL then false
  else if z0 ≥ (e.clearance_height.val : Int) then false
  else if z1 ≤ (e.base_height.val : Int) then false
  else true

/-- The `do ... while (!(tileElement++)->IsLastForTile())` loop of
`wall_remove_at`, started at element `i`, up to the element that is removed:
the inner `none` is the normal end of the loop, `some j` the element at which
the body reaches `tile_element_remove`; the outer `none` is a read outside
`gTileElements`.  `fuel` is the number of elements that may still be read. -/
def wall_remove_at_scan (cfg : Config) (mem : Nat → TileElement) (z0 z1 : Int) :
    Nat → Nat → Option (Option Nat)
  | 0, _ => none
  | fuel + 1, i =>
    if i < arraySize cfg then
      if wall_remove_at_test z0 z1 (mem i) then some (some i)
      else if (mem i).IsLastForTile then some none
      else wall_remove_at_scan cfg mem z0 z1 fuel (i + 1)
    else none

/-- The part of `wall_remove_at` from the label `repeat` on, for the values
`z0`, `z1` after the division by 8; `none` is a read through a null pointer
or outside `gTileElements`.  `fuel` bounds the number of passes from the
label.  The calls `tile_element_remove_banner_entry` and
`map_invalidate_tile_zoom1` (not among the sources at hand) leave the tile
element store alone. -/
def wall_remove_at_repeat (cfg : Config) (x y z0 z1 : Int) : Nat → Store → Option Store
  | 0, _ => none
  | fuel + 1, s =>
    match map_get_first_element_at cfg s (x >>> 5) (y >>> 5) with
    | none => none
    | some tileElement =>
      match wall_remove_at_scan cfg s.gTileElements z0 z1 (arraySize cfg - tileElement)
          tileElement with
      | none => none
      | some none => some s
      | some (some j) =>
        match tile_element_remove cfg s j with
        | none => none
        | some s1 => wall_remove_at_repeat cfg x y z0 z1 fuel s1

/-- The function `wall_remove_at`; the divisions round towards zero. -/
def wall_remove_at (cfg : Config) (s : Store) (x y z0 z1 : Int) (fuel : Nat) : Option Store :=
  wall_remove_at_repeat cfg x y (Int.tdiv z0 8) (Int.tdiv z1 8) fuel s

/-- The tests of the loop body of `wall_remove_intersecting_walls` on one
element: `true` when none of the three `continue` statements is taken. -/
def wall_remove_intersecting_walls_test (z0 z1 direction : Int) (e : TileElement) : Bool :=
  if e.GetType ≠ TILE_ELEMENT_TYPE_WALL then false
  else if (e.clearance_height.val : Int) ≤ z0 ∨ (e.base_height.val : Int) ≥ z1 then false
  else if direction ≠ (e.GetDirection : Int) then false
  else true

/-- The `do ... while (!(tileElement++)->IsLastForTile())` loop of
`wall_remove_intersecting_walls` with `tileElement` at element `i`; `none` is
a read outside `gTileElements` (after `tileElement--` at element 0, the
element before the array).  `fuel` bounds the number of passes. -/
def wall_remove_intersecting_walls_loop (cfg : Config) (z0 z1 direction : Int) :
    Nat → Store → Nat → Option Store
  | 0, _, _ => none
  | fuel + 1, s, i =>
    if i < arraySize cfg then
      if wall_remove_intersecting_walls_test z0 z1 direction (s.gTileElements i) then
        match tile_element_remove cfg s i with
        | none => none
        | some s1 =>
          -- tileElement--
          if 0 < i then
            if (s1.gTileElements (i - 1)).IsLastForTile then some s1
            else wall_remove_intersecting_walls_loop cfg z0 z1 direction fuel s1 i
          else none
      else if (s.gTileElements i).IsLastForTile then some s
      else wall_remove_intersecting_walls_loop cfg z0 z1 direction fuel s (i + 1)
    else none

/-- The function `wall_remove_intersecting_walls`; `none` is a read through a
null pointer or outside `gTileElements`.  `fuel` bounds the number of passes
of the loop.  The calls `tile_element_remove_banner_entry` and
`map_invalidate_tile_zoom1` (not among the sources at hand) leave the tile
element store alone. -/
def wall_remove_intersecting_walls (cfg : Config) (s : Store) (x y z0 z1 direction : Int)
    (fuel : Nat) : Option Store :=
  match map_get_first_element_at cfg s (x >>> 5) (y >>> 5) with
  | none => none
  | some tileElement => wall_remove_intersecting_walls_loop cfg z0 z1 direction fuel s tileElement

/-- A wall element with the given flags, direction and heights. -/
def wallElement (flags : uint8_t) (direction : Nat) (base_height clearance_height : uint8_t) :
    TileElement :=
  { type := toU8 (TILE_ELEMENT_TYPE_WALL ||| (direction &&& TILE_ELEMENT_DIRECTION_MASK)),
    flags := flags, base_height := base_height, clearance_height := clearance_height,
    pad_04_0 := 0, pad_04_1 := 0, pad_04_2 := 0, pad_04_3 := 0 }

/-- A compacted store for `smallConfig`: tiles 0, 2 and 3 have one surface
element, and the run of tile 1 (elements 1 to 4) is two walls of direction 0,
a wall of direction 1 and a surface element. -/
def wallStore : Store :=
  { gTileElements := fun i =>
      match i with
      | 0 => sampleElement 0x80 14 1
      | 1 => wallElement 0x00 0 14 18
      | 2 => wallElement 0x00 0 20 24
      | 3 => wallElement 0x00 1 14 18
      | 4 => sampleElement 0x80 14 2
      | 5 => sampleElement 0x80 14 3
      | 6 => sampleElement 0x80 14 4
      | _ => zeroElement
    gTileElementTilePointers := fun t =>
      match t with
      | 0 => 0
      | 1 => 1
      | 2 => 5
      | 3 => 6
      | _ => 0
    gNextFreeTileElement := 7
    gGameCommandErrorText := 0
    reorganiseCalls := 0 }

/-! # Theorems -/

/-! ## Bits, runs and loops -/

set_option maxRecDepth 100000 in
theorem isLast_set (f : uint8_t) :
    (toU8 (f.val ||| TILE_ELEMENT_FLAG_LAST_TILE)).val &&& TILE_ELEMENT_FLAG_LAST_TILE ≠ 0 := by
  revert f; decide

set_option maxRecDepth 100000 in
theorem isLast_clear (f : uint8_t) :
    (toU8 (f.val &&& NOT_TILE_ELEMENT_FLAG_LAST_TILE)).val &&& TILE_ELEMENT_FLAG_LAST_TILE = 0 := by
  revert f; decide

set_option maxRecDepth 100000 in
theorem set_of_isLast (f : uint8_t) (h : f.val &&& TILE_ELEMENT_FLAG_LAST_TILE ≠ 0) :
    toU8 (f.val ||| TILE_ELEMENT_FLAG_LAST_TILE) = f := by
  revert f; decide

theorem and_flag_mod (n : Nat) : (n % 256) &&& 128 = n &&& 128 := by
  apply Nat.eq_of_testBit_eq
  intro i
  simp only [Nat.testBit_and]
  have h256 : (256 : Nat) = 2 ^ 8 := by norm_num
  have h128 : (128 : Nat) = 2 ^ 7 := by norm_num
  rw [h256, h128, Nat.testBit_mod_two_pow, Nat.testBit_two_pow]
  by_cases h : 7 = i
  · subst h; simp
  · simp [h]

theorem scanToLast_some {mem : Nat → TileElement} :
    ∀ (fuel p e : Nat), scanToLast mem fuel p = some e →
      p < e ∧ e ≤ p + fuel ∧ IsRun mem p (e - p)
  | 0, p, e, h => by simp [scanToLast] at h
  | fuel + 1, p, e, h => by
    unfold scanToLast at h
    split at h
    · rename_i hl
      injection h with h
      subst h
      refine ⟨by omega, by omega, by omega, ?_⟩
      intro i hi
      have : i = 0 := by omega
      subst this
      simp [hl]
    · rename_i hl
      obtain ⟨h1, h2, h3, h4⟩ := scanToLast_some fuel (p + 1) e h
      refine ⟨by omega, by omega, by omega, ?_⟩
      intro i hi
      rcases Nat.eq_zero_or_pos i with h0 | h0
      · subst h0
        simp [hl]; omega
      · have := h4 (i - 1) (by omega)
        have e1 : p + 1 + (i - 1) = p + i := by omega
        rw [e1] at this
        rw [this]; omega

theorem scanToLast_of_isRun {mem : Nat → TileElement} :
    ∀ (k fuel p : Nat), IsRun mem p k → k ≤ fuel → scanToLast mem fuel p = some (p + k)
  | 0, _, _, h, _ => absurd h.1 (by omega)
  | k + 1, 0, _, _, hf => absurd hf (by omega)
  | k + 1, fuel + 1, p, h, hf => by
    unfold scanToLast
    by_cases hl : (mem p).IsLastForTile = true
    · have := (h.2 0 (by omega)).1 (by simpa using hl)
      have hk : k = 0 := by omega
      subst hk
      simp [hl]
    · have hk : k ≠ 0 := by
        intro hk; subst hk
        exact hl (by simpa using (h.2 0 (by omega)).2 rfl)
      have hr : IsRun mem (p + 1) k := by
        refine ⟨by omega, ?_⟩
        intro i hi
        have := h.2 (i + 1) (by omega)
        have e1 : p + (i + 1) = p + 1 + i := by omega
        rw [e1] at this
        rw [this]; omega
      simp only [hl]
      rw [scanToLast_of_isRun k fuel (p + 1) hr (by omega)]
      simp; omega

theorem IsRun.unique {mem : Nat → TileElement} {p k1 k2 : Nat}
    (h1 : IsRun mem p k1) (h2 : IsRun mem p k2) : k1 = k2 := by
  rcases Nat.lt_trichotomy k1 k2 with h | h | h
  · have a := (h1.2 (k1 - 1) (by have := h1.1; omega)).2 (by have := h1.1; omega)
    have b := (h2.2 (k1 - 1) (by omega)).1 a
    have := h1.1
    omega
  · exact h
  · have a := (h2.2 (k2 - 1) (by have := h2.1; omega)).2 (by have := h2.1; omega)
    have b := (h1.2 (k2 - 1) (by omega)).1 a
    have := h2.1
    omega

theorem IsRun.transport {mem mem2 : Nat → TileElement} {p p2 k : Nat}
    (h : IsRun mem p k) (hm : ∀ i, i < k → mem2 (p2 + i) = mem (p + i)) : IsRun mem2 p2 k :=
  ⟨h.1, fun i hi => by rw [hm i hi]; exact h.2 i hi⟩

theorem forLoop_zero {σ : Type} (body : Nat → σ → Option σ) (st : σ) :
    forLoop 0 body st = some st := by
  simp [forLoop]

theorem forLoop_succ {σ : Type} (n : Nat) (body : Nat → σ → Option σ) (st : σ) :
    forLoop (n + 1) body st = (forLoop n body st).bind (body n) := by
  unfold forLoop
  rw [List.range_succ, List.foldlM_append]
  simp [List.foldlM]

theorem forLoop_congr {σ : Type} (n : Nat) (f g : Nat → σ → Option σ)
    (h : ∀ i, i < n → ∀ st, f i st = g i st) (st : σ) : forLoop n f st = forLoop n g st := by
  induction n with
  | zero => simp [forLoop_zero]
  | succ n ih =>
    rw [forLoop_succ, forLoop_succ, ih (fun i hi => h i (by omega))]
    cases forLoop n g st with
    | none => rfl
    | some a => simp [h n (by omega)]

theorem forLoop_add {σ : Type} (a b : Nat) (f : Nat → σ → Option σ) (st : σ) :
    forLoop (a + b) f st = (forLoop a f st).bind (forLoop b (fun i => f (a + i))) := by
  induction b with
  | zero =>
    simp only [Nat.add_zero]
    cases forLoop a f st <;> simp [forLoop_zero]
  | succ b ih =>
    rw [← Nat.add_assoc, forLoop_succ, ih]
    cases forLoop a f st with
    | none => rfl
    | some x => simp [forLoop_succ]

theorem forLoop_nested {σ : Type} (n m : Nat) (body : Nat → Nat → σ → Option σ) (st : σ) :
    forLoop n (fun y => forLoop m (body y)) st
      = forLoop (n * m) (fun t => body (t / m) (t % m)) st := by
  induction n with
  | zero => simp [forLoop_zero]
  | succ n ih =>
    rw [forLoop_succ, ih, Nat.succ_mul, forLoop_add]
    cases forLoop (n * m) (fun t => body (t / m) (t % m)) st with
    | none => rfl
    | some x =>
      simp only [Option.some_bind]
      apply forLoop_congr
      intro i hi st2
      have hm : 0 < m := by omega
      have e1 : (n * m + i) / m = n := by
        rw [Nat.mul_comm, Nat.mul_add_div hm, Nat.div_eq_of_lt hi]; rfl
      have e2 : (n * m + i) % m = i := by
        rw [Nat.mul_comm, Nat.mul_add_mod, Nat.mod_eq_of_lt hi]
      rw [e1, e2]

theorem prefixSum_zero (len : Nat → Nat) : prefixSum len 0 = 0 := by simp [prefixSum]

theorem prefixSum_succ (len : Nat → Nat) (t : Nat) :
    prefixSum len (t + 1) = prefixSum len t + len t := by
  simp [prefixSum, List.range_succ]

theorem prefixSum_mono (len : Nat → Nat) {a b : Nat} (h : a ≤ b) :
    prefixSum len a ≤ prefixSum len b := by
  induction b with
  | zero => have : a = 0 := by omega
            subst this; exact Nat.le_refl _
  | succ b ih =>
    rcases Nat.eq_or_lt_of_le h with h1 | h1
    · subst h1; exact Nat.le_refl _
    · have := ih (by omega)
      rw [prefixSum_succ]; omega

theorem prefixSum_congr (len len2 : Nat → Nat) (n : Nat) (h : ∀ t, t < n → len t = len2 t) :
    prefixSum len n = prefixSum len2 n := by
  induction n with
  | zero => simp [prefixSum_zero]
  | succ n ih => rw [prefixSum_succ, prefixSum_succ, ih (fun t ht => h t (by omega)), h n (by omega)]

theorem readRun_length (mem : Nat → TileElement) (p k : Nat) : (readRun mem p k).length = k := by
  simp [readRun]

theorem readRun_getD (mem : Nat → TileElement) (p k i : Nat) (d : TileElement) (h : i < k) :
    (readRun mem p k).getD i d = mem (p + i) := by
  simp [readRun, List.getD_eq_getElem?_getD, List.getElem?_map, List.getElem?_range h]

theorem concatRuns_length (mem : Nat → TileElement) (ptr len : Nat → Nat) (n : Nat) :
    (concatRuns mem ptr len n).length = prefixSum len n := by
  induction n with
  | zero => simp [concatRuns, prefixSum_zero]
  | succ n ih => simp [concatRuns, prefixSum_succ, ih, readRun_length]

theorem concatRuns_getD (mem : Nat → TileElement) (ptr len : Nat → Nat) (d : TileElement) :
    ∀ (n t i : Nat), t < n → i < len t →
      (concatRuns mem ptr len n).getD (prefixSum len t + i) d = mem (ptr t + i)
  | 0, t, i, ht, _ => by omega
  | n + 1, t, i, ht, hi => by
    simp only [concatRuns]
    rcases Nat.eq_or_lt_of_le (Nat.le_of_lt_succ ht) with h | h
    · subst h
      rw [List.getD_append_right _ _ _ _ (by rw [concatRuns_length]; omega), concatRuns_length]
      have : prefixSum len t + i - prefixSum len t = i := by omega
      rw [this, readRun_getD _ _ _ _ _ hi]
    · have hlt : prefixSum len t + i < (concatRuns mem ptr len n).length := by
        rw [concatRuns_length]
        have := prefixSum_mono len (show t + 1 ≤ n by omega)
        rw [prefixSum_succ] at this
        omega
      rw [List.getD_append _ _ _ _ hlt]
      exact concatRuns_getD mem ptr len d n t i h hi

theorem concatRuns_congr (mem mem2 : Nat → TileElement) (ptr ptr2 len : Nat → Nat) :
    ∀ (n : Nat), (∀ t, t < n → ∀ i, i < len t → mem2 (ptr2 t + i) = mem (ptr t + i)) →
      concatRuns mem2 ptr2 len n = concatRuns mem ptr len n
  | 0, _ => rfl
  | n + 1, h => by
    simp only [concatRuns]
    rw [concatRuns_congr mem mem2 ptr ptr2 len n (fun t ht => h t (by omega))]
    congr 1
    apply List.ext_getElem
    · simp [readRun_length]
    · intro i h1 h2
      simp only [readRun_length] at h1
      simp [readRun, h n (by omega) i h1]

/-! ## Defragmentation -/

theorem first_element_at_flat (cfg : Config) (s : Store) (t : Nat)
    (ht : t < cfg.MAXIMUM_MAP_SIZE_TECHNICAL * cfg.MAXIMUM_MAP_SIZE_TECHNICAL) :
    map_get_first_element_at cfg s ((t % cfg.MAXIMUM_MAP_SIZE_TECHNICAL : Nat) : Int)
        ((t / cfg.MAXIMUM_MAP_SIZE_TECHNICAL : Nat) : Int)
      = some (s.gTileElementTilePointers t) := by
  have hN : 0 < cfg.MAXIMUM_MAP_SIZE_TECHNICAL := by
    rcases Nat.eq_zero_or_pos cfg.MAXIMUM_MAP_SIZE_TECHNICAL with h | h
    · rw [h] at ht; omega
    · exact h
  have hx : t % cfg.MAXIMUM_MAP_SIZE_TECHNICAL < cfg.MAXIMUM_MAP_SIZE_TECHNICAL :=
    Nat.mod_lt _ hN
  have hy : t / cfg.MAXIMUM_MAP_SIZE_TECHNICAL < cfg.MAXIMUM_MAP_SIZE_TECHNICAL :=
    Nat.div_lt_of_lt_mul ht
  have hidx : (((t % cfg.MAXIMUM_MAP_SIZE_TECHNICAL : Nat) : Int)
      + ((t / cfg.MAXIMUM_MAP_SIZE_TECHNICAL : Nat) : Int) * (cfg.MAXIMUM_MAP_SIZE_TECHNICAL : Int)).toNat
      = t := by
    have h := Nat.mod_add_div t cfg.MAXIMUM_MAP_SIZE_TECHNICAL
    have h2 : (((t % cfg.MAXIMUM_MAP_SIZE_TECHNICAL : Nat) : Int)
      + ((t / cfg.MAXIMUM_MAP_SIZE_TECHNICAL : Nat) : Int) * (cfg.MAXIMUM_MAP_SIZE_TECHNICAL : Int))
      = ((t : Nat) : Int) := by
      rw [Int.mul_comm]
      exact_mod_cast h
    rw [h2, Int.toNat_natCast]
  unfold map_get_first_element_at
  rw [hidx]
  generalize t % cfg.MAXIMUM_MAP_SIZE_TECHNICAL = x at hx
  generalize t / cfg.MAXIMUM_MAP_SIZE_TECHNICAL = y at hy
  rw [if_neg (by omega)]

theorem reorganise_loop (cfg : Config) (s : Store) (len : Nat → Nat) :
    ∀ n : Nat, n ≤ cfg.MAXIMUM_MAP_SIZE_TECHNICAL * cfg.MAXIMUM_MAP_SIZE_TECHNICAL →
      (∀ t, t < n → IsRun s.gTileElements (s.gTileElementTilePointers t) (len t)
          ∧ s.gTileElementTilePointers t + len t ≤ arraySize cfg) →
      prefixSum len n ≤ arraySize cfg →
      forLoop n (fun t => map_reorganise_elements_body cfg s
          (t / cfg.MAXIMUM_MAP_SIZE_TECHNICAL) (t % cfg.MAXIMUM_MAP_SIZE_TECHNICAL)) []
        = some (concatRuns s.gTileElements s.gTileElementTilePointers len n)
  | 0, _, _, _ => by simp [forLoop_zero, concatRuns]
  | n + 1, hn, H, hsum => by
    have hs := prefixSum_succ len n
    rw [forLoop_succ, reorganise_loop cfg s len n (by omega) (fun t ht => H t (by omega)) (by omega)]
    simp only [Option.some_bind, map_reorganise_elements_body]
    rw [first_element_at_flat cfg s n (by omega)]
    obtain ⟨hr, hb⟩ := H n (by omega)
    simp only [Option.some_bind]
    rw [scanToLast_of_isRun (len n) _ _ hr (by omega)]
    simp only [Option.some_bind, concatRuns_length]
    have e1 : s.gTileElementTilePointers n + len n - s.gTileElementTilePointers n = len n := by omega
    rw [e1, if_pos (by omega)]
    rfl

theorem update_pointers_loop (cfg : Config) (mem : Nat → TileElement) (len : Nat → Nat)
    (tbl : Nat → Nat) :
    ∀ n : Nat, (∀ t, t < n → IsRun mem (prefixSum len t) (len t)) →
      prefixSum len n ≤ arraySize cfg →
      forLoop n (fun _ => map_update_tile_pointers_body cfg mem) ⟨tbl, 0, 0⟩
        = some ⟨fun u => if u < n then prefixSum len u else tbl u, n, prefixSum len n⟩
  | 0, _, _ => by simp [forLoop_zero, prefixSum_zero]
  | n + 1, H, hsum => by
    have hs := prefixSum_succ len n
    rw [forLoop_succ, update_pointers_loop cfg mem len tbl n (fun t ht => H t (by omega)) (by omega)]
    simp only [Option.some_bind, map_update_tile_pointers_body]
    rw [scanToLast_of_isRun (len n) (arraySize cfg - prefixSum len n) (prefixSum len n)
      (H n (by omega)) (by omega)]
    simp only [Option.map_some', Option.some.injEq, TilePointerCursor.mk.injEq, and_true]
    refine ⟨?_, trivial, by omega⟩
    funext u
    by_cases h : u = n
    · subst h; simp
    · rw [Function.update_noteq h]
      by_cases h2 : u < n
      · simp [h2, show u < n + 1 by omega]
      · simp [h2, show ¬ u < n + 1 by omega]

theorem compacted_mem (cfg : Config) (s : Store) (len : Nat → Nat) (t i : Nat)
    (ht : t < MAX_TILE_TILE_ELEMENT_POINTERS cfg) (hi : i < len t) :
    (compacted cfg s len).gTileElements (prefixSum len t + i)
      = s.gTileElements (s.gTileElementTilePointers t + i) := by
  have hlt : prefixSum len t + i
      < (concatRuns s.gTileElements s.gTileElementTilePointers len
          (MAX_TILE_TILE_ELEMENT_POINTERS cfg)).length := by
    rw [concatRuns_length]
    have := prefixSum_mono len (show t + 1 ≤ MAX_TILE_TILE_ELEMENT_POINTERS cfg by omega)
    rw [prefixSum_succ] at this
    omega
  simp only [compacted]
  rw [if_pos hlt]
  exact concatRuns_getD _ _ _ _ _ t i ht hi

theorem reorganise_closed (cfg : Config) (s : Store) (len : Nat → Nat)
    (H : ∀ t, t < MAX_TILE_TILE_ELEMENT_POINTERS cfg →
      IsRun s.gTileElements (s.gTileElementTilePointers t) (len t)
        ∧ s.gTileElementTilePointers t + len t ≤ arraySize cfg)
    (hsum : prefixSum len (MAX_TILE_TILE_ELEMENT_POINTERS cfg) ≤ arraySize cfg) :
    map_reorganise_elements cfg true s = some (compacted cfg s len) := by
  have hcm := compacted_mem cfg s len
  unfold map_reorganise_elements
  simp only [if_true]
  rw [forLoop_nested]
  have hl := reorganise_loop cfg { s with reorganiseCalls := s.reorganiseCalls + 1 } len
    (MAX_TILE_TILE_ELEMENT_POINTERS cfg) (Nat.le_refl _) H hsum
  unfold MAX_TILE_TILE_ELEMENT_POINTERS at hl
  rw [hl]
  simp only [Option.some_bind]
  unfold map_update_tile_pointers
  rw [forLoop_nested]
  have hu := update_pointers_loop cfg (compacted cfg s len).gTileElements len
    s.gTileElementTilePointers (MAX_TILE_TILE_ELEMENT_POINTERS cfg)
    (fun t ht => (H t ht).1.transport (fun i hi => hcm t i ht hi)) hsum
  simp only [compacted, MAX_TILE_TILE_ELEMENT_POINTERS] at hu ⊢
  rw [hu]
  rfl

theorem prefixSum_eq_sum (len : Nat → Nat) (n : Nat) :
    prefixSum len n = ∑ t in Finset.range n, len t := by
  induction n with
  | zero => simp [prefixSum_zero]
  | succ n ih => rw [prefixSum_succ, Finset.sum_range_succ, ih]

theorem disjoint_sum_le (ptr len : Nat → Nat) (n B : Nat)
    (hb : ∀ t, t < n → ptr t + len t ≤ B)
    (hd : ∀ t1, t1 < n → ∀ t2, t2 < n → t1 ≠ t2 →
      ptr t1 + len t1 ≤ ptr t2 ∨ ptr t2 + len t2 ≤ ptr t1) :
    prefixSum len n ≤ B := by
  rw [prefixSum_eq_sum]
  have h1 : ((Finset.range n).biUnion (fun t => Finset.Ico (ptr t) (ptr t + len t))).card
      = ∑ t in Finset.range n, len t := by
    rw [Finset.card_biUnion]
    · apply Finset.sum_congr rfl
      intro t _
      simp
    · intro a ha b hb2 hab
      rw [Finset.disjoint_left]
      intro x hx hx2
      rw [Finset.mem_Ico] at hx hx2
      rw [Finset.mem_range] at ha hb2
      rcases hd a ha b hb2 hab with h | h <;> omega
  have h2 : (Finset.range n).biUnion (fun t => Finset.Ico (ptr t) (ptr t + len t))
      ⊆ Finset.range B := by
    apply Finset.biUnion_subset.mpr
    intro t ht x hx
    rw [Finset.mem_Ico] at hx
    rw [Finset.mem_range] at ht ⊢
    have := hb t ht
    omega
  have h3 := Finset.card_le_card h2
  rw [h1, Finset.card_range] at h3
  exact h3

theorem tileRun_of_isRun (cfg : Config) (s : Store) (t k : Nat)
    (hr : IsRun s.gTileElements (s.gTileElementTilePointers t) k)
    (hb : s.gTileElementTilePointers t + k ≤ arraySize cfg) :
    tileRunEnd cfg s t = some (s.gTileElementTilePointers t + k)
      ∧ tileRunLength cfg s t = k
      ∧ tileRun cfg s t = some (readRun s.gTileElements (s.gTileElementTilePointers t) k) := by
  have h1 : tileRunEnd cfg s t = some (s.gTileElementTilePointers t + k) := by
    unfold tileRunEnd
    exact scanToLast_of_isRun k _ _ hr (by omega)
  refine ⟨h1, ?_, ?_⟩
  · unfold tileRunLength
    rw [h1]
    simp
  · unfold tileRun
    rw [h1]
    simp

theorem WellFormed.run {cfg : Config} {s : Store} (h : WellFormed cfg s) (t : Nat)
    (ht : t < MAX_TILE_TILE_ELEMENT_POINTERS cfg) :
    IsRun s.gTileElements (s.gTileElementTilePointers t) (tileRunLength cfg s t)
      ∧ s.gTileElementTilePointers t + tileRunLength cfg s t ≤ s.gNextFreeTileElement := by
  obtain ⟨k, _, hr, hb⟩ := h.1.1 t ht
  have := (tileRun_of_isRun cfg s t k hr (by have := h.2; omega)).2.1
  rw [this]
  exact ⟨hr, hb⟩

theorem WellFormed.tileRun_eq {cfg : Config} {s : Store} (h : WellFormed cfg s) (t : Nat)
    (ht : t < MAX_TILE_TILE_ELEMENT_POINTERS cfg) :
    tileRun cfg s t
      = some (readRun s.gTileElements (s.gTileElementTilePointers t) (tileRunLength cfg s t)) := by
  obtain ⟨hr, hb⟩ := h.run t ht
  exact (tileRun_of_isRun cfg s t _ hr (by have := h.2; omega)).2.2

theorem WellFormed.disjoint {cfg : Config} {s : Store} (h : WellFormed cfg s) (t1 t2 : Nat)
    (h1 : t1 < MAX_TILE_TILE_ELEMENT_POINTERS cfg) (h2 : t2 < MAX_TILE_TILE_ELEMENT_POINTERS cfg)
    (hne : t1 ≠ t2) :
    s.gTileElementTilePointers t1 + tileRunLength cfg s t1 ≤ s.gTileElementTilePointers t2
      ∨ s.gTileElementTilePointers t2 + tileRunLength cfg s t2 ≤ s.gTileElementTilePointers t1 := by
  obtain ⟨hr1, hb1⟩ := h.run t1 h1
  obtain ⟨hr2, hb2⟩ := h.run t2 h2
  exact h.1.2 t1 h1 t2 h2 hne _ (by omega) _ (by omega) hr1 hr2

theorem WellFormed.sum_le {cfg : Config} {s : Store} (h : WellFormed cfg s) :
    prefixSum (tileRunLength cfg s) (MAX_TILE_TILE_ELEMENT_POINTERS cfg)
      ≤ s.gNextFreeTileElement :=
  disjoint_sum_le s.gTileElementTilePointers (tileRunLength cfg s) _ _
    (fun t ht => (h.run t ht).2) (fun t1 h1 t2 h2 hne => h.disjoint t1 t2 h1 h2 hne)

/-- A store whose runs are described by `len` satisfies the invariant. -/
theorem wellFormed_of_runs (cfg : Config) (s : Store) (len : Nat → Nat)
    (hr : ∀ t, t < MAX_TILE_TILE_ELEMENT_POINTERS cfg →
      IsRun s.gTileElements (s.gTileElementTilePointers t) (len t)
        ∧ s.gTileElementTilePointers t + len t ≤ s.gNextFreeTileElement)
    (hd : ∀ t1, t1 < MAX_TILE_TILE_ELEMENT_POINTERS cfg →
      ∀ t2, t2 < MAX_TILE_TILE_ELEMENT_POINTERS cfg → t1 ≠ t2 →
        s.gTileElementTilePointers t1 + len t1 ≤ s.gTileElementTilePointers t2
          ∨ s.gTileElementTilePointers t2 + len t2 ≤ s.gTileElementTilePointers t1)
    (hn : s.gNextFreeTileElement ≤ arraySize cfg) : WellFormed cfg s := by
  refine ⟨⟨?_, ?_⟩, hn⟩
  · intro t ht
    obtain ⟨h1, h2⟩ := hr t ht
    exact ⟨len t, by omega, h1, h2⟩
  · intro t1 h1 t2 h2 hne k1 _ k2 _ r1 r2
    have e1 := IsRun.unique r1 (hr t1 h1).1
    have e2 := IsRun.unique r2 (hr t2 h2).1
    rw [e1, e2]
    exact hd t1 h1 t2 h2 hne

theorem compacted_isRun (cfg : Config) (s : Store) (len : Nat → Nat)
    (H : ∀ t, t < MAX_TILE_TILE_ELEMENT_POINTERS cfg →
      IsRun s.gTileElements (s.gTileElementTilePointers t) (len t))
    (t : Nat) (ht : t < MAX_TILE_TILE_ELEMENT_POINTERS cfg) :
    IsRun (compacted cfg s len).gTileElements ((compacted cfg s len).gTileElementTilePointers t)
        (len t)
      ∧ (compacted cfg s len).gTileElementTilePointers t = prefixSum len t
      ∧ prefixSum len t + len t ≤ prefixSum len (MAX_TILE_TILE_ELEMENT_POINTERS cfg) := by
  have hp : (compacted cfg s len).gTileElementTilePointers t = prefixSum len t := by
    simp [compacted, ht]
  have hm := prefixSum_mono len (show t + 1 ≤ MAX_TILE_TILE_ELEMENT_POINTERS cfg by omega)
  rw [prefixSum_succ] at hm
  refine ⟨?_, hp, hm⟩
  rw [hp]
  exact (H t ht).transport (fun i hi => compacted_mem cfg s len t i ht hi)

theorem compacted_wellFormed (cfg : Config) (s : Store) (len : Nat → Nat)
    (H : ∀ t, t < MAX_TILE_TILE_ELEMENT_POINTERS cfg →
      IsRun s.gTileElements (s.gTileElementTilePointers t) (len t))
    (hsum : prefixSum len (MAX_TILE_TILE_ELEMENT_POINTERS cfg) ≤ arraySize cfg) :
    WellFormed cfg (compacted cfg s len) := by
  apply wellFormed_of_runs cfg _ len
  · intro t ht
    obtain ⟨h1, h2, h3⟩ := compacted_isRun cfg s len H t ht
    refine ⟨h1, ?_⟩
    rw [h2]
    exact h3
  · intro t1 h1 t2 h2 hne
    obtain ⟨_, p1, _⟩ := compacted_isRun cfg s len H t1 h1
    obtain ⟨_, p2, _⟩ := compacted_isRun cfg s len H t2 h2
    rw [p1, p2]
    rcases Nat.lt_or_gt_of_ne hne with h | h
    · left
      have := prefixSum_mono len (show t1 + 1 ≤ t2 by omega)
      rw [prefixSum_succ] at this
      exact this
    · right
      have := prefixSum_mono len (show t2 + 1 ≤ t1 by omega)
      rw [prefixSum_succ] at this
      exact this
  · exact hsum

theorem compacted_tileRun (cfg : Config) (s : Store) (len : Nat → Nat)
    (H : ∀ t, t < MAX_TILE_TILE_ELEMENT_POINTERS cfg →
      IsRun s.gTileElements (s.gTileElementTilePointers t) (len t)
        ∧ s.gTileElementTilePointers t + len t ≤ arraySize cfg)
    (hsum : prefixSum len (MAX_TILE_TILE_ELEMENT_POINTERS cfg) ≤ arraySize cfg)
    (t : Nat) (ht : t < MAX_TILE_TILE_ELEMENT_POINTERS cfg) :
    tileRun cfg (compacted cfg s len) t = tileRun cfg s t
      ∧ tileRunLength cfg (compacted cfg s len) t = len t
      ∧ tileRunLength cfg s t = len t := by
  obtain ⟨h1, h2, h3⟩ := compacted_isRun cfg s len (fun t ht => (H t ht).1) t ht
  have a := tileRun_of_isRun cfg (compacted cfg s len) t (len t) h1 (by rw [h2]; omega)
  have b := tileRun_of_isRun cfg s t (len t) (H t ht).1 (H t ht).2
  refine ⟨?_, a.2.1, b.2.1⟩
  rw [a.2.2, b.2.2, h2]
  congr 1
  apply List.ext_getElem
  · simp [readRun_length]
  · intro i hi1 _
    simp only [readRun_length] at hi1
    simp [readRun, compacted_mem cfg s len t i ht hi1]

theorem WellFormed.reorganise {cfg : Config} {s : Store} (h : WellFormed cfg s) :
    map_reorganise_elements cfg true s = some (compacted cfg s (tileRunLength cfg s)) :=
  reorganise_closed cfg s _
    (fun t ht => ⟨(h.run t ht).1, by have := (h.run t ht).2; have := h.2; omega⟩)
    (by have := h.sum_le; have := h.2; omega)

theorem compacted_idem (cfg : Config) (s : Store) (len : Nat → Nat)
    (H : ∀ t, t < MAX_TILE_TILE_ELEMENT_POINTERS cfg →
      IsRun s.gTileElements (s.gTileElementTilePointers t) (len t)) :
    (compacted cfg (compacted cfg s len) len).gTileElements = (compacted cfg s len).gTileElements
      ∧ (compacted cfg (compacted cfg s len) len).gTileElementTilePointers
          = (compacted cfg s len).gTileElementTilePointers
      ∧ (compacted cfg (compacted cfg s len) len).gNextFreeTileElement
          = (compacted cfg s len).gNextFreeTileElement := by
  have hc : concatRuns (compacted cfg s len).gTileElements
      (compacted cfg s len).gTileElementTilePointers len (MAX_TILE_TILE_ELEMENT_POINTERS cfg)
      = concatRuns s.gTileElements s.gTileElementTilePointers len
          (MAX_TILE_TILE_ELEMENT_POINTERS cfg) := by
    apply concatRuns_congr
    intro t ht i hi
    rw [(compacted_isRun cfg s len H t ht).2.1]
    exact compacted_mem cfg s len t i ht hi
  have hlen := concatRuns_length s.gTileElements s.gTileElementTilePointers len
    (MAX_TILE_TILE_ELEMENT_POINTERS cfg)
  refine ⟨?_, ?_, rfl⟩
  · funext i
    show (if i < (concatRuns (compacted cfg s len).gTileElements
        (compacted cfg s len).gTileElementTilePointers len
        (MAX_TILE_TILE_ELEMENT_POINTERS cfg)).length then _ else _) = _
    rw [hc]
    simp only [compacted]
    by_cases h1 : i < (concatRuns s.gTileElements s.gTileElementTilePointers len
        (MAX_TILE_TILE_ELEMENT_POINTERS cfg)).length
    · simp only [h1, if_true]
    · simp only [h1, if_false]
      by_cases h2 : i < arraySize cfg
      · simp only [h2, if_true]
      · simp only [h2, if_false]
  · funext u
    simp only [compacted]
    by_cases h1 : u < MAX_TILE_TILE_ELEMENT_POINTERS cfg
    · simp only [h1, if_true]
    · simp only [h1, if_false]

/-! ## Insertion -/

theorem isLast_iff (e : TileElement) :
    e.IsLastForTile = true ↔ e.flags.val &&& TILE_ELEMENT_FLAG_LAST_TILE ≠ 0 := by
  simp [TileElement.IsLastForTile]

theorem IsRun.tail {mem : Nat → TileElement} {p r : Nat} (h : IsRun mem p (r + 1)) (hr : 0 < r) :
    IsRun mem (p + 1) r :=
  ⟨hr, fun i hi => by
    have := h.2 (i + 1) (by omega)
    rw [show p + (i + 1) = p + 1 + i by omega] at this
    rw [this]; omega⟩

theorem IsRun.head {mem : Nat → TileElement} {p r : Nat} (h : IsRun mem p r) :
    (mem p).IsLastForTile = true ↔ r = 1 := by
  have := h.2 0 h.1
  rw [Nat.add_zero] at this
  rw [this]; omega

theorem insert_below_spec (cfg : Config) (z : Int) :
    ∀ (r fuel : Nat) (c : InsertCursor),
      IsRun c.mem c.originalTileElement r →
      c.originalTileElement + r ≤ c.newTileElement →
      c.newTileElement + r ≤ arraySize cfg →
      r < fuel →
      ∃ (m : Nat) (c1 : InsertCursor),
        tile_element_insert_below cfg z fuel c = some c1 ∧ m ≤ r ∧
        c1.originalTileElement = c.originalTileElement + m ∧
        c1.newTileElement = c.newTileElement + m ∧
        c1.flags = (if m = r then c.flags ||| TILE_ELEMENT_FLAG_LAST_TILE else c.flags) ∧
        (∀ i, i < m → ((c.mem (c.originalTileElement + i)).base_height.val : Int) ≤ z) ∧
        (m < r → z < ((c.mem (c.originalTileElement + m)).base_height.val : Int)) ∧
        (∀ i, i < m → c1.mem (c.newTileElement + i)
          = if i + 1 = r then (c.mem (c.originalTileElement + i)).clearLast
            else c.mem (c.originalTileElement + i)) ∧
        (∀ i, i < m → c1.mem (c.originalTileElement + i)
          = (c.mem (c.originalTileElement + i)).invalidate) ∧
        (∀ x, (x < c.originalTileElement ∨ c.originalTileElement + m ≤ x) →
          (x < c.newTileElement ∨ c.newTileElement + m ≤ x) → c1.mem x = c.mem x)
  | 0, _, _, h, _, _, _ => absurd h.1 (by omega)
  | r + 1, 0, _, _, _, _, hf => absurd hf (by omega)
  | r + 1, fuel + 1, c, hrun, hsep, hspace, hf => by
    have hne : c.newTileElement ≠ c.originalTileElement := by omega
    have horig : Function.update c.mem c.newTileElement (c.mem c.originalTileElement)
        c.originalTileElement = c.mem c.originalTileElement :=
      Function.update_noteq (Ne.symm hne) _ _
    have hcopied : Function.update
        (Function.update c.mem c.newTileElement (c.mem c.originalTileElement))
        c.originalTileElement (c.mem c.originalTileElement).invalidate c.newTileElement
        = c.mem c.originalTileElement := by
      rw [Function.update_noteq hne, Function.update_same]
    have hmem2 : ∀ x, x ≠ c.newTileElement → x ≠ c.originalTileElement →
        Function.update
          (Function.update c.mem c.newTileElement (c.mem c.originalTileElement))
          c.originalTileElement (c.mem c.originalTileElement).invalidate x = c.mem x := by
      intro x h1 h2
      rw [Function.update_noteq h2, Function.update_noteq h1]
    unfold tile_element_insert_below
    rw [if_pos (by omega)]
    by_cases hz : z ≥ ((c.mem c.originalTileElement).base_height.val : Int)
    · rw [if_pos hz, if_pos (by omega)]
      simp only [horig, hcopied]
      by_cases hl : (c.mem c.originalTileElement).IsLastForTile = true
      · have hr1 : r = 0 := by have := hrun.head.1 hl; omega
        subst hr1
        rw [if_pos ((isLast_iff _).1 hl)]
        refine ⟨1, _, rfl, by omega, rfl, rfl, by simp, ?_, by omega, ?_, ?_, ?_⟩
        · intro i hi
          have : i = 0 := by omega
          subst this
          simpa using hz
        · intro i hi
          have : i = 0 := by omega
          subst this
          simp
        · intro i hi
          have : i = 0 := by omega
          subst this
          simp only [Nat.add_zero]
          rw [Function.update_noteq (Ne.symm hne), Function.update_same]
        · intro x h1 h2
          simp only []
          rw [Function.update_noteq (by omega), hmem2 x (by omega) (by omega)]
      · have hr1 : 0 < r := by
          rcases Nat.eq_zero_or_pos r with h0 | h0
          · exact absurd (hrun.head.2 (by omega)) hl
          · exact h0
        rw [if_neg (fun h => hl ((isLast_iff _).2 h))]
        obtain ⟨m, c1, hres, hm, ho, hn, hfl, hle, hgt, hcopy, hinv, hframe⟩ :=
          insert_below_spec cfg z r fuel
            { mem := Function.update
                (Function.update c.mem c.newTileElement (c.mem c.originalTileElement))
                c.originalTileElement (c.mem c.originalTileElement).invalidate
              originalTileElement := c.originalTileElement + 1
              newTileElement := c.newTileElement + 1
              flags := c.flags }
            ((hrun.tail hr1).transport
              (fun i hi => hmem2 (c.originalTileElement + 1 + i) (by omega) (by omega)))
            (by simp only []; omega) (by simp only []; omega) (by omega)
        simp only [] at ho hn hfl hle hgt hcopy hinv hframe
        refine ⟨m + 1, c1, hres, by omega, by omega, by omega, ?_, ?_, ?_, ?_, ?_, ?_⟩
        · rw [hfl]
          by_cases h : m = r
          · simp [h]
          · simp [h]
        · intro i hi
          rcases Nat.eq_zero_or_pos i with h0 | h0
          · subst h0; simpa using hz
          · have := hle (i - 1) (by omega)
            rw [show c.originalTileElement + 1 + (i - 1) = c.originalTileElement + i by omega,
              hmem2 _ (by omega) (by omega)] at this
            exact this
        · intro h
          have := hgt (by omega)
          rw [hmem2 _ (by omega) (by omega)] at this
          rw [show c.originalTileElement + (m + 1) = c.originalTileElement + 1 + m by omega]
          exact this
        · intro i hi
          rcases Nat.eq_zero_or_pos i with h0 | h0
          · subst h0
            rw [if_neg (by omega)]
            simp only [Nat.add_zero]
            rw [hframe _ (Or.inr (by omega)) (Or.inl (by omega)), hcopied]
          · have := hcopy (i - 1) (by omega)
            rw [show c.newTileElement + 1 + (i - 1) = c.newTileElement + i by omega,
              show c.originalTileElement + 1 + (i - 1) = c.originalTileElement + i by omega,
              hmem2 _ (by omega) (by omega),
              show i - 1 + 1 = i by omega] at this
            rw [this]
            by_cases h : i = r
            · rw [if_pos h, if_pos (by omega)]
            · rw [if_neg h, if_neg (by omega)]
        · intro i hi
          rcases Nat.eq_zero_or_pos i with h0 | h0
          · subst h0
            simp only [Nat.add_zero]
            rw [hframe _ (Or.inl (by omega)) (Or.inl (by omega)), Function.update_same]
          · have := hinv (i - 1) (by omega)
            rw [show c.originalTileElement + 1 + (i - 1) = c.originalTileElement + i by omega,
              hmem2 _ (by omega) (by omega)] at this
            exact this
        · intro x h1 h2
          rw [hframe x (by omega) (by omega), hmem2 x (by omega) (by omega)]
    · rw [if_neg hz]
      refine ⟨0, c, rfl, by omega, rfl, rfl, by simp, ?_, ?_, ?_, ?_, ?_⟩
      · intro i hi; omega
      · intro _; simpa using hz
      · intro i hi; omega
      · intro i hi; omega
      · intro x _ _; rfl

theorem insert_above_spec (cfg : Config) :
    ∀ (r fuel : Nat) (c : InsertCursor),
      IsRun c.mem c.originalTileElement r →
      c.originalTileElement + r ≤ c.newTileElement →
      c.newTileElement + r ≤ arraySize cfg →
      r ≤ fuel →
      ∃ (c1 : InsertCursor),
        tile_element_insert_above cfg fuel c = some c1 ∧
        c1.originalTileElement = c.originalTileElement + r ∧
        c1.newTileElement = c.newTileElement + r ∧
        c1.flags = c.flags ∧
        (∀ i, i < r → c1.mem (c.newTileElement + i) = c.mem (c.originalTileElement + i)) ∧
        (∀ i, i < r → c1.mem (c.originalTileElement + i)
          = (c.mem (c.originalTileElement + i)).invalidate) ∧
        (∀ x, (x < c.originalTileElement ∨ c.originalTileElement + r ≤ x) →
          (x < c.newTileElement ∨ c.newTileElement + r ≤ x) → c1.mem x = c.mem x)
  | 0, _, _, h, _, _, _ => absurd h.1 (by omega)
  | r + 1, 0, _, _, _, _, hf => absurd hf (by omega)
  | r + 1, fuel + 1, c, hrun, hsep, hspace, hf => by
    have hne : c.newTileElement ≠ c.originalTileElement := by omega
    have horig : Function.update c.mem c.newTileElement (c.mem c.originalTileElement)
        c.originalTileElement = c.mem c.originalTileElement :=
      Function.update_noteq (Ne.symm hne) _ _
    have hcopied : Function.update
        (Function.update c.mem c.newTileElement (c.mem c.originalTileElement))
        c.originalTileElement (c.mem c.originalTileElement).invalidate c.newTileElement
        = c.mem c.originalTileElement := by
      rw [Function.update_noteq hne, Function.update_same]
    have hmem2 : ∀ x, x ≠ c.newTileElement → x ≠ c.originalTileElement →
        Function.update
          (Function.update c.mem c.newTileElement (c.mem c.originalTileElement))
          c.originalTileElement (c.mem c.originalTileElement).invalidate x = c.mem x := by
      intro x h1 h2
      rw [Function.update_noteq h2, Function.update_noteq h1]
    unfold tile_element_insert_above
    rw [if_pos ⟨by omega, by omega⟩]
    simp only [horig, hcopied]
    by_cases hl : (c.mem c.originalTileElement).IsLastForTile = true
    · have hr1 : r = 0 := by have := hrun.head.1 hl; omega
      subst hr1
      rw [if_pos hl]
      refine ⟨_, rfl, rfl, rfl, rfl, ?_, ?_, ?_⟩
      · intro i hi
        have : i = 0 := by omega
        subst this
        simp only [Nat.add_zero]
        exact hcopied
      · intro i hi
        have : i = 0 := by omega
        subst this
        simp only [Nat.add_zero]
        rw [Function.update_same]
      · intro x h1 h2
        exact hmem2 x (by omega) (by omega)
    · have hr1 : 0 < r := by
        rcases Nat.eq_zero_or_pos r with h0 | h0
        · exact absurd (hrun.head.2 (by omega)) hl
        · exact h0
      rw [if_neg hl]
      obtain ⟨c1, hres, ho, hn, hfl, hcopy, hinv, hframe⟩ :=
        insert_above_spec cfg r fuel
          { mem := Function.update
              (Function.update c.mem c.newTileElement (c.mem c.originalTileElement))
              c.originalTileElement (c.mem c.originalTileElement).invalidate
            originalTileElement := c.originalTileElement + 1
            newTileElement := c.newTileElement + 1
            flags := c.flags }
          ((hrun.tail hr1).transport
              (fun i hi => hmem2 (c.originalTileElement + 1 + i) (by omega) (by omega)))
          (by simp only []; omega) (by simp only []; omega) (by omega)
      simp only [] at ho hn hfl hcopy hinv hframe
      refine ⟨c1, hres, by omega, by omega, hfl, ?_, ?_, ?_⟩
      · intro i hi
        rcases Nat.eq_zero_or_pos i with h0 | h0
        · subst h0
          simp only [Nat.add_zero]
          rw [hframe _ (Or.inr (by omega)) (Or.inl (by omega)), hcopied]
        · have := hcopy (i - 1) (by omega)
          rw [show c.newTileElement + 1 + (i - 1) = c.newTileElement + i by omega,
            show c.originalTileElement + 1 + (i - 1) = c.originalTileElement + i by omega,
            hmem2 _ (by omega) (by omega)] at this
          exact this
      · intro i hi
        rcases Nat.eq_zero_or_pos i with h0 | h0
        · subst h0
          simp only [Nat.add_zero]
          rw [hframe _ (Or.inl (by omega)) (Or.inl (by omega)), Function.update_same]
        · have := hinv (i - 1) (by omega)
          rw [show c.originalTileElement + 1 + (i - 1) = c.originalTileElement + i by omega,
            hmem2 _ (by omega) (by omega)] at this
          exact this
      · intro x h1 h2
        rw [hframe x (by omega) (by omega), hmem2 x (by omega) (by omega)]

theorem lor_flag_and (f : Nat) :
    (f ||| TILE_ELEMENT_FLAG_LAST_TILE) &&& TILE_ELEMENT_FLAG_LAST_TILE ≠ 0 := by
  have h : (f ||| TILE_ELEMENT_FLAG_LAST_TILE) &&& TILE_ELEMENT_FLAG_LAST_TILE
      = TILE_ELEMENT_FLAG_LAST_TILE := by
    apply Nat.eq_of_testBit_eq
    intro i
    simp only [Nat.testBit_and, Nat.testBit_or]
    cases Nat.testBit f i <;> simp
  rw [h]
  decide

theorem newElement_isLast (z : Int) (f : Nat) :
    (newElement z f).IsLastForTile = true ↔ f &&& TILE_ELEMENT_FLAG_LAST_TILE ≠ 0 := by
  rw [isLast_iff]
  have : (newElement z f).flags.val = f % 256 := rfl
  rw [this]
  have h := and_flag_mod f
  unfold TILE_ELEMENT_FLAG_LAST_TILE
  rw [h]

theorem clearLast_not_isLast (e : TileElement) : e.clearLast.IsLastForTile = false := by
  have := isLast_clear e.flags
  simp [TileElement.IsLastForTile, TileElement.clearLast, this]

theorem setLast_isLast (e : TileElement) : e.setLast.IsLastForTile = true := by
  have := isLast_set e.flags
  simp [TileElement.IsLastForTile, TileElement.setLast, this]

theorem setLast_of_isLast (e : TileElement) (h : e.IsLastForTile = true) : e.setLast = e := by
  have := set_of_isLast e.flags ((isLast_iff e).1 h)
  simp [TileElement.setLast, this]

theorem IsRun.drop {mem : Nat → TileElement} {p k m : Nat} (h : IsRun mem p k) (hm : m < k) :
    IsRun mem (p + m) (k - m) :=
  ⟨by omega, fun i hi => by
    have := h.2 (m + i) (by omega)
    rw [show p + (m + i) = p + m + i by omega] at this
    rw [this]; omega⟩

theorem IsRun.not_last {mem : Nat → TileElement} {p k i : Nat} (h : IsRun mem p k)
    (hi : i + 1 < k) : (mem (p + i)).IsLastForTile = false := by
  have := h.2 i (by omega)
  cases hl : (mem (p + i)).IsLastForTile
  · rfl
  · have := this.1 hl; omega

theorem IsRun.last {mem : Nat → TileElement} {p k : Nat} (h : IsRun mem p k) :
    (mem (p + (k - 1))).IsLastForTile = true :=
  (h.2 (k - 1) (by have := h.1; omega)).2 (by have := h.1; omega)

theorem insert_copy_spec (cfg : Config) (z : Int) (k : Nat) (c0 : InsertCursor)
    (hrun : IsRun c0.mem c0.originalTileElement k)
    (hsep : c0.originalTileElement + k ≤ c0.newTileElement)
    (hspace : c0.newTileElement + k + 1 ≤ arraySize cfg) :
    ∃ (m : Nat) (c3 : InsertCursor),
      tile_element_insert_copy cfg z c0 = some (c3, c0.newTileElement + m)
        ∧ InsertCopyResult c0 z k m c3 := by
  obtain ⟨m, c1, hres, hm, ho, hn, hfl, hle, hgt, hcopy, hinv, hframe⟩ :=
    insert_below_spec cfg z k (arraySize cfg + 1) c0 hrun hsep (by omega) (by omega)
  obtain ⟨mem1, o1, n1, f1⟩ := c1
  simp only [] at ho hn hfl hcopy hinv hframe
  subst ho hn
  unfold tile_element_insert_copy
  rw [hres]
  simp only [Option.some_bind]
  rw [if_pos (by omega)]
  by_cases hmk : m = k
  · -- every element lies below the insert height: the new element is the last one
    subst hmk
    rw [if_pos rfl] at hfl
    subst hfl
    rw [if_neg (lor_flag_and _)]
    refine ⟨m, _, rfl, hm, hle, hgt, ?_, ?_, ?_, ?_, ?_⟩
    · simp only []; rw [if_neg (by omega)]; omega
    · intro i hi
      simp only []
      rw [Function.update_noteq (by omega)]
      exact hcopy i hi
    · simp only []
      rw [Function.update_same]
      simp
    · intro _ i h1 h2; omega
    · intro x h1 h2
      simp only [] at h2 ⊢
      rw [Function.update_noteq (by omega)]
      exact hframe x h1 (by omega)
  · have hlt : m < k := by omega
    rw [if_neg hmk] at hfl
    subst hfl
    by_cases hflag : c0.flags &&& TILE_ELEMENT_FLAG_LAST_TILE = 0
    · -- the elements above the insert height are copied behind the new element
      rw [if_pos hflag]
      have hc2 : ∀ x, x ≠ c0.newTileElement + m →
          (x < c0.originalTileElement ∨ c0.originalTileElement + m ≤ x) →
          (x < c0.newTileElement ∨ c0.newTileElement + m ≤ x) →
          Function.update mem1 (c0.newTileElement + m) (newElement z c0.flags) x = c0.mem x := by
        intro x h1 h2 h3
        rw [Function.update_noteq h1]
        exact hframe x h2 h3
      obtain ⟨c3, hres2, ho2, hn2, hfl2, hcopy2, hinv2, hframe2⟩ :=
        insert_above_spec cfg (k - m) (arraySize cfg)
          { mem := Function.update mem1 (c0.newTileElement + m) (newElement z c0.flags)
            originalTileElement := c0.originalTileElement + m
            newTileElement := c0.newTileElement + m + 1
            flags := c0.flags }
          ((hrun.drop hlt).transport
            (fun i hi => hc2 (c0.originalTileElement + m + i) (by omega) (by omega) (by omega)))
          (by simp only []; omega) (by simp only []; omega) (by omega)
      simp only [] at ho2 hn2 hcopy2 hinv2 hframe2
      rw [hres2]
      refine ⟨m, c3, rfl, hm, hle, hgt, ?_, ?_, ?_, ?_, ?_⟩
      · rw [hn2, if_neg (by intro h; exact h.2 hflag)]; omega
      · intro i hi
        rw [hframe2 _ (by omega) (by omega), Function.update_noteq (by omega), hcopy i hi]
      · rw [hframe2 _ (by omega) (by omega), Function.update_same, if_neg hmk]
      · intro _ i h1 h2
        have := hcopy2 (i - m) (by omega)
        rw [show c0.newTileElement + m + 1 + (i - m) = c0.newTileElement + i + 1 by omega,
          show c0.originalTileElement + m + (i - m) = c0.originalTileElement + i by omega,
          hc2 _ (by omega) (by omega) (by omega)] at this
        exact this
      · intro x h1 h2
        rw [hn2] at h2
        rw [hframe2 x (by omega) (by omega), hc2 x (by omega) (by omega) (by omega)]
    · -- the new element is flagged last-for-tile by the caller: nothing above is copied
      rw [if_neg hflag]
      refine ⟨m, _, rfl, hm, hle, hgt, ?_, ?_, ?_, ?_, ?_⟩
      · simp only []; rw [if_pos ⟨hlt, hflag⟩]; omega
      · intro i hi
        simp only []
        rw [Function.update_noteq (by omega)]
        exact hcopy i hi
      · simp only []
        rw [Function.update_same, if_neg hmk]
      · intro h; exact absurd h hflag
      · intro x h1 h2
        simp only [] at h2 ⊢
        rw [Function.update_noteq (by omega)]
        exact hframe x (by omega) (by omega)

theorem check_free_of_room (cfg : Config) (b : Bool) (s : Store) (n : Int)
    (h : (s.gNextFreeTileElement : Int) + n ≤ (cfg.MAX_TILE_ELEMENTS : Int)) :
    map_check_free_elements_and_reorganise cfg b s n = some (true, s) := by
  unfold map_check_free_elements_and_reorganise
  by_cases hn : n ≠ 0
  · rw [if_pos hn, if_neg (by omega)]
  · rw [if_neg hn]

theorem insert_store_spec (cfg : Config) (b : Bool) (s0 s : Store) (x y z : Int) (flags : Nat)
    (t k : Nat)
    (hcheck : map_check_free_elements_and_reorganise cfg b s0 1 = some (true, s))
    (hidx : y * (cfg.MAXIMUM_MAP_SIZE_TECHNICAL : Int) + x = (t : Int))
    (ht : t < MAX_TILE_TILE_ELEMENT_POINTERS cfg)
    (hrun : IsRun s.gTileElements (s.gTileElementTilePointers t) k)
    (hb : s.gTileElementTilePointers t + k ≤ s.gNextFreeTileElement)
    (hspace : s.gNextFreeTileElement + k + 1 ≤ arraySize cfg) :
    ∃ (m : Nat) (c3 : InsertCursor),
      tile_element_insert cfg b s0 x y z flags
        = some ({ s with gTileElements := c3.mem
                         gTileElementTilePointers :=
                           Function.update s.gTileElementTilePointers t s.gNextFreeTileElement
                         gNextFreeTileElement := c3.newTileElement },
                some (s.gNextFreeTileElement + m))
      ∧ InsertCopyResult ⟨s.gTileElements, s.gTileElementTilePointers t,
          s.gNextFreeTileElement, flags⟩ z k m c3 := by
  obtain ⟨m, c3, hres, hprop⟩ := insert_copy_spec cfg z k
    ⟨s.gTileElements, s.gTileElementTilePointers t, s.gNextFreeTileElement, flags⟩
    hrun hb hspace
  refine ⟨m, c3, ?_, hprop⟩
  unfold tile_element_insert
  rw [hcheck]
  simp only [Option.some_bind]
  rw [if_neg (by simp), hidx, if_pos ⟨by omega, by exact_mod_cast ht⟩, Int.toNat_natCast, hres]
  rfl

theorem insertResult_isRun (c0 : InsertCursor) (z : Int) (k m : Nat) (c3 : InsertCursor)
    (hrun : IsRun c0.mem c0.originalTileElement k)
    (h : InsertCopyResult c0 z k m c3) :
    IsRun c3.mem c0.newTileElement (c3.newTileElement - c0.newTileElement) := by
  obtain ⟨hm, _, _, hn, hcopy, hnew, habove, _⟩ := h
  have hk := hrun.1
  by_cases hmk : m = k
  · subst hmk
    rw [if_neg (by omega)] at hn
    rw [if_pos rfl] at hnew
    refine ⟨by omega, ?_⟩
    intro i hi
    rcases Nat.lt_or_ge i m with h1 | h1
    · rw [hcopy i h1]
      by_cases h2 : i + 1 = m
      · rw [if_pos h2, clearLast_not_isLast]
        constructor
        · intro h; exact absurd h (by simp)
        · intro h; omega
      · rw [if_neg h2, hrun.not_last (by omega)]
        constructor
        · intro h; exact absurd h (by simp)
        · intro h; omega
    · have : i = m := by omega
      subst this
      rw [hnew, (newElement_isLast _ _).2 (lor_flag_and _)]
      constructor
      · intro _; omega
      · intro _; rfl
  · have hlt : m < k := by omega
    rw [if_neg hmk] at hnew
    by_cases hflag : c0.flags &&& TILE_ELEMENT_FLAG_LAST_TILE = 0
    · rw [if_neg (by intro h; exact h.2 hflag)] at hn
      refine ⟨by omega, ?_⟩
      intro i hi
      rcases Nat.lt_trichotomy i m with h1 | h1 | h1
      · rw [hcopy i h1, if_neg (by omega), hrun.not_last (by omega)]
        constructor
        · intro h; exact absurd h (by simp)
        · intro h; omega
      · subst h1
        have : (newElement z c0.flags).IsLastForTile = false := by
          cases hl : (newElement z c0.flags).IsLastForTile
          · rfl
          · exact absurd hflag ((newElement_isLast _ _).1 hl)
        rw [hnew, this]
        constructor
        · intro h; exact absurd h (by simp)
        · intro h; omega
      · have := habove hflag (i - 1) (by omega) (by omega)
        rw [show c0.newTileElement + (i - 1) + 1 = c0.newTileElement + i by omega] at this
        rw [this, hrun.2 (i - 1) (by omega)]
        omega
    · rw [if_pos ⟨hlt, hflag⟩] at hn
      refine ⟨by omega, ?_⟩
      intro i hi
      rcases Nat.lt_or_ge i m with h1 | h1
      · rw [hcopy i h1, if_neg (by omega), hrun.not_last (by omega)]
        constructor
        · intro h; exact absurd h (by simp)
        · intro h; omega
      · have : i = m := by omega
        subst this
        rw [hnew, (newElement_isLast _ _).2 hflag]
        constructor
        · intro _; omega
        · intro _; rfl

theorem insertResult_len (c0 : InsertCursor) (z : Int) (k m : Nat) (c3 : InsertCursor)
    (h : InsertCopyResult c0 z k m c3) :
    c0.newTileElement < c3.newTileElement ∧ c3.newTileElement ≤ c0.newTileElement + k + 1 := by
  obtain ⟨hm, _, _, hn, _⟩ := h
  rw [hn]
  split <;> omega

theorem insert_wellFormed (cfg : Config) (s : Store) (z : Int) (flags : Nat) (t m : Nat)
    (c3 : InsertCursor) (hwf : WellFormed cfg s) (ht : t < MAX_TILE_TILE_ELEMENT_POINTERS cfg)
    (hspace : s.gNextFreeTileElement + tileRunLength cfg s t + 1 ≤ arraySize cfg)
    (h : InsertCopyResult ⟨s.gTileElements, s.gTileElementTilePointers t,
      s.gNextFreeTileElement, flags⟩ z (tileRunLength cfg s t) m c3) :
    WellFormed cfg
      { s with gTileElements := c3.mem
               gTileElementTilePointers :=
                 Function.update s.gTileElementTilePointers t s.gNextFreeTileElement
               gNextFreeTileElement := c3.newTileElement } := by
  have hlen := insertResult_len _ z _ m c3 h
  have hnewrun := insertResult_isRun _ z _ m c3 (hwf.run t ht).1 h
  have hframe := h.2.2.2.2.2.2.2
  simp only [] at hlen hnewrun hframe
  have hother : ∀ u, u < MAX_TILE_TILE_ELEMENT_POINTERS cfg → u ≠ t → ∀ i,
      i < tileRunLength cfg s u →
      c3.mem (s.gTileElementTilePointers u + i) = s.gTileElements (s.gTileElementTilePointers u + i) := by
    intro u hu hne i hi
    have h1 := (hwf.run u hu).2
    have h2 := hwf.disjoint u t hu ht hne
    exact hframe _ (by omega) (by omega)
  apply wellFormed_of_runs cfg _
    (fun u => if u = t then c3.newTileElement - s.gNextFreeTileElement
      else tileRunLength cfg s u)
  · intro u hu
    by_cases hut : u = t
    · subst hut
      simp only [↓reduceIte, Function.update_same]
      exact ⟨hnewrun, by omega⟩
    · simp only [if_neg hut, Function.update_noteq hut]
      have h1 := hwf.run u hu
      exact ⟨h1.1.transport (fun i hi => hother u hu hut i hi), by omega⟩
  · intro u1 h1 u2 h2 hne
    have r1 := (hwf.run u1 h1).2
    have r2 := (hwf.run u2 h2).2
    by_cases e1 : u1 = t
    · subst e1
      have e2 : u2 ≠ u1 := fun h => hne h.symm
      simp only [↓reduceIte, if_neg e2, Function.update_same, Function.update_noteq e2]
      right; omega
    · by_cases e2 : u2 = t
      · subst e2
        simp only [↓reduceIte, if_neg e1, Function.update_same, Function.update_noteq e1]
        left; omega
      · simp only [if_neg e1, if_neg e2, Function.update_noteq e1, Function.update_noteq e2]
        exact hwf.disjoint u1 u2 h1 h2 hne
  · simp only []
    omega

/-! ## Claims on defragmentation -/

theorem first_element_at_nat (cfg : Config) (s : Store) (x y : Nat)
    (hx : x < cfg.MAXIMUM_MAP_SIZE_TECHNICAL) (hy : y < cfg.MAXIMUM_MAP_SIZE_TECHNICAL) :
    map_get_first_element_at cfg s (x : Int) (y : Int)
      = some (s.gTileElementTilePointers (x + y * cfg.MAXIMUM_MAP_SIZE_TECHNICAL)) := by
  unfold map_get_first_element_at
  rw [if_neg (by omega)]
  have : ((x : Int) + (y : Int) * (cfg.MAXIMUM_MAP_SIZE_TECHNICAL : Int))
      = ((x + y * cfg.MAXIMUM_MAP_SIZE_TECHNICAL : Nat) : Int) := by push_cast; rfl
  rw [this, Int.toNat_natCast]

theorem tile_index_lt (cfg : Config) (x y : Nat)
    (hx : x < cfg.MAXIMUM_MAP_SIZE_TECHNICAL) (hy : y < cfg.MAXIMUM_MAP_SIZE_TECHNICAL) :
    x + y * cfg.MAXIMUM_MAP_SIZE_TECHNICAL < MAX_TILE_TILE_ELEMENT_POINTERS cfg := by
  unfold MAX_TILE_TILE_ELEMENT_POINTERS
  have : (y + 1) * cfg.MAXIMUM_MAP_SIZE_TECHNICAL
      ≤ cfg.MAXIMUM_MAP_SIZE_TECHNICAL * cfg.MAXIMUM_MAP_SIZE_TECHNICAL :=
    Nat.mul_le_mul_right _ (by omega)
  rw [Nat.succ_mul] at this
  omega

/-- C4: on a well-formed store `map_reorganise_elements` (with a successful
allocation) returns a store in which every tile's run holds the same sequence
of elements as before, the run of tile `(x, y)` starts at the sum of the
lengths of the runs of the tiles before it in raster order (index
`x + y * MAXIMUM_MAP_SIZE_TECHNICAL`), `gNextFreeTileElement` is the total
number of elements, and every slot of the array from there on is zero. -/
theorem map_reorganise_elements_compacts (cfg : Config) (s : Store) (hwf : WellFormed cfg s) :
    ∃ s1, map_reorganise_elements cfg true s = some s1 ∧
      (∀ t, t < MAX_TILE_TILE_ELEMENT_POINTERS cfg →
        (tileRun cfg s t).isSome = true ∧ tileRun cfg s1 t = tileRun cfg s t) ∧
      (∀ x y : Nat, x < cfg.MAXIMUM_MAP_SIZE_TECHNICAL → y < cfg.MAXIMUM_MAP_SIZE_TECHNICAL →
        map_get_first_element_at cfg s1 x y
          = some (prefixSum (tileRunLength cfg s) (x + y * cfg.MAXIMUM_MAP_SIZE_TECHNICAL))) ∧
      s1.gNextFreeTileElement
        = prefixSum (tileRunLength cfg s) (MAX_TILE_TILE_ELEMENT_POINTERS cfg) ∧
      (∀ i, s1.gNextFreeTileElement ≤ i → i < arraySize cfg → s1.gTileElements i = zeroElement) := by
  have hH : ∀ t, t < MAX_TILE_TILE_ELEMENT_POINTERS cfg →
      IsRun s.gTileElements (s.gTileElementTilePointers t) (tileRunLength cfg s t)
        ∧ s.gTileElementTilePointers t + tileRunLength cfg s t ≤ arraySize cfg :=
    fun t ht => ⟨(hwf.run t ht).1, by have := (hwf.run t ht).2; have := hwf.2; omega⟩
  have hsum : prefixSum (tileRunLength cfg s) (MAX_TILE_TILE_ELEMENT_POINTERS cfg)
      ≤ arraySize cfg := by have := hwf.sum_le; have := hwf.2; omega
  refine ⟨compacted cfg s (tileRunLength cfg s), hwf.reorganise, ?_, ?_, rfl, ?_⟩
  · intro t ht
    refine ⟨?_, (compacted_tileRun cfg s _ hH hsum t ht).1⟩
    rw [hwf.tileRun_eq t ht]
    rfl
  · intro x y hx hy
    rw [first_element_at_nat cfg _ x y hx hy]
    simp only [compacted]
    rw [if_pos (tile_index_lt cfg x y hx hy)]
  · intro i h1 h2
    simp only [compacted] at h1 ⊢
    rw [concatRuns_length, if_neg (by omega), if_pos h2]

/-- Witness of C4 on the fragmented sample store. -/
theorem map_reorganise_elements_compacts_witness :
    WellFormed smallConfig sampleStore ∧
    ∃ s1, map_reorganise_elements smallConfig true sampleStore = some s1 ∧
      (∀ t, t < MAX_TILE_TILE_ELEMENT_POINTERS smallConfig →
        (tileRun smallConfig sampleStore t).isSome = true
          ∧ tileRun smallConfig s1 t = tileRun smallConfig sampleStore t) ∧
      (∀ x y : Nat, x < smallConfig.MAXIMUM_MAP_SIZE_TECHNICAL →
        y < smallConfig.MAXIMUM_MAP_SIZE_TECHNICAL →
        map_get_first_element_at smallConfig s1 x y
          = some (prefixSum (tileRunLength smallConfig sampleStore)
              (x + y * smallConfig.MAXIMUM_MAP_SIZE_TECHNICAL))) ∧
      s1.gNextFreeTileElement
        = prefixSum (tileRunLength smallConfig sampleStore)
            (MAX_TILE_TILE_ELEMENT_POINTERS smallConfig) ∧
      (∀ i, s1.gNextFreeTileElement ≤ i → i < arraySize smallConfig →
        s1.gTileElements i = zeroElement) :=
  ⟨by decide, map_reorganise_elements_compacts smallConfig sampleStore (by decide)⟩

/-- C9: on a well-formed store a second `map_reorganise_elements` leaves the
backing array, the pointer table and `gNextFreeTileElement` exactly as the
first one left them. -/
theorem map_reorganise_elements_idempotent (cfg : Config) (s : Store)
    (hwf : WellFormed cfg s) :
    ∃ s1 s2, map_reorganise_elements cfg true s = some s1 ∧
      map_reorganise_elements cfg true s1 = some s2 ∧
      s2.gTileElements = s1.gTileElements ∧
      s2.gTileElementTilePointers = s1.gTileElementTilePointers ∧
      s2.gNextFreeTileElement = s1.gNextFreeTileElement := by
  have hH : ∀ t, t < MAX_TILE_TILE_ELEMENT_POINTERS cfg →
      IsRun s.gTileElements (s.gTileElementTilePointers t) (tileRunLength cfg s t) :=
    fun t ht => (hwf.run t ht).1
  have hsum : prefixSum (tileRunLength cfg s) (MAX_TILE_TILE_ELEMENT_POINTERS cfg)
      ≤ arraySize cfg := by have := hwf.sum_le; have := hwf.2; omega
  have h2 : map_reorganise_elements cfg true (compacted cfg s (tileRunLength cfg s))
      = some (compacted cfg (compacted cfg s (tileRunLength cfg s)) (tileRunLength cfg s)) := by
    apply reorganise_closed
    · intro t ht
      obtain ⟨a, b, c⟩ := compacted_isRun cfg s _ hH t ht
      exact ⟨a, by rw [b]; omega⟩
    · exact hsum
  exact ⟨_, _, hwf.reorganise, h2, compacted_idem cfg s _ hH⟩

/-- Witness of C9 on the fragmented sample store. -/
theorem map_reorganise_elements_idempotent_witness :
    WellFormed smallConfig sampleStore ∧
    ∃ s1 s2, map_reorganise_elements smallConfig true sampleStore = some s1 ∧
      map_reorganise_elements smallConfig true s1 = some s2 ∧
      s2.gTileElements = s1.gTileElements ∧
      s2.gTileElementTilePointers = s1.gTileElementTilePointers ∧
      s2.gNextFreeTileElement = s1.gNextFreeTileElement :=
  ⟨by decide, map_reorganise_elements_idempotent smallConfig sampleStore (by decide)⟩

/-! ## Claims on insertion -/

theorem readRun_getElem? (mem : Nat → TileElement) (p k i : Nat) :
    (readRun mem p k)[i]? = if i < k then some (mem (p + i)) else none := by
  unfold readRun
  rw [List.getElem?_map]
  by_cases h : i < k
  · rw [List.getElem?_range h, if_pos h]; rfl
  · rw [if_neg h, List.getElem?_eq_none (by simp; omega)]; rfl

theorem readRun_getElem (mem : Nat → TileElement) (p k i : Nat)
    (h : i < (readRun mem p k).length) : (readRun mem p k)[i] = mem (p + i) := by
  have h2 : i < k := by simpa [readRun_length] using h
  have := readRun_getElem? mem p k i
  rw [if_pos h2, List.getElem?_eq_getElem h] at this
  exact Option.some.inj this

set_option maxRecDepth 100000 in
theorem clearLast_flags_idem (f : uint8_t) :
    toU8 ((toU8 (f.val &&& NOT_TILE_ELEMENT_FLAG_LAST_TILE)).val &&& NOT_TILE_ELEMENT_FLAG_LAST_TILE)
      = toU8 (f.val &&& NOT_TILE_ELEMENT_FLAG_LAST_TILE) := by
  revert f; decide

theorem clearLast_idem (e : TileElement) : e.clearLast.clearLast = e.clearLast := by
  simp [TileElement.clearLast, clearLast_flags_idem]

theorem clearLast_base (e : TileElement) : e.clearLast.base_height = e.base_height := rfl

theorem findIdx_of_bounds (run : List TileElement) (p : TileElement → Bool) (m : Nat)
    (hm : m ≤ run.length)
    (hbefore : ∀ i (h : i < run.length), i < m → p run[i] = false)
    (hat : ∀ (h : m < run.length), p run[m] = true) : run.findIdx p = m := by
  rcases Nat.eq_or_lt_of_le hm with h | h
  · rw [h, List.findIdx_eq_length]
    intro x hx
    obtain ⟨i, hi, rfl⟩ := List.getElem_of_mem hx
    exact hbefore i hi (by omega)
  · rw [List.findIdx_eq h]
    exact ⟨hat h, fun j hj => hbefore j (by omega) hj⟩

/-- The outcome of a successful `tile_element_insert` on tile `t` of a
well-formed store, when the call does not reorganise and the flags do not
contain the last-for-tile bit. -/
theorem insert_run_spec (cfg : Config) (b : Bool) (s : Store) (x y : Nat) (z : Int)
    (flags : Nat) (hwf : WellFormed cfg s)
    (hx : x < cfg.MAXIMUM_MAP_SIZE_TECHNICAL) (hy : y < cfg.MAXIMUM_MAP_SIZE_TECHNICAL)
    (hflags : flags &&& TILE_ELEMENT_FLAG_LAST_TILE = 0)
    (hroom : s.gNextFreeTileElement + 1 ≤ cfg.MAX_TILE_ELEMENTS)
    (hspace : s.gNextFreeTileElement + tileRunLength cfg s (tileIndex cfg x y) + 1
      ≤ arraySize cfg) :
    ∃ (m : Nat) (s1 : Store),
      tile_element_insert cfg b s x y z flags = some (s1, some (s.gNextFreeTileElement + m)) ∧
      WellFormed cfg s1 ∧
      s1.gTileElementTilePointers (tileIndex cfg x y) = s.gNextFreeTileElement ∧
      s1.gNextFreeTileElement
        = s.gNextFreeTileElement + tileRunLength cfg s (tileIndex cfg x y) + 1 ∧
      tileRun cfg s1 (tileIndex cfg x y)
        = some (readRun s1.gTileElements s.gNextFreeTileElement
            (tileRunLength cfg s (tileIndex cfg x y) + 1)) ∧
      IsRun s1.gTileElements s.gNextFreeTileElement
        (tileRunLength cfg s (tileIndex cfg x y) + 1) ∧
      InsertCopyResult ⟨s.gTileElements, s.gTileElementTilePointers (tileIndex cfg x y),
        s.gNextFreeTileElement, flags⟩ z (tileRunLength cfg s (tileIndex cfg x y)) m
        ⟨s1.gTileElements, 0, s1.gNextFreeTileElement, 0⟩ := by
  have ht : tileIndex cfg x y < MAX_TILE_TILE_ELEMENT_POINTERS cfg := by
    have := tile_index_lt cfg x y hx hy
    unfold tileIndex; omega
  obtain ⟨hrun, hb⟩ := hwf.run _ ht
  obtain ⟨m, c3, hres, hprop⟩ := insert_store_spec cfg b s s x y z flags (tileIndex cfg x y)
    (tileRunLength cfg s (tileIndex cfg x y))
    (check_free_of_room cfg b s 1 (by omega)) (by unfold tileIndex; push_cast; rfl) ht hrun hb
    hspace
  have hwf1 := insert_wellFormed cfg s z flags _ m c3 hwf ht hspace hprop
  have hrun1 := insertResult_isRun _ z _ m c3 hrun hprop
  have hn : c3.newTileElement
      = s.gNextFreeTileElement + tileRunLength cfg s (tileIndex cfg x y) + 1 := by
    have := hprop.2.2.2.1
    simp only [] at this
    rw [this, if_neg (by intro h; exact h.2 hflags)]
    omega
  simp only [] at hrun1
  rw [hn, show s.gNextFreeTileElement + tileRunLength cfg s (tileIndex cfg x y) + 1
      - s.gNextFreeTileElement = tileRunLength cfg s (tileIndex cfg x y) + 1 by omega] at hrun1
  refine ⟨m, _, hres, hwf1, ?_, hn, ?_, hrun1, ?_⟩
  · simp only [Function.update_same]
  · have := (tileRun_of_isRun cfg
      { s with gTileElements := c3.mem
               gTileElementTilePointers :=
                 Function.update s.gTileElementTilePointers (tileIndex cfg x y)
                   s.gNextFreeTileElement
               gNextFreeTileElement := c3.newTileElement }
      (tileIndex cfg x y) (tileRunLength cfg s (tileIndex cfg x y) + 1)
      (by simp only [Function.update_same]; exact hrun1)
      (by simp only [Function.update_same]; omega)).2.2
    simp only [Function.update_same] at this
    exact this
  · exact hprop

theorem ascending_readRun (mem : Nat → TileElement) (p k : Nat) :
    Ascending (readRun mem p k)
      ↔ ∀ i j, i < j → j < k → (mem (p + i)).base_height ≤ (mem (p + j)).base_height := by
  unfold Ascending
  rw [List.pairwise_iff_getElem]
  constructor
  · intro h i j hij hj
    have := h i j (by rw [readRun_length]; omega) (by rw [readRun_length]; omega) hij
    rw [readRun_getElem, readRun_getElem] at this
    exact this
  · intro h i j hi hj hij
    rw [readRun_getElem, readRun_getElem]
    exact h i j hij (by simpa [readRun_length] using hj)

theorem intToU8_val (z : Int) (hz : 0 ≤ z ∧ z ≤ 255) : ((intToU8 z).val : Int) = z := by
  show (((z % 256).toNat : Nat) : Int) = z
  omega

/-- Element by element, the run written by `tile_element_insert` is the old
run with the new element put in at position `m`, up to the last-for-tile bit. -/
theorem insert_elementwise (c0 : InsertCursor) (z : Int) (k m : Nat) (mem1 : Nat → TileElement)
    (n1 : Nat) (hflags : c0.flags &&& TILE_ELEMENT_FLAG_LAST_TILE = 0)
    (h : InsertCopyResult c0 z k m ⟨mem1, 0, n1, 0⟩) :
    (∀ i, i < m → (mem1 (c0.newTileElement + i)).clearLast
      = (c0.mem (c0.originalTileElement + i)).clearLast) ∧
    (∀ i, m ≤ i → i < k → mem1 (c0.newTileElement + (i + 1))
      = c0.mem (c0.originalTileElement + i)) := by
  obtain ⟨hm, _, _, hn, hcopy, hnew, habove, _⟩ := h
  simp only [] at hcopy habove
  constructor
  · intro i hi
    rw [hcopy i hi]
    by_cases h1 : i + 1 = k
    · rw [if_pos h1, clearLast_idem]
    · rw [if_neg h1]
  · intro i h1 h2
    exact habove hflags i h1 h2

/-- C1 (amended): on a well-formed store with a free slot below
`MAX_TILE_ELEMENTS` and room in the array for the relocated run and the new
element, `tile_element_insert(x, y, z, flags)` with flags without the
last-for-tile bit places the new element immediately before the first existing
element of the run whose `base_height` is greater than `z` (at the end of the
run when there is none): the elements before that position are the old ones in
order, the returned element stands at that position, and the old elements from
that position on follow it, all up to the last-for-tile bit. -/
theorem tile_element_insert_position (cfg : Config) (b : Bool) (s : Store) (x y : Nat)
    (z : Int) (flags : Nat) (hwf : WellFormed cfg s)
    (hx : x < cfg.MAXIMUM_MAP_SIZE_TECHNICAL) (hy : y < cfg.MAXIMUM_MAP_SIZE_TECHNICAL)
    (hflags : flags &&& TILE_ELEMENT_FLAG_LAST_TILE = 0)
    (hroom : s.gNextFreeTileElement + 1 ≤ cfg.MAX_TILE_ELEMENTS)
    (hspace : s.gNextFreeTileElement + tileRunLength cfg s (tileIndex cfg x y) + 1
      ≤ arraySize cfg) :
    ∃ (s1 : Store) (p : Nat) (old new : List TileElement),
      tile_element_insert cfg b s x y z flags = some (s1, some p) ∧
      tileRun cfg s (tileIndex cfg x y) = some old ∧
      tileRun cfg s1 (tileIndex cfg x y) = some new ∧
      insertedIndex cfg b s x y z flags
        = some (old.findIdx (fun e => decide (z < (e.base_height.val : Int)))) ∧
      new.length = old.length + 1 ∧
      new[old.findIdx (fun e => decide (z < (e.base_height.val : Int)))]?
        = some (s1.gTileElements p) ∧
      (∀ i, i < old.findIdx (fun e => decide (z < (e.base_height.val : Int))) →
        new[i]?.map TileElement.clearLast = old[i]?.map TileElement.clearLast) ∧
      (∀ i, old.findIdx (fun e => decide (z < (e.base_height.val : Int))) ≤ i →
        new[i + 1]?.map TileElement.clearLast = old[i]?.map TileElement.clearLast) := by
  obtain ⟨m, s1, hres, hwf1, hptr, hnext, hnew, hrun1, hprop⟩ :=
    insert_run_spec cfg b s x y z flags hwf hx hy hflags hroom hspace
  have ht : tileIndex cfg x y < MAX_TILE_TILE_ELEMENT_POINTERS cfg := by
    have := tile_index_lt cfg x y hx hy
    unfold tileIndex; omega
  obtain ⟨he1, he2⟩ := insert_elementwise _ z _ m _ _ hflags hprop
  obtain ⟨hm, hle, hgt, _, _, _, _, _⟩ := hprop
  simp only [] at he1 he2 hle hgt
  have hfind : (readRun s.gTileElements (s.gTileElementTilePointers (tileIndex cfg x y))
      (tileRunLength cfg s (tileIndex cfg x y))).findIdx
        (fun e => decide (z < (e.base_height.val : Int))) = m := by
    apply findIdx_of_bounds
    · rw [readRun_length]; exact hm
    · intro i h1 h2
      rw [readRun_getElem]
      have := hle i h2
      simp only [decide_eq_false_iff_not]
      omega
    · intro h1
      rw [readRun_getElem]
      rw [readRun_length] at h1
      simpa using hgt h1
  refine ⟨s1, _, _, _, hres, hwf.tileRun_eq _ ht, hnew, ?_, ?_, ?_, ?_, ?_⟩
  · unfold insertedIndex
    rw [hres, hfind]
    simp only [Option.some_bind, Option.map_some', hptr]
    congr 1
    omega
  · simp [readRun_length]
  · rw [hfind, readRun_getElem?, if_pos (by omega)]
  · rw [hfind]
    intro i hi
    rw [readRun_getElem?, readRun_getElem?, if_pos (by omega), if_pos (by omega)]
    simp only [Option.map_some']
    rw [he1 i hi]
  · rw [hfind]
    intro i hi
    rw [readRun_getElem?, readRun_getElem?]
    by_cases h1 : i < tileRunLength cfg s (tileIndex cfg x y)
    · rw [if_pos (by omega), if_pos h1, he2 i hi h1]
    · rw [if_neg (by omega), if_neg h1]

/-- Witness of C1 (amended): an insertion at height 14 into tile (0, 0) of the
sample store, whose only element has base height 14. -/
theorem tile_element_insert_position_witness :
    WellFormed smallConfig sampleStore ∧
    ∃ (s1 : Store) (p : Nat) (old new : List TileElement),
      tile_element_insert smallConfig true sampleStore 0 0 14 0 = some (s1, some p) ∧
      tileRun smallConfig sampleStore (tileIndex smallConfig 0 0) = some old ∧
      tileRun smallConfig s1 (tileIndex smallConfig 0 0) = some new ∧
      insertedIndex smallConfig true sampleStore 0 0 14 0
        = some (old.findIdx (fun e => decide ((14 : Int) < (e.base_height.val : Int)))) ∧
      new.length = old.length + 1 ∧
      new[old.findIdx (fun e => decide ((14 : Int) < (e.base_height.val : Int)))]?
        = some (s1.gTileElements p) ∧
      (∀ i, i < old.findIdx (fun e => decide ((14 : Int) < (e.base_height.val : Int))) →
        new[i]?.map TileElement.clearLast = old[i]?.map TileElement.clearLast) ∧
      (∀ i, old.findIdx (fun e => decide ((14 : Int) < (e.base_height.val : Int))) ≤ i →
        new[i + 1]?.map TileElement.clearLast = old[i]?.map TileElement.clearLast) :=
  ⟨by decide,
    tile_element_insert_position smallConfig true sampleStore 0 0 14 0 (by decide) (by decide)
      (by decide) (by decide) (by decide) (by decide)⟩

/-- Counterexample to C1 as stated: tile (0, 0) of the sample store holds one
element of base height 14; an insertion at height 14 with flags 0 puts the new
element at position 1, behind that element, although the first existing
element with `base_height >= 14` stands at position 0. -/
theorem tile_element_insert_position_counterexample :
    WellFormed smallConfig sampleStore ∧
    sampleStore.gNextFreeTileElement + 1 ≤ smallConfig.MAX_TILE_ELEMENTS ∧
    sampleStore.gNextFreeTileElement + tileRunLength smallConfig sampleStore
      (tileIndex smallConfig 0 0) + 1 ≤ arraySize smallConfig ∧
    (tileRun smallConfig sampleStore (tileIndex smallConfig 0 0)).map
      (fun old => old.map (fun e => e.base_height.val)) = some [14] ∧
    insertedIndex smallConfig true sampleStore 0 0 14 0 = some 1 ∧
    ¬ InsertsBeforeFirstAtOrAbove smallConfig true sampleStore 0 0 14 0 := by
  decide

/-- C2: on a well-formed store with a free slot below `MAX_TILE_ELEMENTS` and
room in the array for the relocated run and the new element, for `z` in
0..255 and flags without the last-for-tile bit, `tile_element_insert` leaves a
run that, with the element at the returned position left out, is the previous
run in its order (byte-identical up to the last-for-tile bit); the new element
has type 0, both heights `z`, zero payload and the given flags (with the
last-for-tile bit exactly when it ends the run); only the final element of the
new run is flagged last-for-tile; and an ascending run stays ascending. -/
theorem tile_element_insert_run (cfg : Config) (b : Bool) (s : Store) (x y : Nat)
    (z : Int) (flags : Nat) (hwf : WellFormed cfg s)
    (hx : x < cfg.MAXIMUM_MAP_SIZE_TECHNICAL) (hy : y < cfg.MAXIMUM_MAP_SIZE_TECHNICAL)
    (hz : 0 ≤ z ∧ z ≤ 255)
    (hflags : flags &&& TILE_ELEMENT_FLAG_LAST_TILE = 0)
    (hroom : s.gNextFreeTileElement + 1 ≤ cfg.MAX_TILE_ELEMENTS)
    (hspace : s.gNextFreeTileElement + tileRunLength cfg s (tileIndex cfg x y) + 1
      ≤ arraySize cfg) :
    ∃ (s1 : Store) (p : Nat) (old new : List TileElement) (j : Nat),
      tile_element_insert cfg b s x y z flags = some (s1, some p) ∧
      tileRun cfg s (tileIndex cfg x y) = some old ∧
      tileRun cfg s1 (tileIndex cfg x y) = some new ∧
      j ≤ old.length ∧
      p = s1.gTileElementTilePointers (tileIndex cfg x y) + j ∧
      (new.eraseIdx j).map TileElement.clearLast = old.map TileElement.clearLast ∧
      new[j]? = some (s1.gTileElements p) ∧
      (s1.gTileElements p).type = 0 ∧
      ((s1.gTileElements p).base_height.val : Int) = z ∧
      ((s1.gTileElements p).clearance_height.val : Int) = z ∧
      (s1.gTileElements p).flags
        = toU8 (if j = old.length then flags ||| TILE_ELEMENT_FLAG_LAST_TILE else flags) ∧
      (s1.gTileElements p).pad_04_0 = 0 ∧ (s1.gTileElements p).pad_04_1 = 0 ∧
      (s1.gTileElements p).pad_04_2 = 0 ∧ (s1.gTileElements p).pad_04_3 = 0 ∧
      (∀ i (h : i < new.length), new[i].IsLastForTile = true ↔ i + 1 = new.length) ∧
      (Ascending old → Ascending new) := by
  obtain ⟨m, s1, hres, hwf1, hptr, hnext, hnew, hrun1, hprop⟩ :=
    insert_run_spec cfg b s x y z flags hwf hx hy hflags hroom hspace
  have ht : tileIndex cfg x y < MAX_TILE_TILE_ELEMENT_POINTERS cfg := by
    have := tile_index_lt cfg x y hx hy
    unfold tileIndex; omega
  obtain ⟨he1, he2⟩ := insert_elementwise _ z _ m _ _ hflags hprop
  obtain ⟨hm, hle, hgt, _, _, helem, _, _⟩ := hprop
  simp only [] at he1 he2 hle hgt helem
  refine ⟨s1, _, _, _, m, hres, hwf.tileRun_eq _ ht, hnew, ?_, ?_, ?_, ?_, ?_, ?_, ?_, ?_,
    ?_, ?_, ?_, ?_, ?_, ?_⟩
  · rw [readRun_length]; exact hm
  · rw [hptr]
  · apply List.ext_getElem?
    intro i
    rw [List.getElem?_map, List.getElem?_map, List.getElem?_eraseIdx, readRun_getElem?,
      readRun_getElem?, readRun_getElem?]
    by_cases h1 : i < m
    · rw [if_pos h1, if_pos (by omega), if_pos (by omega)]
      simp only [Option.map_some']
      rw [he1 i h1]
    · rw [if_neg h1]
      by_cases h2 : i < tileRunLength cfg s (tileIndex cfg x y)
      · rw [if_pos (by omega), if_pos h2, he2 i (by omega) h2]
      · rw [if_neg (by omega), if_neg h2]
  · rw [readRun_getElem?, if_pos (by omega)]
  · rw [helem]; rfl
  · rw [helem]; exact intToU8_val z hz
  · rw [helem]; exact intToU8_val z hz
  · rw [helem, readRun_length]; rfl
  · rw [helem]; rfl
  · rw [helem]; rfl
  · rw [helem]; rfl
  · rw [helem]; rfl
  · intro i h
    rw [readRun_getElem]
    rw [readRun_length] at h ⊢
    exact hrun1.2 i h
  · rw [ascending_readRun, ascending_readRun]
    intro hasc i j hij hj
    have hbase1 : ∀ i, i < m → (s1.gTileElements (s.gTileElementTilePointers (tileIndex cfg x y)
        - s.gTileElementTilePointers (tileIndex cfg x y) + s.gNextFreeTileElement + i)).base_height
        = (s.gTileElements (s.gTileElementTilePointers (tileIndex cfg x y) + i)).base_height := by
      intro i hi
      have := congrArg TileElement.base_height (he1 i hi)
      rw [clearLast_base, clearLast_base] at this
      rw [Nat.sub_self, Nat.zero_add]
      exact this
    simp only [Nat.sub_self, Nat.zero_add] at hbase1
    have hzv := intToU8_val z hz
    have hnewbase : (s1.gTileElements (s.gTileElementTilePointers (tileIndex cfg x y)
        - s.gTileElementTilePointers (tileIndex cfg x y) + s.gNextFreeTileElement + m)).base_height
        = intToU8 z := by
      rw [Nat.sub_self, Nat.zero_add, helem]; rfl
    simp only [Nat.sub_self, Nat.zero_add] at hnewbase
    rcases Nat.lt_trichotomy i m with h1 | h1 | h1
    · rcases Nat.lt_trichotomy j m with h2 | h2 | h2
      · rw [hbase1 i h1, hbase1 j h2]
        exact hasc i j hij (by omega)
      · subst h2
        rw [hbase1 i h1, hnewbase, Fin.le_def]
        have := hle i h1
        omega
      · rw [hbase1 i h1, show j = j - 1 + 1 by omega, he2 (j - 1) (by omega) (by omega)]
        exact hasc i (j - 1) (by omega) (by omega)
    · subst h1
      rw [hnewbase, show j = j - 1 + 1 by omega, he2 (j - 1) (by omega) (by omega), Fin.le_def]
      have h3 := hgt (by omega)
      rcases Nat.eq_or_lt_of_le (show i ≤ j - 1 by omega) with h4 | h4
      · rw [← h4]; omega
      · have := hasc i (j - 1) h4 (by omega)
        rw [Fin.le_def] at this
        omega
    · rw [show i = i - 1 + 1 by omega, he2 (i - 1) (by omega) (by omega),
        show j = j - 1 + 1 by omega, he2 (j - 1) (by omega) (by omega)]
      exact hasc (i - 1) (j - 1) (by omega) (by omega)

/-- Witness of C2: an insertion at height 12 into tile (0, 0) of the sample
store. -/
theorem tile_element_insert_run_witness :
    WellFormed smallConfig sampleStore ∧
    ∃ (s1 : Store) (p : Nat) (old new : List TileElement) (j : Nat),
      tile_element_insert smallConfig true sampleStore 0 0 12 0 = some (s1, some p) ∧
      tileRun smallConfig sampleStore (tileIndex smallConfig 0 0) = some old ∧
      tileRun smallConfig s1 (tileIndex smallConfig 0 0) = some new ∧
      j ≤ old.length ∧
      p = s1.gTileElementTilePointers (tileIndex smallConfig 0 0) + j ∧
      (new.eraseIdx j).map TileElement.clearLast = old.map TileElement.clearLast ∧
      new[j]? = some (s1.gTileElements p) ∧
      (s1.gTileElements p).type = 0 ∧
      ((s1.gTileElements p).base_height.val : Int) = 12 ∧
      ((s1.gTileElements p).clearance_height.val : Int) = 12 ∧
      (s1.gTileElements p).flags
        = toU8 (if j = old.length then 0 ||| TILE_ELEMENT_FLAG_LAST_TILE else 0) ∧
      (s1.gTileElements p).pad_04_0 = 0 ∧ (s1.gTileElements p).pad_04_1 = 0 ∧
      (s1.gTileElements p).pad_04_2 = 0 ∧ (s1.gTileElements p).pad_04_3 = 0 ∧
      (∀ i (h : i < new.length), new[i].IsLastForTile = true ↔ i + 1 = new.length) ∧
      (Ascending old → Ascending new) :=
  ⟨by decide,
    tile_element_insert_run smallConfig true sampleStore 0 0 12 0 (by decide) (by decide)
      (by decide) (by decide) (by decide) (by decide) (by decide)⟩

/-! ## Removal -/

theorem remove_shift_spec (cfg : Config) :
    ∀ (r fuel : Nat) (mem : Nat → TileElement) (te : Nat),
      1 ≤ r →
      (∀ i, 1 ≤ i → i < r → (mem (te + i)).IsLastForTile = false) →
      (mem (te + r)).IsLastForTile = true →
      te + r < arraySize cfg → r ≤ fuel →
      ∃ mem1, tile_element_remove_shift cfg fuel mem te = some (mem1, te + r) ∧
        (∀ i, i < r → mem1 (te + i) = mem (te + i + 1)) ∧
        (∀ x, (x < te ∨ te + r ≤ x) → mem1 x = mem x)
  | 0, _, _, _, h, _, _, _, _ => absurd h (by omega)
  | r + 1, 0, _, _, _, _, _, _, hf => absurd hf (by omega)
  | r + 1, fuel + 1, mem, te, _, hnot, hlast, hb, hf => by
    unfold tile_element_remove_shift
    rw [if_pos (by omega)]
    have hnext : Function.update mem te (mem (te + 1)) (te + 1) = mem (te + 1) :=
      Function.update_noteq (by omega) _ _
    simp only [hnext]
    rcases Nat.eq_zero_or_pos r with h0 | h0
    · subst h0
      rw [if_pos hlast]
      refine ⟨_, rfl, ?_, ?_⟩
      · intro i hi
        have : i = 0 := by omega
        subst this
        simp only [Nat.add_zero, Function.update_same]
      · intro x hx
        rw [Function.update_noteq (by omega)]
    · rw [if_neg (by rw [hnot 1 (by omega) (by omega)]; simp)]
      obtain ⟨mem1, hres, hcopy, hframe⟩ :=
        remove_shift_spec cfg r fuel (Function.update mem te (mem (te + 1))) (te + 1) h0
          (fun i h1 h2 => by
            rw [Function.update_noteq (by omega),
              show te + 1 + i = te + (i + 1) by omega]
            exact hnot (i + 1) (by omega) (by omega))
          (by
            rw [Function.update_noteq (by omega), show te + 1 + r = te + (r + 1) by omega]
            exact hlast)
          (by omega) (by omega)
      rw [show te + 1 + r = te + (r + 1) by omega] at hres
      refine ⟨mem1, hres, ?_, ?_⟩
      · intro i hi
        rcases Nat.eq_zero_or_pos i with hi0 | hi0
        · subst hi0
          rw [Nat.add_zero, hframe te (by omega), Function.update_same]
        · have := hcopy (i - 1) (by omega)
          rw [show te + 1 + (i - 1) = te + i by omega, Function.update_noteq (by omega)] at this
          rw [this]
      · intro x hx
        rw [hframe x (by omega), Function.update_noteq (by omega)]

/-- The memory that `tile_element_remove` leaves when it removes the element at
position `j` of the run of `k` elements (at least two) that starts at `p`. -/
theorem remove_spec (cfg : Config) (s : Store) (p k j : Nat)
    (hrun : IsRun s.gTileElements p k) (hk : 2 ≤ k) (hj : j < k)
    (hb : p + k ≤ arraySize cfg) :
    ∃ mem1, tile_element_remove cfg s (p + j)
        = some { s with gTileElements := mem1
                        gNextFreeTileElement :=
                          if p + k = s.gNextFreeTileElement then s.gNextFreeTileElement - 1
                          else s.gNextFreeTileElement } ∧
      (∀ i, i + 1 < k → mem1 (p + i)
        = if i + 2 = k then
            (if i < j then s.gTileElements (p + i) else s.gTileElements (p + i + 1)).setLast
          else (if i < j then s.gTileElements (p + i) else s.gTileElements (p + i + 1))) ∧
      mem1 (p + (k - 1)) = (s.gTileElements (p + (k - 1))).invalidate ∧
      (∀ x, (x < p ∨ p + k ≤ x) → mem1 x = s.gTileElements x) := by
  unfold tile_element_remove
  rw [if_pos (by omega)]
  by_cases hl : (s.gTileElements (p + j)).IsLastForTile = true
  · -- the removed element is the last one of the run
    have hjk : j + 1 = k := (hrun.2 j hj).1 hl
    rw [if_pos hl]
    simp only [Option.some_bind]
    rw [if_pos (by omega)]
    have e1 : p + j + 1 = p + k := by omega
    rw [e1]
    refine ⟨_, rfl, ?_, ?_, ?_⟩
    · intro i hi
      rw [Function.update_noteq (by omega)]
      by_cases h2 : i + 2 = k
      · have : p + j - 1 = p + i := by omega
        rw [if_pos h2, if_pos (by omega), this, Function.update_same]
      · rw [if_neg h2, if_pos (by omega), Function.update_noteq (by omega)]
    · have : p + (k - 1) = p + j := by omega
      rw [this, Function.update_same, Function.update_noteq (by omega)]
    · intro x hx
      rw [Function.update_noteq (by omega), Function.update_noteq (by omega)]
  · -- the elements behind the removed one are moved down by one slot
    have hjk : j + 1 < k := by
      rcases Nat.lt_or_ge (j + 1) k with h | h
      · exact h
      · exact absurd ((hrun.2 j hj).2 (by omega)) hl
    rw [if_neg hl]
    obtain ⟨mem1, hres, hcopy, hframe⟩ :=
      remove_shift_spec cfg (k - 1 - j) (arraySize cfg) s.gTileElements (p + j) (by omega)
        (fun i h1 h2 => by
          rw [show p + j + i = p + (j + i) by omega]
          exact hrun.not_last (by omega))
        (by
          rw [show p + j + (k - 1 - j) = p + (k - 1) by omega]
          exact hrun.last)
        (by omega) (by omega)
    rw [hres]
    simp only [Option.some_bind]
    rw [if_pos (by omega)]
    have e1 : p + j + (k - 1 - j) + 1 = p + k := by omega
    have e2 : p + j + (k - 1 - j) - 1 = p + (k - 2) := by omega
    have e3 : p + j + (k - 1 - j) = p + (k - 1) := by omega
    rw [e1, e2, e3]
    have hprev : mem1 (p + (k - 2)) = s.gTileElements (p + (k - 1)) := by
      have := hcopy (k - 2 - j) (by omega)
      rw [show p + j + (k - 2 - j) = p + (k - 2) by omega,
        show p + (k - 2) + 1 = p + (k - 1) by omega] at this
      exact this
    refine ⟨_, rfl, ?_, ?_, ?_⟩
    · intro i hi
      rw [Function.update_noteq (by omega)]
      by_cases h2 : i + 2 = k
      · have : p + (k - 2) = p + i := by omega
        rw [if_pos h2, if_neg (by omega), this, Function.update_same, ← this, hprev,
          show p + (k - 2) + 1 = p + (k - 1) by omega]
      · rw [if_neg h2, Function.update_noteq (by omega)]
        by_cases h3 : i < j
        · rw [if_pos h3, hframe _ (by omega)]
        · rw [if_neg h3]
          have := hcopy (i - j) (by omega)
          rw [show p + j + (i - j) = p + i by omega] at this
          exact this
    · rw [Function.update_same, Function.update_noteq (by omega), hframe _ (by omega)]
    · intro x hx
      rw [Function.update_noteq (by omega), Function.update_noteq (by omega),
        hframe x (by omega)]

theorem tileRun_some (cfg : Config) (s : Store) (t : Nat) (old : List TileElement)
    (h : tileRun cfg s t = some old) :
    ∃ k, old = readRun s.gTileElements (s.gTileElementTilePointers t) k
      ∧ IsRun s.gTileElements (s.gTileElementTilePointers t) k
      ∧ s.gTileElementTilePointers t + k ≤ arraySize cfg := by
  unfold tileRun tileRunEnd at h
  cases hsc : scanToLast s.gTileElements (arraySize cfg - s.gTileElementTilePointers t)
      (s.gTileElementTilePointers t) with
  | none => rw [hsc] at h; simp at h
  | some e =>
    rw [hsc] at h
    simp only [Option.map_some', Option.some.injEq] at h
    obtain ⟨h1, h2, h3⟩ := scanToLast_some _ _ _ hsc
    exact ⟨_, h.symm, h3, by omega⟩

/-- C3: when the run of a tile has at least two elements, removing its element
at position `j` with `tile_element_remove` leaves the pointer table unchanged
and the run equal to the previous run with that element deleted: the elements
before it stay in their slots, the elements after it are one slot lower in the
same order, the new final element is flagged last-for-tile, and
`gNextFreeTileElement` is one less exactly when the old last slot of the run
was the global tail. -/
theorem tile_element_remove_run (cfg : Config) (s : Store) (t j : Nat)
    (old : List TileElement) (hold : tileRun cfg s t = some old)
    (hk : 2 ≤ old.length) (hj : j < old.length) :
    ∃ (s1 : Store) (new : List TileElement),
      tile_element_remove cfg s (s.gTileElementTilePointers t + j) = some s1 ∧
      s1.gTileElementTilePointers = s.gTileElementTilePointers ∧
      tileRun cfg s1 t = some new ∧
      new.length + 1 = old.length ∧
      (∀ i, new[i]? = (old.eraseIdx j)[i]?.map
        (fun e => if i + 1 = new.length then e.setLast else e)) ∧
      (∀ i (h : i < new.length), new[i].IsLastForTile = true ↔ i + 1 = new.length) ∧
      (∀ i, i < j → i + 1 < new.length →
        s1.gTileElements (s.gTileElementTilePointers t + i)
          = s.gTileElements (s.gTileElementTilePointers t + i)) ∧
      (∀ i, j ≤ i → i + 1 < new.length →
        s1.gTileElements (s.gTileElementTilePointers t + i)
          = s.gTileElements (s.gTileElementTilePointers t + i + 1)) ∧
      s1.gNextFreeTileElement
        = (if s.gTileElementTilePointers t + old.length = s.gNextFreeTileElement then
            s.gNextFreeTileElement - 1
          else s.gNextFreeTileElement) := by
  obtain ⟨k, rfl, hrun, hb⟩ := tileRun_some cfg s t old hold
  simp only [readRun_length] at hk hj ⊢
  obtain ⟨mem1, hres, hmem, hvac, hframe⟩ :=
    remove_spec cfg s (s.gTileElementTilePointers t) k j hrun hk hj hb
  have hrun1 : IsRun mem1 (s.gTileElementTilePointers t) (k - 1) := by
    refine ⟨by omega, ?_⟩
    intro i hi
    rw [hmem i (by omega)]
    by_cases h2 : i + 2 = k
    · rw [if_pos h2, setLast_isLast]
      constructor
      · intro _; omega
      · intro _; rfl
    · rw [if_neg h2]
      have hnl : (if i < j then s.gTileElements (s.gTileElementTilePointers t + i)
          else s.gTileElements (s.gTileElementTilePointers t + i + 1)).IsLastForTile = false := by
        by_cases h3 : i < j
        · rw [if_pos h3]; exact hrun.not_last (by omega)
        · rw [if_neg h3]
          exact @IsRun.not_last _ _ _ (i + 1) hrun (by omega)
      rw [hnl]
      constructor
      · intro h; exact absurd h (by simp)
      · intro h; omega
  have hnew := (tileRun_of_isRun cfg
    { s with gTileElements := mem1
             gNextFreeTileElement :=
               if s.gTileElementTilePointers t + k = s.gNextFreeTileElement then
                 s.gNextFreeTileElement - 1
               else s.gNextFreeTileElement }
    t (k - 1) hrun1 (by simp only []; omega)).2.2
  refine ⟨_, _, hres, rfl, hnew, ?_, ?_, ?_, ?_, ?_, rfl⟩
  · simp only [readRun_length]; omega
  · intro i
    simp only [readRun_length]
    rw [readRun_getElem?, List.getElem?_eraseIdx, readRun_getElem?, readRun_getElem?]
    by_cases h1 : i < k - 1
    · rw [if_pos h1, hmem i (by omega)]
      by_cases h2 : i + 2 = k
      · rw [if_pos h2]
        by_cases h3 : i < j
        · rw [if_pos h3, if_pos h3, if_pos (by omega)]
          simp only [Option.map_some']
          rw [if_pos (by omega)]
        · rw [if_neg h3, if_neg h3, if_pos (by omega)]
          simp only [Option.map_some']
          rw [if_pos (by omega)]
          rfl
      · rw [if_neg h2]
        by_cases h3 : i < j
        · rw [if_pos h3, if_pos h3, if_pos (by omega)]
          simp only [Option.map_some']
          rw [if_neg (by omega)]
        · rw [if_neg h3, if_neg h3, if_pos (by omega)]
          simp only [Option.map_some']
          rw [if_neg (by omega)]
          rfl
    · rw [if_neg h1]
      by_cases h3 : i < j
      · omega
      · rw [if_neg h3, if_neg (by omega)]
        rfl
  · intro i h
    rw [readRun_getElem]
    rw [readRun_length] at h ⊢
    exact hrun1.2 i h
  · intro i h1 h2
    simp only [readRun_length] at h2
    simp only []
    rw [hmem i (by omega), if_neg (by omega), if_pos h1]
  · intro i h1 h2
    simp only [readRun_length] at h2
    simp only []
    rw [hmem i (by omega), if_neg (by omega), if_neg (by omega)]

/-- Witness of C3: removing the first of the three elements of tile 1 of the
sample store. -/
theorem tile_element_remove_run_witness :
    (tileRun smallConfig sampleStore 1 = some
      [sampleElement 0x00 10 7, sampleElement 0x10 14 8, sampleElement 0x80 14 9]) ∧
    ∃ (s1 : Store) (new : List TileElement),
      tile_element_remove smallConfig sampleStore
        (sampleStore.gTileElementTilePointers 1 + 0) = some s1 ∧
      s1.gTileElementTilePointers = sampleStore.gTileElementTilePointers ∧
      tileRun smallConfig s1 1 = some new ∧
      new.length + 1
        = [sampleElement 0x00 10 7, sampleElement 0x10 14 8, sampleElement 0x80 14 9].length ∧
      (∀ i, new[i]?
        = ([sampleElement 0x00 10 7, sampleElement 0x10 14 8, sampleElement 0x80 14 9].eraseIdx
            0)[i]?.map (fun e => if i + 1 = new.length then e.setLast else e)) ∧
      (∀ i (h : i < new.length), new[i].IsLastForTile = true ↔ i + 1 = new.length) ∧
      (∀ i, i < 0 → i + 1 < new.length →
        s1.gTileElements (sampleStore.gTileElementTilePointers 1 + i)
          = sampleStore.gTileElements (sampleStore.gTileElementTilePointers 1 + i)) ∧
      (∀ i, 0 ≤ i → i + 1 < new.length →
        s1.gTileElements (sampleStore.gTileElementTilePointers 1 + i)
          = sampleStore.gTileElements (sampleStore.gTileElementTilePointers 1 + i + 1)) ∧
      s1.gNextFreeTileElement
        = (if sampleStore.gTileElementTilePointers 1
              + [sampleElement 0x00 10 7, sampleElement 0x10 14 8,
                  sampleElement 0x80 14 9].length = sampleStore.gNextFreeTileElement then
            sampleStore.gNextFreeTileElement - 1
          else sampleStore.gNextFreeTileElement) :=
  ⟨by decide,
    tile_element_remove_run smallConfig sampleStore 1 0 _ (by decide) (by decide) (by decide)⟩

/-! ## The store invariant, the capacity check and insertion without room -/

theorem update_tile_pointers_closed (cfg : Config) (s : Store) (len : Nat → Nat)
    (H : ∀ t, t < MAX_TILE_TILE_ELEMENT_POINTERS cfg →
      IsRun s.gTileElements (prefixSum len t) (len t))
    (hsum : prefixSum len (MAX_TILE_TILE_ELEMENT_POINTERS cfg) ≤ arraySize cfg) :
    map_update_tile_pointers cfg s
      = some { s with
          gTileElementTilePointers := fun u =>
            if u < MAX_TILE_TILE_ELEMENT_POINTERS cfg then prefixSum len u
            else s.gTileElementTilePointers u
          gNextFreeTileElement := prefixSum len (MAX_TILE_TILE_ELEMENT_POINTERS cfg) } := by
  unfold map_update_tile_pointers
  rw [forLoop_nested]
  have hu := update_pointers_loop cfg s.gTileElements len s.gTileElementTilePointers
    (MAX_TILE_TILE_ELEMENT_POINTERS cfg) H hsum
  simp only [MAX_TILE_TILE_ELEMENT_POINTERS] at hu ⊢
  rw [hu]
  rfl

theorem prefixSum_one (t : Nat) : prefixSum (fun _ => 1) t = t := by
  induction t with
  | zero => exact prefixSum_zero _
  | succ t ih => rw [prefixSum_succ, ih]

theorem initialSurfaceElement_isLast : initialSurfaceElement.IsLastForTile = true := by decide

theorem map_init_wellFormed (cfg : Config) (s0 : Store) :
    ∃ s1, map_init cfg s0 = some s1 ∧ WellFormed cfg s1 := by
  have hrun : ∀ t, t < MAX_TILE_TILE_ELEMENT_POINTERS cfg →
      IsRun (fun i => if i < MAX_TILE_TILE_ELEMENT_POINTERS cfg then initialSurfaceElement
        else s0.gTileElements i) t 1 := by
    intro t ht
    refine ⟨by omega, ?_⟩
    intro i hi
    have : i = 0 := by omega
    subst this
    simp only [Nat.add_zero, if_pos ht, initialSurfaceElement_isLast]
  have hcl := update_tile_pointers_closed cfg
    { s0 with gTileElements := fun i =>
        if i < MAX_TILE_TILE_ELEMENT_POINTERS cfg then initialSurfaceElement
        else s0.gTileElements i }
    (fun _ => 1)
    (fun t ht => by rw [prefixSum_one]; exact hrun t ht)
    (by rw [prefixSum_one]; unfold arraySize; omega)
  refine ⟨_, hcl, ?_⟩
  apply wellFormed_of_runs cfg _ (fun _ => 1)
  · intro t ht
    simp only [if_pos ht, prefixSum_one]
    exact ⟨hrun t ht, by omega⟩
  · intro t1 h1 t2 h2 hne
    simp only [if_pos h1, if_pos h2, prefixSum_one]
    omega
  · simp only [prefixSum_one]
    unfold arraySize; omega

theorem reorganise_wellFormed (cfg : Config) (b : Bool) (s : Store) (hwf : WellFormed cfg s) :
    ∃ s1, map_reorganise_elements cfg b s = some s1 ∧ WellFormed cfg s1 ∧
      s1.reorganiseCalls = s.reorganiseCalls + 1 ∧
      s1.gNextFreeTileElement ≤ s.gNextFreeTileElement ∧
      prefixSum (tileRunLength cfg s) (MAX_TILE_TILE_ELEMENT_POINTERS cfg)
        ≤ s1.gNextFreeTileElement ∧
      s1.gGameCommandErrorText = s.gGameCommandErrorText ∧
      (∀ t, t < MAX_TILE_TILE_ELEMENT_POINTERS cfg →
        tileRun cfg s1 t = tileRun cfg s t ∧ tileRunLength cfg s1 t = tileRunLength cfg s t) := by
  cases b with
  | false =>
    refine ⟨{ s with reorganiseCalls := s.reorganiseCalls + 1 }, rfl, hwf, rfl,
      Nat.le_refl _, hwf.sum_le, rfl, fun t _ => ⟨rfl, rfl⟩⟩
  | true =>
    have hH : ∀ t, t < MAX_TILE_TILE_ELEMENT_POINTERS cfg →
        IsRun s.gTileElements (s.gTileElementTilePointers t) (tileRunLength cfg s t)
          ∧ s.gTileElementTilePointers t + tileRunLength cfg s t ≤ arraySize cfg :=
      fun t ht => ⟨(hwf.run t ht).1, by have := (hwf.run t ht).2; have := hwf.2; omega⟩
    have hsum : prefixSum (tileRunLength cfg s) (MAX_TILE_TILE_ELEMENT_POINTERS cfg)
        ≤ arraySize cfg := by have := hwf.sum_le; have := hwf.2; omega
    refine ⟨_, hwf.reorganise,
      compacted_wellFormed cfg s _ (fun t ht => (hH t ht).1) hsum, rfl, hwf.sum_le,
      Nat.le_refl _, rfl, ?_⟩
    intro t ht
    obtain ⟨a, b, c⟩ := compacted_tileRun cfg s _ hH hsum t ht
    exact ⟨a, by rw [b]⟩

theorem remove_wellFormed (cfg : Config) (s : Store) (t j : Nat) (hwf : WellFormed cfg s)
    (ht : t < MAX_TILE_TILE_ELEMENT_POINTERS cfg) (hk : 2 ≤ tileRunLength cfg s t)
    (hj : j < tileRunLength cfg s t) :
    ∃ s1, tile_element_remove cfg s (s.gTileElementTilePointers t + j) = some s1
      ∧ WellFormed cfg s1 := by
  obtain ⟨hrun, hb⟩ := hwf.run t ht
  have hL := hwf.2
  obtain ⟨mem1, hres, hmem, hvac, hframe⟩ :=
    remove_spec cfg s (s.gTileElementTilePointers t) (tileRunLength cfg s t) j hrun hk hj
      (by omega)
  refine ⟨_, hres, ?_⟩
  have hrun1 : IsRun mem1 (s.gTileElementTilePointers t) (tileRunLength cfg s t - 1) := by
    refine ⟨by omega, ?_⟩
    intro i hi
    rw [hmem i (by omega)]
    by_cases h2 : i + 2 = tileRunLength cfg s t
    · rw [if_pos h2, setLast_isLast]
      constructor
      · intro _; omega
      · intro _; rfl
    · rw [if_neg h2]
      have hnl : (if i < j then s.gTileElements (s.gTileElementTilePointers t + i)
          else s.gTileElements (s.gTileElementTilePointers t + i + 1)).IsLastForTile = false := by
        by_cases h3 : i < j
        · rw [if_pos h3]; exact hrun.not_last (by omega)
        · rw [if_neg h3]
          exact @IsRun.not_last _ _ _ (i + 1) hrun (by omega)
      rw [hnl]
      constructor
      · intro h; exact absurd h (by simp)
      · intro h; omega
  have hother : ∀ u, u < MAX_TILE_TILE_ELEMENT_POINTERS cfg → u ≠ t →
      (∀ i, i < tileRunLength cfg s u →
        mem1 (s.gTileElementTilePointers u + i) = s.gTileElements (s.gTileElementTilePointers u + i))
      ∧ s.gTileElementTilePointers u + tileRunLength cfg s u
        ≤ (if s.gTileElementTilePointers t + tileRunLength cfg s t = s.gNextFreeTileElement then
            s.gNextFreeTileElement - 1
          else s.gNextFreeTileElement) := by
    intro u hu hne
    have h1 := (hwf.run u hu)
    have h2 := hwf.disjoint u t hu ht hne
    have h3 := h1.1.1
    constructor
    · intro i hi
      exact hframe _ (by omega)
    · split <;> omega
  apply wellFormed_of_runs cfg _
    (fun u => if u = t then tileRunLength cfg s t - 1 else tileRunLength cfg s u)
  · intro u hu
    by_cases hut : u = t
    · subst hut
      simp only [↓reduceIte]
      refine ⟨hrun1, ?_⟩
      split <;> omega
    · simp only [if_neg hut]
      exact ⟨(hwf.run u hu).1.transport (hother u hu hut).1, (hother u hu hut).2⟩
  · intro u1 h1 u2 h2 hne
    have d := hwf.disjoint u1 u2 h1 h2 hne
    by_cases e1 : u1 = t
    · subst e1
      have e2 : u2 ≠ u1 := fun h => hne h.symm
      simp only [↓reduceIte, if_neg e2]
      omega
    · by_cases e2 : u2 = t
      · subst e2
        simp only [↓reduceIte, if_neg e1]
        omega
      · simp only [if_neg e1, if_neg e2]
        exact d
  · simp only []
    split <;> omega

theorem check_free_overflow (cfg : Config) (b : Bool) (s s1 : Store) (n : Int) (hn : n ≠ 0)
    (hov : (s.gNextFreeTileElement : Int) + n > (cfg.MAX_TILE_ELEMENTS : Int))
    (hre : map_reorganise_elements cfg b s = some s1) :
    map_check_free_elements_and_reorganise cfg b s n
      = some (if (s1.gNextFreeTileElement : Int) + n > (cfg.MAX_TILE_ELEMENTS : Int) then
          (false, { s1 with gGameCommandErrorText := cfg.STR_ERR_LANDSCAPE_DATA_AREA_FULL })
        else (true, s1)) := by
  unfold map_check_free_elements_and_reorganise
  rw [if_pos hn, if_pos hov, hre]
  rfl

theorem insert_null_of_check (cfg : Config) (b : Bool) (s s1 : Store) (x y z : Int)
    (flags : Nat)
    (hcheck : map_check_free_elements_and_reorganise cfg b s 1 = some (false, s1)) :
    tile_element_insert cfg b s x y z flags = some (s1, none) := by
  unfold tile_element_insert
  rw [hcheck]
  rfl

theorem insert_total_wellFormed (cfg : Config) (b : Bool) (s : Store) (x y : Nat) (z : Int)
    (flags : Nat) (hwf : WellFormed cfg s)
    (hx : x < cfg.MAXIMUM_MAP_SIZE_TECHNICAL) (hy : y < cfg.MAXIMUM_MAP_SIZE_TECHNICAL)
    (hspace : s.gNextFreeTileElement + tileRunLength cfg s (tileIndex cfg x y) + 1
      ≤ arraySize cfg) :
    ∃ s1 r, tile_element_insert cfg b s x y z flags = some (s1, r) ∧ WellFormed cfg s1 := by
  have ht : tileIndex cfg x y < MAX_TILE_TILE_ELEMENT_POINTERS cfg := by
    have := tile_index_lt cfg x y hx hy
    unfold tileIndex; omega
  have hidx : (y : Int) * (cfg.MAXIMUM_MAP_SIZE_TECHNICAL : Int) + (x : Int)
      = ((tileIndex cfg x y : Nat) : Int) := by unfold tileIndex; push_cast; rfl
  by_cases hroom : (s.gNextFreeTileElement : Int) + 1 ≤ (cfg.MAX_TILE_ELEMENTS : Int)
  · obtain ⟨hrun, hb⟩ := hwf.run _ ht
    obtain ⟨m, c3, hres, hprop⟩ := insert_store_spec cfg b s s x y z flags (tileIndex cfg x y)
      _ (check_free_of_room cfg b s 1 hroom) hidx ht hrun hb hspace
    exact ⟨_, _, hres, insert_wellFormed cfg s z flags _ m c3 hwf ht hspace hprop⟩
  · obtain ⟨s1, hre, hwf1, _, hle, _, _, hruns⟩ := reorganise_wellFormed cfg b s hwf
    have hcheck := check_free_overflow cfg b s s1 1 (by omega) (by omega) hre
    by_cases h2 : (s1.gNextFreeTileElement : Int) + 1 > (cfg.MAX_TILE_ELEMENTS : Int)
    · rw [if_pos h2] at hcheck
      exact ⟨_, _, insert_null_of_check cfg b s _ x y z flags hcheck, hwf1⟩
    · rw [if_neg h2] at hcheck
      obtain ⟨hrun, hb⟩ := hwf1.run _ ht
      have hlen := (hruns _ ht).2
      have hspace1 : s1.gNextFreeTileElement + tileRunLength cfg s1 (tileIndex cfg x y) + 1
          ≤ arraySize cfg := by rw [hlen]; omega
      obtain ⟨m, c3, hres, hprop⟩ := insert_store_spec cfg b s s1 x y z flags
        (tileIndex cfg x y) _ hcheck hidx ht hrun hb hspace1
      exact ⟨_, _, hres, insert_wellFormed cfg s1 z flags _ m c3 hwf1 ht hspace1 hprop⟩

/-- C5 (amended): the store invariant, together with `gNextFreeTileElement`
lying within the array, holds after the initial fill of `map_init` followed by
`map_update_tile_pointers`, and on a store where it holds it is preserved by
`tile_element_insert` on a tile of the map when the array has room behind
`gNextFreeTileElement` for the relocated run and the new element, by
`tile_element_remove` on any element of a run of at least two elements, and by
`map_reorganise_elements`; each of these calls returns. -/
theorem store_invariant_preserved (cfg : Config) (s0 s : Store) (hwf : WellFormed cfg s) :
    (∃ s1, map_init cfg s0 = some s1 ∧ WellFormed cfg s1) ∧
    (∀ (b : Bool) (x y : Nat) (z : Int) (flags : Nat),
      x < cfg.MAXIMUM_MAP_SIZE_TECHNICAL → y < cfg.MAXIMUM_MAP_SIZE_TECHNICAL →
      s.gNextFreeTileElement + tileRunLength cfg s (tileIndex cfg x y) + 1 ≤ arraySize cfg →
      ∃ s1 r, tile_element_insert cfg b s x y z flags = some (s1, r) ∧ WellFormed cfg s1) ∧
    (∀ (t j : Nat), t < MAX_TILE_TILE_ELEMENT_POINTERS cfg → 2 ≤ tileRunLength cfg s t →
      j < tileRunLength cfg s t →
      ∃ s1, tile_element_remove cfg s (s.gTileElementTilePointers t + j) = some s1
        ∧ WellFormed cfg s1) ∧
    (∀ (b : Bool), ∃ s1, map_reorganise_elements cfg b s = some s1 ∧ WellFormed cfg s1) :=
  ⟨map_init_wellFormed cfg s0,
    fun b x y z flags hx hy hspace => insert_total_wellFormed cfg b s x y z flags hwf hx hy hspace,
    fun t j ht hk hj => remove_wellFormed cfg s t j hwf ht hk hj,
    fun b => by
      obtain ⟨s1, h1, h2, _⟩ := reorganise_wellFormed cfg b s hwf
      exact ⟨s1, h1, h2⟩⟩

/-- Witness of C5 (amended) on the sample store: an insertion into tile
(0, 0), the removal of the second element of tile 1 and a reorganisation. -/
theorem store_invariant_preserved_witness :
    WellFormed smallConfig sampleStore ∧
    (∃ s1, map_init smallConfig sampleStore = some s1 ∧ WellFormed smallConfig s1) ∧
    (∃ s1 r, tile_element_insert smallConfig true sampleStore 0 0 14 0 = some (s1, r)
      ∧ WellFormed smallConfig s1) ∧
    (∃ s1, tile_element_remove smallConfig sampleStore
        (sampleStore.gTileElementTilePointers 1 + 1) = some s1 ∧ WellFormed smallConfig s1) ∧
    (∃ s1, map_reorganise_elements smallConfig true sampleStore = some s1
      ∧ WellFormed smallConfig s1) :=
  ⟨by decide,
    (store_invariant_preserved smallConfig sampleStore sampleStore (by decide)).1,
    (store_invariant_preserved smallConfig sampleStore sampleStore (by decide)).2.1
      true 0 0 14 0 (by decide) (by decide) (by decide),
    (store_invariant_preserved smallConfig sampleStore sampleStore (by decide)).2.2.1
      1 1 (by decide) (by decide) (by decide),
    (store_invariant_preserved smallConfig sampleStore sampleStore (by decide)).2.2.2 true⟩

/-- Counterexample to C5 as stated: in the store that `map_init` leaves for the
2 x 2 map every tile has one element and tile 3 ends at the global tail.
`tile_element_remove` on that only element of tile 3 returns with
`gNextFreeTileElement` moved down to the head of the tile's run, so that the
run no longer lies inside `[0, gNextFreeTileElement)`: the invariant is
broken. -/
theorem store_invariant_preserved_counterexample :
    ∃ s s1, map_init smallConfig sampleStore = some s ∧
      StoreInvariant smallConfig s ∧
      tileRunLength smallConfig s 3 = 1 ∧
      tile_element_remove smallConfig s (s.gTileElementTilePointers 3) = some s1 ∧
      ¬ StoreInvariant smallConfig s1 :=
  ⟨_, _, rfl, by decide, by decide, rfl, by decide⟩

/-- C6: on a well-formed store `map_check_free_elements_and_reorganise(n)`
with `n >= 0` returns; for `n = 0`, and for `n > 0` when `gNextFreeTileElement + n` is not
beyond `MAX_TILE_ELEMENTS`, it returns true and leaves the store as it is (no
call of `map_reorganise_elements`); for `n > 0` otherwise it calls
`map_reorganise_elements` exactly once and continues with its result; it
returns false exactly when the space is still insufficient after that
reorganisation, and then the error text is
`STR_ERR_LANDSCAPE_DATA_AREA_FULL`. -/
theorem map_check_free_elements_and_reorganise_spec (cfg : Config) (b : Bool) (s : Store)
    (n : Int) (hwf : WellFormed cfg s) (hn0 : 0 ≤ n) :
    ∃ (ok : Bool) (s1 : Store),
      map_check_free_elements_and_reorganise cfg b s n = some (ok, s1) ∧
      (n = 0 → ok = true ∧ s1 = s) ∧
      (0 < n → (s.gNextFreeTileElement : Int) + n ≤ (cfg.MAX_TILE_ELEMENTS : Int) →
        ok = true ∧ s1 = s) ∧
      (0 < n → (s.gNextFreeTileElement : Int) + n > (cfg.MAX_TILE_ELEMENTS : Int) →
        ∃ s2, map_reorganise_elements cfg b s = some s2 ∧
          s1.gTileElements = s2.gTileElements ∧
          s1.gTileElementTilePointers = s2.gTileElementTilePointers ∧
          s1.gNextFreeTileElement = s2.gNextFreeTileElement ∧
          s1.reorganiseCalls = s.reorganiseCalls + 1 ∧
          (ok = false ↔
            (s2.gNextFreeTileElement : Int) + n > (cfg.MAX_TILE_ELEMENTS : Int))) ∧
      (ok = false → 0 < n ∧ (s.gNextFreeTileElement : Int) + n > (cfg.MAX_TILE_ELEMENTS : Int)
        ∧ s1.gGameCommandErrorText = cfg.STR_ERR_LANDSCAPE_DATA_AREA_FULL) ∧
      (ok = true → s1.gGameCommandErrorText = s.gGameCommandErrorText) := by
  by_cases hn : n = 0
  · subst hn
    refine ⟨true, s, ?_, fun _ => ⟨rfl, rfl⟩, fun h => absurd h (by omega),
      fun h => absurd h (by omega), fun h => absurd h (by simp), fun _ => rfl⟩
    unfold map_check_free_elements_and_reorganise
    rw [if_neg (by simp)]
  · by_cases hov : (s.gNextFreeTileElement : Int) + n > (cfg.MAX_TILE_ELEMENTS : Int)
    · obtain ⟨s2, hre, _, hcalls, _, _, herr, _⟩ := reorganise_wellFormed cfg b s hwf
      have hcheck := check_free_overflow cfg b s s2 n hn hov hre
      by_cases h2 : (s2.gNextFreeTileElement : Int) + n > (cfg.MAX_TILE_ELEMENTS : Int)
      · rw [if_pos h2] at hcheck
        refine ⟨false, _, hcheck, fun h => absurd h hn, fun _ h => absurd hov (by omega),
          fun _ _ => ⟨s2, hre, rfl, rfl, rfl, hcalls, ⟨fun _ => h2, fun _ => rfl⟩⟩, ?_,
          fun h => absurd h (by simp)⟩
        intro _
        have hpos : 0 < n := by omega
        exact ⟨hpos, hov, rfl⟩
      · rw [if_neg h2] at hcheck
        refine ⟨true, _, hcheck, fun h => absurd h hn, fun _ h => absurd hov (by omega),
          fun _ _ => ⟨s2, hre, rfl, rfl, rfl, hcalls,
            ⟨fun h => absurd h (by simp), fun h => absurd h h2⟩⟩,
          fun h => absurd h (by simp), fun _ => herr⟩
    · refine ⟨true, s, check_free_of_room cfg b s n (by omega), fun h => absurd h hn,
        fun _ _ => ⟨rfl, rfl⟩, fun _ h => absurd h hov, fun h => absurd h (by simp),
        fun _ => rfl⟩

/-- Witness of C6: a request for one element on the full store, which
reorganises once and fails. -/
theorem map_check_free_elements_and_reorganise_spec_witness :
    WellFormed smallConfig fullStore ∧
    ∃ (ok : Bool) (s1 : Store),
      map_check_free_elements_and_reorganise smallConfig true fullStore 1 = some (ok, s1) ∧
      ((1 : Int) = 0 → ok = true ∧ s1 = fullStore) ∧
      ((0 : Int) < 1 →
        (fullStore.gNextFreeTileElement : Int) + 1 ≤ (smallConfig.MAX_TILE_ELEMENTS : Int) →
        ok = true ∧ s1 = fullStore) ∧
      ((0 : Int) < 1 →
        (fullStore.gNextFreeTileElement : Int) + 1 > (smallConfig.MAX_TILE_ELEMENTS : Int) →
        ∃ s2, map_reorganise_elements smallConfig true fullStore = some s2 ∧
          s1.gTileElements = s2.gTileElements ∧
          s1.gTileElementTilePointers = s2.gTileElementTilePointers ∧
          s1.gNextFreeTileElement = s2.gNextFreeTileElement ∧
          s1.reorganiseCalls = fullStore.reorganiseCalls + 1 ∧
          (ok = false ↔
            (s2.gNextFreeTileElement : Int) + 1 > (smallConfig.MAX_TILE_ELEMENTS : Int))) ∧
      (ok = false → (0 : Int) < 1
        ∧ (fullStore.gNextFreeTileElement : Int) + 1 > (smallConfig.MAX_TILE_ELEMENTS : Int)
        ∧ s1.gGameCommandErrorText = smallConfig.STR_ERR_LANDSCAPE_DATA_AREA_FULL) ∧
      (ok = true → s1.gGameCommandErrorText = fullStore.gGameCommandErrorText) :=
  ⟨by decide,
    map_check_free_elements_and_reorganise_spec smallConfig true fullStore 1 (by decide)
      (by decide)⟩

/-- C7: on a well-formed store whose elements leave no free slot below
`MAX_TILE_ELEMENTS` even when compacted, `tile_element_insert` returns null
(for every tile, height and flags), every tile's run holds the same sequence
of elements as before the call, the total number of elements is unchanged and
the store is still well formed. -/
theorem tile_element_insert_full (cfg : Config) (b : Bool) (s : Store) (x y z : Int)
    (flags : Nat) (hwf : WellFormed cfg s)
    (hfull : cfg.MAX_TILE_ELEMENTS
      < prefixSum (tileRunLength cfg s) (MAX_TILE_TILE_ELEMENT_POINTERS cfg) + 1) :
    ∃ s1, tile_element_insert cfg b s x y z flags = some (s1, none) ∧
      (∀ t, t < MAX_TILE_TILE_ELEMENT_POINTERS cfg → tileRun cfg s1 t = tileRun cfg s t) ∧
      prefixSum (tileRunLength cfg s1) (MAX_TILE_TILE_ELEMENT_POINTERS cfg)
        = prefixSum (tileRunLength cfg s) (MAX_TILE_TILE_ELEMENT_POINTERS cfg) ∧
      WellFormed cfg s1 ∧
      s1.gGameCommandErrorText = cfg.STR_ERR_LANDSCAPE_DATA_AREA_FULL := by
  obtain ⟨s2, hre, hwf2, _, _, hge, _, hruns⟩ := reorganise_wellFormed cfg b s hwf
  have hsum := hwf.sum_le
  have hcheck := check_free_overflow cfg b s s2 1 (by omega) (by omega) hre
  rw [if_pos (by omega)] at hcheck
  refine ⟨_, insert_null_of_check cfg b s _ x y z flags hcheck, fun t ht => (hruns t ht).1,
    ?_, hwf2, rfl⟩
  exact prefixSum_congr _ _ _ (fun t ht => (hruns t ht).2)

/-- Witness of C7 on the full store. -/
theorem tile_element_insert_full_witness :
    WellFormed smallConfig fullStore ∧
    ∃ s1, tile_element_insert smallConfig true fullStore 0 0 14 0 = some (s1, none) ∧
      (∀ t, t < MAX_TILE_TILE_ELEMENT_POINTERS smallConfig →
        tileRun smallConfig s1 t = tileRun smallConfig fullStore t) ∧
      prefixSum (tileRunLength smallConfig s1) (MAX_TILE_TILE_ELEMENT_POINTERS smallConfig)
        = prefixSum (tileRunLength smallConfig fullStore)
            (MAX_TILE_TILE_ELEMENT_POINTERS smallConfig) ∧
      WellFormed smallConfig s1 ∧
      s1.gGameCommandErrorText = smallConfig.STR_ERR_LANDSCAPE_DATA_AREA_FULL :=
  ⟨by decide,
    tile_element_insert_full smallConfig true fullStore 0 0 14 0 (by decide) (by decide)⟩

/-- C8, evaluation at the failing input: from the store of `map_init` for the
2 x 2 map (array of 12 elements), two insertions into tile (1, 0) leave that
tile with three elements and `gNextFreeTileElement = 9`.  For the next
insertion into the tile `map_check_free_elements_and_reorganise(1)` returns
true without reorganising, yet `tile_element_insert` copies the three elements
and the new one to the indices 9 to 12, the last of which lies outside the
array: the call has no defined result. -/
theorem tile_element_insert_out_of_bounds :
    ∃ s1 s2 s3 p2 p3,
      map_init smallConfig sampleStore = some s1 ∧
      tile_element_insert smallConfig true s1 1 0 14 0 = some (s2, some p2) ∧
      tile_element_insert smallConfig true s2 1 0 10 0 = some (s3, some p3) ∧
      WellFormed smallConfig s3 ∧
      s3.gNextFreeTileElement = 9 ∧
      tileRunLength smallConfig s3 (tileIndex smallConfig 1 0) = 3 ∧
      arraySize smallConfig = 12 ∧ smallConfig.MAX_TILE_ELEMENTS = 12 ∧
      map_check_free_elements_and_reorganise smallConfig true s3 1 = some (true, s3) ∧
      tile_element_insert smallConfig true s3 1 0 14 0 = none :=
  ⟨_, _, _, _, _, rfl, rfl, rfl, by decide, by decide, by decide, by decide, by decide, rfl,
    Option.eq_none_of_isNone (by decide)⟩

/-! ## Iteration -/

theorem succ_coords (N t : Nat) (hN : 0 < N) :
    (t % N + 1 < N → (t + 1) % N = t % N + 1 ∧ (t + 1) / N = t / N) ∧
    (t % N + 1 = N → (t + 1) % N = 0 ∧ (t + 1) / N = t / N + 1) := by
  have h := Nat.mod_add_div t N
  constructor
  · intro hlt
    have := (@Nat.div_mod_unique (t + 1) N (t % N + 1) (t / N) hN).2
      ⟨by omega, hlt⟩
    exact ⟨this.2, this.1⟩
  · intro heq
    have := (@Nat.div_mod_unique (t + 1) N 0 (t / N + 1) hN).2
      ⟨by rw [Nat.mul_add, Nat.mul_one]; omega, hN⟩
    exact ⟨this.2, this.1⟩

theorem succ_tile_lt (N t : Nat) (hN : 0 < N) (ht : t < N * N) :
    t + 1 < N * N ↔ ¬ (t % N + 1 = N ∧ t / N + 1 = N) := by
  have hx : t % N < N := Nat.mod_lt _ hN
  have hy : t / N < N := Nat.div_lt_of_lt_mul ht
  obtain ⟨h1, h2⟩ := succ_coords N t hN
  rw [← Nat.div_lt_iff_lt_mul hN]
  rcases Nat.lt_or_ge (t % N + 1) N with h | h
  · rw [(h1 h).2]
    constructor
    · intro _ hc; omega
    · intro _; exact hy
  · rw [(h2 (by omega)).2]
    constructor
    · intro h3 hc; omega
    · intro h3
      have : ¬ (t / N + 1 = N) := fun hc => h3 ⟨by omega, hc⟩
      omega

/-- One call of `tile_element_iterator_next` with the cursor on element `i` of
the run of tile `t`. -/
theorem iterator_next_step (cfg : Config) (s : Store) (hwf : WellFormed cfg s) (t i : Nat)
    (ht : t < MAX_TILE_TILE_ELEMENT_POINTERS cfg) (hi : i < tileRunLength cfg s t) :
    tile_element_iterator_next cfg s
        { x := ((t % cfg.MAXIMUM_MAP_SIZE_TECHNICAL : Nat) : Int)
          y := ((t / cfg.MAXIMUM_MAP_SIZE_TECHNICAL : Nat) : Int)
          element := some (s.gTileElementTilePointers t + i) }
      = some
          (if i + 1 < tileRunLength cfg s t then
            (1, { x := ((t % cfg.MAXIMUM_MAP_SIZE_TECHNICAL : Nat) : Int)
                  y := ((t / cfg.MAXIMUM_MAP_SIZE_TECHNICAL : Nat) : Int)
                  element := some (s.gTileElementTilePointers t + i + 1) })
          else if t + 1 < MAX_TILE_TILE_ELEMENT_POINTERS cfg then
            (1, { x := (((t + 1) % cfg.MAXIMUM_MAP_SIZE_TECHNICAL : Nat) : Int)
                  y := (((t + 1) / cfg.MAXIMUM_MAP_SIZE_TECHNICAL : Nat) : Int)
                  element := some (s.gTileElementTilePointers (t + 1)) })
          else
            (0, { x := ((t % cfg.MAXIMUM_MAP_SIZE_TECHNICAL : Nat) : Int)
                  y := ((t / cfg.MAXIMUM_MAP_SIZE_TECHNICAL : Nat) : Int)
                  element := some (s.gTileElementTilePointers t + i) })) := by
  obtain ⟨hrun, hb⟩ := hwf.run t ht
  have hL := hwf.2
  have hN : 0 < cfg.MAXIMUM_MAP_SIZE_TECHNICAL := by
    unfold MAX_TILE_TILE_ELEMENT_POINTERS at ht
    rcases Nat.eq_zero_or_pos cfg.MAXIMUM_MAP_SIZE_TECHNICAL with h | h
    · rw [h] at ht; omega
    · exact h
  have hx : t % cfg.MAXIMUM_MAP_SIZE_TECHNICAL < cfg.MAXIMUM_MAP_SIZE_TECHNICAL :=
    Nat.mod_lt _ hN
  have hy : t / cfg.MAXIMUM_MAP_SIZE_TECHNICAL < cfg.MAXIMUM_MAP_SIZE_TECHNICAL :=
    Nat.div_lt_of_lt_mul ht
  obtain ⟨hc1, hc2⟩ := succ_coords cfg.MAXIMUM_MAP_SIZE_TECHNICAL t hN
  have hlt := succ_tile_lt cfg.MAXIMUM_MAP_SIZE_TECHNICAL t hN ht
  unfold tile_element_iterator_next
  simp only []
  rw [if_pos (by omega)]
  by_cases hlast : i + 1 < tileRunLength cfg s t
  · rw [hrun.not_last hlast, if_pos hlast]
    rfl
  · have hl : (s.gTileElements (s.gTileElementTilePointers t + i)).IsLastForTile = true :=
      (hrun.2 i hi).2 (by omega)
    rw [hl, if_neg hlast]
    simp only [Bool.not_true, Bool.false_eq_true, if_false]
    by_cases hxl : t % cfg.MAXIMUM_MAP_SIZE_TECHNICAL + 1 < cfg.MAXIMUM_MAP_SIZE_TECHNICAL
    · have ht1 : t + 1 < MAX_TILE_TILE_ELEMENT_POINTERS cfg := hlt.2 (by omega)
      obtain ⟨e1, e2⟩ := hc1 hxl
      rw [if_pos (by omega), if_pos ht1]
      have hf := first_element_at_flat cfg s (t + 1) ht1
      rw [e1, e2] at hf ⊢
      push_cast at hf ⊢
      rw [hf]
    · rw [if_neg (by omega)]
      by_cases hyl : t / cfg.MAXIMUM_MAP_SIZE_TECHNICAL + 1 < cfg.MAXIMUM_MAP_SIZE_TECHNICAL
      · have ht1 : t + 1 < MAX_TILE_TILE_ELEMENT_POINTERS cfg := hlt.2 (by omega)
        obtain ⟨e1, e2⟩ := hc2 (by omega)
        rw [if_pos (by omega), if_pos ht1]
        have hf := first_element_at_flat cfg s (t + 1) ht1
        rw [e1, e2] at hf ⊢
        push_cast at hf ⊢
        rw [hf]
      · have ht1 : ¬ t + 1 < MAX_TILE_TILE_ELEMENT_POINTERS cfg :=
          fun h => hlt.1 h ⟨by omega, by omega⟩
        rw [if_neg (by omega), if_neg ht1]

theorem iterate_tile_rest (cfg : Config) (s : Store) (hwf : WellFormed cfg s) (t : Nat)
    (ht : t < MAX_TILE_TILE_ELEMENT_POINTERS cfg) (rest : List tile_element_iterator)
    (hnext : t + 1 < MAX_TILE_TILE_ELEMENT_POINTERS cfg →
      iterateTiles cfg s rest.length
          { x := (((t + 1) % cfg.MAXIMUM_MAP_SIZE_TECHNICAL : Nat) : Int)
            y := (((t + 1) / cfg.MAXIMUM_MAP_SIZE_TECHNICAL : Nat) : Int)
            element := some (s.gTileElementTilePointers (t + 1)) }
        = some rest)
    (hend : ¬ t + 1 < MAX_TILE_TILE_ELEMENT_POINTERS cfg → rest = []) :
    ∀ d i, i + d + 1 = tileRunLength cfg s t →
      iterateTiles cfg s (d + 1 + rest.length)
          { x := ((t % cfg.MAXIMUM_MAP_SIZE_TECHNICAL : Nat) : Int)
            y := ((t / cfg.MAXIMUM_MAP_SIZE_TECHNICAL : Nat) : Int)
            element := some (s.gTileElementTilePointers t + i) }
        = some (restOfTile ((t % cfg.MAXIMUM_MAP_SIZE_TECHNICAL : Nat) : Int)
            ((t / cfg.MAXIMUM_MAP_SIZE_TECHNICAL : Nat) : Int)
            (s.gTileElementTilePointers t + i) (d + 1) ++ rest)
  | 0, i, hlen => by
    rw [show 0 + 1 + rest.length = rest.length + 1 by omega]
    unfold iterateTiles
    rw [iterator_next_step cfg s hwf t i ht (by omega), if_neg (by omega)]
    by_cases h1 : t + 1 < MAX_TILE_TILE_ELEMENT_POINTERS cfg
    · rw [if_pos h1]
      simp only [Option.some_bind, one_ne_zero, if_false]
      rw [hnext h1]
      rfl
    · rw [if_neg h1, hend h1]
      rfl
  | d + 1, i, hlen => by
    rw [show d + 1 + 1 + rest.length = (d + 1 + rest.length) + 1 by omega]
    unfold iterateTiles
    rw [iterator_next_step cfg s hwf t i ht (by omega), if_pos (by omega)]
    simp only [Option.some_bind, one_ne_zero, if_false]
    have ih := iterate_tile_rest cfg s hwf t ht rest hnext hend d (i + 1) (by omega)
    rw [show s.gTileElementTilePointers t + (i + 1) = s.gTileElementTilePointers t + i + 1
      by omega] at ih
    rw [ih]
    rfl

theorem restOfTile_length (x y : Int) : ∀ (d e : Nat), (restOfTile x y e d).length = d
  | 0, _ => rfl
  | d + 1, e => by simp [restOfTile, restOfTile_length x y d (e + 1)]

theorem tileVisits_length (cfg : Config) (s : Store) (t : Nat) :
    (tileVisits cfg s t).length = tileRunLength cfg s t :=
  restOfTile_length _ _ _ _

theorem iterate_tiles (cfg : Config) (s : Store) (hwf : WellFormed cfg s) :
    ∀ c t, t + c + 1 = MAX_TILE_TILE_ELEMENT_POINTERS cfg →
      iterateTiles cfg s (visitsFromTile cfg s (c + 1) t).length
          { x := ((t % cfg.MAXIMUM_MAP_SIZE_TECHNICAL : Nat) : Int)
            y := ((t / cfg.MAXIMUM_MAP_SIZE_TECHNICAL : Nat) : Int)
            element := some (s.gTileElementTilePointers t) }
        = some (visitsFromTile cfg s (c + 1) t)
  | 0, t, htc => by
    have ht : t < MAX_TILE_TILE_ELEMENT_POINTERS cfg := by omega
    have hpos := (hwf.run t ht).1.1
    have := iterate_tile_rest cfg s hwf t ht [] (fun h => absurd h (by omega)) (fun _ => rfl)
      (tileRunLength cfg s t - 1) 0 (by omega)
    simp only [visitsFromTile, List.length_append, tileVisits_length, List.length_nil,
      Nat.add_zero, List.append_nil] at this ⊢
    rw [show tileRunLength cfg s t - 1 + 1 = tileRunLength cfg s t by omega] at this
    exact this
  | c + 1, t, htc => by
    have ht : t < MAX_TILE_TILE_ELEMENT_POINTERS cfg := by omega
    have hpos := (hwf.run t ht).1.1
    have ih := iterate_tiles cfg s hwf c (t + 1) (by omega)
    have := iterate_tile_rest cfg s hwf t ht (visitsFromTile cfg s (c + 1) (t + 1))
      (fun _ => ih) (fun h => absurd (show t + 1 < MAX_TILE_TILE_ELEMENT_POINTERS cfg by omega) h)
      (tileRunLength cfg s t - 1) 0 (by omega)
    rw [show tileRunLength cfg s t - 1 + 1 = tileRunLength cfg s t by omega] at this
    rw [show visitsFromTile cfg s (c + 1 + 1) t
        = tileVisits cfg s t ++ visitsFromTile cfg s (c + 1) (t + 1) from rfl,
      List.length_append, tileVisits_length]
    exact this

theorem restOfTile_mem (x y : Int) :
    ∀ (d e : Nat) (a : tile_element_iterator), a ∈ restOfTile x y e d →
      ∃ q, q < d ∧ a.element = some (e + q)
  | 0, _, a, h => by simp [restOfTile] at h
  | d + 1, e, a, h => by
    simp only [restOfTile, List.mem_cons] at h
    rcases h with h | h
    · exact ⟨0, by omega, by rw [h]; rfl⟩
    · obtain ⟨q, hq, he⟩ := restOfTile_mem x y d (e + 1) a h
      exact ⟨q + 1, by omega, by rw [he]; congr 1; omega⟩

theorem restOfTile_nodup (x y : Int) :
    ∀ (d e : Nat), ((restOfTile x y e d).map (fun a => a.element)).Nodup
  | 0, _ => by simp [restOfTile]
  | d + 1, e => by
    simp only [restOfTile, List.map_cons, List.nodup_cons]
    refine ⟨?_, restOfTile_nodup x y d (e + 1)⟩
    intro hmem
    rw [List.mem_map] at hmem
    obtain ⟨a, ha, hae⟩ := hmem
    obtain ⟨q, _, he⟩ := restOfTile_mem x y d (e + 1) a ha
    rw [he] at hae
    have := Option.some.inj hae
    omega

theorem visitsFromTile_mem (cfg : Config) (s : Store) :
    ∀ (c t : Nat) (a : tile_element_iterator), a ∈ visitsFromTile cfg s c t →
      ∃ u q, t ≤ u ∧ u < t + c ∧ q < tileRunLength cfg s u
        ∧ a.element = some (s.gTileElementTilePointers u + q)
  | 0, _, a, h => by simp [visitsFromTile] at h
  | c + 1, t, a, h => by
    simp only [visitsFromTile, List.mem_append] at h
    rcases h with h | h
    · obtain ⟨q, hq, he⟩ := restOfTile_mem _ _ _ _ a h
      exact ⟨t, q, by omega, by omega, hq, he⟩
    · obtain ⟨u, q, h1, h2, h3, h4⟩ := visitsFromTile_mem cfg s c (t + 1) a h
      exact ⟨u, q, by omega, by omega, h3, h4⟩

theorem visitsFromTile_nodup (cfg : Config) (s : Store) (hwf : WellFormed cfg s) :
    ∀ (c t : Nat), t + c ≤ MAX_TILE_TILE_ELEMENT_POINTERS cfg →
      ((visitsFromTile cfg s c t).map (fun a => a.element)).Nodup
  | 0, _, _ => by simp [visitsFromTile]
  | c + 1, t, h => by
    simp only [visitsFromTile, List.map_append]
    rw [List.nodup_append]
    refine ⟨restOfTile_nodup _ _ _ _, visitsFromTile_nodup cfg s hwf c (t + 1) (by omega), ?_⟩
    intro e he1 he2
    rw [List.mem_map] at he1 he2
    obtain ⟨a1, ha1, rfl⟩ := he1
    obtain ⟨a2, ha2, hae⟩ := he2
    obtain ⟨q1, hq1, e1⟩ := restOfTile_mem _ _ _ _ a1 ha1
    obtain ⟨u, q2, h1, h2, h3, e2⟩ := visitsFromTile_mem cfg s c (t + 1) a2 ha2
    rw [e1, e2] at hae
    have heq := Option.some.inj hae
    have := hwf.disjoint t u (by omega) (by omega) (by omega)
    omega

theorem coords_of_index (N x y : Nat) (hx : x < N) :
    (x + y * N) % N = x ∧ (x + y * N) / N = y := by
  have hN : 0 < N := by omega
  have := (@Nat.div_mod_unique (x + y * N) N x y hN).2 ⟨by rw [Nat.mul_comm], hx⟩
  exact ⟨this.2, this.1⟩

/-- C10: on a well-formed store of a map with at least one tile, the traversal
`tile_element_iterator_begin(&it); do { ... } while (tile_element_iterator_next(&it));`
ends and visits the elements of every tile once, the tiles in raster order
(`x` fastest, then `y`) and each tile from the head of its run to its
last-for-tile element; `tile_element_iterator_next` returns 1 on every advance
and 0 exactly with the cursor on the last element of the last tile; and after
`tile_element_iterator_restart_for_tile` the next call returns 1 with the
cursor on the head of the run of the same tile. -/
theorem tile_element_iterator_visits (cfg : Config) (s : Store) (hwf : WellFormed cfg s)
    (hN : 0 < cfg.MAXIMUM_MAP_SIZE_TECHNICAL) :
    (∃ fuel, iterateTiles cfg s fuel (tile_element_iterator_begin cfg s)
      = some (expectedVisits cfg s)) ∧
    ((expectedVisits cfg s).map (fun a => a.element)).Nodup ∧
    (∀ x y i : Nat, x < cfg.MAXIMUM_MAP_SIZE_TECHNICAL → y < cfg.MAXIMUM_MAP_SIZE_TECHNICAL →
      i < tileRunLength cfg s (x + y * cfg.MAXIMUM_MAP_SIZE_TECHNICAL) →
      ∃ (r : Int) (it1 : tile_element_iterator),
        tile_element_iterator_next cfg s
            { x := (x : Int), y := (y : Int)
              element := some
                (s.gTileElementTilePointers (x + y * cfg.MAXIMUM_MAP_SIZE_TECHNICAL) + i) }
          = some (r, it1) ∧
        (r = 0 ∨ r = 1) ∧
        (r = 0 ↔ x + 1 = cfg.MAXIMUM_MAP_SIZE_TECHNICAL ∧ y + 1 = cfg.MAXIMUM_MAP_SIZE_TECHNICAL
          ∧ i + 1 = tileRunLength cfg s (x + y * cfg.MAXIMUM_MAP_SIZE_TECHNICAL))) ∧
    (∀ (x y : Nat) (e : Option Nat), x < cfg.MAXIMUM_MAP_SIZE_TECHNICAL →
      y < cfg.MAXIMUM_MAP_SIZE_TECHNICAL →
      tile_element_iterator_next cfg s
          (tile_element_iterator_restart_for_tile { x := (x : Int), y := (y : Int), element := e })
        = some (1, { x := (x : Int), y := (y : Int)
                     element := some
                       (s.gTileElementTilePointers (x + y * cfg.MAXIMUM_MAP_SIZE_TECHNICAL)) })) := by
  have hpos : 0 < MAX_TILE_TILE_ELEMENT_POINTERS cfg := Nat.mul_pos hN hN
  refine ⟨⟨(visitsFromTile cfg s (MAX_TILE_TILE_ELEMENT_POINTERS cfg) 0).length, ?_⟩, ?_, ?_, ?_⟩
  · have h := iterate_tiles cfg s hwf (MAX_TILE_TILE_ELEMENT_POINTERS cfg - 1) 0 (by omega)
    rw [show MAX_TILE_TILE_ELEMENT_POINTERS cfg - 1 + 1 = MAX_TILE_TILE_ELEMENT_POINTERS cfg
      by omega] at h
    have hb : tile_element_iterator_begin cfg s
        = { x := ((0 % cfg.MAXIMUM_MAP_SIZE_TECHNICAL : Nat) : Int)
            y := ((0 / cfg.MAXIMUM_MAP_SIZE_TECHNICAL : Nat) : Int)
            element := some (s.gTileElementTilePointers 0) } := by
      unfold tile_element_iterator_begin
      have := first_element_at_nat cfg s 0 0 hN hN
      simp only [Nat.cast_zero, Nat.zero_mul, Nat.add_zero] at this
      rw [this]
      simp
    rw [hb]
    exact h
  · exact visitsFromTile_nodup cfg s hwf _ 0 (by omega)
  · intro x y i hx hy hi
    obtain ⟨e1, e2⟩ := coords_of_index cfg.MAXIMUM_MAP_SIZE_TECHNICAL x y hx
    have ht := tile_index_lt cfg x y hx hy
    have hstep := iterator_next_step cfg s hwf _ i ht hi
    rw [e1, e2] at hstep
    have hlt := succ_tile_lt cfg.MAXIMUM_MAP_SIZE_TECHNICAL _ hN ht
    rw [e1, e2] at hlt
    by_cases h1 : i + 1 < tileRunLength cfg s (x + y * cfg.MAXIMUM_MAP_SIZE_TECHNICAL)
    · rw [if_pos h1] at hstep
      exact ⟨_, _, hstep, Or.inr rfl, ⟨fun h => absurd h (by simp), fun h => by omega⟩⟩
    · rw [if_neg h1] at hstep
      by_cases h2 : x + y * cfg.MAXIMUM_MAP_SIZE_TECHNICAL + 1
          < MAX_TILE_TILE_ELEMENT_POINTERS cfg
      · rw [if_pos h2] at hstep
        refine ⟨_, _, hstep, Or.inr rfl, ⟨fun h => absurd h (by simp), fun h => ?_⟩⟩
        exact absurd ⟨h.1, h.2.1⟩ (hlt.1 h2)
      · rw [if_neg h2] at hstep
        refine ⟨_, _, hstep, Or.inl rfl, ⟨fun _ => ?_, fun _ => rfl⟩⟩
        have : x + 1 = cfg.MAXIMUM_MAP_SIZE_TECHNICAL ∧ y + 1 = cfg.MAXIMUM_MAP_SIZE_TECHNICAL := by
          by_contra hc
          exact h2 (hlt.2 hc)
        exact ⟨this.1, this.2, by omega⟩
  · intro x y e hx hy
    unfold tile_element_iterator_restart_for_tile tile_element_iterator_next
    simp only []
    rw [first_element_at_nat cfg s x y hx hy]

/-- Witness of C10 on the sample store. -/
theorem tile_element_iterator_visits_witness :
    WellFormed smallConfig sampleStore ∧
    (∃ fuel, iterateTiles smallConfig sampleStore fuel
        (tile_element_iterator_begin smallConfig sampleStore)
      = some (expectedVisits smallConfig sampleStore)) ∧
    expectedVisits smallConfig sampleStore
      = [⟨0, 0, some 0⟩, ⟨1, 0, some 6⟩, ⟨1, 0, some 7⟩, ⟨1, 0, some 8⟩, ⟨0, 1, some 2⟩,
          ⟨1, 1, some 3⟩] :=
  ⟨by decide,
    (tile_element_iterator_visits smallConfig sampleStore (by decide) (by decide)).1,
    by decide⟩

/-! ## Surface lookup and heights -/

theorem and_tile_mask (n : Nat) (h : n < 8192) : n &&& 0xFFFFFFE0 = 32 * (n / 32) := by
  apply Nat.eq_of_testBit_eq
  intro i
  rw [Nat.testBit_and, show (32 : Nat) = 2 ^ 5 from rfl, Nat.testBit_mul_pow_two,
    ← Nat.shiftRight_eq_div_pow, Nat.testBit_shiftRight]
  by_cases h5 : 5 ≤ i
  · by_cases h32 : i < 32
    · have : Nat.testBit 0xFFFFFFE0 i = true := by
        interval_cases i <;> rfl
      simp [this, h5]
    · have hn : n.testBit i = false := by
        apply Nat.testBit_lt_two_pow
        calc n < 2 ^ 13 := h
          _ ≤ 2 ^ i := Nat.pow_le_pow_right (by decide) (by omega)
      simp [hn, h5]
  · have : Nat.testBit 0xFFFFFFE0 i = false := by
      interval_cases i <;> rfl
    simp [this, h5]

theorem and_offset_mask (n : Nat) : n &&& 0x1f = n % 32 :=
  Nat.and_pow_two_sub_one_eq_mod n 5

theorem toU32_of_nonneg (x : Int) (h0 : 0 ≤ x) (h1 : x < 4294967296) : toU32 x = x.toNat := by
  unfold toU32
  rw [Int.emod_eq_of_lt h0 h1]

theorem toU32_of_neg (x : Int) (h0 : x < 0) (h1 : -2147483648 ≤ x) : 8192 ≤ toU32 x := by
  unfold toU32
  omega

theorem toU32_natCast (n : Nat) (h : n < 4294967296) : toU32 (n : Int) = n := by
  rw [toU32_of_nonneg _ (Int.ofNat_nonneg n) (by omega)]
  exact Int.toNat_ofNat n

/-- On the map `tile_element_height` looks up the surface element of the tile
and evaluates the slope formula at the offsets inside the tile. -/
theorem tile_element_height_at_tile (cfg : Config) (s : Store) (tx ty xl yl : Nat)
    (htx : tx < 256) (hty : ty < 256) (hxl : xl < 32) (hyl : yl < 32) :
    tile_element_height cfg s ((32 * tx + xl : Nat) : Int) ((32 * ty + yl : Nat) : Int) =
      match map_get_surface_element_at cfg s tx ty with
      | none => none
      | some none => some 16
      | some (some e) =>
        some (tile_element_height_of_surface (s.gTileElements e) xl yl) := by
  have hx : toU32 ((32 * tx + xl : Nat) : Int) = 32 * tx + xl := toU32_natCast _ (by omega)
  have hy : toU32 ((32 * ty + yl : Nat) : Int) = 32 * ty + yl := toU32_natCast _ (by omega)
  have hxt : (32 * tx + xl) &&& 0xFFFFFFE0 = 32 * tx := by
    rw [and_tile_mask _ (by omega)]; omega
  have hyt : (32 * ty + yl) &&& 0xFFFFFFE0 = 32 * ty := by
    rw [and_tile_mask _ (by omega)]; omega
  have hxo : (32 * tx + xl) &&& 0x1f = xl := by
    rw [and_offset_mask]; omega
  have hyo : (32 * ty + yl) &&& 0x1f = yl := by
    rw [and_offset_mask]; omega
  have hdx : Int.tdiv ((32 * tx : Nat) : Int) 32 = (tx : Int) := by
    rw [Int.tdiv_eq_ediv (Int.ofNat_nonneg _) (by decide)]; omega
  have hdy : Int.tdiv ((32 * ty : Nat) : Int) 32 = (ty : Int) := by
    rw [Int.tdiv_eq_ediv (Int.ofNat_nonneg _) (by decide)]; omega
  unfold tile_element_height map_get_surface_element_at_coords
  rw [hx, hy]
  have hc : ¬ (32 * tx + xl ≥ 8192 ∨ 32 * ty + yl ≥ 8192) := by omega
  simp only [hc, ↓reduceIte, hxt, hyt, hxo, hyo, hdx, hdy]

/-- Off the map (a negative or too large coordinate) `tile_element_height`
answers 16 whatever the store holds. -/
theorem tile_element_height_off_map (cfg : Config) (s : Store) (x y : Int)
    (hx : -2147483648 ≤ x ∧ x ≤ 2147483647) (hy : -2147483648 ≤ y ∧ y ≤ 2147483647)
    (hoff : x < 0 ∨ 8192 ≤ x ∨ y < 0 ∨ 8192 ≤ y) :
    tile_element_height cfg s x y = some 16 := by
  have hc : toU32 x ≥ 8192 ∨ toU32 y ≥ 8192 := by
    unfold toU32
    omega
  unfold tile_element_height
  rw [if_pos hc]

theorem slope_all_corners_up_eq : TILE_ELEMENT_SLOPE_ALL_CORNERS_UP = 15 := rfl
theorem slope_w_corner_dn_eq : TILE_ELEMENT_SLOPE_W_CORNER_DN = 7 := rfl
theorem slope_s_corner_dn_eq : TILE_ELEMENT_SLOPE_S_CORNER_DN = 11 := rfl
theorem slope_e_corner_dn_eq : TILE_ELEMENT_SLOPE_E_CORNER_DN = 13 := rfl
theorem slope_n_corner_dn_eq : TILE_ELEMENT_SLOPE_N_CORNER_DN = 14 := rfl
theorem slope_ne_side_up_eq : TILE_ELEMENT_SLOPE_NE_SIDE_UP = 3 := rfl
theorem slope_se_side_up_eq : TILE_ELEMENT_SLOPE_SE_SIDE_UP = 6 := rfl
theorem slope_nw_side_up_eq : TILE_ELEMENT_SLOPE_NW_SIDE_UP = 9 := rfl
theorem slope_sw_side_up_eq : TILE_ELEMENT_SLOPE_SW_SIDE_UP = 12 := rfl
theorem slope_w_e_valley_eq : TILE_ELEMENT_SLOPE_W_E_VALLEY = 10 := rfl
theorem slope_n_s_valley_eq : TILE_ELEMENT_SLOPE_N_S_VALLEY = 5 := rfl

/-- Division by two rounding towards zero, in terms of the floor division. -/
theorem tdiv_two (v : Int) : Int.tdiv v 2 = if 0 ≤ v then v / 2 else -((-v) / 2) := by
  split_ifs with h
  · exact Int.tdiv_eq_ediv h (by decide)
  · have h2 : Int.tdiv (-v) 2 = (-v) / 2 := Int.tdiv_eq_ediv (by omega) (by decide)
    rw [← h2, Int.neg_tdiv, neg_neg]

/-- The block "One corner up" changes nothing unless exactly one corner is
raised. -/
theorem one_corner_up_other (slope : Nat) (xl yl height : Int)
    (h : slope ≠ 1 ∧ slope ≠ 2 ∧ slope ≠ 4 ∧ slope ≠ 8) :
    tile_element_height_one_corner_up slope xl yl height = height := by
  obtain ⟨h1, h2, h3, h4⟩ := h
  simp only [tile_element_height_one_corner_up, TILE_ELEMENT_SLOPE_N_CORNER_UP,
    TILE_ELEMENT_SLOPE_E_CORNER_UP, TILE_ELEMENT_SLOPE_S_CORNER_UP,
    TILE_ELEMENT_SLOPE_W_CORNER_UP, h1, h2, h3, h4, or_self, ↓reduceIte]

/-- The block "One side up" changes nothing unless exactly one side is
raised. -/
theorem one_side_up_other (slope : Nat) (xl yl height : Int)
    (h : slope ≠ 3 ∧ slope ≠ 6 ∧ slope ≠ 9 ∧ slope ≠ 12) :
    tile_element_height_one_side_up slope xl yl height = height := by
  obtain ⟨h1, h2, h3, h4⟩ := h
  simp only [tile_element_height_one_side_up, slope_ne_side_up_eq, slope_se_side_up_eq,
    slope_nw_side_up_eq, slope_sw_side_up_eq, h1, h2, h3, h4, ↓reduceIte]

/-- The blocks "One corner down" and "Valleys" change nothing unless the slope
has one corner down or is a valley. -/
theorem one_corner_down_other (slope extra_height : Nat) (xl yl height : Int)
    (h : slope ≠ 7 ∧ slope ≠ 11 ∧ slope ≠ 13 ∧ slope ≠ 14 ∧ slope ≠ 10 ∧ slope ≠ 5) :
    tile_element_height_one_corner_down slope extra_height xl yl height = toInt16 height := by
  obtain ⟨h1, h2, h3, h4, h5, h6⟩ := h
  simp only [tile_element_height_one_corner_down, tile_element_height_valleys,
    slope_w_corner_dn_eq, slope_s_corner_dn_eq, slope_e_corner_dn_eq, slope_n_corner_dn_eq,
    slope_w_e_valley_eq, slope_n_s_valley_eq, h1, h2, h3, h4, h5, h6, or_self, ↓reduceIte]

/-- On a flat surface the slope formula leaves the base height untouched. -/
theorem height_of_surface_flat (e : TileElement) (xl yl : Int)
    (hs : e.GetSlope = TILE_ELEMENT_SLOPE_FLAT) :
    tile_element_height_of_surface e xl yl = (e.base_height.val : Int) * 8 := by
  have hb := e.base_height.isLt
  unfold tile_element_height_of_surface
  rw [hs]
  simp only [TILE_ELEMENT_SLOPE_FLAT, slope_all_corners_up_eq, Nat.zero_and]
  rw [one_corner_up_other _ _ _ _ (by decide), one_side_up_other _ _ _ _ (by decide),
    one_corner_down_other _ _ _ _ _ (by decide)]
  simp only [toInt16, toU16, Nat.shiftLeft_eq]
  omega

/-- The slope formula on a surface whose north corner alone is raised. -/
theorem height_of_surface_n_corner_up (e : TileElement) (xl yl : Int)
    (hxl : 0 ≤ xl ∧ xl ≤ 31) (hyl : 0 ≤ yl ∧ yl ≤ 31)
    (hs : e.GetSlope = TILE_ELEMENT_SLOPE_N_CORNER_UP) :
    tile_element_height_of_surface e xl yl
      = (e.base_height.val : Int) * 8 + (if 0 < xl + yl - 31 then (xl + yl - 31) / 2 else 0) := by
  have hb := e.base_height.isLt
  unfold tile_element_height_of_surface
  rw [hs]
  simp only [TILE_ELEMENT_SLOPE_N_CORNER_UP, slope_all_corners_up_eq]
  rw [show (1 : Nat) &&& 15 = 1 from rfl, one_side_up_other _ _ _ _ (by decide),
    one_corner_down_other _ _ _ _ _ (by decide)]
  simp only [tile_element_height_one_corner_up, TILE_ELEMENT_SLOPE_N_CORNER_UP,
    TILE_ELEMENT_SLOPE_E_CORNER_UP, TILE_ELEMENT_SLOPE_S_CORNER_UP,
    TILE_ELEMENT_SLOPE_W_CORNER_UP, Nat.shiftLeft_eq, toInt16, toU16, toInt8, tdiv_two]
  simp only [Nat.reduceEqDiff, or_true, true_or, or_false, false_or, ↓reduceIte]
  split_ifs <;> omega

/-- The slope formula on a surface whose east corner alone is raised. -/
theorem height_of_surface_e_corner_up (e : TileElement) (xl yl : Int)
    (hxl : 0 ≤ xl ∧ xl ≤ 31) (hyl : 0 ≤ yl ∧ yl ≤ 31)
    (hs : e.GetSlope = TILE_ELEMENT_SLOPE_E_CORNER_UP) :
    tile_element_height_of_surface e xl yl
      = (e.base_height.val : Int) * 8 + (if 0 < xl - yl then (xl - yl) / 2 else 0) := by
  have hb := e.base_height.isLt
  unfold tile_element_height_of_surface
  rw [hs]
  simp only [TILE_ELEMENT_SLOPE_E_CORNER_UP, slope_all_corners_up_eq]
  rw [show (2 : Nat) &&& 15 = 2 from rfl, one_side_up_other _ _ _ _ (by decide),
    one_corner_down_other _ _ _ _ _ (by decide)]
  simp only [tile_element_height_one_corner_up, TILE_ELEMENT_SLOPE_N_CORNER_UP,
    TILE_ELEMENT_SLOPE_E_CORNER_UP, TILE_ELEMENT_SLOPE_S_CORNER_UP,
    TILE_ELEMENT_SLOPE_W_CORNER_UP, Nat.shiftLeft_eq, toInt16, toU16, toInt8, tdiv_two]
  simp only [Nat.reduceEqDiff, or_true, true_or, or_false, false_or, ↓reduceIte]
  split_ifs <;> omega

/-- The slope formula on a surface whose south corner alone is raised. -/
theorem height_of_surface_s_corner_up (e : TileElement) (xl yl : Int)
    (hxl : 0 ≤ xl ∧ xl ≤ 31) (hyl : 0 ≤ yl ∧ yl ≤ 31)
    (hs : e.GetSlope = TILE_ELEMENT_SLOPE_S_CORNER_UP) :
    tile_element_height_of_surface e xl yl
      = (e.base_height.val : Int) * 8 + (if 0 < 31 - yl - xl then (31 - yl - xl) / 2 else 0) := by
  have hb := e.base_height.isLt
  unfold tile_element_height_of_surface
  rw [hs]
  simp only [TILE_ELEMENT_SLOPE_S_CORNER_UP, slope_all_corners_up_eq]
  rw [show (4 : Nat) &&& 15 = 4 from rfl, one_side_up_other _ _ _ _ (by decide),
    one_corner_down_other _ _ _ _ _ (by decide)]
  simp only [tile_element_height_one_corner_up, TILE_ELEMENT_SLOPE_N_CORNER_UP,
    TILE_ELEMENT_SLOPE_E_CORNER_UP, TILE_ELEMENT_SLOPE_S_CORNER_UP,
    TILE_ELEMENT_SLOPE_W_CORNER_UP, Nat.shiftLeft_eq, toInt16, toU16, toInt8, tdiv_two]
  simp only [Nat.reduceEqDiff, or_true, true_or, or_false, false_or, ↓reduceIte]
  split_ifs <;> omega

/-- The slope formula on a surface whose west corner alone is raised. -/
theorem height_of_surface_w_corner_up (e : TileElement) (xl yl : Int)
    (hxl : 0 ≤ xl ∧ xl ≤ 31) (hyl : 0 ≤ yl ∧ yl ≤ 31)
    (hs : e.GetSlope = TILE_ELEMENT_SLOPE_W_CORNER_UP) :
    tile_element_height_of_surface e xl yl
      = (e.base_height.val : Int) * 8 + (if 0 < yl - xl then (yl - xl) / 2 else 0) := by
  have hb := e.base_height.isLt
  unfold tile_element_height_of_surface
  rw [hs]
  simp only [TILE_ELEMENT_SLOPE_W_CORNER_UP, slope_all_corners_up_eq]
  rw [show (8 : Nat) &&& 15 = 8 from rfl, one_side_up_other _ _ _ _ (by decide),
    one_corner_down_other _ _ _ _ _ (by decide)]
  simp only [tile_element_height_one_corner_up, TILE_ELEMENT_SLOPE_N_CORNER_UP,
    TILE_ELEMENT_SLOPE_E_CORNER_UP, TILE_ELEMENT_SLOPE_S_CORNER_UP,
    TILE_ELEMENT_SLOPE_W_CORNER_UP, Nat.shiftLeft_eq, toInt16, toU16, toInt8, tdiv_two]
  simp only [Nat.reduceEqDiff, or_true, true_or, or_false, false_or, ↓reduceIte]
  split_ifs <;> omega

/-! ## Claims on heights and rotation -/

/-- Claim C11: on a tile whose surface element has slope 0, `tile_element_height`
returns `base_height * 8` at every position inside the tile (offsets 0 to 31
on both axes). -/
theorem tile_element_height_flat (cfg : Config) (s : Store) (tx ty xl yl e : Nat)
    (htx : tx < 256) (hty : ty < 256) (hxl : xl < 32) (hyl : yl < 32)
    (hsurf : map_get_surface_element_at cfg s tx ty = some (some e))
    (hflat : (s.gTileElements e).GetSlope = TILE_ELEMENT_SLOPE_FLAT) :
    tile_element_height cfg s ((32 * tx + xl : Nat) : Int) ((32 * ty + yl : Nat) : Int)
      = some (((s.gTileElements e).base_height.val : Int) * 8) := by
  rw [tile_element_height_at_tile cfg s tx ty xl yl htx hty hxl hyl, hsurf]
  simp only []
  rw [height_of_surface_flat _ _ _ hflat]

theorem tile_element_height_flat_witness :
    tile_element_height smallConfig fullStore ((32 * 0 + 5 : Nat) : Int) ((32 * 0 + 7 : Nat) : Int)
      = some (((fullStore.gTileElements 0).base_height.val : Int) * 8) :=
  tile_element_height_flat smallConfig fullStore 0 0 5 7 0 (by decide) (by decide) (by decide)
    (by decide) (by decide) (by decide)

/-- Claim C12 as stated fails: the surface of tile (0, 0) of `sampleStore` has
base height 14 and only its north corner raised; the heights at the four
extreme offsets are 112, 112, 112 and 127, so no corner lies within one of
`14 * 8 + 8 = 120`. -/
theorem tile_element_height_corner_up_counterexample :
    map_get_surface_element_at smallConfig sampleStore 0 0 = some (some 0)
      ∧ (sampleStore.gTileElements 0).GetSlope = TILE_ELEMENT_SLOPE_N_CORNER_UP
      ∧ (sampleStore.gTileElements 0).base_height.val = 14
      ∧ extremeOffsets.map (heightAtOffset smallConfig sampleStore 0 0)
          = [some 112, some 112, some 112, some 127]
      ∧ ¬ CornerHeightsWithinEight smallConfig sampleStore 0 0 14 := by
  decide

/-- On a tile whose surface has a single corner raised, the height at an
extreme offset is `b * 8`, plus 15 at the raised corner. -/
theorem corner_up_heights (cfg : Config) (s : Store) (tx ty e : Nat)
    (htx : tx < 256) (hty : ty < 256)
    (hsurf : map_get_surface_element_at cfg s tx ty = some (some e))
    (hslope : (s.gTileElements e).GetSlope = TILE_ELEMENT_SLOPE_N_CORNER_UP
      ∨ (s.gTileElements e).GetSlope = TILE_ELEMENT_SLOPE_E_CORNER_UP
      ∨ (s.gTileElements e).GetSlope = TILE_ELEMENT_SLOPE_S_CORNER_UP
      ∨ (s.gTileElements e).GetSlope = TILE_ELEMENT_SLOPE_W_CORNER_UP) :
    ∀ c ∈ extremeOffsets,
      heightAtOffset cfg s tx ty c
        = some (((s.gTileElements e).base_height.val : Int) * 8
            + (if c = raisedCornerOffset (s.gTileElements e).GetSlope then 15 else 0)) := by
  have key : ∀ xl yl : Nat, xl < 32 → yl < 32 →
      heightAtOffset cfg s tx ty (xl, yl)
        = some (tile_element_height_of_surface (s.gTileElements e) xl yl) := by
    intro xl yl hxl hyl
    unfold heightAtOffset
    rw [tile_element_height_at_tile cfg s tx ty xl yl htx hty hxl hyl, hsurf]
  intro c hc
  simp only [extremeOffsets, List.mem_cons, List.mem_singleton, List.not_mem_nil, or_false] at hc
  rcases hslope with h | h | h | h
  · rcases hc with rfl | rfl | rfl | rfl <;>
      rw [key _ _ (by decide) (by decide),
        height_of_surface_n_corner_up _ _ _ (by decide) (by decide) h, h] <;>
      (simp [raisedCornerOffset, TILE_ELEMENT_SLOPE_N_CORNER_UP] <;> try decide)
  · rcases hc with rfl | rfl | rfl | rfl <;>
      rw [key _ _ (by decide) (by decide),
        height_of_surface_e_corner_up _ _ _ (by decide) (by decide) h, h] <;>
      (simp [raisedCornerOffset, TILE_ELEMENT_SLOPE_N_CORNER_UP, TILE_ELEMENT_SLOPE_E_CORNER_UP]
        <;> try decide)
  · rcases hc with rfl | rfl | rfl | rfl <;>
      rw [key _ _ (by decide) (by decide),
        height_of_surface_s_corner_up _ _ _ (by decide) (by decide) h, h] <;>
      simp [raisedCornerOffset, TILE_ELEMENT_SLOPE_N_CORNER_UP, TILE_ELEMENT_SLOPE_E_CORNER_UP,
        TILE_ELEMENT_SLOPE_S_CORNER_UP]
  · rcases hc with rfl | rfl | rfl | rfl <;>
      rw [key _ _ (by decide) (by decide),
        height_of_surface_w_corner_up _ _ _ (by decide) (by decide) h, h] <;>
      (simp [raisedCornerOffset, TILE_ELEMENT_SLOPE_N_CORNER_UP, TILE_ELEMENT_SLOPE_E_CORNER_UP,
        TILE_ELEMENT_SLOPE_S_CORNER_UP, TILE_ELEMENT_SLOPE_W_CORNER_UP] <;> try decide)

/-- Claim C12, amended: on a tile whose surface has a single corner raised
(N, E, S or W), `tile_element_height` at the four extreme offsets returns
`b * 8` at the three non-raised corners and `b * 8 + 15` at the raised corner
(offset (31, 31) for N, (31, 0) for E, (0, 0) for S, (0, 31) for W). -/
theorem tile_element_height_corner_up (cfg : Config) (s : Store) (tx ty e : Nat)
    (htx : tx < 256) (hty : ty < 256)
    (hsurf : map_get_surface_element_at cfg s tx ty = some (some e))
    (hslope : (s.gTileElements e).GetSlope = TILE_ELEMENT_SLOPE_N_CORNER_UP
      ∨ (s.gTileElements e).GetSlope = TILE_ELEMENT_SLOPE_E_CORNER_UP
      ∨ (s.gTileElements e).GetSlope = TILE_ELEMENT_SLOPE_S_CORNER_UP
      ∨ (s.gTileElements e).GetSlope = TILE_ELEMENT_SLOPE_W_CORNER_UP) :
    extremeOffsets.map (heightAtOffset cfg s tx ty)
      = extremeOffsets.map (fun c =>
          some (((s.gTileElements e).base_height.val : Int) * 8
            + (if c = raisedCornerOffset (s.gTileElements e).GetSlope then 15 else 0))) :=
  List.map_congr_left (corner_up_heights cfg s tx ty e htx hty hsurf hslope)

theorem tile_element_height_corner_up_witness :
    extremeOffsets.map (heightAtOffset smallConfig sampleStore 0 0)
      = extremeOffsets.map (fun c =>
          some (((sampleStore.gTileElements 0).base_height.val : Int) * 8
            + (if c = raisedCornerOffset (sampleStore.gTileElements 0).GetSlope then 15 else 0))) :=
  tile_element_height_corner_up smallConfig sampleStore 0 0 0 (by decide) (by decide) (by decide)
    (by decide)

/-- A corner-up bit is set in a slope exactly when the bit of that index is. -/
theorem and_corner_bit (slope : Nat) (i : Nat) : slope &&& 2 ^ i ≠ 0 ↔ slope.testBit i = true := by
  rw [Nat.and_two_pow]
  cases slope.testBit i <;> simp

/-- Claim C13: `map_get_corner_height z slope d` is `z` when `d` is outside
0..3 or the bit of corner `d` (0 = N, 1 = E, 2 = S, 3 = W) is clear in `slope`;
when the bit is set it is `z + 4` if `slope` equals the opposite corner down
with double height, and `z + 2` otherwise. -/
theorem map_get_corner_height_spec (z : Int) (slope : Nat) (d : Int) :
    map_get_corner_height z slope d =
      if 0 ≤ d ∧ d ≤ 3 ∧ slope.testBit d.toNat = true then
        (if slope = (oppositeCornerDown d ||| TILE_ELEMENT_SLOPE_DOUBLE_HEIGHT) then z + 4
         else z + 2)
      else z := by
  have h0 := and_corner_bit slope 0
  have h1 := and_corner_bit slope 1
  have h2 := and_corner_bit slope 2
  have h3 := and_corner_bit slope 3
  simp only [pow_zero, pow_one, Nat.reducePow] at h0 h1 h2 h3
  have step : ∀ (bit opp i : Nat) (c : Int),
      (slope &&& bit ≠ 0 ↔ slope.testBit i = true) → 0 ≤ c → c ≤ 3 →
      c.toNat = i →
      (if slope &&& bit ≠ 0 then
        (if slope = (opp ||| TILE_ELEMENT_SLOPE_DOUBLE_HEIGHT) then z + 2 + 2 else z + 2)
       else z) =
      if 0 ≤ c ∧ c ≤ 3 ∧ slope.testBit c.toNat = true then
        (if slope = (opp ||| TILE_ELEMENT_SLOPE_DOUBLE_HEIGHT) then z + 4 else z + 2)
      else z := by
    intro bit opp i c hbit hc0 hc3 hci
    rw [hci]
    by_cases hb : slope.testBit i = true
    · rw [if_pos (hbit.mpr hb),
        if_pos (show 0 ≤ c ∧ c ≤ 3 ∧ slope.testBit i = true from ⟨hc0, hc3, hb⟩)]
      split_ifs <;> omega
    · rw [if_neg (fun h => hb (hbit.mp h)),
        if_neg (fun h : 0 ≤ c ∧ c ≤ 3 ∧ slope.testBit i = true => hb h.2.2)]
  by_cases hd0 : d = 0
  · subst hd0
    exact step 1 TILE_ELEMENT_SLOPE_S_CORNER_DN 0 0 h0 (by decide) (by decide) rfl
  by_cases hd1 : d = 1
  · subst hd1
    exact step 2 TILE_ELEMENT_SLOPE_W_CORNER_DN 1 1 h1 (by decide) (by decide) rfl
  by_cases hd2 : d = 2
  · subst hd2
    exact step 4 TILE_ELEMENT_SLOPE_N_CORNER_DN 2 2 h2 (by decide) (by decide) rfl
  by_cases hd3 : d = 3
  · subst hd3
    exact step 8 TILE_ELEMENT_SLOPE_E_CORNER_DN 3 3 h3 (by decide) (by decide) rfl
  have hout : ¬ (0 ≤ d ∧ d ≤ 3 ∧ slope.testBit d.toNat = true) := by
    intro h; omega
  unfold map_get_corner_height
  simp only [hd0, hd1, hd2, hd3, hout, ↓reduceIte]

/-- Claim C14: for 16-bit coordinates, four applications of
`rotate_map_coordinates` with rotation 1 give back the original pair. -/
theorem rotate_map_coordinates_four_times (x y : Int)
    (hx : -32768 ≤ x ∧ x ≤ 32767) (hy : -32768 ≤ y ∧ y ≤ 32767) :
    rotate_map_coordinates_times 1 4 (x, y) = (x, y) := by
  simp only [rotate_map_coordinates_times, rotate_map_coordinates, TILE_ELEMENT_DIRECTION_WEST,
    TILE_ELEMENT_DIRECTION_NORTH]
  simp only [show ¬ ((1 : Int) = 0) by decide, ↓reduceIte, toInt16, Prod.mk.injEq]
  constructor <;> omega

theorem rotate_map_coordinates_four_times_witness :
    rotate_map_coordinates_times 1 4 (-32768, 5) = (-32768, 5) :=
  rotate_map_coordinates_four_times (-32768) 5 (by decide) (by decide)

/-- Claim C15: for `int32_t` coordinates, `tile_element_height` returns 16
when a coordinate is negative or at least 8192, whatever the store holds, and
also when the tile addressed has no surface element. -/
theorem tile_element_height_sentinel (cfg : Config) (s : Store) (x y : Int)
    (hx : -2147483648 ≤ x ∧ x ≤ 2147483647) (hy : -2147483648 ≤ y ∧ y ≤ 2147483647)
    (h : (x < 0 ∨ 8192 ≤ x ∨ y < 0 ∨ 8192 ≤ y)
      ∨ map_get_surface_element_at cfg s (x / 32) (y / 32) = some none) :
    tile_element_height cfg s x y = some 16 := by
  by_cases hoff : x < 0 ∨ 8192 ≤ x ∨ y < 0 ∨ 8192 ≤ y
  · exact tile_element_height_off_map cfg s x y hx hy hoff
  · rcases h with h | h
    · exact absurd h hoff
    · obtain ⟨n, rfl⟩ := Int.eq_ofNat_of_zero_le (show 0 ≤ x by omega)
      obtain ⟨m, rfl⟩ := Int.eq_ofNat_of_zero_le (show 0 ≤ y by omega)
      have hn : n = 32 * (n / 32) + n % 32 := by omega
      have hm : m = 32 * (m / 32) + m % 32 := by omega
      have hdn : ((n : Int) / 32) = ((n / 32 : Nat) : Int) := by omega
      have hdm : ((m : Int) / 32) = ((m / 32 : Nat) : Int) := by omega
      rw [hdn, hdm] at h
      have key := tile_element_height_at_tile cfg s (n / 32) (m / 32) (n % 32) (m % 32)
        (by omega) (by omega) (by omega) (by omega)
      rw [← hn, ← hm, h] at key
      exact key

theorem tile_element_height_sentinel_witness :
    tile_element_height smallConfig sampleStore (-1) 40 = some 16
      ∧ tile_element_height smallConfig noSurfaceStore 5 7 = some 16 :=
  ⟨tile_element_height_sentinel smallConfig sampleStore (-1) 40 (by decide) (by decide)
      (Or.inl (by decide)),
    tile_element_height_sentinel smallConfig noSurfaceStore 5 7 (by decide) (by decide)
      (Or.inr (by decide))⟩

/-! ## Surface lookup on a well-formed store -/

/-- On a run the loop of `map_get_surface_element_at` ends without leaving the
run. -/
theorem surface_loop_total {mem : Nat → TileElement} :
    ∀ (k fuel p : Nat), IsRun mem p k → k ≤ fuel →
      ∃ r, map_get_surface_element_at_loop mem fuel p = some r
  | 0, _, _, h, _ => absurd h.1 (by omega)
  | k + 1, 0, _, _, hf => absurd hf (by omega)
  | k + 1, fuel + 1, p, h, hf => by
    unfold map_get_surface_element_at_loop
    by_cases ht : (mem p).GetType ≠ TILE_ELEMENT_TYPE_SURFACE
    · rw [if_pos ht]
      by_cases hl : (mem p).IsLastForTile = true
      · rw [if_pos hl]; exact ⟨none, rfl⟩
      · rw [if_neg hl]
        have hk : 0 < k := by
          rcases Nat.eq_zero_or_pos k with h0 | h0
          · subst h0
            exact absurd (h.head.2 rfl) hl
          · exact h0
        exact surface_loop_total k fuel (p + 1) (h.tail hk) (by omega)
    · rw [if_neg ht]; exact ⟨some p, rfl⟩

/-- On a well-formed store `map_get_surface_element_at` reads inside the
array, whatever the coordinates. -/
theorem map_get_surface_element_at_total (cfg : Config) (s : Store) (hwf : WellFormed cfg s)
    (x y : Int) : ∃ r, map_get_surface_element_at cfg s x y = some r := by
  unfold map_get_surface_element_at
  by_cases hc : x < 0 ∨ y < 0 ∨ x > (cfg.MAXIMUM_MAP_SIZE_TECHNICAL : Int) - 1
      ∨ y > (cfg.MAXIMUM_MAP_SIZE_TECHNICAL : Int) - 1
  · have : map_get_first_element_at cfg s x y = none := by
      unfold map_get_first_element_at; rw [if_pos hc]
    rw [this]; exact ⟨none, rfl⟩
  · obtain ⟨n, rfl⟩ := Int.eq_ofNat_of_zero_le (show 0 ≤ x by omega)
    obtain ⟨m, rfl⟩ := Int.eq_ofNat_of_zero_le (show 0 ≤ y by omega)
    have hn : n < cfg.MAXIMUM_MAP_SIZE_TECHNICAL := by omega
    have hm : m < cfg.MAXIMUM_MAP_SIZE_TECHNICAL := by omega
    rw [first_element_at_nat cfg s n m hn hm]
    simp only []
    obtain ⟨hr, hb⟩ := hwf.run _ (tile_index_lt cfg n m hn hm)
    have := hwf.2
    exact surface_loop_total _ _ _ hr (by omega)

/-- On a well-formed store `tile_element_height` has a value. -/
theorem tile_element_height_total (cfg : Config) (s : Store) (hwf : WellFormed cfg s)
    (x y : Int) : ∃ v, tile_element_height cfg s x y = some v := by
  unfold tile_element_height
  split_ifs
  · exact ⟨_, rfl⟩
  · simp only [map_get_surface_element_at_coords]
    obtain ⟨r, hr⟩ := map_get_surface_element_at_total cfg s hwf
      (Int.tdiv ((toU32 x &&& 0xFFFFFFE0 : Nat) : Int) 32)
      (Int.tdiv ((toU32 y &&& 0xFFFFFFE0 : Nat) : Int) 32)
    rw [hr]
    cases r <;> exact ⟨_, rfl⟩

/-- On a well-formed store `tile_element_water_height` has a value. -/
theorem tile_element_water_height_total (cfg : Config) (s : Store) (hwf : WellFormed cfg s)
    (x y : Int) : ∃ v, tile_element_water_height cfg s x y = some v := by
  unfold tile_element_water_height
  split_ifs
  · exact ⟨_, rfl⟩
  · simp only [map_get_surface_element_at_coords]
    obtain ⟨r, hr⟩ := map_get_surface_element_at_total cfg s hwf
      (Int.tdiv ((toU32 x &&& 0xFFFFFFE0 : Nat) : Int) 32)
      (Int.tdiv ((toU32 y &&& 0xFFFFFFE0 : Nat) : Int) 32)
    rw [hr]
    cases r <;> exact ⟨_, rfl⟩

/-- A fold whose body always has a value has a value. -/
theorem foldlM_total {α β : Type} (f : β → α → Option β) (hf : ∀ b a, ∃ r, f b a = some r) :
    ∀ (l : List α) (b : β), ∃ r, l.foldlM f b = some r
  | [], b => ⟨b, rfl⟩
  | a :: l, b => by
    obtain ⟨r, hr⟩ := hf b a
    rw [List.foldlM_cons, hr]
    exact foldlM_total f hf l r

/-- On a well-formed store `GetLowestHeight` has a value. -/
theorem GetLowestHeight_total (cfg : Config) (s : Store) (hwf : WellFormed cfg s)
    (range : MapRange) : ∃ m, WaterLowerAction.GetLowestHeight cfg range s = some m := by
  unfold WaterLowerAction.GetLowestHeight
  apply foldlM_total
  intro b xy
  unfold WaterLowerAction.GetLowestHeight_body map_get_surface_element_at_coords
  obtain ⟨r, hr⟩ := map_get_surface_element_at_total cfg s hwf (Int.tdiv xy.1 32) (Int.tdiv xy.2 32)
  rw [hr]
  rcases r with _ | e
  · exact ⟨_, rfl⟩
  · simp only []
    split_ifs <;> exact ⟨_, rfl⟩

/-! ## The loops of `WaterLowerAction` -/

theorem run_append (nested : NestedActions) (isExecuting : Bool) :
    ∀ (xs ys : List WaterSetHeightAction) (st : GameState),
      nested.run isExecuting (xs ++ ys) st
        = ((nested.run isExecuting xs st).1
            ++ (nested.run isExecuting ys (nested.run isExecuting xs st).2).1,
           (nested.run isExecuting ys (nested.run isExecuting xs st).2).2)
  | [], ys, st => by simp [NestedActions.run]
  | x :: xs, ys, st => by
    have ih := run_append nested isExecuting xs ys (nested.call isExecuting x st).2
    show nested.run isExecuting (x :: (xs ++ ys)) st = _
    simp only [NestedActions.run, ih, List.cons_append]

theorem run_snoc (nested : NestedActions) (isExecuting : Bool) (xs : List WaterSetHeightAction)
    (a : WaterSetHeightAction) (st : GameState) :
    nested.run isExecuting (xs ++ [a]) st
      = ((nested.run isExecuting xs st).1
          ++ [(nested.call isExecuting a (nested.run isExecuting xs st).2).1],
         (nested.call isExecuting a (nested.run isExecuting xs st).2).2) := by
  rw [run_append]
  simp [NestedActions.run]

theorem addCost_zero (r : GameActionResult) : r.addCost 0 = r := by
  cases r; simp [GameActionResult.addCost]

theorem addCost_addCost (r : GameActionResult) (a b : Int) :
    (r.addCost a).addCost b = r.addCost (a + b) := by
  cases r; simp [GameActionResult.addCost, add_assoc]

theorem totalCost_snoc (rs : List GameActionResult) (r : GameActionResult) :
    totalCost (rs ++ [r]) = totalCost rs + r.Cost := by
  simp [totalCost]

/-- One pass through the body of the loops keeps the loop variables
consistent with the nested actions issued. -/
theorem QueryExecute_body_consistent (cfg : Config) (k : ActionConstants)
    (nested : NestedActions) (flags : Nat) (isExecuting : Bool) (minHeight : Nat)
    (res0 : GameActionResult) (st0 : GameState) (l l1 : WaterLowerLoop) (xy : Int × Int)
    (hret : l.returned = none)
    (hl : l.Consistent nested isExecuting k res0 st0)
    (hb : WaterLowerAction.QueryExecute_body cfg k nested flags isExecuting minHeight l xy
      = some l1) :
    l1.Consistent nested isExecuting k res0 st0 := by
  unfold WaterLowerLoop.Consistent at hl
  rw [hret] at hl
  simp only [] at hl
  obtain ⟨hst, hok, hres, hch⟩ := hl
  unfold WaterLowerAction.QueryExecute_body at hb
  have keep : l.Consistent nested isExecuting k res0 st0 := by
    unfold WaterLowerLoop.Consistent
    rw [hret]
    exact ⟨hst, hok, hres, hch⟩
  split at hb
  · exact absurd hb (by simp)
  · cases hb; exact keep
  · simp only [] at hb
    split_ifs at hb with h0 h1 h2
    · cases hb; exact keep
    · cases hb; exact keep
    · cases hb
      unfold WaterLowerLoop.Consistent
      simp only [hret]
      rw [run_snoc, ← hst]
      refine ⟨rfl, ?_, ?_, ?_⟩
      · intro r hr
        rcases List.mem_append.1 hr with h | h
        · exact hok r h
        · rw [List.mem_singleton] at h; rw [h]; exact h2
      · simp only []
        rw [totalCost_snoc, ← addCost_addCost, ← hres]
      · simp
    · cases hb
      unfold WaterLowerLoop.Consistent
      simp only []
      refine ⟨l.issued, _, rfl, hok, ?_, ?_, ?_⟩
      · rw [← hst]; exact h2
      · rw [← hst]
      · rw [← hst]

/-- The loops keep the loop variables consistent with the nested actions
issued. -/
theorem QueryExecute_loop_consistent (cfg : Config) (k : ActionConstants)
    (nested : NestedActions) (flags : Nat) (isExecuting : Bool) (minHeight : Nat)
    (res0 : GameActionResult) (st0 : GameState) :
    ∀ (coords : List (Int × Int)) (l l1 : WaterLowerLoop),
      l.returned = none → l.Consistent nested isExecuting k res0 st0 →
      WaterLowerAction.QueryExecute_loop cfg k nested flags isExecuting minHeight coords l
        = some l1 →
      l1.Consistent nested isExecuting k res0 st0
  | [], l, l1, _, hl, h => by
    unfold WaterLowerAction.QueryExecute_loop at h
    cases h; exact hl
  | xy :: rest, l, l1, hret, hl, h => by
    unfold WaterLowerAction.QueryExecute_loop at h
    split at h
    · exact absurd h (by simp)
    · rename_i l2 hb
      have h2 := QueryExecute_body_consistent cfg k nested flags isExecuting minHeight res0 st0
        l l2 xy hret hl hb
      split_ifs at h with hr
      · cases h; exact h2
      · have hnone : l2.returned = none := by
          cases hx : l2.returned
          · rfl
          · rw [hx] at hr; exact absurd rfl hr
        exact QueryExecute_loop_consistent cfg k nested flags isExecuting minHeight res0 st0
          rest l2 l1 hnone h2 h

/-- On a well-formed store the body of the loops has a value, and it leaves
the store well formed when the nested actions do. -/
theorem QueryExecute_body_total (cfg : Config) (k : ActionConstants)
    (nested : NestedActions) (flags : Nat) (isExecuting : Bool) (minHeight : Nat)
    (hpres : ∀ a st, WellFormed cfg st.store →
      WellFormed cfg (nested.call isExecuting a st).2.store)
    (l : WaterLowerLoop) (xy : Int × Int) (hwf : WellFormed cfg l.state.store) :
    ∃ l1, WaterLowerAction.QueryExecute_body cfg k nested flags isExecuting minHeight l xy
        = some l1 ∧ WellFormed cfg l1.state.store := by
  unfold WaterLowerAction.QueryExecute_body
  obtain ⟨r, hr⟩ := map_get_surface_element_at_total cfg l.state.store hwf
    (Int.tdiv xy.1 32) (Int.tdiv xy.2 32)
  rw [hr]
  rcases r with _ | e
  · exact ⟨l, rfl, hwf⟩
  · simp only []
    split_ifs
    · exact ⟨l, rfl, hwf⟩
    · exact ⟨l, rfl, hwf⟩
    · exact ⟨_, rfl, hpres _ _ hwf⟩
    · exact ⟨_, rfl, hpres _ _ hwf⟩

/-- On a well-formed store the loops have a value when the nested actions
keep the store well formed. -/
theorem QueryExecute_loop_total (cfg : Config) (k : ActionConstants)
    (nested : NestedActions) (flags : Nat) (isExecuting : Bool) (minHeight : Nat)
    (hpres : ∀ a st, WellFormed cfg st.store →
      WellFormed cfg (nested.call isExecuting a st).2.store) :
    ∀ (coords : List (Int × Int)) (l : WaterLowerLoop), WellFormed cfg l.state.store →
      ∃ l1, WaterLowerAction.QueryExecute_loop cfg k nested flags isExecuting minHeight coords l
        = some l1
  | [], l, _ => ⟨l, rfl⟩
  | xy :: rest, l, hwf => by
    obtain ⟨l2, hb, hwf2⟩ := QueryExecute_body_total cfg k nested flags isExecuting minHeight
      hpres l xy hwf
    unfold WaterLowerAction.QueryExecute_loop
    rw [hb]
    simp only []
    split_ifs
    · exact ⟨l2, rfl⟩
    · exact QueryExecute_loop_total cfg k nested flags isExecuting minHeight hpres rest l2 hwf2

/-- The outcome of `QueryExecute` in terms of the final values of its loop
variables. -/
theorem QueryExecute_core (cfg : Config) (k : ActionConstants) (nested : NestedActions)
    (range : MapRange) (flags : Nat) (isExecuting : Bool) (st : GameState)
    (hwf : WellFormed cfg st.store) (m : Nat)
    (hm : WaterLowerAction.GetLowestHeight cfg range st.store = some m)
    (hloop : ∀ res0, ∃ l, WaterLowerAction.QueryExecute_loop cfg k nested flags isExecuting m
      (rangeCoords (WaterLowerAction.validRange range st)) ⟨res0, false, st, none, []⟩ = some l) :
    ∃ out res0 l,
      WaterLowerAction.QueryExecute cfg k nested range flags isExecuting st = some out ∧
      WaterLowerAction.QueryExecute_loop cfg k nested flags isExecuting m
        (rangeCoords (WaterLowerAction.validRange range st)) ⟨res0, false, st, none, []⟩
          = some l ∧
      out.issued = l.issued ∧
      ((l.returned = none ∧ out.Succeeded nested isExecuting k st)
        ∨ ((∃ r, l.returned = some r) ∧ out.Failed nested isExecuting k st)) := by
  unfold WaterLowerAction.QueryExecute
  simp only []
  obtain ⟨z, hz⟩ := tile_element_height_total cfg st.store hwf
    (Int.tdiv ((WaterLowerAction.validRange range st).Left
      + (WaterLowerAction.validRange range st).Right) 2 + 16)
    (Int.tdiv ((WaterLowerAction.validRange range st).Top
      + (WaterLowerAction.validRange range st).Bottom) 2 + 16)
  obtain ⟨w, hw⟩ := tile_element_water_height_total cfg st.store hwf
    (Int.tdiv ((WaterLowerAction.validRange range st).Left
      + (WaterLowerAction.validRange range st).Right) 2 + 16)
    (Int.tdiv ((WaterLowerAction.validRange range st).Top
      + (WaterLowerAction.validRange range st).Bottom) 2 + 16)
  rw [hz, hw]
  simp only [hm]
  obtain ⟨pos, hpos⟩ : ∃ pos : Int × Int × Int, pos =
      (Int.tdiv ((WaterLowerAction.validRange range st).Left
          + (WaterLowerAction.validRange range st).Right) 2 + 16,
        Int.tdiv ((WaterLowerAction.validRange range st).Top
          + (WaterLowerAction.validRange range st).Bottom) 2 + 16,
        if w ≠ 0 then w else z) := ⟨_, rfl⟩
  rw [← hpos]
  have he0 : (((MakeResult k).setPosition pos).setExpenditureType
      k.RCT_EXPENDITURE_TYPE_LANDSCAPING).Error = GA_ERROR.OK := rfl
  have hc0 : (((MakeResult k).setPosition pos).setExpenditureType
      k.RCT_EXPENDITURE_TYPE_LANDSCAPING).Cost = 0 := rfl
  generalize ((MakeResult k).setPosition pos).setExpenditureType
      k.RCT_EXPENDITURE_TYPE_LANDSCAPING = res0 at he0 hc0 ⊢
  obtain ⟨l, hl⟩ := hloop res0
  have hcons := QueryExecute_loop_consistent cfg k nested flags isExecuting m res0 st _ _ l rfl
    (by
      unfold WaterLowerLoop.Consistent
      simp only [NestedActions.run, totalCost, List.map_nil, List.sum_nil, addCost_zero,
        List.not_mem_nil, false_implies, implies_true, List.isEmpty_nil, Bool.not_true,
        and_self])
    hl
  rw [hl]
  simp only []
  unfold WaterLowerLoop.Consistent at hcons
  cases hr : l.returned with
  | none =>
    rw [hr] at hcons
    simp only [] at hcons
    obtain ⟨hst, hok, hres, hch⟩ := hcons
    refine ⟨_, res0, l, rfl, hl, rfl, Or.inl ⟨hr, ?_⟩⟩
    unfold WaterLowerOutcome.Succeeded
    simp only []
    rw [← hst]
    refine ⟨hok, ?_, ?_, rfl, rfl, rfl, ?_⟩
    · rw [hres]; exact he0
    · rw [hres]; simp only [GameActionResult.addCost, hc0, zero_add]
    · rw [hch]
      split_ifs <;> simp
  | some result =>
    rw [hr] at hcons
    simp only [] at hcons
    obtain ⟨init, a, hi, hok, hfail, hres, hst⟩ := hcons
    exact ⟨_, res0, l, rfl, hl, rfl, Or.inr ⟨⟨result, hr⟩, init, a, hi, hok, hfail, hres, hst⟩⟩

/-- On a well-formed store that the nested actions keep well formed,
`QueryExecute` returns, and either every nested action succeeded or the last
one issued failed. -/
theorem QueryExecute_outcome (cfg : Config) (k : ActionConstants) (nested : NestedActions)
    (range : MapRange) (flags : Nat) (isExecuting : Bool) (st : GameState)
    (hwf : WellFormed cfg st.store)
    (hpres : ∀ a st, WellFormed cfg st.store →
      WellFormed cfg (nested.call isExecuting a st).2.store) :
    ∃ out, WaterLowerAction.QueryExecute cfg k nested range flags isExecuting st = some out ∧
      (out.Succeeded nested isExecuting k st ∨ out.Failed nested isExecuting k st) := by
  obtain ⟨m, hm⟩ := GetLowestHeight_total cfg st.store hwf range
  obtain ⟨out, _, _, ho, _, _, h⟩ := QueryExecute_core cfg k nested range flags isExecuting st
    hwf m hm
    (fun res0 => QueryExecute_loop_total cfg k nested flags isExecuting m hpres _ _ hwf)
  exact ⟨out, ho, h.imp (fun x => x.2) (fun x => x.2)⟩

/-! ## Failing nested actions -/

theorem waterStore_wellFormed : WellFormed waterConfig waterStore := by
  apply wellFormed_of_runs waterConfig waterStore (fun _ => 1)
  · intro t ht
    have ht16 : t < 16 := ht
    refine ⟨⟨by decide, ?_⟩, ?_⟩
    · intro i hi
      have hi0 : i = 0 := by omega
      subst hi0
      simp only [waterStore, ht16, ↓reduceIte, Nat.add_zero]
      decide
    · simp only [waterStore, ht16, ↓reduceIte]
      omega
  · intro t1 h1 t2 h2 hne
    have h116 : t1 < 16 := h1
    have h216 : t2 < 16 := h2
    simp only [waterStore, h116, h216, ↓reduceIte]
    omega
  · decide

/-- The result of an action issued in the middle of a sequence is among the
results of the sequence. -/
theorem run_mem_middle (nested : NestedActions) (isExecuting : Bool)
    (init rest : List WaterSetHeightAction) (a : WaterSetHeightAction) (st : GameState) :
    (nested.call isExecuting a (nested.run isExecuting init st).2).1
      ∈ (nested.run isExecuting (init ++ a :: rest) st).1 := by
  rw [run_append]
  simp [NestedActions.run]

/-- On a well-formed store that the nested actions keep well formed: a nested
action that fails is the last one issued, the result returned is its result
with the error title replaced, and the state is the one it left. -/
theorem QueryExecute_failure (cfg : Config) (k : ActionConstants) (nested : NestedActions)
    (range : MapRange) (flags : Nat) (isExecuting : Bool) (st : GameState)
    (hwf : WellFormed cfg st.store)
    (hpres : ∀ a st, WellFormed cfg st.store →
      WellFormed cfg (nested.call isExecuting a st).2.store) :
    ∃ out, WaterLowerAction.QueryExecute cfg k nested range flags isExecuting st = some out ∧
      ∀ init a rest, out.issued = init ++ a :: rest →
        (nested.call isExecuting a (nested.run isExecuting init st).2).1.Error ≠ GA_ERROR.OK →
        rest = [] ∧
        out.result = (nested.call isExecuting a (nested.run isExecuting init st).2).1.setErrorTitle
          k.STR_CANT_LOWER_WATER_LEVEL_HERE ∧
        out.state = (nested.call isExecuting a (nested.run isExecuting init st).2).2 := by
  obtain ⟨out, ho, h⟩ := QueryExecute_outcome cfg k nested range flags isExecuting st hwf hpres
  refine ⟨out, ho, ?_⟩
  intro init a rest hi hfail
  rcases h with hs | hf
  · exfalso
    apply hfail
    apply hs.1
    rw [hi]
    exact run_mem_middle nested isExecuting init rest a st
  · obtain ⟨init0, a0, hi0, hok0, _, hres0, hst0⟩ := hf
    rw [hi0] at hi
    rcases List.append_eq_append_iff.1 hi with ⟨c, hc1, hc2⟩ | ⟨c, hc1, hc2⟩
    · -- `init = init0 ++ c` and `[a0] = c ++ a :: rest`
      cases c with
      | nil =>
        simp only [List.nil_append, List.cons.injEq] at hc2
        obtain ⟨ha, hr⟩ := hc2
        rw [List.append_nil] at hc1
        subst hc1; subst ha
        exact ⟨hr.symm, hres0, hst0⟩
      | cons c0 cs =>
        exfalso
        simp only [List.cons_append, List.cons.injEq] at hc2
        have := hc2.2
        cases cs <;> simp at this
    · -- `init0 = init ++ c` and `a :: rest = c ++ [a0]`
      cases c with
      | nil =>
        simp only [List.nil_append, List.cons.injEq] at hc2
        obtain ⟨ha, hr⟩ := hc2
        rw [List.append_nil] at hc1
        subst hc1; subst ha
        exact ⟨hr, hres0, hst0⟩
      | cons c0 cs =>
        exfalso
        simp only [List.cons_append, List.cons.injEq] at hc2
        obtain ⟨ha, _⟩ := hc2
        subst ha
        apply hfail
        apply hok0
        rw [hc1]
        exact run_mem_middle nested isExecuting init cs a st

/-! ## Ranges with water at one height -/

theorem loopSteps_pairwise (first last : Int) (h0 : 0 ≤ first) :
    (loopSteps first last).Pairwise (fun a b => Int.tdiv a 32 ≠ Int.tdiv b 32) := by
  unfold loopSteps
  split_ifs
  · rw [List.pairwise_map]
    apply List.Pairwise.imp _ (List.pairwise_lt_range _)
    intro i j hij
    rw [Int.tdiv_eq_ediv (by omega) (by decide), Int.tdiv_eq_ediv (by omega) (by decide)]
    omega
  · exact List.Pairwise.nil

theorem mem_rangeCoords_aux (xs : List Int) :
    ∀ (ys : List Int) (p : Int × Int),
      p ∈ ys.foldr (fun y acc => xs.map (fun x => (x, y)) ++ acc) [] → p.1 ∈ xs ∧ p.2 ∈ ys
  | [], p, h => by simp at h
  | y :: ys, p, h => by
    simp only [List.foldr_cons, List.mem_append, List.mem_map] at h
    rcases h with ⟨x, hx, rfl⟩ | h
    · exact ⟨hx, List.mem_cons_self _ _⟩
    · have := mem_rangeCoords_aux xs ys p h
      exact ⟨this.1, List.mem_cons_of_mem _ this.2⟩

theorem rangeCoords_pairwise_aux (xs : List Int)
    (hx : xs.Pairwise (fun a b => Int.tdiv a 32 ≠ Int.tdiv b 32)) :
    ∀ (ys : List Int), ys.Pairwise (fun a b => Int.tdiv a 32 ≠ Int.tdiv b 32) →
      (ys.foldr (fun y acc => xs.map (fun x => (x, y)) ++ acc) []).Pairwise
        (fun p q => tileOf p ≠ tileOf q)
  | [], _ => List.Pairwise.nil
  | y :: ys, hy => by
    rw [List.pairwise_cons] at hy
    rw [List.foldr_cons, List.pairwise_append]
    refine ⟨?_, rangeCoords_pairwise_aux xs hx ys hy.2, ?_⟩
    · rw [List.pairwise_map]
      apply List.Pairwise.imp _ hx
      intro a b hab h
      apply hab
      simp only [tileOf, Prod.mk.injEq] at h
      exact h.1
    · intro p hp q hq h
      rw [List.mem_map] at hp
      obtain ⟨x, _, rfl⟩ := hp
      have hq2 := (mem_rangeCoords_aux xs ys q hq).2
      apply hy.1 q.2 hq2
      simp only [tileOf, Prod.mk.injEq] at h
      exact h.2

/-- The positions that the loops over a range with non-negative left and top
visit lie on pairwise different tiles. -/
theorem rangeCoords_pairwise (range : MapRange) (hl : 0 ≤ range.Left) (ht : 0 ≤ range.Top) :
    (rangeCoords range).Pairwise (fun p q => tileOf p ≠ tileOf q) :=
  rangeCoords_pairwise_aux _ (loopSteps_pairwise _ _ hl) _ (loopSteps_pairwise _ _ ht)

theorem waterHeightAt_none (cfg : Config) (s : Store) (tx ty : Int)
    (h : waterHeightAt cfg s tx ty = some none) :
    map_get_surface_element_at cfg s tx ty = some none := by
  unfold waterHeightAt at h
  split at h
  · exact absurd h (by simp)
  · assumption
  · exact absurd h (by simp)

theorem waterHeightAt_some (cfg : Config) (s : Store) (tx ty : Int) (w : Nat)
    (h : waterHeightAt cfg s tx ty = some (some w)) :
    ∃ e, map_get_surface_element_at cfg s tx ty = some (some e)
      ∧ (s.gTileElements e).GetWaterHeight = w := by
  unfold waterHeightAt at h
  split at h
  · exact absurd h (by simp)
  · exact absurd h (by simp)
  · rename_i e he
    refine ⟨e, he, ?_⟩
    simpa using h

theorem GetWaterHeight_lt (e : TileElement) : e.GetWaterHeight < 32 := by
  unfold TileElement.GetWaterHeight
  exact Nat.lt_of_le_of_lt Nat.and_le_right (by decide)

/-- Over positions whose surfaces all have water height `h`, the fold of
`GetLowestHeight` has a value of at most `2 * h`. -/
theorem GetLowestHeight_uniform (cfg : Config) (s : Store) (h : Nat) :
    ∀ (coords : List (Int × Int)) (m0 : Nat), m0 ≤ 2 * h → UniformWater cfg s h coords →
      ∃ m, coords.foldlM (WaterLowerAction.GetLowestHeight_body cfg s) m0 = some m ∧ m ≤ 2 * h
  | [], m0, hm, _ => ⟨m0, rfl, hm⟩
  | xy :: rest, m0, hm, hu => by
    have hrest : UniformWater cfg s h rest := fun p hp => hu p (List.mem_cons_of_mem _ hp)
    rw [List.foldlM_cons]
    unfold WaterLowerAction.GetLowestHeight_body map_get_surface_element_at_coords
    rcases hu xy (List.mem_cons_self _ _) with hw | hw
    · have := waterHeightAt_none cfg s _ _ hw
      simp only [tileOf] at this
      rw [this]
      exact GetLowestHeight_uniform cfg s h rest m0 hm hrest
    · obtain ⟨e, he, hwe⟩ := waterHeightAt_some cfg s _ _ h hw
      simp only [tileOf] at he
      rw [he]
      simp only [hwe]
      have hlt : h < 32 := by rw [← hwe]; exact GetWaterHeight_lt _
      split_ifs with h0 h1
      · exact GetLowestHeight_uniform cfg s h rest m0 hm hrest
      · exact GetLowestHeight_uniform cfg s h rest _ (by omega) hrest
      · exact GetLowestHeight_uniform cfg s h rest m0 hm hrest

theorem hasSurfaceAt_of_none (cfg : Config) (s : Store) (xy : Int × Int)
    (h : waterHeightAt cfg s (tileOf xy).1 (tileOf xy).2 = some none) :
    hasSurfaceAt cfg s xy = false := by
  unfold hasSurfaceAt
  simp only [tileOf] at h
  rw [h]

theorem hasSurfaceAt_of_some (cfg : Config) (s : Store) (xy : Int × Int) (w : Nat)
    (h : waterHeightAt cfg s (tileOf xy).1 (tileOf xy).2 = some (some w)) :
    hasSurfaceAt cfg s xy = true := by
  unfold hasSurfaceAt
  simp only [tileOf] at h
  rw [h]

/-- The loops of `Execute` over positions on pairwise different tiles whose
surfaces all have water height `h`, when every nested action succeeds and
changes the water of its own tile only: one nested action per tile with a
surface, each with raw target height `2 * h - 2`, and no early return. -/
theorem QueryExecute_loop_uniform (cfg : Config) (k : ActionConstants)
    (nested : NestedActions) (flags : Nat) (minHeight h : Nat) (hh : 0 < h)
    (hm : minHeight ≤ 2 * h) (Inv : GameState → Prop) :
    ∀ (coords : List (Int × Int)) (l : WaterLowerLoop),
      nested.LowersWater cfg Inv h flags coords → Inv l.state →
      coords.Pairwise (fun p q => tileOf p ≠ tileOf q) →
      UniformWater cfg l.state.store h coords → l.returned = none →
      ∃ l1, WaterLowerAction.QueryExecute_loop cfg k nested flags true minHeight coords l
          = some l1 ∧
        l1.returned = none ∧
        l1.issued = l.issued
          ++ (coords.filter (hasSurfaceAt cfg l.state.store)).map (lowerWaterAt h flags)
  | [], l, _, _, _, _, hret => ⟨l, rfl, hret, by simp⟩
  | xy :: rest, l, hstep, hinv, hp, hu, hret => by
    rw [List.pairwise_cons] at hp
    have hrest : UniformWater cfg l.state.store h rest :=
      fun p hp => hu p (List.mem_cons_of_mem _ hp)
    have hstep2 : nested.LowersWater cfg Inv h flags rest :=
      fun p hp => hstep p (List.mem_cons_of_mem _ hp)
    unfold WaterLowerAction.QueryExecute_loop WaterLowerAction.QueryExecute_body
    rcases hu xy (List.mem_cons_self _ _) with hw | hw
    · have hl := waterHeightAt_none cfg l.state.store _ _ hw
      simp only [tileOf] at hl
      rw [hl]
      simp only [hret, Option.isSome_none, Bool.false_eq_true, ↓reduceIte]
      obtain ⟨l1, h1, h2, h3⟩ := QueryExecute_loop_uniform cfg k nested flags minHeight h hh hm
        Inv rest l hstep2 hinv hp.2 hrest hret
      refine ⟨l1, h1, h2, ?_⟩
      rw [h3, List.filter_cons, hasSurfaceAt_of_none cfg l.state.store xy hw]
      simp
    · obtain ⟨e, he, hwe⟩ := waterHeightAt_some cfg l.state.store _ _ h hw
      simp only [tileOf] at he
      rw [he]
      simp only [hwe]
      have hlt : h < 32 := by rw [← hwe]; exact GetWaterHeight_lt _
      have e1 : h % 256 = h := by omega
      have e2 : h * 2 % 256 = h * 2 := by omega
      have e3 : (h * 2 + 256 - 2) % 256 = 2 * h - 2 := by omega
      have c1 : ¬ (h = 0) := by omega
      have c2 : ¬ (h * 2 < minHeight) := by omega
      obtain ⟨hok, hinv2, hframe⟩ := hstep xy (List.mem_cons_self _ _) l.state hinv
      simp only [lowerWaterAt] at hok hinv2 hframe
      simp only [e1, e2, e3, c1, c2, ↓reduceIte, NestedActions.call, hok, hret,
        Option.isSome_none, Bool.false_eq_true]
      have hu2 : UniformWater cfg (nested.ExecuteNested ⟨xy.1, xy.2, 2 * h - 2, flags⟩
          l.state).2.store h rest := by
        intro p hpm
        have hne : tileOf p ≠ tileOf xy := fun hx => hp.1 p hpm hx.symm
        rw [hframe (tileOf p).1 (tileOf p).2 hne]
        exact hrest p hpm
      obtain ⟨l1, h1, h2, h3⟩ := QueryExecute_loop_uniform cfg k nested flags minHeight h hh hm
        Inv rest
        ⟨l.res.addCost (nested.ExecuteNested ⟨xy.1, xy.2, 2 * h - 2, flags⟩ l.state).1.Cost, true,
          (nested.ExecuteNested ⟨xy.1, xy.2, 2 * h - 2, flags⟩ l.state).2, none,
          l.issued ++ [⟨xy.1, xy.2, 2 * h - 2, flags⟩]⟩ hstep2 hinv2 hp.2 hu2 rfl
      have hfil : rest.filter (hasSurfaceAt cfg
          (nested.ExecuteNested ⟨xy.1, xy.2, 2 * h - 2, flags⟩ l.state).2.store)
          = rest.filter (hasSurfaceAt cfg l.state.store) := by
        apply List.filter_congr
        intro p hpm
        have hne : tileOf p ≠ tileOf xy := fun hx => hp.1 p hpm hx.symm
        unfold hasSurfaceAt
        have := hframe (tileOf p).1 (tileOf p).2 hne
        simp only [tileOf] at this
        rw [this]
      refine ⟨l1, h1, h2, ?_⟩
      rw [h3, List.filter_cons, hasSurfaceAt_of_some cfg l.state.store xy h hw]
      simp only [hfil, ↓reduceIte, List.map_cons, List.append_assoc, List.singleton_append,
        lowerWaterAt]

/-- The outcome of `Execute` on a range whose surfaces all have water height
`h`, for nested actions that succeed and change the water of their own tile
only. -/
theorem Execute_uniform (cfg : Config) (k : ActionConstants)
    (nested : NestedActions) (range : MapRange) (flags : Nat) (st : GameState) (h : Nat)
    (Inv : GameState → Prop)
    (hwf : WellFormed cfg st.store) (hh : 0 < h)
    (huni : UniformWater cfg st.store h
      (rangeCoords range ++ rangeCoords (WaterLowerAction.validRange range st)))
    (hinv : Inv st)
    (hstep : nested.LowersWater cfg Inv h flags
      (rangeCoords (WaterLowerAction.validRange range st))) :
    ∃ out, WaterLowerAction.Execute cfg k nested range flags st = some out ∧
      out.issued = ((rangeCoords (WaterLowerAction.validRange range st)).filter
        (hasSurfaceAt cfg st.store)).map (lowerWaterAt h flags) ∧
      out.result.Error = GA_ERROR.OK ∧
      out.result.Cost = totalCost (nested.run true out.issued st).1 := by
  have hu1 : UniformWater cfg st.store h (rangeCoords range) :=
    fun p hp => huni p (List.mem_append_left _ hp)
  have hu2 : UniformWater cfg st.store h (rangeCoords (WaterLowerAction.validRange range st)) :=
    fun p hp => huni p (List.mem_append_right _ hp)
  obtain ⟨m, hm, hmle⟩ := GetLowestHeight_uniform cfg st.store h (rangeCoords range) 0
    (by omega) hu1
  have hpw : (rangeCoords (WaterLowerAction.validRange range st)).Pairwise
      (fun p q => tileOf p ≠ tileOf q) := by
    apply rangeCoords_pairwise
    · simp only [WaterLowerAction.validRange]; omega
    · simp only [WaterLowerAction.validRange]; omega
  have hloop := fun res0 : GameActionResult =>
    QueryExecute_loop_uniform cfg k nested flags m h hh hmle Inv
      (rangeCoords (WaterLowerAction.validRange range st)) ⟨res0, false, st, none, []⟩
      hstep hinv hpw hu2 rfl
  obtain ⟨out, res0, l, ho, hl, hi, hcase⟩ := QueryExecute_core cfg k nested range flags true st
    hwf m hm (fun res0 => (hloop res0).imp (fun _ hx => hx.1))
  obtain ⟨l1, h1, h2, h3⟩ := hloop res0
  have hl1 : l = l1 := Option.some.inj (hl.symm.trans h1)
  subst hl1
  refine ⟨out, ho, ?_, ?_⟩
  · rw [hi, h3]; rfl
  · rcases hcase with ⟨_, hs⟩ | ⟨⟨r, hr⟩, _⟩
    · exact ⟨hs.2.1, hs.2.2.1⟩
    · rw [h2] at hr; exact absurd hr (by simp)

/-! ## The nested action that sets the water height -/

/-- Surface lookup in the states that `waterSetHeightActions` reaches. -/
theorem waterInvariant_lookup (st : GameState) (hinv : waterInvariant st) (tx ty : Int) :
    map_get_surface_element_at waterConfig st.store tx ty
      = if 0 ≤ tx ∧ tx < 4 ∧ 0 ≤ ty ∧ ty < 4 then some (some (tx + ty * 4).toNat)
        else some none := by
  have hN : (waterConfig.MAXIMUM_MAP_SIZE_TECHNICAL : Int) = 4 := rfl
  have hA : arraySize waterConfig = 48 := rfl
  unfold map_get_surface_element_at map_get_first_element_at
  rw [hN, hA]
  by_cases hr : 0 ≤ tx ∧ tx < 4 ∧ 0 ≤ ty ∧ ty < 4
  · rw [if_pos hr, if_neg (by omega)]
    have ht : (tx + ty * 4).toNat < 16 := by omega
    have hp : st.store.gTileElementTilePointers (tx + ty * 4).toNat = (tx + ty * 4).toNat := by
      rw [hinv.1]; simp only [waterStore, ht, ↓reduceIte]
    have hty : (st.store.gTileElements (tx + ty * 4).toNat).GetType
        = TILE_ELEMENT_TYPE_SURFACE := by
      unfold TileElement.GetType
      rw [hinv.2]; simp only [waterStore, ht, ↓reduceIte]
      rfl
    simp only []
    rw [hp]
    have hfuel : 48 - (tx + ty * 4).toNat = (47 - (tx + ty * 4).toNat) + 1 := by omega
    rw [hfuel]
    unfold map_get_surface_element_at_loop
    rw [if_neg (by rw [hty]; exact fun h => h rfl)]
  · rw [if_neg hr, if_pos (by omega)]

theorem waterInvariant_initial : waterInvariant waterState :=
  ⟨fun _ => rfl, fun _ => rfl⟩

/-- The nested action of `lowerWaterActions` at a position on the map
succeeds, keeps the invariant and leaves the water of every other tile as it
was. -/
theorem lowerWaterActions_step (h flags : Nat) (xy : Int × Int)
    (hx : 0 ≤ xy.1 ∧ xy.1 < 128) (hy : 0 ≤ xy.2 ∧ xy.2 < 128) (st : GameState)
    (hinv : waterInvariant st) :
    (lowerWaterActions.ExecuteNested (lowerWaterAt h flags xy) st).1.Error = GA_ERROR.OK ∧
    waterInvariant (lowerWaterActions.ExecuteNested (lowerWaterAt h flags xy) st).2 ∧
    ∀ tx ty, (tx, ty) ≠ tileOf xy →
      waterHeightAt waterConfig
          (lowerWaterActions.ExecuteNested (lowerWaterAt h flags xy) st).2.store tx ty
        = waterHeightAt waterConfig st.store tx ty := by
  have hdx : Int.tdiv xy.1 32 = xy.1 / 32 := Int.tdiv_eq_ediv hx.1 (by decide)
  have hdy : Int.tdiv xy.2 32 = xy.2 / 32 := Int.tdiv_eq_ediv hy.1 (by decide)
  have hin : 0 ≤ xy.1 / 32 ∧ xy.1 / 32 < 4 ∧ 0 ≤ xy.2 / 32 ∧ xy.2 / 32 < 4 := by omega
  have hl : map_get_surface_element_at_coords waterConfig st.store xy.1 xy.2
      = some (some (xy.1 / 32 + xy.2 / 32 * 4).toNat) := by
    unfold map_get_surface_element_at_coords
    rw [waterInvariant_lookup st hinv, hdx, hdy, if_pos hin]
  have hex : lowerWaterActions.ExecuteNested (lowerWaterAt h flags xy) st
      = (GameActionResult.addCost (MakeResult sampleConstants) 10,
          st.setElement (xy.1 / 32 + xy.2 / 32 * 4).toNat
            ((st.store.gTileElements (xy.1 / 32 + xy.2 / 32 * 4).toNat).SetWaterHeight
              ((2 * h - 2) / 2))) := by
    simp only [lowerWaterActions, waterSetHeightActions, lowerWaterAt, hl, Bool.false_eq_true,
      ↓reduceIte]
  have hinv2 : waterInvariant (st.setElement (xy.1 / 32 + xy.2 / 32 * 4).toNat
      ((st.store.gTileElements (xy.1 / 32 + xy.2 / 32 * 4).toNat).SetWaterHeight
        ((2 * h - 2) / 2))) := by
    refine ⟨hinv.1, ?_⟩
    intro i
    simp only [GameState.setElement]
    by_cases hi : i = (xy.1 / 32 + xy.2 / 32 * 4).toNat
    · rw [hi, Function.update_same]
      exact hinv.2 _
    · rw [Function.update_noteq hi]
      exact hinv.2 i
  rw [hex]
  refine ⟨rfl, hinv2, ?_⟩
  intro tx ty hne
  unfold waterHeightAt
  rw [waterInvariant_lookup _ hinv2, waterInvariant_lookup _ hinv]
  split_ifs with hr
  · simp only [GameState.setElement]
    have hi : (tx + ty * 4).toNat ≠ (xy.1 / 32 + xy.2 / 32 * 4).toNat := by
      intro he
      apply hne
      simp only [tileOf, hdx, hdy, Prod.mk.injEq]
      omega
    rw [Function.update_noteq hi]
  · rfl

theorem waterSetHeightActions_query_pure (blocked : Int × Int → Bool) (a : WaterSetHeightAction)
    (st : GameState) : ((waterSetHeightActions blocked).QueryNested a st).2 = st := by
  simp only [waterSetHeightActions]
  split_ifs
  · rfl
  · split <;> rfl

/-- Whether a store is well formed depends on the elements only through
their last-for-tile flags. -/
theorem wellFormed_of_same_flags (cfg : Config) (s s2 : Store)
    (hp : s2.gTileElementTilePointers = s.gTileElementTilePointers)
    (hn : s2.gNextFreeTileElement = s.gNextFreeTileElement)
    (hf : ∀ i, (s2.gTileElements i).IsLastForTile = (s.gTileElements i).IsLastForTile)
    (h : WellFormed cfg s) : WellFormed cfg s2 := by
  have hrun : ∀ p k, IsRun s2.gTileElements p k ↔ IsRun s.gTileElements p k := by
    intro p k
    unfold IsRun
    simp only [hf]
  unfold WellFormed StoreInvariant RunsDisjoint at *
  simp only [hp, hn, hrun]
  exact h

/-- The nested actions of `waterSetHeightActions` keep the store well formed. -/
theorem waterSetHeightActions_wellFormed (blocked : Int × Int → Bool) (isExecuting : Bool)
    (a : WaterSetHeightAction) (st : GameState) (h : WellFormed waterConfig st.store) :
    WellFormed waterConfig ((waterSetHeightActions blocked).call isExecuting a st).2.store := by
  unfold NestedActions.call
  cases isExecuting
  · simp only [Bool.false_eq_true, ↓reduceIte]
    rw [waterSetHeightActions_query_pure]
    exact h
  · simp only [↓reduceIte, waterSetHeightActions]
    split_ifs
    · exact h
    · split
      · rename_i e _
        show WellFormed waterConfig
          (st.setElement e ((st.store.gTileElements e).SetWaterHeight (a.height / 2))).store
        refine wellFormed_of_same_flags waterConfig st.store
          (st.setElement e ((st.store.gTileElements e).SetWaterHeight (a.height / 2))).store
          rfl rfl ?_ h
        intro i
        simp only [GameState.setElement]
        by_cases hi : i = e
        · rw [hi, Function.update_same]; rfl
        · rw [Function.update_noteq hi]
      · exact h

/-! ## Claims on `WaterLowerAction` -/

/-- Claim C17: on a well-formed store that the nested actions keep well formed,
`WaterLowerAction` returns, and a nested `WaterSetHeightAction` that fails is
the last one issued: no further tile is processed, the state is the one the
failing action left, and the result returned carries the failing action's
error code and error message. -/
theorem water_lower_stops_at_first_failure (cfg : Config) (k : ActionConstants)
    (nested : NestedActions) (range : MapRange) (flags : Nat) (isExecuting : Bool)
    (st : GameState) (hwf : WellFormed cfg st.store)
    (hpres : ∀ a st, WellFormed cfg st.store →
      WellFormed cfg (nested.call isExecuting a st).2.store) :
    ∃ out, WaterLowerAction.QueryExecute cfg k nested range flags isExecuting st = some out ∧
      ∀ init a rest, out.issued = init ++ a :: rest →
        (nested.call isExecuting a (nested.run isExecuting init st).2).1.Error ≠ GA_ERROR.OK →
        rest = [] ∧
        out.state = (nested.call isExecuting a (nested.run isExecuting init st).2).2 ∧
        out.result.Error ≠ GA_ERROR.OK ∧
        out.result.Error
          = (nested.call isExecuting a (nested.run isExecuting init st).2).1.Error ∧
        out.result.ErrorMessage
          = (nested.call isExecuting a (nested.run isExecuting init st).2).1.ErrorMessage := by
  obtain ⟨out, ho, h⟩ := QueryExecute_failure cfg k nested range flags isExecuting st hwf hpres
  refine ⟨out, ho, ?_⟩
  intro init a rest hi hfail
  obtain ⟨h1, h2, h3⟩ := h init a rest hi hfail
  refine ⟨h1, h3, ?_, ?_, ?_⟩
  · rw [h2]; exact hfail
  · rw [h2]; rfl
  · rw [h2]; rfl

theorem water_lower_stops_at_first_failure_witness :
    ∃ out, WaterLowerAction.QueryExecute waterConfig sampleConstants obstructedWaterActions
        ⟨0, 0, 200, 200⟩ 0 true waterState = some out ∧
      ∀ init a rest, out.issued = init ++ a :: rest →
        (obstructedWaterActions.call true a (obstructedWaterActions.run true init waterState).2).1.Error
          ≠ GA_ERROR.OK →
        rest = [] ∧
        out.state = (obstructedWaterActions.call true a (obstructedWaterActions.run true init waterState).2).2 ∧
        out.result.Error ≠ GA_ERROR.OK ∧
        out.result.Error
          = (obstructedWaterActions.call true a (obstructedWaterActions.run true init waterState).2).1.Error ∧
        out.result.ErrorMessage
          = (obstructedWaterActions.call true a
              (obstructedWaterActions.run true init waterState).2).1.ErrorMessage :=
  water_lower_stops_at_first_failure waterConfig sampleConstants obstructedWaterActions
    ⟨0, 0, 200, 200⟩ 0 true waterState waterStore_wellFormed
    (fun a st h => waterSetHeightActions_wellFormed _ true a st h)

/-- Claim C18 as stated fails: on the 4 x 4 map with water everywhere and
nested actions blocked at `x = 64`, the first nested action (at `x = 32`)
succeeds with cost 10 and lowers the water of its tile, the second fails with
cost 0; the failed result returned has cost 0, less than the cost of the
earlier sub-action. -/
theorem water_lower_failed_cost_counterexample :
    ∃ out, WaterLowerAction.Execute waterConfig sampleConstants obstructedWaterActions
        ⟨0, 0, 200, 200⟩ 0 waterState = some out ∧
      out.issued = [⟨32, 32, 4, 0⟩, ⟨64, 32, 4, 0⟩] ∧
      (obstructedWaterActions.run true out.issued waterState).1.map (fun r => (r.Error, r.Cost))
        = [(GA_ERROR.OK, 10), (GA_ERROR.OTHER 5, 0)] ∧
      waterHeightAt waterConfig out.state.store 1 1 = some (some 2) ∧
      out.result.Error = GA_ERROR.OTHER 5 ∧
      out.result.Cost = 0 ∧
      ¬ out.RetainsEarlierCosts obstructedWaterActions true waterState :=
  ⟨_, rfl, by decide, by decide, by decide, by decide, by decide, by decide⟩

/-- Claim C18, amended: when a nested action fails (after any number of
earlier successes), the failed result returned by `WaterLowerAction` is the
failing action's own result with the error title replaced, so its cost is the
cost of the failing action alone; the costs of the earlier sub-actions are not
carried over. -/
theorem water_lower_failed_cost (cfg : Config) (k : ActionConstants)
    (nested : NestedActions) (range : MapRange) (flags : Nat) (isExecuting : Bool)
    (st : GameState) (hwf : WellFormed cfg st.store)
    (hpres : ∀ a st, WellFormed cfg st.store →
      WellFormed cfg (nested.call isExecuting a st).2.store) :
    ∃ out, WaterLowerAction.QueryExecute cfg k nested range flags isExecuting st = some out ∧
      ∀ init a rest, out.issued = init ++ a :: rest →
        (nested.call isExecuting a (nested.run isExecuting init st).2).1.Error ≠ GA_ERROR.OK →
        out.result = (nested.call isExecuting a (nested.run isExecuting init st).2).1.setErrorTitle
          k.STR_CANT_LOWER_WATER_LEVEL_HERE ∧
        out.result.Cost = (nested.call isExecuting a (nested.run isExecuting init st).2).1.Cost := by
  obtain ⟨out, ho, h⟩ := QueryExecute_failure cfg k nested range flags isExecuting st hwf hpres
  refine ⟨out, ho, ?_⟩
  intro init a rest hi hfail
  obtain ⟨_, h2, _⟩ := h init a rest hi hfail
  exact ⟨h2, by rw [h2]; rfl⟩

theorem water_lower_failed_cost_witness :
    ∃ out, WaterLowerAction.QueryExecute waterConfig sampleConstants obstructedWaterActions
        ⟨0, 0, 200, 200⟩ 0 true waterState = some out ∧
      ∀ init a rest, out.issued = init ++ a :: rest →
        (obstructedWaterActions.call true a (obstructedWaterActions.run true init waterState).2).1.Error
          ≠ GA_ERROR.OK →
        out.result
          = (obstructedWaterActions.call true a
              (obstructedWaterActions.run true init waterState).2).1.setErrorTitle
                sampleConstants.STR_CANT_LOWER_WATER_LEVEL_HERE ∧
        out.result.Cost
          = (obstructedWaterActions.call true a (obstructedWaterActions.run true init waterState).2).1.Cost :=
  water_lower_failed_cost waterConfig sampleConstants obstructedWaterActions
    ⟨0, 0, 200, 200⟩ 0 true waterState waterStore_wellFormed
    (fun a st h => waterSetHeightActions_wellFormed _ true a st h)

/-- A sequence of nested queries that mutate nothing leaves the state as it
was. -/
theorem run_query_pure (nested : NestedActions)
    (hpure : ∀ a st, (nested.QueryNested a st).2 = st) :
    ∀ (actions : List WaterSetHeightAction) (st : GameState),
      (nested.run false actions st).2 = st
  | [], _ => rfl
  | a :: rest, st => by
    simp only [NestedActions.run, NestedActions.call, Bool.false_eq_true, ↓reduceIte]
    rw [hpure, run_query_pure nested hpure rest st]

/-- Every nested action that the loops issue lies at one of the positions
visited. -/
theorem QueryExecute_loop_issued_mem (cfg : Config) (k : ActionConstants)
    (nested : NestedActions) (flags : Nat) (isExecuting : Bool) (minHeight : Nat) :
    ∀ (coords : List (Int × Int)) (l l1 : WaterLowerLoop),
      WaterLowerAction.QueryExecute_loop cfg k nested flags isExecuting minHeight coords l
        = some l1 →
      ∀ a ∈ l1.issued, a ∈ l.issued ∨ (a.x, a.y) ∈ coords
  | [], l, l1, h, a, ha => by
    unfold WaterLowerAction.QueryExecute_loop at h
    cases h; exact Or.inl ha
  | xy :: rest, l, l1, h, a, ha => by
    unfold WaterLowerAction.QueryExecute_loop at h
    split at h
    · exact absurd h (by simp)
    · rename_i l2 hb
      have h2 : ∀ b ∈ l2.issued, b ∈ l.issued ∨ (b.x, b.y) = xy := by
        unfold WaterLowerAction.QueryExecute_body at hb
        split at hb
        · exact absurd hb (by simp)
        · cases hb; exact fun b hb => Or.inl hb
        · simp only [] at hb
          split_ifs at hb
          · cases hb; exact fun b hb => Or.inl hb
          · cases hb; exact fun b hb => Or.inl hb
          · cases hb
            intro b hb
            rcases List.mem_append.1 hb with h | h
            · exact Or.inl h
            · rw [List.mem_singleton] at h; rw [h]; exact Or.inr rfl
          · cases hb
            intro b hb
            rcases List.mem_append.1 hb with h | h
            · exact Or.inl h
            · rw [List.mem_singleton] at h; rw [h]; exact Or.inr rfl
      have h3 : ∀ b ∈ l1.issued, b ∈ l2.issued ∨ (b.x, b.y) ∈ rest := by
        split_ifs at h
        · cases h; exact fun b hb => Or.inl hb
        · exact QueryExecute_loop_issued_mem cfg k nested flags isExecuting minHeight rest l2 l1 h
      rcases h3 a ha with h | h
      · rcases h2 a h with h | h
        · exact Or.inl h
        · exact Or.inr (by rw [h]; exact List.mem_cons_self _ _)
      · exact Or.inr (List.mem_cons_of_mem _ h)

/-- Claim C19, the divergence: on a well-formed store, when the nested queries
mutate nothing and the ones at the positions of the clamped range succeed in
the state at hand, `WaterLowerAction::Query` returns without error, leaves the
tile store, `gMapSizeMaxXY` and the sounds as they were, and sets
`TRACK_SELECTION_FLAG_RECHECK` in `_currentTrackSelectionFlags`: the flags
differ from before whenever that bit was clear. -/
theorem water_lower_query_sets_recheck (cfg : Config) (k : ActionConstants)
    (nested : NestedActions) (range : MapRange) (flags : Nat) (st : GameState)
    (hwf : WellFormed cfg st.store)
    (hpure : ∀ a st, (nested.QueryNested a st).2 = st)
    (hok : ∀ a, (a.x, a.y) ∈ rangeCoords (WaterLowerAction.validRange range st) →
      (nested.QueryNested a st).1.Error = GA_ERROR.OK) :
    ∃ out, WaterLowerAction.Query cfg k nested range flags st = some out ∧
      out.result.Error = GA_ERROR.OK ∧
      out.state.store = st.store ∧
      out.state.gMapSizeMaxXY = st.gMapSizeMaxXY ∧
      out.state.audio = st.audio ∧
      out.state._currentTrackSelectionFlags
        = st._currentTrackSelectionFlags ||| k.TRACK_SELECTION_FLAG_RECHECK := by
  have hcall : ∀ a st, (nested.call false a st).2 = st := by
    intro a st
    simp only [NestedActions.call, Bool.false_eq_true, ↓reduceIte]
    exact hpure a st
  obtain ⟨m, hm⟩ := GetLowestHeight_total cfg st.store hwf range
  obtain ⟨out, res0, l, ho, hl, hi, h⟩ := QueryExecute_core cfg k nested range flags false st
    hwf m hm
    (fun res0 => QueryExecute_loop_total cfg k nested flags false m
      (fun a st h => by rw [hcall]; exact h) _ _ hwf)
  have hmem := QueryExecute_loop_issued_mem cfg k nested flags false m _ _ _ hl
  refine ⟨out, ho, ?_⟩
  rcases h with ⟨_, hs⟩ | ⟨_, hf⟩
  · obtain ⟨_, h1, _, h3, h4, h5, h6⟩ := hs
    rw [run_query_pure nested hpure] at h3 h4 h5 h6
    refine ⟨h1, h3, h4, ?_, h5⟩
    rw [h6]
    simp
  · obtain ⟨init, a, hia, _, hfail, _, _⟩ := hf
    exfalso
    apply hfail
    rw [run_query_pure nested hpure]
    simp only [NestedActions.call, Bool.false_eq_true, ↓reduceIte]
    apply hok
    have ha : a ∈ l.issued := by rw [← hi, hia]; simp
    rcases hmem a ha with h | h
    · simp at h
    · exact h

theorem water_lower_query_sets_recheck_witness :
    waterState._currentTrackSelectionFlags = 0 ∧
    ∃ out, WaterLowerAction.Query waterConfig sampleConstants lowerWaterActions
        ⟨0, 0, 200, 200⟩ 0 waterState = some out ∧
      out.result.Error = GA_ERROR.OK ∧
      out.state.store = waterState.store ∧
      out.state.gMapSizeMaxXY = waterState.gMapSizeMaxXY ∧
      out.state.audio = waterState.audio ∧
      out.state._currentTrackSelectionFlags = 0 ||| 8 :=
  ⟨rfl, water_lower_query_sets_recheck waterConfig sampleConstants lowerWaterActions
    ⟨0, 0, 200, 200⟩ 0 waterState waterStore_wellFormed
    (fun a st => waterSetHeightActions_query_pure _ a st)
    (fun a ha => by
      have hm : (a.x, a.y) ∈ [((32 : Int), (32 : Int)), (64, 32), (32, 64), (64, 64)] := ha
      simp only [List.mem_cons, List.mem_singleton, List.not_mem_nil, or_false,
        Prod.mk.injEq] at hm
      simp only [lowerWaterActions, waterSetHeightActions, Bool.false_eq_true, ↓reduceIte]
      rcases hm with ⟨h1, h2⟩ | ⟨h1, h2⟩ | ⟨h1, h2⟩ | ⟨h1, h2⟩ <;> rw [h1, h2] <;> rfl)⟩

/-- Claim C16: on a well-formed store, let every surface tile that the loops
of the action look at (the requested range and the clamped range) have the
same non-zero water height `h`, and let every nested `WaterSetHeightAction`
that lowers the water of a tile of the clamped range succeed and change the
water of its own tile only (in the states that satisfy an invariant `Inv` of
the nested actions).  Then `WaterLowerAction::Execute` returns, it has issued
exactly one nested action per tile of the clamped range that has a surface, in
loop order and each with raw target height `2 * h - 2`, its result has no
error, and the cost of the result is the sum of the costs of the nested
actions. -/
theorem water_lower_execute_uniform (cfg : Config) (k : ActionConstants)
    (nested : NestedActions) (range : MapRange) (flags : Nat) (st : GameState) (h : Nat)
    (Inv : GameState → Prop)
    (hwf : WellFormed cfg st.store) (hh : 0 < h)
    (huni : UniformWater cfg st.store h
      (rangeCoords range ++ rangeCoords (WaterLowerAction.validRange range st)))
    (hinv : Inv st)
    (hstep : nested.LowersWater cfg Inv h flags
      (rangeCoords (WaterLowerAction.validRange range st))) :
    ∃ out, WaterLowerAction.Execute cfg k nested range flags st = some out ∧
      out.issued = ((rangeCoords (WaterLowerAction.validRange range st)).filter
        (hasSurfaceAt cfg st.store)).map (fun xy => ⟨xy.1, xy.2, 2 * h - 2, flags⟩) ∧
      out.result.Error = GA_ERROR.OK ∧
      out.result.Cost = totalCost (nested.run true out.issued st).1 := by
  obtain ⟨out, h1, h2, h3, h4⟩ := Execute_uniform cfg k nested range flags st h Inv hwf hh huni
    hinv hstep
  exact ⟨out, h1, h2, h3, h4⟩

theorem water_lower_execute_uniform_witness :
    ∃ out, WaterLowerAction.Execute waterConfig sampleConstants lowerWaterActions
        ⟨0, 0, 200, 200⟩ 0 waterState = some out ∧
      out.issued = ((rangeCoords (WaterLowerAction.validRange ⟨0, 0, 200, 200⟩ waterState)).filter
        (hasSurfaceAt waterConfig waterState.store)).map (fun xy => ⟨xy.1, xy.2, 2 * 3 - 2, 0⟩) ∧
      out.result.Error = GA_ERROR.OK ∧
      out.result.Cost = totalCost (lowerWaterActions.run true out.issued waterState).1 :=
  water_lower_execute_uniform waterConfig sampleConstants lowerWaterActions
    ⟨0, 0, 200, 200⟩ 0 waterState 3 waterInvariant waterStore_wellFormed (by decide) (by decide)
    waterInvariant_initial
    (fun xy hxy st hinv =>
      lowerWaterActions_step 3 0 xy
        (by
          have hm : xy ∈ [((32 : Int), (32 : Int)), (64, 32), (32, 64), (64, 64)] := hxy
          simp only [List.mem_cons, List.mem_singleton, List.not_mem_nil, or_false] at hm
          rcases hm with rfl | rfl | rfl | rfl <;> decide)
        (by
          have hm : xy ∈ [((32 : Int), (32 : Int)), (64, 32), (32, 64), (64, 64)] := hxy
          simp only [List.mem_cons, List.mem_singleton, List.not_mem_nil, or_false] at hm
          rcases hm with rfl | rfl | rfl | rfl <;> decide)
        st hinv)

/-- The outcome of `Execute` with `lowerWaterActions` on the map with water:
four nested actions with raw height 4, total cost 40, the recheck flag and one
sound; afterwards the four tiles of the clamped range have water height 2 and
the tiles outside it still have water height 3. -/
theorem lowerWaterActions_example :
    ∃ out, WaterLowerAction.Execute waterConfig sampleConstants lowerWaterActions
        ⟨0, 0, 200, 200⟩ 0 waterState = some out ∧
      out.issued = [⟨32, 32, 4, 0⟩, ⟨64, 32, 4, 0⟩, ⟨32, 64, 4, 0⟩, ⟨64, 64, 4, 0⟩] ∧
      out.result.Error = GA_ERROR.OK ∧ out.result.Cost = 40 ∧
      out.state._currentTrackSelectionFlags = 8 ∧
      out.state.audio = [(7, 79, 79, 48)] ∧
      [waterHeightAt waterConfig out.state.store 1 1, waterHeightAt waterConfig out.state.store 2 1,
        waterHeightAt waterConfig out.state.store 1 2, waterHeightAt waterConfig out.state.store 2 2]
        = [some (some 2), some (some 2), some (some 2), some (some 2)] ∧
      [waterHeightAt waterConfig out.state.store 0 0, waterHeightAt waterConfig out.state.store 3 1,
        waterHeightAt waterConfig out.state.store 0 3]
        = [some (some 3), some (some 3), some (some 3)] :=
  ⟨_, rfl, by decide, by decide, by decide, by decide, by decide, by decide, by decide⟩

/-! ## Claims on `StaffSetCostumeAction` -/

/-- Whenever `Execute` has a result at all, the result carries no error:
`Execute` has no path that reports invalid parameters. -/
theorem staff_set_costume_execute_ok (k : ActionConstants)
    (UpdateCurrentActionSpriteType : Peep → Peep) (sprites sprites1 : SpriteList)
    (spriteIndex costume : Nat) (res : GameActionResult)
    (h : StaffSetCostumeAction.Execute k UpdateCurrentActionSpriteType sprites spriteIndex costume
      = some (res, sprites1)) :
    res.Error = GA_ERROR.OK := by
  unfold StaffSetCostumeAction.Execute at h
  split_ifs at h
  simp only [] at h
  split at h
  · exact absurd h (by simp)
  · simp only [Option.some.injEq, Prod.mk.injEq] at h
    rw [← h.1]
    rfl

/-- Claim C20, evaluation at the failing input: sprite 0 is a handyman, so
`Query` for sprite 0 and costume 0 returns `INVALID_PARAMETERS`; `Execute` for
the same arguments repeats none of the checks: it returns a result without
error, overwrites `sprite_type` (1 becomes 4) and clears the slow-walk flag of
`peep_flags` (2 becomes 0). -/
theorem staff_set_costume_execute_unchecked :
    (StaffSetCostumeAction.Query sampleConstants sampleSprites 0 0).Error
      = GA_ERROR.INVALID_PARAMETERS ∧
    ∃ res sprites,
      StaffSetCostumeAction.Execute sampleConstants id sampleSprites 0 0 = some (res, sprites) ∧
      res.Error = GA_ERROR.OK ∧
      (sampleSprites 0).sprite_type = 1 ∧ (sprites 0).sprite_type = 4 ∧
      (sampleSprites 0).peep_flags = 2 ∧ (sprites 0).peep_flags = 0 :=
  ⟨by decide, _, _, rfl, by decide, by decide, by decide, by decide, by decide⟩

/-- The slopes below 32 whose corner part is a single corner down. -/
theorem corner_down_slopes : ∀ n < 32,
    (n &&& 15 = 7 ∨ n &&& 15 = 11 ∨ n &&& 15 = 13 ∨ n &&& 15 = 14) →
    n = 7 ∨ n = 11 ∨ n = 13 ∨ n = 14 ∨ n = 23 ∨ n = 27 ∨ n = 29 ∨ n = 30 := by
  decide

/-- The slope formula on a corner-down surface, with or without the
double-height flag. -/
theorem height_of_surface_corner_down (e : TileElement) (xl yl : Int)
    (hxl : 0 ≤ xl ∧ xl ≤ 31) (hyl : 0 ≤ yl ∧ yl ≤ 31)
    (hs : e.GetSlope &&& 15 = TILE_ELEMENT_SLOPE_W_CORNER_DN
      ∨ e.GetSlope &&& 15 = TILE_ELEMENT_SLOPE_S_CORNER_DN
      ∨ e.GetSlope &&& 15 = TILE_ELEMENT_SLOPE_E_CORNER_DN
      ∨ e.GetSlope &&& 15 = TILE_ELEMENT_SLOPE_N_CORNER_DN) :
    tile_element_height_of_surface e xl yl
      = spec_corner_down_height e.base_height.val (e.GetSlope &&& 15)
          (decide (e.GetSlope &&& 16 ≠ 0)) xl yl := by
  have hb := e.base_height.isLt
  have hlt : e.GetSlope < 32 := by
    unfold TileElement.GetSlope
    exact lt_of_le_of_lt Nat.and_le_right (by decide)
  unfold tile_element_height_of_surface
  generalize e.GetSlope = n at hs hlt ⊢
  simp only [TILE_ELEMENT_SLOPE_W_CORNER_DN, TILE_ELEMENT_SLOPE_S_CORNER_DN,
    TILE_ELEMENT_SLOPE_E_CORNER_DN, TILE_ELEMENT_SLOPE_N_CORNER_DN] at hs
  rcases corner_down_slopes n hlt hs with h | h | h | h | h | h | h | h <;> subst h <;>
    simp only [TILE_ELEMENT_SLOPE_DOUBLE_HEIGHT, slope_all_corners_up_eq,
      show (7 : Nat) &&& 15 = 7 from rfl, show (11 : Nat) &&& 15 = 11 from rfl,
      show (13 : Nat) &&& 15 = 13 from rfl, show (14 : Nat) &&& 15 = 14 from rfl,
      show (23 : Nat) &&& 15 = 7 from rfl, show (27 : Nat) &&& 15 = 11 from rfl,
      show (29 : Nat) &&& 15 = 13 from rfl, show (30 : Nat) &&& 15 = 14 from rfl,
      show ((7 : Nat) &&& 16) >>> 4 % 256 = 0 from rfl,
      show ((11 : Nat) &&& 16) >>> 4 % 256 = 0 from rfl,
      show ((13 : Nat) &&& 16) >>> 4 % 256 = 0 from rfl,
      show ((14 : Nat) &&& 16) >>> 4 % 256 = 0 from rfl,
      show ((23 : Nat) &&& 16) >>> 4 % 256 = 1 from rfl,
      show ((27 : Nat) &&& 16) >>> 4 % 256 = 1 from rfl,
      show ((29 : Nat) &&& 16) >>> 4 % 256 = 1 from rfl,
      show ((30 : Nat) &&& 16) >>> 4 % 256 = 1 from rfl,
      show (7 : Nat) &&& 16 = 0 from rfl, show (11 : Nat) &&& 16 = 0 from rfl,
      show (13 : Nat) &&& 16 = 0 from rfl, show (14 : Nat) &&& 16 = 0 from rfl,
      show (23 : Nat) &&& 16 = 16 from rfl, show (27 : Nat) &&& 16 = 16 from rfl,
      show (29 : Nat) &&& 16 = 16 from rfl, show (30 : Nat) &&& 16 = 16 from rfl] <;>
    rw [one_corner_up_other _ _ _ _ (by decide), one_side_up_other _ _ _ _ (by decide)] <;>
    simp only [tile_element_height_one_corner_down, tile_element_height_valleys,
      spec_corner_down_height, spec_corner_down_quad, spec_corner_down_quad_extra,
      slope_w_corner_dn_eq, slope_s_corner_dn_eq, slope_e_corner_dn_eq, slope_n_corner_dn_eq,
      slope_w_e_valley_eq, slope_n_s_valley_eq,
      Nat.reduceEqDiff, or_true, true_or, or_false, false_or, ↓reduceIte, ne_eq,
      not_true_eq_false, not_false_eq_true, decide_True, decide_False, OfNat.ofNat_ne_zero,
      one_ne_zero, Bool.false_eq_true] <;>
    simp only [Nat.shiftLeft_eq, toInt16, toU16, toInt8, tdiv_two,
      show ((0 : Nat) >>> 4) % 256 = 0 from rfl, show ((16 : Nat) >>> 4) % 256 = 1 from rfl,
      not_true_eq_false, not_false_eq_true, ↓reduceIte, one_ne_zero, OfNat.ofNat_ne_zero] <;>
    push_cast <;>
    split_ifs <;> omega


/-- The slope formula on a valley: nothing is added on a W-E valley, and on a
N-S valley half of `xl - yl` is added where that is positive. -/
theorem height_of_surface_valley (e : TileElement) (xl yl : Int)
    (hxl : 0 ≤ xl ∧ xl ≤ 31) (hyl : 0 ≤ yl ∧ yl ≤ 31)
    (hs : e.GetSlope &&& 15 = TILE_ELEMENT_SLOPE_W_E_VALLEY
      ∨ e.GetSlope &&& 15 = TILE_ELEMENT_SLOPE_N_S_VALLEY) :
    tile_element_height_of_surface e xl yl
      = (e.base_height.val : Int) * 8
        + (if e.GetSlope &&& 15 = TILE_ELEMENT_SLOPE_N_S_VALLEY ∧ 0 < xl - yl then (xl - yl) / 2
           else 0) := by
  have hb := e.base_height.isLt
  have hlt : e.GetSlope < 32 := by
    unfold TileElement.GetSlope
    exact lt_of_le_of_lt Nat.and_le_right (by decide)
  unfold tile_element_height_of_surface
  generalize e.GetSlope = n at hs hlt ⊢
  simp only [slope_w_e_valley_eq, slope_n_s_valley_eq] at hs ⊢
  have hn : n = 10 ∨ n = 26 ∨ n = 5 ∨ n = 21 := by
    revert hs; revert n; decide
  rcases hn with h | h | h | h <;> subst h <;>
    simp only [TILE_ELEMENT_SLOPE_DOUBLE_HEIGHT, slope_all_corners_up_eq,
      show (10 : Nat) &&& 15 = 10 from rfl, show (26 : Nat) &&& 15 = 10 from rfl,
      show (5 : Nat) &&& 15 = 5 from rfl, show (21 : Nat) &&& 15 = 5 from rfl] <;>
    rw [one_corner_up_other _ _ _ _ (by decide), one_side_up_other _ _ _ _ (by decide)] <;>
    simp only [tile_element_height_one_corner_down, tile_element_height_valleys,
      slope_w_corner_dn_eq, slope_s_corner_dn_eq, slope_e_corner_dn_eq, slope_n_corner_dn_eq,
      slope_w_e_valley_eq, slope_n_s_valley_eq,
      Nat.reduceEqDiff, or_true, true_or, or_false, false_or, or_self, ↓reduceIte, ne_eq,
      not_true_eq_false, not_false_eq_true, OfNat.ofNat_ne_zero,
      one_ne_zero, true_and, false_and] <;>
    simp only [Nat.shiftLeft_eq, toInt16, toU16, toInt8, tdiv_two] <;>
    push_cast <;>
    split_ifs <;> omega

/-! ## Claims on corner-down slopes and valleys -/

/-- Claim C26: on a tile whose surface has a single corner down (W, S, E or
N), `tile_element_height` at the offsets `xl`, `yl` in 0..31 returns, without
the double-height flag, `base * 8 + 16 + (quad < 0 ? quad / 2 : 0)` with the
division truncating toward zero, and with the flag `base * 8 + quad_extra / 2 + 1`,
for `quad` and `quad_extra` as the specification lists them; with the flag the
value lies between `base * 8 + 1`, taken at the lowered corner, and
`base * 8 + 32`, taken at the opposite corner. -/
theorem tile_element_height_corner_down (cfg : Config) (s : Store) (tx ty xl yl e : Nat)
    (htx : tx < 256) (hty : ty < 256) (hxl : xl < 32) (hyl : yl < 32)
    (hsurf : map_get_surface_element_at cfg s tx ty = some (some e))
    (hslope : (s.gTileElements e).GetSlope &&& 15 = TILE_ELEMENT_SLOPE_W_CORNER_DN
      ∨ (s.gTileElements e).GetSlope &&& 15 = TILE_ELEMENT_SLOPE_S_CORNER_DN
      ∨ (s.gTileElements e).GetSlope &&& 15 = TILE_ELEMENT_SLOPE_E_CORNER_DN
      ∨ (s.gTileElements e).GetSlope &&& 15 = TILE_ELEMENT_SLOPE_N_CORNER_DN) :
    tile_element_height cfg s ((32 * tx + xl : Nat) : Int) ((32 * ty + yl : Nat) : Int)
        = some (spec_corner_down_height (s.gTileElements e).base_height.val
            ((s.gTileElements e).GetSlope &&& 15)
            (decide ((s.gTileElements e).GetSlope &&& 16 ≠ 0)) xl yl)
      ∧ ((s.gTileElements e).GetSlope &&& 16 ≠ 0 →
          ((s.gTileElements e).base_height.val : Int) * 8 + 1
              ≤ spec_corner_down_height (s.gTileElements e).base_height.val
                  ((s.gTileElements e).GetSlope &&& 15) true xl yl
            ∧ spec_corner_down_height (s.gTileElements e).base_height.val
                  ((s.gTileElements e).GetSlope &&& 15) true xl yl
                ≤ ((s.gTileElements e).base_height.val : Int) * 8 + 32
            ∧ heightAtOffset cfg s tx ty
                  (loweredCornerOffset ((s.gTileElements e).GetSlope &&& 15))
                = some (((s.gTileElements e).base_height.val : Int) * 8 + 1)
            ∧ heightAtOffset cfg s tx ty
                  (oppositeCornerOffset ((s.gTileElements e).GetSlope &&& 15))
                = some (((s.gTileElements e).base_height.val : Int) * 8 + 32)) := by
  have key : ∀ xl yl : Nat, xl < 32 → yl < 32 →
      tile_element_height cfg s ((32 * tx + xl : Nat) : Int) ((32 * ty + yl : Nat) : Int)
        = some (spec_corner_down_height (s.gTileElements e).base_height.val
            ((s.gTileElements e).GetSlope &&& 15)
            (decide ((s.gTileElements e).GetSlope &&& 16 ≠ 0)) xl yl) := by
    intro xl yl hxl hyl
    rw [tile_element_height_at_tile cfg s tx ty xl yl htx hty hxl hyl, hsurf]
    simp only []
    rw [height_of_surface_corner_down _ _ _ (by omega) (by omega) hslope]
  refine ⟨key xl yl hxl hyl, ?_⟩
  intro hd
  simp only [slope_w_corner_dn_eq, slope_s_corner_dn_eq, slope_e_corner_dn_eq,
    slope_n_corner_dn_eq] at hslope
  have hdec : decide ((s.gTileElements e).GetSlope &&& 16 ≠ 0) = true := by simpa using hd
  refine ⟨?_, ?_, ?_, ?_⟩
  · rcases hslope with h | h | h | h <;> rw [h] <;>
      simp [spec_corner_down_height, spec_corner_down_quad_extra, slope_w_corner_dn_eq,
        slope_s_corner_dn_eq, slope_e_corner_dn_eq, slope_n_corner_dn_eq] <;> omega
  · rcases hslope with h | h | h | h <;> rw [h] <;>
      simp [spec_corner_down_height, spec_corner_down_quad_extra, slope_w_corner_dn_eq,
        slope_s_corner_dn_eq, slope_e_corner_dn_eq, slope_n_corner_dn_eq] <;> omega
  · unfold heightAtOffset
    rcases hslope with h | h | h | h <;>
      rw [key _ _ (by rw [h]; decide) (by rw [h]; decide), hdec, h] <;>
      simp [spec_corner_down_height, spec_corner_down_quad_extra, loweredCornerOffset,
        slope_w_corner_dn_eq, slope_s_corner_dn_eq, slope_e_corner_dn_eq, slope_n_corner_dn_eq]
  · unfold heightAtOffset
    rcases hslope with h | h | h | h <;>
      rw [key _ _ (by rw [h]; decide) (by rw [h]; decide), hdec, h] <;>
      simp [spec_corner_down_height, spec_corner_down_quad_extra, loweredCornerOffset,
        oppositeCornerOffset,
        slope_w_corner_dn_eq, slope_s_corner_dn_eq, slope_e_corner_dn_eq, slope_n_corner_dn_eq] <;>
      omega

theorem tile_element_height_corner_down_witness :
    tile_element_height smallConfig sampleStore ((32 * 1 + 0 : Nat) : Int)
          ((32 * 0 + 31 : Nat) : Int)
        = some (spec_corner_down_height (sampleStore.gTileElements 6).base_height.val
            ((sampleStore.gTileElements 6).GetSlope &&& 15)
            (decide ((sampleStore.gTileElements 6).GetSlope &&& 16 ≠ 0)) (0 : Nat) (31 : Nat))
      ∧ spec_corner_down_height (sampleStore.gTileElements 6).base_height.val
            ((sampleStore.gTileElements 6).GetSlope &&& 15)
            (decide ((sampleStore.gTileElements 6).GetSlope &&& 16 ≠ 0)) (0 : Nat) (31 : Nat)
          = 10 * 8 + 1 :=
  ⟨(tile_element_height_corner_down smallConfig sampleStore 1 0 0 31 6 (by decide) (by decide)
    (by decide) (by decide) (by decide) (by decide)).1, by decide⟩

/-- Claim C27 for the code as it is: on a valley `tile_element_height` returns
`base * 8` at every offset of a W-E valley, also outside the deadzone
`xl + yl <= 32`, because `quad = 31 - xl - yl` is negative there; on a N-S
valley it returns `base * 8` inside the deadzone `xl <= yl` and adds
`(xl - yl) / 2` outside of it. -/
theorem tile_element_height_valley (cfg : Config) (s : Store) (tx ty xl yl e : Nat)
    (htx : tx < 256) (hty : ty < 256) (hxl : xl < 32) (hyl : yl < 32)
    (hsurf : map_get_surface_element_at cfg s tx ty = some (some e))
    (hslope : (s.gTileElements e).GetSlope &&& 15 = TILE_ELEMENT_SLOPE_W_E_VALLEY
      ∨ (s.gTileElements e).GetSlope &&& 15 = TILE_ELEMENT_SLOPE_N_S_VALLEY) :
    tile_element_height cfg s ((32 * tx + xl : Nat) : Int) ((32 * ty + yl : Nat) : Int)
      = some (((s.gTileElements e).base_height.val : Int) * 8
          + (if (s.gTileElements e).GetSlope &&& 15 = TILE_ELEMENT_SLOPE_N_S_VALLEY
                ∧ (0 : Int) < (xl : Int) - (yl : Int) then ((xl : Int) - (yl : Int)) / 2
             else 0)) := by
  rw [tile_element_height_at_tile cfg s tx ty xl yl htx hty hxl hyl, hsurf]
  simp only []
  rw [height_of_surface_valley _ _ _ (by omega) (by omega) hslope]

theorem tile_element_height_valley_witness :
    extremeOffsets.map (heightAtOffset smallConfig (slopedStore 14 10) 0 0)
        = [some 112, some 112, some 112, some 112]
      ∧ tile_element_height smallConfig (slopedStore 14 10) ((32 * 0 + 31 : Nat) : Int)
          ((32 * 0 + 31 : Nat) : Int)
        = some ((((slopedStore 14 10).gTileElements 0).base_height.val : Int) * 8
          + (if ((slopedStore 14 10).gTileElements 0).GetSlope &&& 15 = TILE_ELEMENT_SLOPE_N_S_VALLEY
                ∧ (0 : Int) < ((31 : Nat) : Int) - ((31 : Nat) : Int) then
                (((31 : Nat) : Int) - ((31 : Nat) : Int)) / 2
             else 0)) :=
  ⟨by decide, tile_element_height_valley smallConfig (slopedStore 14 10) 0 0 31 31 0 (by decide)
    (by decide) (by decide) (by decide) (by decide) (by decide)⟩

/-! ## Claims on the projection -/

/-- An `int16_t` value is unchanged by the conversion to `int16_t`. -/
theorem toInt16_of_range (v : Int) (h : -32768 ≤ v ∧ v < 32768) : toInt16 v = v := by
  unfold toInt16
  omega

/-- Claim C29: for every rotation `r` in 0..3 and every position with
`|x|, |y|, |z| < 2^13`, `coordinate_3d_to_2d` at rotation `r` equals
`coordinate_3d_to_2d` at rotation 0 of the pair that `rotate_map_coordinates`
makes of `x`, `y` at rotation `r`. -/
theorem coordinate_3d_to_2d_rotate (x y z r : Int)
    (hr : 0 ≤ r ∧ r ≤ 3)
    (hx : -8192 < x ∧ x < 8192) (hy : -8192 < y ∧ y < 8192) :
    coordinate_3d_to_2d x y z r
      = coordinate_3d_to_2d (rotate_map_coordinates x y r).1 (rotate_map_coordinates x y r).2 z 0 := by
  have hr4 : r = 0 ∨ r = 1 ∨ r = 2 ∨ r = 3 := by omega
  rcases hr4 with h | h | h | h <;> subst h
  · simp [rotate_map_coordinates, TILE_ELEMENT_DIRECTION_WEST]
  · simp only [rotate_map_coordinates, coordinate_3d_to_2d, TILE_ELEMENT_DIRECTION_WEST,
      TILE_ELEMENT_DIRECTION_NORTH, TILE_ELEMENT_DIRECTION_EAST, TILE_ELEMENT_DIRECTION_SOUTH]
    norm_num
    rw [toInt16_of_range (-x) (by omega)]
    constructor <;> ring_nf
  · simp only [rotate_map_coordinates, coordinate_3d_to_2d, TILE_ELEMENT_DIRECTION_WEST,
      TILE_ELEMENT_DIRECTION_NORTH, TILE_ELEMENT_DIRECTION_EAST, TILE_ELEMENT_DIRECTION_SOUTH]
    norm_num
    rw [toInt16_of_range (-x) (by omega), toInt16_of_range (-y) (by omega)]
    constructor <;> ring_nf
  · simp only [rotate_map_coordinates, coordinate_3d_to_2d, TILE_ELEMENT_DIRECTION_WEST,
      TILE_ELEMENT_DIRECTION_NORTH, TILE_ELEMENT_DIRECTION_EAST, TILE_ELEMENT_DIRECTION_SOUTH]
    norm_num
    rw [toInt16_of_range (-y) (by omega)]
    constructor <;> ring_nf

theorem coordinate_3d_to_2d_rotate_witness :
    coordinate_3d_to_2d 100 (-37) 5 3
        = coordinate_3d_to_2d (rotate_map_coordinates 100 (-37) 3).1
            (rotate_map_coordinates 100 (-37) 3).2 5 0
      ∧ coordinate_3d_to_2d 100 (-37) 5 3 = (63, 63) :=
  ⟨coordinate_3d_to_2d_rotate 100 (-37) 5 3 (by decide) (by decide) (by decide),
    by decide⟩


/-! ## Frame of the store mutators -/

/-- A tile whose pointer and run elements are the same in two stores has the
same run in both. -/
theorem tileRun_frame (cfg : Config) (s s1 : Store) (u : Nat) (hwf : WellFormed cfg s)
    (hu : u < MAX_TILE_TILE_ELEMENT_POINTERS cfg)
    (hptr : s1.gTileElementTilePointers u = s.gTileElementTilePointers u)
    (hmem : ∀ i, i < tileRunLength cfg s u →
      s1.gTileElements (s.gTileElementTilePointers u + i)
        = s.gTileElements (s.gTileElementTilePointers u + i)) :
    tileRun cfg s1 u = tileRun cfg s u := by
  obtain ⟨hrun, hb⟩ := hwf.run u hu
  have hL := hwf.2
  have hrun1 : IsRun s1.gTileElements (s1.gTileElementTilePointers u) (tileRunLength cfg s u) := by
    rw [hptr]
    exact hrun.transport hmem
  rw [(tileRun_of_isRun cfg s1 u _ hrun1 (by rw [hptr]; omega)).2.2, hwf.tileRun_eq u hu, hptr]
  congr 1
  unfold readRun
  apply List.map_congr_left
  intro i hi
  exact hmem i (List.mem_range.mp hi)

/-- The core of `tile_element_insert` leaves the run and the pointer of every
other tile as they were. -/
theorem insert_frame (cfg : Config) (s : Store) (z : Int) (flags : Nat) (t m : Nat)
    (c3 : InsertCursor) (hwf : WellFormed cfg s) (ht : t < MAX_TILE_TILE_ELEMENT_POINTERS cfg)
    (h : InsertCopyResult ⟨s.gTileElements, s.gTileElementTilePointers t,
      s.gNextFreeTileElement, flags⟩ z (tileRunLength cfg s t) m c3)
    (u : Nat) (hu : u < MAX_TILE_TILE_ELEMENT_POINTERS cfg) (hne : u ≠ t) :
    tileRun cfg
        { s with gTileElements := c3.mem
                 gTileElementTilePointers :=
                   Function.update s.gTileElementTilePointers t s.gNextFreeTileElement
                 gNextFreeTileElement := c3.newTileElement } u = tileRun cfg s u
      ∧ Function.update s.gTileElementTilePointers t s.gNextFreeTileElement u
          = s.gTileElementTilePointers u := by
  have hframe := h.2.2.2.2.2.2.2
  simp only [] at hframe
  refine ⟨tileRun_frame cfg s _ u hwf hu (Function.update_noteq hne _ _) ?_,
    Function.update_noteq hne _ _⟩
  intro i hi
  have h1 := (hwf.run u hu).2
  have h2 := hwf.disjoint u t hu ht hne
  exact hframe _ (by omega) (by omega)

/-- The function `tile_element_insert` returns on a well-formed store with
room for the relocated run, and leaves the run of every other tile as it was;
without a reorganisation it leaves the pointer of every other tile as it
was. -/
theorem insert_total_frame (cfg : Config) (b : Bool) (s : Store) (x y : Nat) (z : Int)
    (flags : Nat) (hwf : WellFormed cfg s)
    (hx : x < cfg.MAXIMUM_MAP_SIZE_TECHNICAL) (hy : y < cfg.MAXIMUM_MAP_SIZE_TECHNICAL)
    (hspace : s.gNextFreeTileElement + tileRunLength cfg s (tileIndex cfg x y) + 1
      ≤ arraySize cfg) :
    ∃ s1 r, tile_element_insert cfg b s x y z flags = some (s1, r)
      ∧ (s.gNextFreeTileElement + 1 ≤ cfg.MAX_TILE_ELEMENTS →
          s1.reorganiseCalls = s.reorganiseCalls)
      ∧ ∀ u, u < MAX_TILE_TILE_ELEMENT_POINTERS cfg → u ≠ tileIndex cfg x y →
          tileRun cfg s1 u = tileRun cfg s u
          ∧ (s1.reorganiseCalls = s.reorganiseCalls →
              s1.gTileElementTilePointers u = s.gTileElementTilePointers u) := by
  have ht : tileIndex cfg x y < MAX_TILE_TILE_ELEMENT_POINTERS cfg := by
    have := tile_index_lt cfg x y hx hy
    unfold tileIndex; omega
  have hidx : (y : Int) * (cfg.MAXIMUM_MAP_SIZE_TECHNICAL : Int) + (x : Int)
      = ((tileIndex cfg x y : Nat) : Int) := by unfold tileIndex; push_cast; rfl
  by_cases hroom : (s.gNextFreeTileElement : Int) + 1 ≤ (cfg.MAX_TILE_ELEMENTS : Int)
  · obtain ⟨hrun, hb⟩ := hwf.run _ ht
    obtain ⟨m, c3, hres, hprop⟩ := insert_store_spec cfg b s s x y z flags (tileIndex cfg x y)
      _ (check_free_of_room cfg b s 1 hroom) hidx ht hrun hb hspace
    refine ⟨_, _, hres, fun _ => rfl, fun u hu hne => ?_⟩
    have hf := insert_frame cfg s z flags _ m c3 hwf ht hprop u hu hne
    exact ⟨hf.1, fun _ => hf.2⟩
  · obtain ⟨s1, hre, hwf1, hcalls, hle, _, _, hruns⟩ := reorganise_wellFormed cfg b s hwf
    have hcheck := check_free_overflow cfg b s s1 1 (by omega) (by omega) hre
    by_cases h2 : (s1.gNextFreeTileElement : Int) + 1 > (cfg.MAX_TILE_ELEMENTS : Int)
    · rw [if_pos h2] at hcheck
      refine ⟨_, _, insert_null_of_check cfg b s _ x y z flags hcheck, fun h => ?_,
        fun u hu _ => ⟨(hruns u hu).1, fun h => ?_⟩⟩
      · omega
      · simp only [] at h; omega
    · rw [if_neg h2] at hcheck
      obtain ⟨hrun, hb⟩ := hwf1.run _ ht
      have hlen := (hruns _ ht).2
      have hspace1 : s1.gNextFreeTileElement + tileRunLength cfg s1 (tileIndex cfg x y) + 1
          ≤ arraySize cfg := by rw [hlen]; omega
      obtain ⟨m, c3, hres, hprop⟩ := insert_store_spec cfg b s s1 x y z flags
        (tileIndex cfg x y) _ hcheck hidx ht hrun hb hspace1
      refine ⟨_, _, hres, fun h => ?_, fun u hu hne => ?_⟩
      · omega
      · have hf := insert_frame cfg s1 z flags _ m c3 hwf1 ht hprop u hu hne
        refine ⟨hf.1.trans (hruns u hu).1, fun h => ?_⟩
        simp only [] at h; omega

/-- The function `tile_element_remove` on an element of a run of at least two
elements leaves the run and the pointer of every other tile as they were. -/
theorem remove_frame (cfg : Config) (s : Store) (t j : Nat) (hwf : WellFormed cfg s)
    (ht : t < MAX_TILE_TILE_ELEMENT_POINTERS cfg) (hk : 2 ≤ tileRunLength cfg s t)
    (hj : j < tileRunLength cfg s t) :
    ∃ s1, tile_element_remove cfg s (s.gTileElementTilePointers t + j) = some s1
      ∧ s1.reorganiseCalls = s.reorganiseCalls
      ∧ ∀ u, u < MAX_TILE_TILE_ELEMENT_POINTERS cfg → u ≠ t →
          tileRun cfg s1 u = tileRun cfg s u
          ∧ s1.gTileElementTilePointers u = s.gTileElementTilePointers u := by
  obtain ⟨hrun, hb⟩ := hwf.run t ht
  have hL := hwf.2
  obtain ⟨mem1, hres, _, _, hframe⟩ :=
    remove_spec cfg s (s.gTileElementTilePointers t) (tileRunLength cfg s t) j hrun hk hj
      (by omega)
  refine ⟨_, hres, rfl, fun u hu hne => ⟨tileRun_frame cfg s _ u hwf hu rfl ?_, rfl⟩⟩
  intro i hi
  have h1 := (hwf.run u hu)
  have h2 := hwf.disjoint u t hu ht hne
  exact hframe _ (by omega)


/-- Claim C30: on a well-formed store, `tile_element_insert` on a tile of the
map, when the array has room behind `gNextFreeTileElement` for the relocated
run and the new element, and `tile_element_remove` on an element of a run of
at least two elements both return and leave the run of every other tile with
the same sequence of elements; `tile_element_remove` never reorganises and
`tile_element_insert` does not when a slot is free below `MAX_TILE_ELEMENTS`,
and without a reorganisation the pointer-table entry of every other tile is
unchanged as well. -/
theorem store_mutators_frame (cfg : Config) (s : Store) (hwf : WellFormed cfg s) :
    (∀ (b : Bool) (x y : Nat) (z : Int) (flags : Nat),
      x < cfg.MAXIMUM_MAP_SIZE_TECHNICAL → y < cfg.MAXIMUM_MAP_SIZE_TECHNICAL →
      s.gNextFreeTileElement + tileRunLength cfg s (tileIndex cfg x y) + 1 ≤ arraySize cfg →
      ∃ s1 r, tile_element_insert cfg b s x y z flags = some (s1, r)
        ∧ (s.gNextFreeTileElement + 1 ≤ cfg.MAX_TILE_ELEMENTS →
            s1.reorganiseCalls = s.reorganiseCalls)
        ∧ ∀ u, u < MAX_TILE_TILE_ELEMENT_POINTERS cfg → u ≠ tileIndex cfg x y →
            tileRun cfg s1 u = tileRun cfg s u
            ∧ (s1.reorganiseCalls = s.reorganiseCalls →
                s1.gTileElementTilePointers u = s.gTileElementTilePointers u)) ∧
    (∀ (t j : Nat), t < MAX_TILE_TILE_ELEMENT_POINTERS cfg → 2 ≤ tileRunLength cfg s t →
      j < tileRunLength cfg s t →
      ∃ s1, tile_element_remove cfg s (s.gTileElementTilePointers t + j) = some s1
        ∧ s1.reorganiseCalls = s.reorganiseCalls
        ∧ ∀ u, u < MAX_TILE_TILE_ELEMENT_POINTERS cfg → u ≠ t →
            tileRun cfg s1 u = tileRun cfg s u
            ∧ s1.gTileElementTilePointers u = s.gTileElementTilePointers u) :=
  ⟨fun b x y z flags hx hy hspace => insert_total_frame cfg b s x y z flags hwf hx hy hspace,
    fun t j ht hk hj => remove_frame cfg s t j hwf ht hk hj⟩

theorem store_mutators_frame_witness :
    WellFormed smallConfig sampleStore ∧
    (∃ s1 r, tile_element_insert smallConfig true sampleStore 0 0 14 0 = some (s1, r)
      ∧ (sampleStore.gNextFreeTileElement + 1 ≤ smallConfig.MAX_TILE_ELEMENTS →
          s1.reorganiseCalls = sampleStore.reorganiseCalls)
      ∧ ∀ u, u < MAX_TILE_TILE_ELEMENT_POINTERS smallConfig → u ≠ tileIndex smallConfig 0 0 →
          tileRun smallConfig s1 u = tileRun smallConfig sampleStore u
          ∧ (s1.reorganiseCalls = sampleStore.reorganiseCalls →
              s1.gTileElementTilePointers u = sampleStore.gTileElementTilePointers u)) ∧
    (∃ s1, tile_element_remove smallConfig sampleStore
        (sampleStore.gTileElementTilePointers 1 + 1) = some s1
      ∧ s1.reorganiseCalls = sampleStore.reorganiseCalls
      ∧ ∀ u, u < MAX_TILE_TILE_ELEMENT_POINTERS smallConfig → u ≠ 1 →
          tileRun smallConfig s1 u = tileRun smallConfig sampleStore u
          ∧ s1.gTileElementTilePointers u = sampleStore.gTileElementTilePointers u) :=
  ⟨by decide,
    (store_mutators_frame smallConfig sampleStore (by decide)).1 true 0 0 14 0
      (by decide) (by decide) (by decide),
    (store_mutators_frame smallConfig sampleStore (by decide)).2 1 1
      (by decide) (by decide) (by decide)⟩

/-! ## Claims on wall elements -/

/-- Replacing bits of a byte: the bits of `N` are untouched when they are kept
by the mask `K` and clear in the value `v` that is or-ed in. -/
theorem byte_update_outside (a K v N : Nat) (hN : N < 256) (hK : N &&& K = N)
    (hv : v &&& N = 0) : ((a &&& K) ||| v) % 256 &&& N = a &&& N := by
  apply Nat.eq_of_testBit_eq
  intro i
  have h1 := congrArg (fun n => n.testBit i) hK
  have h2 := congrArg (fun n => n.testBit i) hv
  simp only [Nat.testBit_and, Nat.zero_testBit] at h1 h2
  rw [Nat.testBit_and, Nat.testBit_and, show (256 : Nat) = 2 ^ 8 from rfl,
    Nat.testBit_mod_two_pow, Nat.testBit_or, Nat.testBit_and]
  by_cases hi : N.testBit i = true
  · have hi8 : i < 8 := by
      by_contra hge
      have : N < 2 ^ i := lt_of_lt_of_le hN (by
        rw [show (256 : Nat) = 2 ^ 8 from rfl]
        exact Nat.pow_le_pow_right (by decide) (by omega))
      rw [Nat.testBit_lt_two_pow this] at hi
      exact absurd hi (by simp)
    rw [hi] at h1 h2
    simp only [Bool.true_and, Bool.and_true] at h1 h2
    simp [hi, h1, h2, hi8]
  · simp [hi]


set_option maxRecDepth 100000 in
/-- The values that the mutators or into a byte have no bit outside the
sub-field of the mutator. -/
theorem wall_values_inside (v : uint8_t) :
    (v.val <<< 6) % 256 &&& 63 = 0
      ∧ (v.val ≤ 31 → v.val &&& 224 = 0)
      ∧ ((v.val &&& 0x7) <<< 5) &&& 31 = 0
      ∧ ((v.val &&& 0x18) <<< 2) &&& 159 = 0
      ∧ ((v.val &&& 0xF) <<< 3) &&& 132 = 0 := by
  revert v
  decide

/-- Only the low eight bits of the value or-ed into a byte count. -/
theorem or_mod_256 (a v : Nat) : (a ||| v) % 256 = (a ||| v % 256) % 256 := by
  apply Nat.eq_of_testBit_eq
  intro i
  rw [show (256 : Nat) = 2 ^ 8 from rfl, Nat.testBit_mod_two_pow, Nat.testBit_mod_two_pow,
    Nat.testBit_or, Nat.testBit_or, Nat.testBit_mod_two_pow]
  by_cases h : i < 8 <;> simp [h]

/-- Every mutator of `WallElement` leaves the bits outside `touchedBits` as
they were. -/
theorem wall_mutator_frame (m : WallMutator) (e : TileElement) (h : m.Allowed) :
    (m.call e).outside m.touchedBits = e.outside m.touchedBits := by
  cases m with
  | SetSlope v =>
    have key := byte_update_outside e.type.val 4294967103 ((v.val <<< 6) % 256) 63 (by decide)
      (by decide) (wall_values_inside v).1
    simp only [WallMutator.call, WallMutator.touchedBits, WallMutator.ownBits,
      WallElement.SetSlope, TileElement.outside, zeroElement, toU8, bitNot32,
      TILE_ELEMENT_QUADRANT_MASK, Fin.isValue, Fin.coe_ofNat_eq_mod, Nat.reduceMod,
      Nat.reduceSub]
    rw [or_mod_256, key]
  | SetPrimaryColour v =>
    have key := byte_update_outside e.pad_04_2.val 4294967264 v.val 224 (by decide)
      (by decide) ((wall_values_inside v).2.1 h)
    simp only [WallMutator.call, WallMutator.touchedBits, WallMutator.ownBits,
      WallElement.SetPrimaryColour, TileElement.outside, zeroElement, toU8, bitNot32,
      TILE_ELEMENT_COLOUR_MASK, TileElement.colour_1, Fin.isValue, Fin.coe_ofNat_eq_mod,
      Nat.reduceMod, Nat.reduceSub]
    rw [key]
  | SetSecondaryColour v =>
    have key1 := byte_update_outside e.pad_04_2.val 31 ((v.val &&& 0x7) <<< 5) 31 (by decide)
      (by decide) (wall_values_inside v).2.2.1
    have key2 := byte_update_outside e.flags.val 4294967199 ((v.val &&& 0x18) <<< 2) 159
      (by decide) (by decide) (wall_values_inside v).2.2.2.1
    simp only [WallMutator.call, WallMutator.touchedBits, WallMutator.ownBits,
      WallElement.SetSecondaryColour, TileElement.outside, zeroElement, toU8, bitNot32,
      TILE_ELEMENT_COLOUR_MASK, TileElement.colour_1, Fin.isValue, Fin.coe_ofNat_eq_mod,
      Nat.reduceMod, Nat.reduceSub]
    rw [key1, key2]
  | SetTertiaryColour v =>
    have key := byte_update_outside e.pad_04_1.val 4294967264 v.val 224 (by decide)
      (by decide) ((wall_values_inside v).2.1 h)
    simp only [WallMutator.call, WallMutator.touchedBits, WallMutator.ownBits,
      WallElement.SetTertiaryColour, TileElement.outside, zeroElement, toU8, bitNot32,
      TILE_ELEMENT_COLOUR_MASK, TileElement.colour_3, Fin.isValue, Fin.coe_ofNat_eq_mod,
      Nat.reduceMod, Nat.reduceSub]
    rw [key]
  | SetAnimationFrame v =>
    have key := byte_update_outside e.pad_04_3.val 132 ((v.val &&& 0xF) <<< 3) 132 (by decide)
      (by decide) (wall_values_inside v).2.2.2.2
    simp only [WallMutator.call, WallMutator.touchedBits,
      WallElement.SetAnimationFrame, TileElement.outside, zeroElement, toU8,
      WALL_ANIMATION_FLAG_ALL_FLAGS, WALL_ANIMATION_FLAG_ACROSS_TRACK,
      WALL_ANIMATION_FLAG_DIRECTION_BACKWARD, TileElement.animation, Fin.isValue,
      Fin.coe_ofNat_eq_mod, Nat.reduceMod, Nat.reduceSub, Nat.reduceShiftLeft, Nat.reduceOr]
    rw [key]
  | SetEntryIndex v =>
    simp only [WallMutator.call, WallMutator.touchedBits, WallMutator.ownBits,
      WallElement.SetEntryIndex, TileElement.outside, zeroElement, Fin.isValue,
      Fin.coe_ofNat_eq_mod, Nat.reduceMod, Nat.reduceSub, Nat.and_zero]
  | SetAcrossTrack v =>
    have key0 := byte_update_outside e.pad_04_3.val 4294967291 0 251 (by decide)
      (by decide) (by decide)
    have key1 := byte_update_outside e.pad_04_3.val 4294967291 4 251 (by decide)
      (by decide) (by decide)
    rw [Nat.or_zero] at key0
    cases v <;>
      simp only [WallMutator.call, WallMutator.touchedBits, WallMutator.ownBits,
        WallElement.SetAcrossTrack, TileElement.outside, zeroElement, toU8, bitNot32,
        WALL_ANIMATION_FLAG_ACROSS_TRACK, TileElement.animation, Fin.isValue,
        Fin.coe_ofNat_eq_mod, Nat.reduceMod, Nat.reduceSub, Nat.reduceShiftLeft,
        Bool.false_eq_true, ↓reduceIte] <;>
      first | rw [key0] | rw [key1]
  | SetAnimationIsBackwards v =>
    have key0 := byte_update_outside e.pad_04_3.val 4294967167 0 127 (by decide)
      (by decide) (by decide)
    have key1 := byte_update_outside e.pad_04_3.val 4294967167 128 127 (by decide)
      (by decide) (by decide)
    rw [Nat.or_zero] at key0
    cases v <;>
      simp only [WallMutator.call, WallMutator.touchedBits, WallMutator.ownBits,
        WallElement.SetAnimationIsBackwards, TileElement.outside, zeroElement, toU8, bitNot32,
        WALL_ANIMATION_FLAG_DIRECTION_BACKWARD, TileElement.animation, Fin.isValue,
        Fin.coe_ofNat_eq_mod, Nat.reduceMod, Nat.reduceSub, Nat.reduceShiftLeft,
        Bool.false_eq_true, ↓reduceIte] <;>
      first | rw [key0] | rw [key1]


/-- Replacing bits of a byte: the bits of `N` are clear afterwards when the
mask `K` keeps none of them and the value `v` has none of them. -/
theorem byte_update_cleared (a K v N : Nat) (hK : K &&& N = 0) (hv : v &&& N = 0) :
    ((a &&& K) ||| v) % 256 &&& N = 0 := by
  apply Nat.eq_of_testBit_eq
  intro i
  have h1 := congrArg (fun n => n.testBit i) hK
  have h2 := congrArg (fun n => n.testBit i) hv
  simp only [Nat.testBit_and, Nat.zero_testBit] at h1 h2
  rw [Nat.testBit_and, show (256 : Nat) = 2 ^ 8 from rfl,
    Nat.testBit_mod_two_pow, Nat.testBit_or, Nat.testBit_and, Nat.zero_testBit]
  by_cases hi : N.testBit i = true
  · rw [hi] at h1 h2
    simp only [Bool.and_true] at h1 h2
    simp [h1, h2]
  · simp [hi]

set_option maxRecDepth 100000 in
/-- The frame number or-ed into `animation` has neither of the two low bits. -/
theorem wall_frame_value_low (v : uint8_t) : ((v.val &&& 0xF) <<< 3) &&& 3 = 0 := by
  revert v
  decide

/-- Claim C21 as stated fails for `SetAnimationFrame`: on a wall element whose
`animation` byte is `0x93`, `SetAnimationFrame(0)` leaves `0x80`, so bits 0 and
1, which are outside the frame number (bits 3 to 6), have changed. -/
theorem wall_mutators_own_bits_counterexample :
    (WallMutator.SetAnimationFrame 0).Allowed
      ∧ sampleWall.animation.val = 0x93
      ∧ ((WallMutator.SetAnimationFrame 0).call sampleWall).animation.val = 0x80
      ∧ ¬ (WallMutator.SetAnimationFrame 0).ChangesOnlyOwnBits sampleWall := by
  decide

/-- Claim C21, amended: each mutator of `WallElement` (`SetSlope`,
`SetPrimaryColour` and `SetTertiaryColour` with a colour of at most 31,
`SetSecondaryColour`, `SetAnimationFrame`, `SetAcrossTrack`,
`SetAnimationIsBackwards`, `SetEntryIndex`) leaves every bit of the eight
bytes outside its own sub-field as it was, except that `SetAnimationFrame`
also clears bits 0 and 1 of `animation`. -/
theorem wall_mutators_own_bits (m : WallMutator) (e : TileElement) (h : m.Allowed) :
    (m.call e).outside m.touchedBits = e.outside m.touchedBits
      ∧ ((∀ f, m ≠ WallMutator.SetAnimationFrame f) →
          m.touchedBits = m.ownBits ∧ m.ChangesOnlyOwnBits e)
      ∧ (∀ f, m = WallMutator.SetAnimationFrame f →
          m.touchedBits = { zeroElement with pad_04_3 := 0x7B }
          ∧ (m.call e).animation.val &&& 3 = 0) := by
  have hframe := wall_mutator_frame m e h
  refine ⟨hframe, ?_, ?_⟩
  · intro hne
    have ht : m.touchedBits = m.ownBits := by
      cases m <;> first | rfl | exact absurd rfl (hne _)
    refine ⟨ht, ?_⟩
    unfold WallMutator.ChangesOnlyOwnBits
    rw [← ht]
    exact hframe
  · intro f hf
    subst hf
    refine ⟨rfl, ?_⟩
    exact byte_update_cleared e.pad_04_3.val 132 ((f.val &&& 0xF) <<< 3) 3 (by decide)
      (wall_frame_value_low f)

theorem wall_mutators_own_bits_witness :
    (WallMutator.SetPrimaryColour 27).Allowed
      ∧ ((WallMutator.SetPrimaryColour 27).call sampleWall).outside
            (WallMutator.SetPrimaryColour 27).touchedBits
          = sampleWall.outside (WallMutator.SetPrimaryColour 27).touchedBits
      ∧ ((∀ f, WallMutator.SetPrimaryColour 27 ≠ WallMutator.SetAnimationFrame f) →
          (WallMutator.SetPrimaryColour 27).touchedBits = (WallMutator.SetPrimaryColour 27).ownBits
            ∧ (WallMutator.SetPrimaryColour 27).ChangesOnlyOwnBits sampleWall)
      ∧ (∀ f, WallMutator.SetPrimaryColour 27 = WallMutator.SetAnimationFrame f →
          (WallMutator.SetPrimaryColour 27).touchedBits = { zeroElement with pad_04_3 := 0x7B }
          ∧ ((WallMutator.SetPrimaryColour 27).call sampleWall).animation.val &&& 3 = 0) :=
  ⟨by decide, wall_mutators_own_bits (WallMutator.SetPrimaryColour 27) sampleWall (by decide)⟩


/-! ## Claims on the typed views -/

/-- The template `as` returns the address of the element exactly when the type
tags agree. -/
theorem as_eq_some_iff (GetType : TileElement → uint8_t) (TClass : Nat) (e : TileElement)
    (this : Nat) :
    (RCT12TileElement.as GetType TClass e this ≠ none ↔ (GetType e).val = TClass)
      ∧ (RCT12TileElement.as GetType TClass e this ≠ none →
          RCT12TileElement.as GetType TClass e this = some this) := by
  unfold RCT12TileElement.as
  by_cases h : (GetType e).val = TClass <;> simp [h]

/-- Claim C22: for every element and each of the eight typed views, the view
returns a non-null pointer (the address of the element) if and only if
`GetType()` of the element equals the type tag of the view; at most one of the
eight views is non-null, and none is when `GetType()` is one of the tags
`Corrupt`, `EightCarsCorrupt14`, `EightCarsCorrupt15`. -/
theorem rct12_views_spec (GetType : TileElement → uint8_t) (e : TileElement) (this : Nat) :
    (RCT12TileElement.views GetType e this).map (fun r => decide (r ≠ none))
        = RCT12TileElement.viewTags.map (fun tag => decide ((GetType e).val = tag))
      ∧ (RCT12TileElement.views GetType e this).map (fun r => decide (r = none ∨ r = some this))
        = List.replicate 8 true
      ∧ ((RCT12TileElement.views GetType e this).filter (fun r => decide (r ≠ none))).length ≤ 1
      ∧ (((GetType e).val = RCT12TileElementType.Corrupt
            ∨ (GetType e).val = RCT12TileElementType.EightCarsCorrupt14
            ∨ (GetType e).val = RCT12TileElementType.EightCarsCorrupt15) →
          RCT12TileElement.views GetType e this = List.replicate 8 none) := by
  simp only [RCT12TileElement.views, RCT12TileElement.viewTags, RCT12TileElement.AsSurface,
    RCT12TileElement.AsPath, RCT12TileElement.AsTrack, RCT12TileElement.AsSmallScenery,
    RCT12TileElement.AsEntrance, RCT12TileElement.AsWall, RCT12TileElement.AsLargeScenery,
    RCT12TileElement.AsBanner, RCT12TileElement.as, RCT12TileElementType.Surface,
    RCT12TileElementType.Path, RCT12TileElementType.Track, RCT12TileElementType.SmallScenery,
    RCT12TileElementType.Entrance, RCT12TileElementType.Wall, RCT12TileElementType.LargeScenery,
    RCT12TileElementType.Banner, RCT12TileElementType.Corrupt,
    RCT12TileElementType.EightCarsCorrupt14, RCT12TileElementType.EightCarsCorrupt15,
    Nat.reduceShiftLeft]
  generalize (GetType e).val = g
  have hcases : g = 0 ∨ g = 4 ∨ g = 8 ∨ g = 12 ∨ g = 16 ∨ g = 20 ∨ g = 24 ∨ g = 28
      ∨ (g ≠ 0 ∧ g ≠ 4 ∧ g ≠ 8 ∧ g ≠ 12 ∧ g ≠ 16 ∧ g ≠ 20 ∧ g ≠ 24 ∧ g ≠ 28) := by omega
  rcases hcases with h | h | h | h | h | h | h | h | ⟨h0, h1, h2, h3, h4, h5, h6, h7⟩
  · subst h; simp
  · subst h; simp
  · subst h; simp
  · subst h; simp
  · subst h; simp
  · subst h; simp
  · subst h; simp
  · subst h; simp
  · simp [h0, h1, h2, h3, h4, h5, h6, h7]

/-! ## Claims on the scenery saved with a track design -/

/-- The saved elements after a push below the cap. -/
theorem push_tile_element_spec (st : TrackDesignSave) (p : Nat)
    (h : st._trackSavedTileElementsCount < TRACK_MAX_SAVED_TILE_ELEMENTS) :
    (track_design_save_push_tile_element st p)._trackSavedTileElementsCount
        = st._trackSavedTileElementsCount + 1
      ∧ (track_design_save_push_tile_element st p).savedElements = st.savedElements ++ [some p]
      ∧ (track_design_save_push_tile_element st p)._trackSavedTileElementsDescCount
        = st._trackSavedTileElementsDescCount
      ∧ (track_design_save_push_tile_element st p)._trackSavedTileElementsDesc
        = st._trackSavedTileElementsDesc := by
  unfold track_design_save_push_tile_element
  rw [if_pos h]
  refine ⟨rfl, ?_, rfl, rfl⟩
  simp only [TrackDesignSave.savedElements, List.range_succ, List.map_append, List.map_cons,
    List.map_nil, Function.update_same]
  congr 1
  apply List.map_congr_left
  intro i hi
  rw [Function.update_noteq (by have := List.mem_range.mp hi; omega)]

/-- The saved descriptions after a push below the cap. -/
theorem push_tile_element_desc_spec (st : TrackDesignSave) (entry : rct_object_entry)
    (x y z : Int) (flags c1 c2 : uint8_t)
    (h : st._trackSavedTileElementsDescCount < TRACK_MAX_SAVED_TILE_ELEMENTS) :
    ∃ st1, track_design_save_push_tile_element_desc st entry x y z flags c1 c2 = some st1
      ∧ st1._trackSavedTileElementsDescCount = st._trackSavedTileElementsDescCount + 1
      ∧ st1.savedDescs = st.savedDescs
          ++ [⟨entry, toInt8 (Int.tdiv x 32), toInt8 (Int.tdiv y 32), toInt8 z, flags, c1, c2⟩]
      ∧ st1._trackSavedTileElementsCount = st._trackSavedTileElementsCount
      ∧ st1._trackSavedTileElements = st._trackSavedTileElements := by
  unfold track_design_save_push_tile_element_desc
  rw [if_pos h]
  refine ⟨_, rfl, rfl, ?_, rfl, rfl⟩
  simp only [TrackDesignSave.savedDescs, List.range_succ, List.map_append, List.map_cons,
    List.map_nil, Function.update_same]
  congr 1
  apply List.map_congr_left
  intro i hi
  rw [Function.update_noteq (by have := List.mem_range.mp hi; omega)]

/-- At the cap nothing can be added. -/
theorem can_add_at_cap (fn : SceneryFunctions) (st : TrackDesignSave) (e : TileElement)
    (h : st._trackSavedTileElementsCount = TRACK_MAX_SAVED_TILE_ELEMENTS) :
    track_design_save_can_add_tile_element fn st e = false := by
  unfold track_design_save_can_add_tile_element
  simp only [h, TRACK_MAX_SAVED_TILE_ELEMENTS]
  split_ifs with h1 h2 <;> first | rfl | omega

/-- Below the cap a single-tile element can be added. -/
theorem can_add_single (fn : SceneryFunctions) (st : TrackDesignSave) (e : TileElement)
    (h : st._trackSavedTileElementsCount < TRACK_MAX_SAVED_TILE_ELEMENTS)
    (he : e.GetType = TILE_ELEMENT_TYPE_PATH ∨ e.GetType = TILE_ELEMENT_TYPE_SMALL_SCENERY
      ∨ e.GetType = TILE_ELEMENT_TYPE_WALL) :
    track_design_save_can_add_tile_element fn st e = true := by
  unfold track_design_save_can_add_tile_element tile_element_get_total_element_count
  rw [if_pos he]
  unfold TRACK_MAX_SAVED_TILE_ELEMENTS at h ⊢
  simp only [one_ne_zero, ↓reduceIte]
  rw [if_neg (by omega)]


/-- One call of `track_design_save_add_tile_element` for a single-tile element
when the two counts agree: below the cap it returns true and appends the
element and one description, at the cap it returns false and changes
nothing. -/
theorem add_tile_element_single (fn : SceneryFunctions) (mem : Nat → TileElement)
    (st : TrackDesignSave) (c : SceneryCall) (hc : c.SingleTile mem)
    (heq : st._trackSavedTileElementsDescCount = st._trackSavedTileElementsCount)
    (hle : st._trackSavedTileElementsCount ≤ TRACK_MAX_SAVED_TILE_ELEMENTS) :
    ∃ st1, track_design_save_add_tile_element fn mem st c.interactionType c.x c.y c.tileElement
        = some (st1, decide (st._trackSavedTileElementsCount < TRACK_MAX_SAVED_TILE_ELEMENTS))
      ∧ (st._trackSavedTileElementsCount = TRACK_MAX_SAVED_TILE_ELEMENTS → st1 = st)
      ∧ (st._trackSavedTileElementsCount < TRACK_MAX_SAVED_TILE_ELEMENTS →
          st1._trackSavedTileElementsCount = st._trackSavedTileElementsCount + 1
          ∧ st1._trackSavedTileElementsDescCount = st._trackSavedTileElementsDescCount + 1
          ∧ st1.savedElements = st.savedElements ++ [some c.tileElement]
          ∧ ∃ d, st1.savedDescs = st.savedDescs ++ [d]) := by
  by_cases hcap : st._trackSavedTileElementsCount = TRACK_MAX_SAVED_TILE_ELEMENTS
  · refine ⟨st, ?_, fun _ => rfl, fun h => absurd hcap (by omega)⟩
    unfold track_design_save_add_tile_element
    rw [can_add_at_cap fn st _ hcap]
    simp [hcap]
  · have hlt : st._trackSavedTileElementsCount < TRACK_MAX_SAVED_TILE_ELEMENTS := by omega
    have hcan : track_design_save_can_add_tile_element fn st (mem c.tileElement) = true := by
      apply can_add_single fn st _ hlt
      rcases hc with h | h | h
      · exact Or.inr (Or.inl h.2)
      · exact Or.inr (Or.inr h.2)
      · exact Or.inl h.2
    obtain ⟨hp1, hp2, hp3, hp4⟩ := push_tile_element_spec st c.tileElement hlt
    have hpush : ∀ entry z flags c1 c2, ∃ st1,
        track_design_save_push_tile_element_desc
            (track_design_save_push_tile_element st c.tileElement) entry c.x c.y z flags c1 c2
          = some st1
        ∧ st1._trackSavedTileElementsCount = st._trackSavedTileElementsCount + 1
        ∧ st1._trackSavedTileElementsDescCount = st._trackSavedTileElementsDescCount + 1
        ∧ st1.savedElements = st.savedElements ++ [some c.tileElement]
        ∧ ∃ d, st1.savedDescs = st.savedDescs ++ [d] := by
      intro entry z flags c1 c2
      obtain ⟨st1, h1, h2, h3, h4, h5⟩ := push_tile_element_desc_spec
        (track_design_save_push_tile_element st c.tileElement) entry c.x c.y z flags c1 c2
        (by rw [hp3, heq]; exact hlt)
      refine ⟨st1, h1, by rw [h4, hp1], by rw [h2, hp3], ?_, ?_⟩
      · unfold TrackDesignSave.savedElements at hp2 ⊢
        rw [h4, h5]; exact hp2
      · have hd : (track_design_save_push_tile_element st c.tileElement).savedDescs
            = st.savedDescs := by
          unfold TrackDesignSave.savedDescs
          rw [hp3, hp4]
        rw [hd] at h3
        exact ⟨_, h3⟩
    unfold track_design_save_add_tile_element
    rw [hcan]
    simp only [Bool.not_true, Bool.false_eq_true, ↓reduceIte, not_true_eq_false, hlt,
      decide_True]
    rcases hc with h | h | h
    · obtain ⟨st1, h1, h2⟩ := hpush
        (fn.object_entry_get_entry OBJECT_TYPE_SMALL_SCENERY
          (fn.SmallScenery_GetEntryIndex (mem c.tileElement)).val)
        (mem c.tileElement).base_height.val (sceneryFlags fn (mem c.tileElement))
        (fn.SmallScenery_GetPrimaryColour (mem c.tileElement))
        (fn.SmallScenery_GetSecondaryColour (mem c.tileElement))
      refine ⟨st1, ?_, fun h => absurd h hcap, fun _ => h2⟩
      rw [if_pos h.1]
      unfold track_design_save_add_scenery
      simp only [h.2, ↓reduceIte]
      rw [h1]; rfl
    · obtain ⟨st1, h1, h2⟩ := hpush
        (fn.object_entry_get_entry OBJECT_TYPE_WALLS (WallElement.GetEntryIndex (mem c.tileElement)))
        (mem c.tileElement).base_height.val (wallFlags (mem c.tileElement))
        (toU8 (WallElement.GetPrimaryColour (mem c.tileElement)))
        (toU8 (WallElement.GetSecondaryColour (mem c.tileElement)))
      refine ⟨st1, ?_, fun h => absurd h hcap, fun _ => h2⟩
      rw [h.1]
      simp only [VIEWPORT_INTERACTION_ITEM_WALL, VIEWPORT_INTERACTION_ITEM_SCENERY,
        VIEWPORT_INTERACTION_ITEM_LARGE_SCENERY, Int.reduceEq, ↓reduceIte]
      unfold track_design_save_add_wall
      simp only [h.2, ↓reduceIte]
      rw [h1]; rfl
    · obtain ⟨st1, h1, h2⟩ := hpush
        (fn.object_entry_get_entry OBJECT_TYPE_PATHS
          (fn.Path_GetPathEntryIndex (mem c.tileElement)).val)
        (mem c.tileElement).base_height.val (footpathFlags fn (mem c.tileElement)) 0 0
      refine ⟨st1, ?_, fun h => absurd h hcap, fun _ => h2⟩
      rw [h.1]
      simp only [VIEWPORT_INTERACTION_ITEM_WALL, VIEWPORT_INTERACTION_ITEM_SCENERY,
        VIEWPORT_INTERACTION_ITEM_LARGE_SCENERY, VIEWPORT_INTERACTION_ITEM_FOOTPATH,
        Int.reduceEq, ↓reduceIte]
      unfold track_design_save_add_footpath
      simp only [h.2, ↓reduceIte]
      rw [h1]; rfl


/-- The saved lists after a sequence of calls of
`track_design_save_add_tile_element` for single-tile elements, started in a
state in which the two counts agree. -/
theorem add_all_spec (fn : SceneryFunctions) (mem : Nat → TileElement) :
    ∀ (calls : List SceneryCall) (st : TrackDesignSave),
      (∀ c ∈ calls, c.SingleTile mem) →
      st._trackSavedTileElementsDescCount = st._trackSavedTileElementsCount →
      st._trackSavedTileElementsCount ≤ TRACK_MAX_SAVED_TILE_ELEMENTS →
      ∃ st1 results, track_design_save_add_all fn mem st calls = some (st1, results)
        ∧ results = (List.range calls.length).map
            (fun i => decide (st._trackSavedTileElementsCount + i < TRACK_MAX_SAVED_TILE_ELEMENTS))
        ∧ st1._trackSavedTileElementsCount
            = min (st._trackSavedTileElementsCount + calls.length) TRACK_MAX_SAVED_TILE_ELEMENTS
        ∧ st1._trackSavedTileElementsDescCount = st1._trackSavedTileElementsCount
        ∧ st1.savedElements = st.savedElements
            ++ (calls.take (TRACK_MAX_SAVED_TILE_ELEMENTS - st._trackSavedTileElementsCount)).map
                (fun c => some c.tileElement) := by
  intro calls
  induction calls with
  | nil =>
    intro st _ heq hle
    refine ⟨st, [], rfl, rfl, ?_, heq, ?_⟩
    · simp only [List.length_nil, Nat.add_zero]; omega
    · simp
  | cons c cs ih =>
    intro st hall heq hle
    obtain ⟨st1, hadd, hcap, hbelow⟩ :=
      add_tile_element_single fn mem st c (hall c (List.mem_cons_self _ _)) heq hle
    have hall2 : ∀ c ∈ cs, c.SingleTile mem := fun d hd => hall d (List.mem_cons_of_mem _ hd)
    by_cases hlt : st._trackSavedTileElementsCount < TRACK_MAX_SAVED_TILE_ELEMENTS
    · obtain ⟨h1, h2, h3, _⟩ := hbelow hlt
      obtain ⟨st2, results, hrun, hres, hcount, hdesc, helems⟩ :=
        ih st1 hall2 (by rw [h1, h2, heq]) (by rw [h1]; omega)
      refine ⟨st2, decide (st._trackSavedTileElementsCount
        < TRACK_MAX_SAVED_TILE_ELEMENTS) :: results, ?_, ?_, ?_, hdesc, ?_⟩
      · unfold track_design_save_add_all
        rw [hadd]
        simp only [Option.some_bind, hrun, Option.map_some']
      · rw [hres, List.length_cons, List.range_succ_eq_map, List.map_cons, List.map_map]
        simp only [Nat.add_zero, h1]
        congr 1
        apply List.map_congr_left
        intro i _
        simp only [Function.comp, Nat.succ_eq_add_one]
        congr 1
        apply propext
        constructor <;> intro h <;> omega
      · rw [hcount, h1, List.length_cons]
        congr 1; omega
      · rw [helems, h3, h1, List.append_assoc]
        congr 1
        have : TRACK_MAX_SAVED_TILE_ELEMENTS - st._trackSavedTileElementsCount
            = (TRACK_MAX_SAVED_TILE_ELEMENTS - (st._trackSavedTileElementsCount + 1)) + 1 := by
          omega
        rw [this, List.take_succ_cons, List.map_cons]
        rfl
    · have hcapeq : st._trackSavedTileElementsCount = TRACK_MAX_SAVED_TILE_ELEMENTS := by omega
      have hst1 := hcap hcapeq
      subst hst1
      obtain ⟨st2, results, hrun, hres, hcount, hdesc, helems⟩ := ih st1 hall2 heq hle
      refine ⟨st2, decide (st1._trackSavedTileElementsCount
        < TRACK_MAX_SAVED_TILE_ELEMENTS) :: results, ?_, ?_, ?_, hdesc, ?_⟩
      · unfold track_design_save_add_all
        rw [hadd]
        simp only [Option.some_bind, hrun, Option.map_some']
      · rw [hres, List.length_cons, List.range_succ_eq_map, List.map_cons, List.map_map]
        simp only [Nat.add_zero]
        congr 1
        apply List.map_congr_left
        intro i _
        simp only [Function.comp, Nat.succ_eq_add_one]
        congr 1
        apply propext
        constructor <;> intro h <;> omega
      · rw [hcount, List.length_cons]
        omega
      · rw [helems, hcapeq, Nat.sub_self, List.take_zero, List.take_zero]

/-- Claim C23: started from `track_design_save_init`, a sequence of calls of
`track_design_save_add_tile_element` for single-tile elements (small scenery,
wall or footpath, with the matching interaction type) returns; the call
number `i` (from 0) returns true exactly when `i < 1500`; the saved elements
are the elements of the first 1500 calls, the two counts agree and are at most
1500; and in a state with 1500 saved elements every further call returns false
and leaves the statics as they are. -/
theorem track_design_save_add_cap (fn : SceneryFunctions) (mem : Nat → TileElement)
    (calls : List SceneryCall) (h : ∀ c ∈ calls, c.SingleTile mem) :
    ∃ st results,
      track_design_save_add_all fn mem track_design_save_init calls = some (st, results)
        ∧ results = (List.range calls.length).map
            (fun i => decide (i < TRACK_MAX_SAVED_TILE_ELEMENTS))
        ∧ st._trackSavedTileElementsCount = min calls.length TRACK_MAX_SAVED_TILE_ELEMENTS
        ∧ st._trackSavedTileElementsDescCount = st._trackSavedTileElementsCount
        ∧ st._trackSavedTileElementsCount ≤ TRACK_MAX_SAVED_TILE_ELEMENTS
        ∧ st.savedElements
            = (calls.take TRACK_MAX_SAVED_TILE_ELEMENTS).map (fun c => some c.tileElement)
        ∧ (st._trackSavedTileElementsCount = TRACK_MAX_SAVED_TILE_ELEMENTS →
            ∀ c : SceneryCall,
              track_design_save_add_tile_element fn mem st c.interactionType c.x c.y c.tileElement
                = some (st, false)) := by
  obtain ⟨st, results, hrun, hres, hcount, hdesc, helems⟩ :=
    add_all_spec fn mem calls track_design_save_init h rfl (Nat.zero_le _)
  simp only [track_design_save_init, Nat.zero_add, Nat.sub_zero] at hres hcount helems
  refine ⟨st, results, hrun, hres, hcount, hdesc, ?_, ?_, ?_⟩
  · rw [hcount]; exact Nat.min_le_right _ _
  · rw [helems]
    simp [TrackDesignSave.savedElements]
  · intro hcap c
    unfold track_design_save_add_tile_element
    rw [can_add_at_cap fn st _ hcap]
    simp

theorem track_design_save_add_cap_witness :
    ∃ st results,
      track_design_save_add_all sampleSceneryFunctions sceneryMem track_design_save_init
          [⟨VIEWPORT_INTERACTION_ITEM_WALL, 64, 32, 0⟩,
           ⟨VIEWPORT_INTERACTION_ITEM_SCENERY, 64, 64, 1⟩,
           ⟨VIEWPORT_INTERACTION_ITEM_FOOTPATH, 96, 64, 2⟩] = some (st, results)
        ∧ results = (List.range [(⟨VIEWPORT_INTERACTION_ITEM_WALL, 64, 32, 0⟩ : SceneryCall),
              ⟨VIEWPORT_INTERACTION_ITEM_SCENERY, 64, 64, 1⟩,
              ⟨VIEWPORT_INTERACTION_ITEM_FOOTPATH, 96, 64, 2⟩].length).map
            (fun i => decide (i < TRACK_MAX_SAVED_TILE_ELEMENTS))
        ∧ st._trackSavedTileElementsCount
            = min [(⟨VIEWPORT_INTERACTION_ITEM_WALL, 64, 32, 0⟩ : SceneryCall),
              ⟨VIEWPORT_INTERACTION_ITEM_SCENERY, 64, 64, 1⟩,
              ⟨VIEWPORT_INTERACTION_ITEM_FOOTPATH, 96, 64, 2⟩].length
              TRACK_MAX_SAVED_TILE_ELEMENTS
        ∧ st._trackSavedTileElementsDescCount = st._trackSavedTileElementsCount
        ∧ st._trackSavedTileElementsCount ≤ TRACK_MAX_SAVED_TILE_ELEMENTS
        ∧ st.savedElements
            = ([(⟨VIEWPORT_INTERACTION_ITEM_WALL, 64, 32, 0⟩ : SceneryCall),
              ⟨VIEWPORT_INTERACTION_ITEM_SCENERY, 64, 64, 1⟩,
              ⟨VIEWPORT_INTERACTION_ITEM_FOOTPATH, 96, 64, 2⟩].take
                TRACK_MAX_SAVED_TILE_ELEMENTS).map (fun c => some c.tileElement)
        ∧ (st._trackSavedTileElementsCount = TRACK_MAX_SAVED_TILE_ELEMENTS →
            ∀ c : SceneryCall,
              track_design_save_add_tile_element sampleSceneryFunctions sceneryMem st
                c.interactionType c.x c.y c.tileElement = some (st, false)) :=
  track_design_save_add_cap sampleSceneryFunctions sceneryMem
    [⟨VIEWPORT_INTERACTION_ITEM_WALL, 64, 32, 0⟩, ⟨VIEWPORT_INTERACTION_ITEM_SCENERY, 64, 64, 1⟩,
     ⟨VIEWPORT_INTERACTION_ITEM_FOOTPATH, 96, 64, 2⟩] (by decide)


/-! ## Claims on the export of the saved scenery -/

set_option maxRecDepth 100000 in
/-- The rotation passed to `rotate_map_coordinates` undoes the direction. -/
theorem backwardRotation_eq (d : uint8_t) :
    backwardRotation d = (4 - (d.val : Int) % 4) % 4 := by
  revert d
  decide

/-- On values whose negations fit `int16_t`, `rotate_map_coordinates` at a
rotation 0 to 3 is the rotation on integers. -/
theorem rotate_map_coordinates_eq_spec (x y r : Int) (hr : 0 ≤ r ∧ r ≤ 3)
    (hx : -32767 ≤ x ∧ x ≤ 32767) (hy : -32767 ≤ y ∧ y ≤ 32767) :
    rotate_map_coordinates x y r = spec_rotate x y r := by
  have hr4 : r = 0 ∨ r = 1 ∨ r = 2 ∨ r = 3 := by omega
  rcases hr4 with h | h | h | h <;> subst h <;>
    simp [rotate_map_coordinates, spec_rotate, TILE_ELEMENT_DIRECTION_WEST,
      TILE_ELEMENT_DIRECTION_NORTH, TILE_ELEMENT_DIRECTION_EAST, TILE_ELEMENT_DIRECTION_SOUTH,
      toInt16_of_range (-x) (by omega), toInt16_of_range (-y) (by omega)]

/-- The rotation on integers keeps the bounds of the coordinates. -/
theorem spec_rotate_bounds (x y r : Int) (B : Int) (hx : -B ≤ x ∧ x ≤ B)
    (hy : -B ≤ y ∧ y ≤ B) :
    (-B ≤ (spec_rotate x y r).1 ∧ (spec_rotate x y r).1 ≤ B)
      ∧ (-B ≤ (spec_rotate x y r).2 ∧ (spec_rotate x y r).2 ≤ B) := by
  unfold spec_rotate
  split_ifs <;> simp only [] <;> omega

/-- Division by 32 rounding towards zero keeps a value within its bounds. -/
theorem tdiv_32_bounds (v : Int) (hv : -32767 ≤ v ∧ v ≤ 32767) :
    -32768 ≤ Int.tdiv v 32 ∧ Int.tdiv v 32 < 32768 := by
  by_cases h : 0 ≤ v
  · rw [Int.tdiv_eq_ediv h (by decide)]
    omega
  · have h2 : Int.tdiv (-v) 32 = (-v) / 32 := Int.tdiv_eq_ediv (by omega) (by decide)
    have h3 : Int.tdiv v 32 = -((-v) / 32) := by rw [← h2, Int.neg_tdiv, neg_neg]
    rw [h3]
    omega

/-- The values that `track_design_save_copy_scenery_to_td6` tests for one
element are its position in the words of the specification, when the origin is
such that the differences fit `int16_t` and the stored height byte is not
negative (a base height below 128). -/
theorem td6_scenery_position_eq (origin : LocationXYZ16) (d : uint8_t)
    (scenery : rct_td6_scenery_element)
    (hox : -24607 ≤ origin.x ∧ origin.x ≤ 32767) (hoy : -24607 ≤ origin.y ∧ origin.y ≤ 32767)
    (hz : 0 ≤ scenery.z ∧ scenery.z ≤ 127) :
    ((td6_scenery_xy origin d scenery).1, (td6_scenery_xy origin d scenery).2,
        td6_scenery_z origin scenery) = spec_td6_position origin d scenery := by
  have hzm : scenery.z % 256 = scenery.z := Int.emod_eq_of_lt hz.1 (by omega)
  have hx1 := Int.emod_nonneg scenery.x (show (256 : Int) ≠ 0 by decide)
  have hx2 := Int.emod_lt_of_pos scenery.x (show (0 : Int) < 256 by decide)
  have hy1 := Int.emod_nonneg scenery.y (show (256 : Int) ≠ 0 by decide)
  have hy2 := Int.emod_lt_of_pos scenery.y (show (0 : Int) < 256 by decide)
  have hX : -32767 ≤ scenery.x % 256 * 32 - origin.x ∧ scenery.x % 256 * 32 - origin.x ≤ 32767 := by
    omega
  have hY : -32767 ≤ scenery.y % 256 * 32 - origin.y ∧ scenery.y % 256 * 32 - origin.y ≤ 32767 := by
    omega
  have hr : 0 ≤ (4 - (d.val : Int) % 4) % 4 ∧ (4 - (d.val : Int) % 4) % 4 ≤ 3 := by omega
  unfold td6_scenery_xy td6_scenery_z spec_td6_position
  simp only []
  rw [hzm, toInt16_of_range (scenery.x % 256 * 32 - origin.x) (by omega),
    toInt16_of_range (scenery.y % 256 * 32 - origin.y) (by omega), backwardRotation_eq,
    rotate_map_coordinates_eq_spec _ _ _ hr hX hY]
  obtain ⟨hb1, hb2⟩ := spec_rotate_bounds (scenery.x % 256 * 32 - origin.x)
    (scenery.y % 256 * 32 - origin.y) ((4 - (d.val : Int) % 4) % 4) 32767 hX hY
  rw [toInt16_of_range _ (tdiv_32_bounds _ hb1), toInt16_of_range _ (tdiv_32_bounds _ hb2)]


/-- The switch on the object type is defined for a direction below 32. -/
theorem td6_rotate_flags_total (fn : SceneryFunctions) (d : uint8_t)
    (scenery : rct_td6_scenery_element) (hd : d.val < 32) :
    ∃ flags, td6_rotate_flags fn d scenery = some flags := by
  unfold td6_rotate_flags
  simp only [hd, ↓reduceIte]
  split_ifs <;> exact ⟨_, rfl⟩

/-- A value within -126..127 is unchanged by the conversion to `int8_t`. -/
theorem toInt8_of_range (v : Int) (h : -128 ≤ v ∧ v ≤ 127) : toInt8 v = v := by
  unfold toInt8
  omega

/-- On elements whose stored height byte is not negative (base heights below
128) the element loop of `track_design_save_copy_scenery_to_td6` returns; it
returns false exactly when the position of some element lies outside
-126..127; and at the return of true it has stored the position of every
element. -/
theorem copy_scenery_loop_spec (fn : SceneryFunctions) (origin : LocationXYZ16) (d : uint8_t)
    (hd : d.val < 32)
    (hox : -24607 ≤ origin.x ∧ origin.x ≤ 32767) (hoy : -24607 ≤ origin.y ∧ origin.y ≤ 32767) :
    ∀ descs : List rct_td6_scenery_element, (∀ e ∈ descs, 0 ≤ e.z ∧ e.z ≤ 127) →
      ∃ r, track_design_save_copy_scenery_loop fn origin d descs = some r
        ∧ (r = none ↔ ∃ e ∈ descs, OutsideTd6Range (spec_td6_position origin d e))
        ∧ ∀ l, r = some l →
            l.map (fun e => (e.x, e.y, e.z)) = descs.map (spec_td6_position origin d)
            ∧ l.map (fun e => e.scenery_object) = descs.map (fun e => e.scenery_object) := by
  intro descs
  induction descs with
  | nil =>
    intro _
    refine ⟨some [], rfl, ?_, ?_⟩
    · simp
    · intro l hl
      cases hl
      exact ⟨rfl, rfl⟩
  | cons scenery rest ih =>
    intro hlow
    obtain ⟨r, hr, hiff, hsome⟩ := ih (fun e he => hlow e (List.mem_cons_of_mem _ he))
    obtain ⟨flags, hflags⟩ := td6_rotate_flags_total fn d scenery hd
    have hpos := td6_scenery_position_eq origin d scenery hox hoy
      (hlow scenery (List.mem_cons_self _ _))
    unfold track_design_save_copy_scenery_loop
    rw [hflags]
    simp only []
    by_cases hxy : (td6_scenery_xy origin d scenery).1 > 127
        ∨ (td6_scenery_xy origin d scenery).2 > 127
        ∨ (td6_scenery_xy origin d scenery).1 < -126
        ∨ (td6_scenery_xy origin d scenery).2 < -126
    · rw [if_pos hxy]
      refine ⟨none, rfl, ?_, fun l hl => by cases hl⟩
      simp only [true_iff]
      refine ⟨scenery, List.mem_cons_self _ _, ?_⟩
      rw [← hpos]
      unfold OutsideTd6Range
      simp only []
      omega
    · rw [if_neg hxy]
      by_cases hz : td6_scenery_z origin scenery > 127 ∨ td6_scenery_z origin scenery < -126
      · rw [if_pos hz]
        refine ⟨none, rfl, ?_, fun l hl => by cases hl⟩
        simp only [true_iff]
        refine ⟨scenery, List.mem_cons_self _ _, ?_⟩
        rw [← hpos]
        unfold OutsideTd6Range
        simp only []
        omega
      · rw [if_neg hz, hr]
        have hin : ¬ OutsideTd6Range (spec_td6_position origin d scenery) := by
          rw [← hpos]
          unfold OutsideTd6Range
          simp only []
          omega
        refine ⟨_, rfl, ?_, ?_⟩
        · constructor
          · intro h
            cases r with
            | none =>
              obtain ⟨e, he, hout⟩ := hiff.mp rfl
              exact ⟨e, List.mem_cons_of_mem _ he, hout⟩
            | some l => simp at h
          · rintro ⟨e, he, hout⟩
            rcases List.mem_cons.mp he with h | h
            · subst h; exact absurd hout hin
            · have := hiff.mpr ⟨e, h, hout⟩
              subst this
              rfl
        · intro l hl
          cases r with
          | none => simp at hl
          | some l0 =>
            simp only [Option.map_some', Option.some.injEq] at hl
            subst hl
            obtain ⟨h1, h2⟩ := hsome l0 rfl
            simp only [List.map_cons, h1, h2, and_true]
            congr 1
            rw [← hpos, toInt8_of_range _ (by omega), toInt8_of_range _ (by omega),
              toInt8_of_range _ (by omega)]

/-- For saved elements with base heights below 128, a track direction below 32
and an origin for which the differences fit `int16_t`,
`track_design_save_copy_scenery_to_td6` returns, and it returns false if and
only if, for some saved scenery element, the re-based and rotated tile x or y,
or the re-based z, lies outside -126..127; at the return of true the stored x,
y and z of every element are these values, all within -126..127. -/
theorem copy_scenery_range_low_heights (fn : SceneryFunctions) (st : TrackDesignSave)
    (origin : LocationXYZ16) (d : uint8_t) (hd : d.val < 32)
    (hox : -24607 ≤ origin.x ∧ origin.x ≤ 32767) (hoy : -24607 ≤ origin.y ∧ origin.y ≤ 32767)
    (hlow : ∀ e ∈ st.savedDescs, 0 ≤ e.z ∧ e.z ≤ 127) :
    ∃ r, track_design_save_copy_scenery_to_td6 fn st origin d = some r
      ∧ (r = none ↔ ∃ e ∈ st.savedDescs, OutsideTd6Range (spec_td6_position origin d e))
      ∧ ∀ l, r = some l →
          l.map (fun e => (e.x, e.y, e.z)) = st.savedDescs.map (spec_td6_position origin d)
          ∧ ∀ e ∈ l, (-126 ≤ e.x ∧ e.x ≤ 127) ∧ (-126 ≤ e.y ∧ e.y ≤ 127)
              ∧ (-126 ≤ e.z ∧ e.z ≤ 127) := by
  obtain ⟨r, hr, hiff, hsome⟩ := copy_scenery_loop_spec fn origin d hd hox hoy st.savedDescs hlow
  refine ⟨r, hr, hiff, fun l hl => ⟨(hsome l hl).1, ?_⟩⟩
  intro e he
  have hmap := (hsome l hl).1
  have hmem : (e.x, e.y, e.z) ∈ l.map (fun e => (e.x, e.y, e.z)) :=
    List.mem_map_of_mem (fun e => (e.x, e.y, e.z)) he
  rw [hmap] at hmem
  obtain ⟨e0, he0, hpos⟩ := List.mem_map.mp hmem
  have hnot : ¬ ∃ e ∈ st.savedDescs, OutsideTd6Range (spec_td6_position origin d e) := by
    intro h
    have := hiff.mpr h
    rw [this] at hl
    cases hl
  have hin : ¬ OutsideTd6Range (spec_td6_position origin d e0) := fun h => hnot ⟨e0, he0, h⟩
  rw [hpos] at hin
  unfold OutsideTd6Range at hin
  simp only [] at hin
  omega

/-- Claim C25, the divergence: a path of base height 200 on the tile (3, 2) is
saved with the height byte -56, and `track_design_save_copy_scenery_to_td6`
reads that byte back as signed, where it reads x and y as unsigned.  With the
origin (64, 32, 80) the re-based height is 190, outside -126..127, and the
export returns true with z = -66 stored; with the origin (64, 32, 1600) the
re-based position (-1, 1, 0) lies inside -126..127 and the export returns
false. -/
theorem track_design_save_copy_scenery_height_wraps :
    (sceneryMem 2).base_height.val = 200
      ∧ highSavedScenery.savedDescs.map (fun e => (e.x, e.y, e.z)) = [(3, 2, -56)]
      ∧ highSavedScenery.savedDescs.map (spec_td6_position ⟨64, 32, 80⟩ 1) = [(-1, 1, 190)]
      ∧ (∃ e ∈ highSavedScenery.savedDescs, OutsideTd6Range (spec_td6_position ⟨64, 32, 80⟩ 1 e))
      ∧ (track_design_save_copy_scenery_to_td6 sampleSceneryFunctions highSavedScenery
          ⟨64, 32, 80⟩ 1).map (fun r => r.map (fun l => l.map (fun e => (e.x, e.y, e.z))))
          = some (some [(-1, 1, -66)])
      ∧ highSavedScenery.savedDescs.map (spec_td6_position ⟨64, 32, 1600⟩ 1) = [(-1, 1, 0)]
      ∧ (¬ ∃ e ∈ highSavedScenery.savedDescs,
          OutsideTd6Range (spec_td6_position ⟨64, 32, 1600⟩ 1 e))
      ∧ track_design_save_copy_scenery_to_td6 sampleSceneryFunctions highSavedScenery
          ⟨64, 32, 1600⟩ 1 = some none := by
  refine ⟨by decide, by decide, by decide, by decide, by decide, by decide, by decide, by decide⟩


/-- The search for the last hit below `n + 1` looks at `n` last. -/
theorem lastIndexWhere_succ (n : Nat) (hit : Nat → Bool) :
    lastIndexWhere (n + 1) hit = if hit n then some n else lastIndexWhere n hit := by
  unfold lastIndexWhere
  rw [List.range_succ, List.foldl_append]
  rfl

/-- An element that is not among the saved ones is not found by the search. -/
theorem contains_eq_any (st : TrackDesignSave) (p : Nat) :
    track_design_save_contains_tile_element st p = st.savedElements.any (fun q => q == some p) := by
  unfold track_design_save_contains_tile_element TrackDesignSave.savedElements
  generalize List.range st._trackSavedTileElementsCount = l
  induction l with
  | nil => rfl
  | cons a l ih => simp only [List.any_cons, List.map_cons, ih]

/-- Pushing an element and a description and popping them again restores the
two lists, when the values stored in the `int8_t` fields of the description
are the values that are looked for. -/
theorem push_pop_restores (fn : SceneryFunctions) (st : TrackDesignSave) (p : Nat)
    (entry : rct_object_entry) (x y z : Int) (flags c1 c2 : uint8_t)
    (hnot : track_design_save_contains_tile_element st p = false)
    (hcount : st._trackSavedTileElementsCount < TRACK_MAX_SAVED_TILE_ELEMENTS)
    (hdesc : st._trackSavedTileElementsDescCount < TRACK_MAX_SAVED_TILE_ELEMENTS)
    (hx : toInt8 (Int.tdiv x 32) = Int.tdiv x 32) (hy : toInt8 (Int.tdiv y 32) = Int.tdiv y 32)
    (hz : toInt8 z = z) (hcmp : fn.object_entry_compare entry entry = true) :
    ∃ st1, track_design_save_push_tile_element_desc (track_design_save_push_tile_element st p)
          entry x y z flags c1 c2 = some st1
      ∧ track_design_save_contains_tile_element st1 p = true
      ∧ track_design_save_contains_tile_element
          (track_design_save_pop_tile_element_desc fn (track_design_save_pop_tile_element st1 p)
            entry x y z flags) p = false
      ∧ (track_design_save_pop_tile_element_desc fn (track_design_save_pop_tile_element st1 p)
            entry x y z flags).savedElements = st.savedElements
      ∧ (track_design_save_pop_tile_element_desc fn (track_design_save_pop_tile_element st1 p)
            entry x y z flags).savedDescs = st.savedDescs := by
  have hsaved : ∀ st2 : TrackDesignSave, st2.savedElements = st.savedElements →
      track_design_save_contains_tile_element st2 p = false := by
    intro st2 h
    rw [contains_eq_any, h, ← contains_eq_any]
    exact hnot
  unfold track_design_save_push_tile_element
  rw [if_pos hcount]
  unfold track_design_save_push_tile_element_desc
  simp only []
  rw [if_pos hdesc]
  refine ⟨_, rfl, ?_, ?_⟩
  · unfold track_design_save_contains_tile_element
    simp only [List.range_succ, List.any_append, List.any_cons, List.any_nil, Function.update_same,
      beq_self_eq_true, Bool.or_false, Bool.or_true]
  · have hpop : track_design_save_pop_tile_element
        { st with
          _trackSavedTileElements :=
            Function.update st._trackSavedTileElements st._trackSavedTileElementsCount (some p)
          _trackSavedTileElementsCount := st._trackSavedTileElementsCount + 1
          _trackSavedTileElementsDesc :=
            Function.update st._trackSavedTileElementsDesc st._trackSavedTileElementsDescCount
              ⟨entry, toInt8 (Int.tdiv x 32), toInt8 (Int.tdiv y 32), toInt8 z, flags, c1, c2⟩
          _trackSavedTileElementsDescCount := st._trackSavedTileElementsDescCount + 1 } p
        = { st with
          _trackSavedTileElements :=
            Function.update (memmoveDown
              (Function.update st._trackSavedTileElements st._trackSavedTileElementsCount (some p))
              st._trackSavedTileElementsCount (st._trackSavedTileElementsCount + 1))
              st._trackSavedTileElementsCount none
          _trackSavedTileElementsCount := st._trackSavedTileElementsCount
          _trackSavedTileElementsDesc :=
            Function.update st._trackSavedTileElementsDesc st._trackSavedTileElementsDescCount
              ⟨entry, toInt8 (Int.tdiv x 32), toInt8 (Int.tdiv y 32), toInt8 z, flags, c1, c2⟩
          _trackSavedTileElementsDescCount := st._trackSavedTileElementsDescCount + 1 } := by
      unfold track_design_save_pop_tile_element
      simp only [lastIndexWhere_succ, Function.update_same, beq_self_eq_true, ↓reduceIte,
        Nat.add_sub_cancel]
    rw [hpop]
    have hpopd : track_design_save_pop_tile_element_desc fn
        { st with
          _trackSavedTileElements :=
            Function.update (memmoveDown
              (Function.update st._trackSavedTileElements st._trackSavedTileElementsCount (some p))
              st._trackSavedTileElementsCount (st._trackSavedTileElementsCount + 1))
              st._trackSavedTileElementsCount none
          _trackSavedTileElementsCount := st._trackSavedTileElementsCount
          _trackSavedTileElementsDesc :=
            Function.update st._trackSavedTileElementsDesc st._trackSavedTileElementsDescCount
              ⟨entry, toInt8 (Int.tdiv x 32), toInt8 (Int.tdiv y 32), toInt8 z, flags, c1, c2⟩
          _trackSavedTileElementsDescCount := st._trackSavedTileElementsDescCount + 1 }
          entry x y z flags
        = { st with
          _trackSavedTileElements :=
            Function.update (memmoveDown
              (Function.update st._trackSavedTileElements st._trackSavedTileElementsCount (some p))
              st._trackSavedTileElementsCount (st._trackSavedTileElementsCount + 1))
              st._trackSavedTileElementsCount none
          _trackSavedTileElementsCount := st._trackSavedTileElementsCount
          _trackSavedTileElementsDesc :=
            memmoveDown (Function.update st._trackSavedTileElementsDesc
                st._trackSavedTileElementsDescCount
                ⟨entry, toInt8 (Int.tdiv x 32), toInt8 (Int.tdiv y 32), toInt8 z, flags, c1, c2⟩)
              st._trackSavedTileElementsDescCount (st._trackSavedTileElementsDescCount + 1)
          _trackSavedTileElementsDescCount := st._trackSavedTileElementsDescCount } := by
      unfold track_design_save_pop_tile_element_desc
      simp only [lastIndexWhere_succ, Function.update_same, hx, hy, hz, hcmp, beq_self_eq_true,
        Bool.and_self, ↓reduceIte, Nat.add_sub_cancel]
    rw [hpopd]
    have helems : TrackDesignSave.savedElements
        { st with
          _trackSavedTileElements :=
            Function.update (memmoveDown
              (Function.update st._trackSavedTileElements st._trackSavedTileElementsCount (some p))
              st._trackSavedTileElementsCount (st._trackSavedTileElementsCount + 1))
              st._trackSavedTileElementsCount none
          _trackSavedTileElementsCount := st._trackSavedTileElementsCount
          _trackSavedTileElementsDesc :=
            memmoveDown (Function.update st._trackSavedTileElementsDesc
                st._trackSavedTileElementsDescCount
                ⟨entry, toInt8 (Int.tdiv x 32), toInt8 (Int.tdiv y 32), toInt8 z, flags, c1, c2⟩)
              st._trackSavedTileElementsDescCount (st._trackSavedTileElementsDescCount + 1)
          _trackSavedTileElementsDescCount := st._trackSavedTileElementsDescCount }
        = st.savedElements := by
      unfold TrackDesignSave.savedElements
      apply List.map_congr_left
      intro i hi
      have hi2 := List.mem_range.mp hi
      simp only [] at hi2 ⊢
      rw [Function.update_noteq (by omega)]
      unfold memmoveDown
      rw [if_neg (by omega), Function.update_noteq (by omega)]
    refine ⟨hsaved _ helems, helems, ?_⟩
    unfold TrackDesignSave.savedDescs
    apply List.map_congr_left
    intro i hi
    have hi2 := List.mem_range.mp hi
    simp only [] at hi2 ⊢
    unfold memmoveDown
    rw [if_neg (by omega), Function.update_noteq (by omega)]


/-- The low eight bits of an or do not depend on the higher bits of its left
operand. -/
theorem or_mod_256_left (a v : Nat) : (a % 256 ||| v) % 256 = (a ||| v) % 256 := by
  apply Nat.eq_of_testBit_eq
  intro i
  rw [show (256 : Nat) = 2 ^ 8 from rfl, Nat.testBit_mod_two_pow, Nat.testBit_mod_two_pow,
    Nat.testBit_or, Nat.testBit_or, Nat.testBit_mod_two_pow]
  by_cases h : i < 8 <;> simp [h]

/-- Two values or-ed into a third can be exchanged. -/
theorem or_right_comm3 (a b c : Nat) : a ||| b ||| c = a ||| c ||| b := by
  apply Nat.eq_of_testBit_eq
  intro i
  simp only [Nat.testBit_or, Bool.or_assoc, Bool.or_comm (b.testBit i)]

/-- The functions `track_design_save_add_footpath` and
`track_design_save_remove_footpath` compute the same flags. -/
theorem footpathFlagsRemove_eq (fn : SceneryFunctions) (e : TileElement) :
    footpathFlagsRemove fn e = footpathFlags fn e := by
  unfold footpathFlagsRemove footpathFlags
  cases fn.Path_IsSloped e <;> cases fn.Path_IsQueue e <;>
    simp only [Bool.false_eq_true, ↓reduceIte, toU8, Fin.mk.injEq, or_mod_256_left,
      Nat.reduceShiftLeft] <;>
    first
      | rfl
      | rw [or_right_comm3 _ 16]

/-- Selection is a toggle on tiles and heights below 128: for a single-tile
element that is not selected and fits under the cap, on a tile whose
coordinates `x / 32`, `y / 32` fit `int8_t` and with a base height below 128,
selecting and deselecting restores the two saved lists; the element is
contained in between and not afterwards. -/
theorem select_toggle_in_range (fn : SceneryFunctions) (mem : Nat → TileElement)
    (st : TrackDesignSave) (c : SceneryCall) (hc : c.SingleTile mem)
    (hnot : track_design_save_contains_tile_element st c.tileElement = false)
    (hcount : st._trackSavedTileElementsCount < TRACK_MAX_SAVED_TILE_ELEMENTS)
    (hdesc : st._trackSavedTileElementsDescCount < TRACK_MAX_SAVED_TILE_ELEMENTS)
    (hx : -128 ≤ Int.tdiv c.x 32 ∧ Int.tdiv c.x 32 ≤ 127)
    (hy : -128 ≤ Int.tdiv c.y 32 ∧ Int.tdiv c.y 32 ≤ 127)
    (hz : (mem c.tileElement).base_height.val < 128)
    (hcmp : ∀ e, fn.object_entry_compare e e = true) :
    ∃ st1 st2,
      track_design_save_select_tile_element fn mem st c.interactionType c.x c.y c.tileElement true
          = some st1
      ∧ track_design_save_contains_tile_element st1 c.tileElement = true
      ∧ track_design_save_select_tile_element fn mem st1 c.interactionType c.x c.y c.tileElement
          false = some st2
      ∧ track_design_save_contains_tile_element st2 c.tileElement = false
      ∧ st2.savedElements = st.savedElements
      ∧ st2.savedDescs = st.savedDescs := by
  have hcan : track_design_save_can_add_tile_element fn st (mem c.tileElement) = true := by
    apply can_add_single fn st _ hcount
    rcases hc with h | h | h
    · exact Or.inr (Or.inl h.2)
    · exact Or.inr (Or.inr h.2)
    · exact Or.inl h.2
  have hcore := fun entry flags c1 c2 =>
    push_pop_restores fn st c.tileElement entry c.x c.y (mem c.tileElement).base_height.val
      flags c1 c2 hnot hcount hdesc (toInt8_of_range _ hx) (toInt8_of_range _ hy)
      (toInt8_of_range _ (by omega)) (hcmp entry)
  rcases hc with h | h | h
  · obtain ⟨st1, h1, h2, h3, h4, h5⟩ := hcore
      (fn.object_entry_get_entry OBJECT_TYPE_SMALL_SCENERY
        (fn.SmallScenery_GetEntryIndex (mem c.tileElement)).val)
      (sceneryFlags fn (mem c.tileElement))
      (fn.SmallScenery_GetPrimaryColour (mem c.tileElement))
      (fn.SmallScenery_GetSecondaryColour (mem c.tileElement))
    refine ⟨st1, _, ?_, h2, ?_, h3, h4, h5⟩
    · unfold track_design_save_select_tile_element track_design_save_add_tile_element
        track_design_save_add_scenery
      simp only [hnot, hcan, h.1, h.2, h1, Bool.false_eq_true, ↓reduceIte, not_true_eq_false,
        Option.map_some']
    · unfold track_design_save_select_tile_element track_design_save_remove_tile_element
        track_design_save_remove_scenery
      simp only [h2, h.1, h.2, Bool.false_eq_true, ↓reduceIte, not_false_eq_true]
  · obtain ⟨st1, h1, h2, h3, h4, h5⟩ := hcore
      (fn.object_entry_get_entry OBJECT_TYPE_WALLS (WallElement.GetEntryIndex (mem c.tileElement)))
      (wallFlags (mem c.tileElement))
      (toU8 (WallElement.GetPrimaryColour (mem c.tileElement)))
      (toU8 (WallElement.GetSecondaryColour (mem c.tileElement)))
    refine ⟨st1, _, ?_, h2, ?_, h3, h4, h5⟩
    · unfold track_design_save_select_tile_element track_design_save_add_tile_element
        track_design_save_add_wall
      simp only [hnot, hcan, h.1, h.2, h1, Bool.false_eq_true, ↓reduceIte, not_true_eq_false,
        Option.map_some', VIEWPORT_INTERACTION_ITEM_WALL, VIEWPORT_INTERACTION_ITEM_SCENERY,
        VIEWPORT_INTERACTION_ITEM_LARGE_SCENERY, Int.reduceEq]
    · unfold track_design_save_select_tile_element track_design_save_remove_tile_element
        track_design_save_remove_wall
      simp only [h2, h.1, h.2, Bool.false_eq_true, ↓reduceIte, not_false_eq_true,
        VIEWPORT_INTERACTION_ITEM_WALL, VIEWPORT_INTERACTION_ITEM_SCENERY,
        VIEWPORT_INTERACTION_ITEM_LARGE_SCENERY, Int.reduceEq]
  · obtain ⟨st1, h1, h2, h3, h4, h5⟩ := hcore
      (fn.object_entry_get_entry OBJECT_TYPE_PATHS
        (fn.Path_GetPathEntryIndex (mem c.tileElement)).val)
      (footpathFlags fn (mem c.tileElement)) 0 0
    refine ⟨st1, _, ?_, h2, ?_, h3, h4, h5⟩
    · unfold track_design_save_select_tile_element track_design_save_add_tile_element
        track_design_save_add_footpath
      simp only [hnot, hcan, h.1, h.2, h1, Bool.false_eq_true, ↓reduceIte, not_true_eq_false,
        Option.map_some', VIEWPORT_INTERACTION_ITEM_WALL, VIEWPORT_INTERACTION_ITEM_SCENERY,
        VIEWPORT_INTERACTION_ITEM_LARGE_SCENERY, VIEWPORT_INTERACTION_ITEM_FOOTPATH,
        Int.reduceEq]
    · unfold track_design_save_select_tile_element track_design_save_remove_tile_element
        track_design_save_remove_footpath
      simp only [h2, h.1, h.2, Bool.false_eq_true, ↓reduceIte, not_false_eq_true,
        footpathFlagsRemove_eq,
        VIEWPORT_INTERACTION_ITEM_WALL, VIEWPORT_INTERACTION_ITEM_SCENERY,
        VIEWPORT_INTERACTION_ITEM_LARGE_SCENERY, VIEWPORT_INTERACTION_ITEM_FOOTPATH,
        Int.reduceEq]


/-- Claim C24 at a failing input: the wall at index 0 stands on tile x = 128
(`x = 4096`) and is not selected.  Selecting it saves the element and a
description whose `int8_t` field `x` holds -128; deselecting it removes the
element, but the search of `track_design_save_pop_tile_element_desc` compares
the stored -128 with `x / 32 = 128`, finds nothing and leaves the description
in the list. -/
theorem track_design_save_select_toggle_fails :
    ∃ st1 st2,
      track_design_save_contains_tile_element track_design_save_init 0 = false
      ∧ track_design_save_select_tile_element sampleSceneryFunctions sceneryMem
          track_design_save_init VIEWPORT_INTERACTION_ITEM_WALL 4096 64 0 true = some st1
      ∧ track_design_save_contains_tile_element st1 0 = true
      ∧ st1.savedElements = [some 0]
      ∧ st1.savedDescs = [⟨771, -128, 2, 10, 9, 10, 2⟩]
      ∧ track_design_save_select_tile_element sampleSceneryFunctions sceneryMem
          st1 VIEWPORT_INTERACTION_ITEM_WALL 4096 64 0 false = some st2
      ∧ track_design_save_contains_tile_element st2 0 = false
      ∧ st2.savedElements = track_design_save_init.savedElements
      ∧ st2.savedDescs = [⟨771, -128, 2, 10, 9, 10, 2⟩]
      ∧ track_design_save_init.savedDescs = []
      ∧ st2._trackSavedTileElementsDescCount = 1
      ∧ track_design_save_init._trackSavedTileElementsDescCount = 0 :=
  ⟨_, _, by decide, rfl, by decide, by decide, by decide, rfl, by decide, by decide, by decide,
    by decide, by decide, by decide⟩


/-! ## Claims on the entrances of an exported track design -/

/-- Claim C28 at a failing input: the station of `sampleRide` has height 14 and
the origin of the track lies one height unit above it (`z = 120`).  The export
succeeds and saves the entrance and the exit with `z = -1`: after the range
test `z` lies in -126..127, so the test `z == 0xFF` of the `int32_t` never
holds.  The byte of `z` is then the terminator, and
`track_design_get_entrance_elements_count` returns 0 for the two records. -/
theorem track_design_entrance_terminator_collision :
    ∃ l,
      track_design_save_to_td6_for_tracked_ride smallConfig entranceStore sampleRide
          (some (⟨32, 0, 120⟩, 0)) = some (some l)
      ∧ l = [⟨-1, 2, 0, 0⟩, ⟨-1, 130, 0, 0⟩]
      ∧ l.length = 2
      ∧ track_design_get_entrance_elements_count (entrance_elements l) 32 0 = some 0 :=
  ⟨_, rfl, by decide, by decide, by decide⟩

/-! ## Claims on the colours of a wall -/

/-- Replacing bits of a byte: the bits of `M` afterwards are those of the value
or-ed in, when the mask `K` keeps none of them. -/
theorem byte_update_inside (a K v M : Nat) (hK : K &&& M = 0) :
    ((a &&& K) ||| v) % 256 &&& M = v % 256 &&& M := by
  apply Nat.eq_of_testBit_eq
  intro i
  have h1 := congrArg (fun n => n.testBit i) hK
  simp only [Nat.testBit_and, Nat.zero_testBit] at h1
  rw [Nat.testBit_and, Nat.testBit_and, show (256 : Nat) = 2 ^ 8 from rfl,
    Nat.testBit_mod_two_pow, Nat.testBit_mod_two_pow, Nat.testBit_or, Nat.testBit_and]
  by_cases hi : M.testBit i = true
  · rw [hi] at h1
    simp only [Bool.and_true] at h1
    simp [hi, h1]
  · simp [hi]

set_option maxRecDepth 100000 in
/-- The two parts of a secondary colour, read back from the bits where
`SetSecondaryColour` puts them, make up its low five bits. -/
theorem secondary_colour_parts (c : uint8_t) :
    (toU8 ((toU8 ((((c.val &&& 0x7) <<< 5) % 256 &&& 4294967264) >>> 5)).val
        ||| ((((c.val &&& 0x18) <<< 2) % 256 &&& 0x60) >>> 2))).val = c.val &&& 0x1F
      ∧ ((c.val &&& 0x18) <<< 2) &&& 128 = 0
      ∧ ((c.val &&& 0x18) <<< 2) &&& 16 = 0
      ∧ (c.val ≤ 31 → c.val &&& 0x1F = c.val) := by
  revert c
  decide

/-- Claim C31: for every wall element and every 8-bit colour `c`, after
`SetSecondaryColour(c)` the getter `GetSecondaryColour()` returns `c & 0x1F`,
which is `c` for `c` in 0..31, while `GetPrimaryColour()` and the last-for-tile
and ghost bits of `flags` are as before. -/
theorem wall_secondary_colour_round_trip (e : TileElement) (c : uint8_t) :
    WallElement.GetSecondaryColour (WallElement.SetSecondaryColour e c) = c.val &&& 0x1F
      ∧ (c.val ≤ 31 →
          WallElement.GetSecondaryColour (WallElement.SetSecondaryColour e c) = c.val)
      ∧ WallElement.GetPrimaryColour (WallElement.SetSecondaryColour e c)
          = WallElement.GetPrimaryColour e
      ∧ (WallElement.SetSecondaryColour e c).flags.val &&& TILE_ELEMENT_FLAG_LAST_TILE
          = e.flags.val &&& TILE_ELEMENT_FLAG_LAST_TILE
      ∧ (WallElement.SetSecondaryColour e c).flags.val &&& TILE_ELEMENT_FLAG_GHOST
          = e.flags.val &&& TILE_ELEMENT_FLAG_GHOST := by
  obtain ⟨hparts, h128, h16, hle⟩ := secondary_colour_parts c
  have hc1 := byte_update_inside e.pad_04_2.val 31 ((c.val &&& 0x7) <<< 5) 4294967264 (by decide)
  have hfl := byte_update_inside e.flags.val 4294967199 ((c.val &&& 0x18) <<< 2) 0x60 (by decide)
  have hget : WallElement.GetSecondaryColour (WallElement.SetSecondaryColour e c)
      = c.val &&& 0x1F := by
    simp only [WallElement.GetSecondaryColour, WallElement.SetSecondaryColour,
      TileElement.colour_1, TILE_ELEMENT_COLOUR_MASK, bitNot32, toU8, Nat.reduceSub] at hparts ⊢
    rw [hc1, hfl]
    exact hparts
  refine ⟨hget, fun h => by rw [hget]; exact hle h, ?_, ?_, ?_⟩
  · simp only [WallElement.GetPrimaryColour, WallElement.SetSecondaryColour,
      TileElement.colour_1, TILE_ELEMENT_COLOUR_MASK, toU8]
    exact byte_update_outside _ _ _ _ (by decide) (by decide) (wall_values_inside c).2.2.1
  · simp only [WallElement.SetSecondaryColour, TILE_ELEMENT_FLAG_LAST_TILE, bitNot32, toU8,
      Nat.reduceSub]
    exact byte_update_outside _ _ _ _ (by decide) (by decide) h128
  · simp only [WallElement.SetSecondaryColour, TILE_ELEMENT_FLAG_GHOST, bitNot32, toU8,
      Nat.reduceSub, Nat.reduceShiftLeft]
    exact byte_update_outside _ _ _ _ (by decide) (by decide) h16


/-! ## Claims on the flags of an exported footpath -/

/-- The `switch` of `track_design_save_copy_scenery_to_td6` on a path object. -/
theorem td6_rotate_flags_paths (fn : SceneryFunctions) (d : uint8_t)
    (scenery : rct_td6_scenery_element)
    (hpath : fn.object_entry_get_type scenery.scenery_object = OBJECT_TYPE_PATHS)
    (hd : d.val < 32) :
    td6_rotate_flags fn d scenery = some (td6_path_flags scenery.flags d) := by
  unfold td6_rotate_flags td6_path_flags
  simp only [hpath, hd, ↓reduceIte]

set_option maxRecDepth 1000000 in
/-- The flag arithmetic of the `OBJECT_TYPE_PATHS` case for a direction 0 to
3, on every flags byte. -/
theorem td6_path_flags_spec : ∀ d : uint8_t, d.val ≤ 3 → ∀ f : uint8_t,
    [0, 1, 2, 3].map (fun i => (td6_path_flags f d).val.testBit ((i + 4 - d.val) % 4))
        = [0, 1, 2, 3].map (fun i => f.val.testBit i)
      ∧ ((td6_path_flags f d).val >>> 5) &&& 3 = (((f.val >>> 5) &&& 3) + 4 - d.val) % 4
      ∧ (td6_path_flags f d).val.testBit 4 = f.val.testBit 4
      ∧ (td6_path_flags f d).val.testBit 7 = f.val.testBit 7
      ∧ (d.val = 0 → td6_path_flags f d = f) := by
  decide

/-- Claim C40: for a footpath record and a save direction `d` in 0..3 the
`switch` of `track_design_save_copy_scenery_to_td6` leaves flags in which the
bit of edge `i` (bits 0 to 3) has moved to bit `(i - d) mod 4`, the slope
direction in bits 5 and 6 is `(slope - d) mod 4`, and bits 4 and 7 are as
before; for `d = 0` the flags byte is unchanged. -/
theorem td6_footpath_flags_rotation (fn : SceneryFunctions) (d : uint8_t)
    (scenery : rct_td6_scenery_element)
    (hpath : fn.object_entry_get_type scenery.scenery_object = OBJECT_TYPE_PATHS)
    (hd : d.val ≤ 3) :
    ∃ flags, td6_rotate_flags fn d scenery = some flags
      ∧ [0, 1, 2, 3].map (fun i => flags.val.testBit ((i + 4 - d.val) % 4))
          = [0, 1, 2, 3].map (fun i => scenery.flags.val.testBit i)
      ∧ (flags.val >>> 5) &&& 3 = (((scenery.flags.val >>> 5) &&& 3) + 4 - d.val) % 4
      ∧ flags.val.testBit 4 = scenery.flags.val.testBit 4
      ∧ flags.val.testBit 7 = scenery.flags.val.testBit 7
      ∧ (d.val = 0 → flags = scenery.flags) :=
  ⟨_, td6_rotate_flags_paths fn d scenery hpath (by omega), td6_path_flags_spec d hd scenery.flags⟩

theorem td6_footpath_flags_rotation_witness :
    (∃ flags, td6_rotate_flags sampleSceneryFunctions 1 samplePathRecord = some flags
      ∧ [0, 1, 2, 3].map (fun i => flags.val.testBit ((i + 4 - (1 : uint8_t).val) % 4))
          = [0, 1, 2, 3].map (fun i => samplePathRecord.flags.val.testBit i)
      ∧ (flags.val >>> 5) &&& 3
          = (((samplePathRecord.flags.val >>> 5) &&& 3) + 4 - (1 : uint8_t).val) % 4
      ∧ flags.val.testBit 4 = samplePathRecord.flags.val.testBit 4
      ∧ flags.val.testBit 7 = samplePathRecord.flags.val.testBit 7
      ∧ ((1 : uint8_t).val = 0 → flags = samplePathRecord.flags))
      ∧ samplePathRecord.flags = 0xD6
      ∧ td6_rotate_flags sampleSceneryFunctions 1 samplePathRecord = some 0xB3 :=
  ⟨td6_footpath_flags_rotation sampleSceneryFunctions 1 samplePathRecord (by decide) (by decide),
    by decide, by decide⟩


/-! ## Claims on the costume table -/

/-- The costumes that pass the test of `Query` on the sprite type are those
with `costume + 4` at most 16, wrapped to a byte; among them costume 12 alone
gives an index outside the table. -/
theorem costume_index_cases (costume : Nat) (hc : costume < 256)
    (hq : ¬ spriteTypeOfCostume costume > peep_slow_walking_types.length) :
    (spriteTypeOfCostume costume < peep_slow_walking_types.length ↔ costume ≠ 12) := by
  unfold spriteTypeOfCostume at *
  have hlen : peep_slow_walking_types.length = 16 := rfl
  rw [hlen] at hq ⊢
  omega

/-- Claim C37 at a failing input: sprite 1 is an entertainer and costume 12
gives the sprite type 16.  `Query` tests `spriteType > 16` against the 16
entries of the table, so it returns a result without error, and `Execute`
reads `peep_slow_walking_types[16]`, one entry behind the end of the table. -/
theorem staff_set_costume_index_out_of_table :
    (StaffSetCostumeAction.Query sampleConstants sampleSprites 1 12).Error = GA_ERROR.OK
      ∧ spriteTypeOfCostume 12 = 16
      ∧ peep_slow_walking_types.length = 16
      ∧ peep_slow_walking_types[spriteTypeOfCostume 12]? = none
      ∧ StaffSetCostumeAction.Execute sampleConstants id sampleSprites 1 12 = none
      ∧ (StaffSetCostumeAction.Query sampleConstants sampleSprites 1 11).Error = GA_ERROR.OK
      ∧ (StaffSetCostumeAction.Execute sampleConstants id sampleSprites 1 11).isSome = true
      ∧ (StaffSetCostumeAction.Query sampleConstants sampleSprites 1 13).Error
          = GA_ERROR.INVALID_PARAMETERS :=
  ⟨by decide, by decide, by decide, by decide, rfl, by decide, by decide, by decide⟩


/-! ## Claims on the selection of scenery around a ride -/

/-- Claim C33: `track_design_save_should_select_scenery_around` returns false
for every element of type entrance and every ride index, whatever the entrance
type and the ride of the element; it returns true exactly for a path that is a
queue of the ride and for a track element of the ride. -/
theorem track_design_save_should_select_spec (fn : SceneryFunctions)
    (rf : RideElementFunctions) (rideIndex : Nat) (e : TileElement) :
    (e.GetType = TILE_ELEMENT_TYPE_ENTRANCE →
        track_design_save_should_select_scenery_around fn rf rideIndex e = false)
      ∧ (track_design_save_should_select_scenery_around fn rf rideIndex e = true ↔
          (e.GetType = TILE_ELEMENT_TYPE_PATH ∧ fn.Path_IsQueue e = true
              ∧ rf.Path_GetRideIndex e = rideIndex)
            ∨ (e.GetType = TILE_ELEMENT_TYPE_TRACK ∧ rf.Track_GetRideIndex e = rideIndex)) := by
  unfold track_design_save_should_select_scenery_around
  simp only [TILE_ELEMENT_TYPE_PATH, TILE_ELEMENT_TYPE_TRACK, TILE_ELEMENT_TYPE_ENTRANCE,
    ENTRANCE_TYPE_RIDE_ENTRANCE, ENTRANCE_TYPE_RIDE_EXIT, Nat.reduceShiftLeft]
  constructor
  · intro h
    rw [h]
    simp only [Nat.reduceEqDiff, ↓reduceIte]
    by_cases h0 : rf.Entrance_GetEntranceType e = 0
    · rw [if_neg (by simpa using h0), if_pos (by omega)]
    · rw [if_pos h0]
  · by_cases h4 : e.GetType = 4
    · simp [h4]
    · by_cases h8 : e.GetType = 8
      · simp [h8]
      · by_cases h16 : e.GetType = 16
        · simp only [h16, Nat.reduceEqDiff, ↓reduceIte, false_and, or_self, iff_false]
          by_cases h0 : rf.Entrance_GetEntranceType e = 0
          · rw [if_neg (by simpa using h0), if_pos (by omega)]
            simp
          · rw [if_pos h0]
            simp
        · simp [h4, h8, h16]


/-! ## Claims on the circular buffer -/

/-- The position after a step around a ring of `N` slots. -/
theorem ring_succ (N a : Nat) (hN : 0 < N) :
    (if a % N + 1 = N then 0 else a % N + 1) = (a + 1) % N := by
  have h := succ_coords N a hN
  have hlt := Nat.mod_lt a hN
  split_ifs with h1
  · exact (h.2 h1).1.symm
  · exact (h.1 (by omega)).1.symm

/-- Two numbers less than `N` apart lie in different slots of the ring. -/
theorem ring_ne (N m k : Nat) (h1 : m < k) (h2 : k < m + N) : m % N ≠ k % N := by
  intro h
  have hd : (k - m) % N = 0 := Nat.sub_mod_eq_zero_of_mod_eq h.symm
  have hdvd : N ∣ k - m := Nat.dvd_of_mod_eq_zero hd
  have := Nat.le_of_dvd (by omega) hdvd
  omega


/-- A cleared buffer holds no value. -/
theorem holds_clear {α : Type} (N : Nat) (b : CircularBuffer α) :
    CircularBuffer.Holds N b.clear [] := by
  refine ⟨?_, ?_, ?_, ?_⟩
  · simp [CircularBuffer.clear]
  · simp [CircularBuffer.clear]
  · intro h; simp at h
  · intro m _ h; simp at h

/-- One call of `push_back` keeps the most recent values, in order. -/
theorem holds_push_back {α : Type} (N : Nat) (hN : 1 ≤ N) (b : CircularBuffer α) (l : List α)
    (v : α) (h : CircularBuffer.Holds N b l) :
    CircularBuffer.Holds N (b.push_back N v) (l ++ [v]) := by
  obtain ⟨hsize, hhead, htail, helems⟩ := h
  have hlen : (l ++ [v]).length = l.length + 1 := by simp
  unfold CircularBuffer.push_back CircularBuffer.capacity
  by_cases h0 : b._size = 0
  · -- the buffer is empty
    have hl : l.length = 0 := by
      rw [h0] at hsize
      rcases Nat.le_total l.length N with h | h
      · rw [Nat.min_eq_left h] at hsize; omega
      · rw [Nat.min_eq_right h] at hsize; omega
    have hh : b._head = 0 := by rw [hhead, hl, h0]; simp
    rw [if_pos h0]
    refine ⟨?_, ?_, ?_, ?_⟩
    · simp only [hlen, hl, h0]
      rw [Nat.min_eq_left (by omega)]
    · simp only [hlen, hl, h0, hh]
      simp
    · intro _
      simp only [hlen, hl, hh]
      simp
    · intro m hm1 hm2
      simp only [hlen, hl, h0] at hm1 hm2
      have hm : m = 0 := by omega
      subst hm
      have hlnil : l = [] := List.length_eq_zero.mp hl
      subst hlnil
      show ([] ++ [v])[0]? = some (Function.update b._elements b._head v (0 % N))
      rw [hh, Nat.zero_mod, Function.update_same]
      rfl
  · rw [if_neg h0]
    have hpos : 0 < l.length := by
      rcases Nat.eq_zero_or_pos l.length with h | h
      · rw [h] at hsize; simp at hsize; omega
      · exact h
    have ht := htail hpos
    by_cases hfull : b._size ≠ N
    · -- the buffer is neither empty nor full
      rw [if_pos hfull]
      have hlt : l.length < N := by
        rcases Nat.le_total l.length N with h | h
        · rw [Nat.min_eq_left h] at hsize; omega
        · rw [Nat.min_eq_right h] at hsize; omega
      have hsz : b._size = l.length := by rw [hsize, Nat.min_eq_left (by omega)]
      have htl : b._tail = l.length - 1 := by
        rw [ht, Nat.mod_eq_of_lt (by omega)]
      have hnew : (if b._tail + 1 = N then 0 else b._tail + 1) = l.length := by
        rw [htl, if_neg (by omega)]; omega
      simp only [hnew]
      refine ⟨?_, ?_, ?_, ?_⟩
      · simp only [hlen, hsz]
        rw [Nat.min_eq_left (by omega)]
      · simp only [hlen, hsz, hhead]
        simp
      · intro _
        simp only [hlen, Nat.add_sub_cancel]
        rw [Nat.mod_eq_of_lt hlt]
      · intro m _ hm2
        simp only [hlen] at hm2
        rw [Nat.mod_eq_of_lt (by omega)]
        show (l ++ [v])[m]? = some (Function.update b._elements l.length v m)
        by_cases hm : m = l.length
        · subst hm
          simp
        · rw [Function.update_noteq hm, List.getElem?_append_left (by omega)]
          have := helems m (by omega) (by omega)
          rw [Nat.mod_eq_of_lt (by omega)] at this
          exact this
    · -- the buffer is full
      rw [if_neg hfull]
      have hszN : b._size = N := by
        by_contra h; exact hfull h
      have hge : N ≤ l.length := by
        rcases Nat.le_total l.length N with h | h
        · rw [Nat.min_eq_left h] at hsize; omega
        · exact h
      have hnewhead : (if b._head + 1 = N then 0 else b._head + 1) = (l.length + 1 - N) % N := by
        rw [hhead, hszN, ring_succ N (l.length - N) (by omega)]
        congr 1; omega
      have hnewtail : (if b._tail + 1 = N then 0 else b._tail + 1) = l.length % N := by
        rw [ht, ring_succ N (l.length - 1) (by omega)]
        congr 1; omega
      simp only [hnewhead, hnewtail]
      refine ⟨?_, ?_, ?_, ?_⟩
      · simp only [hlen, hszN]
        rw [Nat.min_eq_right (by omega)]
      · simp only [hlen, hszN]
      · intro _
        simp only [hlen, Nat.add_sub_cancel]
      · intro m hm1 hm2
        simp only [hlen, hszN] at hm1 hm2
        show (l ++ [v])[m]? = some (Function.update b._elements (l.length % N) v (m % N))
        by_cases hm : m = l.length
        · subst hm
          simp
        · rw [Function.update_noteq (ring_ne N m l.length (by omega) (by omega)),
            List.getElem?_append_left (by omega)]
          exact helems m (by rw [hszN]; omega) (by omega)

/-- The buffer after `push_back` calls from a cleared buffer. -/
theorem holds_push_all {α : Type} (N : Nat) (hN : 1 ≤ N) (vals : List α) :
    ∀ (b : CircularBuffer α) (l : List α), CircularBuffer.Holds N b l →
      CircularBuffer.Holds N (b.push_all N vals) (l ++ vals) := by
  induction vals with
  | nil => intro b l h; simpa [CircularBuffer.push_all] using h
  | cons v vs ih =>
    intro b l h
    have := ih (b.push_back N v) (l ++ [v]) (holds_push_back N hN b l v h)
    simpa [CircularBuffer.push_all] using this


/-- Claim C39: for a capacity `N >= 1`, after `k` calls of `push_back` on a
cleared buffer (an empty buffer is in the same state), `size()` is `min(k, N)`,
`operator[](i)` is the pushed value number `k - size() + i` (from 0) for every
`i < size()`, `front()` is the oldest value retained and `back()` the value
pushed last; the slots read lie inside the array. -/
theorem circular_buffer_keeps_recent {α : Type} (N : Nat) (hN : 1 ≤ N) (b0 : CircularBuffer α)
    (vals : List α) :
    (b0.clear.push_all N vals).size = min vals.length N
      ∧ (∀ i, i < (b0.clear.push_all N vals).size →
          vals[vals.length - (b0.clear.push_all N vals).size + i]?
            = some ((b0.clear.push_all N vals).index N i))
      ∧ (0 < vals.length →
          vals[vals.length - (b0.clear.push_all N vals).size]?
              = some (b0.clear.push_all N vals).front
            ∧ vals[vals.length - 1]? = some (b0.clear.push_all N vals).back)
      ∧ (b0.clear.push_all N vals)._head < N ∧ (b0.clear.push_all N vals)._tail < N := by
  have h := holds_push_all N hN vals b0.clear [] (holds_clear N b0)
  rw [List.nil_append] at h
  obtain ⟨hsize, hhead, htail, helems⟩ := h
  have hszle : (b0.clear.push_all N vals)._size ≤ vals.length := by
    rw [hsize]; exact Nat.min_le_left _ _
  have hszN : (b0.clear.push_all N vals)._size ≤ N := by
    rw [hsize]; exact Nat.min_le_right _ _
  have htailN : (b0.clear.push_all N vals)._tail < N := by
    rcases Nat.eq_zero_or_pos vals.length with h | h
    · have hnil : vals = [] := List.length_eq_zero.mp h
      subst hnil
      show (0 : Nat) < N
      omega
    · rw [htail h]; exact Nat.mod_lt _ (by omega)
  refine ⟨hsize, ?_, ?_, ?_, htailN⟩
  · intro i hi
    unfold CircularBuffer.size at hi
    unfold CircularBuffer.index CircularBuffer.capacity CircularBuffer.size
    simp only []
    rw [hhead, Nat.mod_add_mod]
    exact helems _ (by omega) (by omega)
  · intro hpos
    unfold CircularBuffer.front CircularBuffer.back CircularBuffer.size
    constructor
    · rw [hhead]
      refine helems _ (by omega) ?_
      have : 0 < (b0.clear.push_all N vals)._size := by
        rw [hsize]; exact Nat.lt_min.mpr ⟨hpos, by omega⟩
      omega
    · rw [htail hpos]
      refine helems _ ?_ (by omega)
      have : 0 < (b0.clear.push_all N vals)._size := by
        rw [hsize]; exact Nat.lt_min.mpr ⟨hpos, by omega⟩
      omega
  · rw [hhead]; exact Nat.mod_lt _ (by omega)

theorem circular_buffer_keeps_recent_witness :
    ((sampleBuffer.clear.push_all 3 [10, 20, 30, 40, 50]).size
        = min [10, 20, 30, 40, 50].length 3
      ∧ (∀ i, i < (sampleBuffer.clear.push_all 3 [10, 20, 30, 40, 50]).size →
          [10, 20, 30, 40, 50][[10, 20, 30, 40, 50].length
              - (sampleBuffer.clear.push_all 3 [10, 20, 30, 40, 50]).size + i]?
            = some ((sampleBuffer.clear.push_all 3 [10, 20, 30, 40, 50]).index 3 i))
      ∧ (0 < [10, 20, 30, 40, 50].length →
          [10, 20, 30, 40, 50][[10, 20, 30, 40, 50].length
              - (sampleBuffer.clear.push_all 3 [10, 20, 30, 40, 50]).size]?
              = some (sampleBuffer.clear.push_all 3 [10, 20, 30, 40, 50]).front
            ∧ [10, 20, 30, 40, 50][[10, 20, 30, 40, 50].length - 1]?
              = some (sampleBuffer.clear.push_all 3 [10, 20, 30, 40, 50]).back)
      ∧ (sampleBuffer.clear.push_all 3 [10, 20, 30, 40, 50])._head < 3
      ∧ (sampleBuffer.clear.push_all 3 [10, 20, 30, 40, 50])._tail < 3)
    ∧ (List.range 3).map ((sampleBuffer.clear.push_all 3 [10, 20, 30, 40, 50]).index 3)
        = [30, 40, 50]
    ∧ (sampleBuffer.clear.push_all 3 [10, 20, 30, 40, 50]).front = 30
    ∧ (sampleBuffer.clear.push_all 3 [10, 20, 30, 40, 50]).back = 50 :=
  ⟨circular_buffer_keeps_recent 3 (by decide) sampleBuffer [10, 20, 30, 40, 50],
    by decide, by decide, by decide⟩

/-! ## Claims on the highest point of a tile -/

set_option maxHeartbeats 4000000 in
/-- The slope blocks of `tile_element_height` add at most 16 to the height for
a slope that is not flat, and at most 32 with the double-height flag. -/
theorem slope_blocks_bound (slope extra : Nat) (xl yl h : Int) (hs : slope < 16)
    (he : extra = 0 ∨ extra = 1)
    (hxl : 0 ≤ xl ∧ xl ≤ 31) (hyl : 0 ≤ yl ∧ yl ≤ 31) (hh : 0 ≤ h ∧ h ≤ 2040) :
    tile_element_height_one_corner_down slope extra xl yl
        (tile_element_height_one_side_up slope xl yl
          (tile_element_height_one_corner_up slope xl yl h))
      ≤ h + (if slope ≠ 0 then 16 else 0) + (if extra ≠ 0 then 16 else 0) := by
  rcases he with he | he <;> subst he <;> interval_cases slope <;>
    simp only [tile_element_height_one_corner_up, tile_element_height_one_side_up,
      tile_element_height_one_corner_down, tile_element_height_valleys,
      TILE_ELEMENT_SLOPE_N_CORNER_UP, TILE_ELEMENT_SLOPE_E_CORNER_UP,
      TILE_ELEMENT_SLOPE_S_CORNER_UP, TILE_ELEMENT_SLOPE_W_CORNER_UP,
      slope_w_corner_dn_eq, slope_s_corner_dn_eq, slope_e_corner_dn_eq, slope_n_corner_dn_eq,
      slope_ne_side_up_eq, slope_se_side_up_eq, slope_nw_side_up_eq, slope_sw_side_up_eq,
      slope_w_e_valley_eq, slope_n_s_valley_eq,
      Nat.reduceEqDiff, or_true, true_or, or_false, false_or, or_self, ↓reduceIte, ne_eq,
      not_true_eq_false, not_false_eq_true, OfNat.ofNat_ne_zero, one_ne_zero,
      OfNat.zero_ne_ofNat, zero_ne_one] <;>
    simp only [toInt16, toU16, toInt8, tdiv_two] <;>
    omega


/-- On the map `tile_element_water_height` looks up the surface element of the
tile and answers sixteen times its water height. -/
theorem tile_element_water_height_at_tile (cfg : Config) (s : Store) (tx ty xl yl : Nat)
    (htx : tx < 256) (hty : ty < 256) (hxl : xl < 32) (hyl : yl < 32) :
    tile_element_water_height cfg s ((32 * tx + xl : Nat) : Int) ((32 * ty + yl : Nat) : Int) =
      match map_get_surface_element_at cfg s tx ty with
      | none => none
      | some none => some 0
      | some (some e) => some (((s.gTileElements e).GetWaterHeight * 16 : Nat) : Int) := by
  have hx : toU32 ((32 * tx + xl : Nat) : Int) = 32 * tx + xl := toU32_natCast _ (by omega)
  have hy : toU32 ((32 * ty + yl : Nat) : Int) = 32 * ty + yl := toU32_natCast _ (by omega)
  have hxt : (32 * tx + xl) &&& 0xFFFFFFE0 = 32 * tx := by
    rw [and_tile_mask _ (by omega)]; omega
  have hyt : (32 * ty + yl) &&& 0xFFFFFFE0 = 32 * ty := by
    rw [and_tile_mask _ (by omega)]; omega
  have hdx : Int.tdiv ((32 * tx : Nat) : Int) 32 = (tx : Int) := by
    rw [Int.tdiv_eq_ediv (Int.ofNat_nonneg _) (by decide)]; omega
  have hdy : Int.tdiv ((32 * ty : Nat) : Int) 32 = (ty : Int) := by
    rw [Int.tdiv_eq_ediv (Int.ofNat_nonneg _) (by decide)]; omega
  unfold tile_element_water_height map_get_surface_element_at_coords
  rw [hx, hy]
  have hc : ¬ (32 * tx + xl ≥ 8192 ∨ 32 * ty + yl ≥ 8192) := by omega
  simp only [hc, ↓reduceIte, hxt, hyt, hdx, hdy]
  rcases map_get_surface_element_at cfg s tx ty with _ | _ | e
  · rfl
  · rfl
  · have hw := GetWaterHeight_lt (s.gTileElements e)
    have h16 : (s.gTileElements e).GetWaterHeight <<< 4 = (s.gTileElements e).GetWaterHeight * 16 := by
      rw [Nat.shiftLeft_eq]
    show some (toInt16 (toU16 (((s.gTileElements e).GetWaterHeight <<< 4 : Nat) : Int))) = _
    rw [h16]
    have h1 : toU16 (((s.gTileElements e).GetWaterHeight * 16 : Nat) : Int) =
        (((s.gTileElements e).GetWaterHeight * 16 : Nat) : Int) := by
      show (((s.gTileElements e).GetWaterHeight * 16 : Nat) : Int) % 65536 = _
      omega
    rw [h1, toInt16_of_range _ (by omega)]

theorem slope_bits_cases : ∀ n : Nat, n < 32 →
    n &&& TILE_ELEMENT_SLOPE_ALL_CORNERS_UP < 16 ∧
    ((((n &&& TILE_ELEMENT_SLOPE_DOUBLE_HEIGHT) >>> 4) % 256 = 0 ∧
        n &&& TILE_ELEMENT_SLOPE_DOUBLE_HEIGHT = 0) ∨
      (((n &&& TILE_ELEMENT_SLOPE_DOUBLE_HEIGHT) >>> 4) % 256 = 1 ∧
        n &&& TILE_ELEMENT_SLOPE_DOUBLE_HEIGHT ≠ 0)) := by
  decide

/-- The height of a surface at any offset inside its tile is at most the value
that `map_get_highest_z` computes before it takes the water into account. -/
theorem height_of_surface_le (e : TileElement) (xl yl : Nat) (hxl : xl < 32) (hyl : yl < 32) :
    tile_element_height_of_surface e xl yl ≤
      ((e.base_height.val * 8 +
        (if (e.GetSlope &&& TILE_ELEMENT_SLOPE_ALL_CORNERS_UP) ≠ TILE_ELEMENT_SLOPE_FLAT
          then 16 else 0) +
        (if (e.GetSlope &&& TILE_ELEMENT_SLOPE_DOUBLE_HEIGHT) ≠ 0 then 16 else 0) : Nat) : Int) := by
  have hlt : e.GetSlope < 32 := by
    unfold TileElement.GetSlope
    exact lt_of_le_of_lt Nat.and_le_right (by decide)
  obtain ⟨h15, hex⟩ := slope_bits_cases _ hlt
  have hb := e.base_height.isLt
  have hh : toU16 ((e.base_height.val <<< 3 : Nat) : Int) = ((e.base_height.val * 8 : Nat) : Int) := by
    rw [Nat.shiftLeft_eq]
    unfold toU16
    show ((e.base_height.val * 8 : Nat) : Int) % 65536 = _
    omega
  unfold tile_element_height_of_surface
  simp only [hh]
  have hbound := slope_blocks_bound (e.GetSlope &&& TILE_ELEMENT_SLOPE_ALL_CORNERS_UP)
    (((e.GetSlope &&& TILE_ELEMENT_SLOPE_DOUBLE_HEIGHT) >>> 4) % 256) xl yl
    ((e.base_height.val * 8 : Nat) : Int) h15
    (by rcases hex with h | h
        · exact Or.inl h.1
        · exact Or.inr h.1)
    (by omega) (by omega) (by omega)
  refine le_trans hbound ?_
  unfold TILE_ELEMENT_SLOPE_FLAT
  rcases hex with ⟨h1, h2⟩ | ⟨h1, h2⟩
  · rw [h1]
    simp only [h2, ne_eq, not_true_eq_false, ↓reduceIte]
    split_ifs <;> push_cast <;> omega
  · rw [h1]
    simp only [h2, ne_eq, not_false_eq_true, ↓reduceIte, one_ne_zero]
    split_ifs <;> push_cast <;> omega

/-- C32: on a tile with a surface element `map_get_highest_z` returns a value,
and at every position inside the tile both `tile_element_height` and
`tile_element_water_height` return values that are at most that value. -/
theorem map_get_highest_z_upper_bound (cfg : Config) (s : Store) (tx ty xl yl : Nat)
    (htx : tx < 256) (hty : ty < 256) (hxl : xl < 32) (hyl : yl < 32) (e : Nat)
    (hsurf : map_get_surface_element_at cfg s tx ty = some (some e)) :
    ∃ z h w : Int,
      map_get_highest_z cfg s tx ty = some z ∧
      tile_element_height cfg s ((32 * tx + xl : Nat) : Int) ((32 * ty + yl : Nat) : Int)
        = some h ∧
      tile_element_water_height cfg s ((32 * tx + xl : Nat) : Int) ((32 * ty + yl : Nat) : Int)
        = some w ∧
      h ≤ z ∧ w ≤ z := by
  have hH := tile_element_height_at_tile cfg s tx ty xl yl htx hty hxl hyl
  have hW := tile_element_water_height_at_tile cfg s tx ty xl yl htx hty hxl hyl
  rw [hsurf] at hH hW
  have hle := height_of_surface_le (s.gTileElements e) xl yl hxl hyl
  have hz : map_get_highest_z cfg s tx ty = some ((max
      (if ((s.gTileElements e).GetSlope &&& TILE_ELEMENT_SLOPE_DOUBLE_HEIGHT) ≠ 0 then
        (if ((s.gTileElements e).GetSlope &&& TILE_ELEMENT_SLOPE_ALL_CORNERS_UP) ≠
            TILE_ELEMENT_SLOPE_FLAT then (s.gTileElements e).base_height.val * 8 + 16
          else (s.gTileElements e).base_height.val * 8) + 16
        else
          (if ((s.gTileElements e).GetSlope &&& TILE_ELEMENT_SLOPE_ALL_CORNERS_UP) ≠
            TILE_ELEMENT_SLOPE_FLAT then (s.gTileElements e).base_height.val * 8 + 16
          else (s.gTileElements e).base_height.val * 8))
      ((s.gTileElements e).GetWaterHeight * 16) : Nat) : Int) := by
    unfold map_get_highest_z
    rw [hsurf]
  refine ⟨_, _, _, hz, hH, hW, ?_, ?_⟩
  · refine le_trans hle ?_
    apply Int.ofNat_le.mpr
    refine le_trans ?_ (le_max_left _ _)
    split_ifs <;> omega
  · exact Int.ofNat_le.mpr (le_max_right _ _)

/-- C32 at the sample store: tile (0, 0) has a surface of base height 14, and
the land and water at position (5, 7) lie below the highest z of the tile. -/
theorem map_get_highest_z_upper_bound_witness :
    map_get_surface_element_at smallConfig sampleStore 0 0 = some (some 0) ∧
    ∃ z h w : Int,
      map_get_highest_z smallConfig sampleStore ((0 : Nat) : Int) ((0 : Nat) : Int) = some z ∧
      tile_element_height smallConfig sampleStore ((32 * 0 + 5 : Nat) : Int)
        ((32 * 0 + 7 : Nat) : Int) = some h ∧
      tile_element_water_height smallConfig sampleStore ((32 * 0 + 5 : Nat) : Int)
        ((32 * 0 + 7 : Nat) : Int) = some w ∧
      h ≤ z ∧ w ≤ z :=
  ⟨by decide, map_get_highest_z_upper_bound smallConfig sampleStore 0 0 5 7 (by decide)
    (by decide) (by decide) (by decide) 0 (by decide)⟩

/-! ## Claims on the selection of the scenery near a ride -/

/-- A fold over bodies that may fail has failed when one of the items fails in
every state. -/
theorem foldlM_none_of_mem {σ α : Type} (f : σ → α → Option σ) (l : List α) (a : α)
    (ha : a ∈ l) (hf : ∀ st, f st a = none) (st : σ) : l.foldlM f st = none := by
  induction l generalizing st with
  | nil => cases ha
  | cons b t ih =>
    rw [List.foldlM_cons]
    rcases List.mem_cons.mp ha with h | h
    · subst h
      rw [hf st]
      rfl
    · cases hb : f st b with
      | none => rfl
      | some st1 => exact ih h st1

theorem nearbySceneryTiles_eq (cx cy : Int) :
    nearbySceneryTiles cx cy =
      [(cx - 1, cy - 1), (cx, cy - 1), (cx + 1, cy - 1),
       (cx - 1, cy), (cx, cy), (cx + 1, cy),
       (cx - 1, cy + 1), (cx, cy + 1), (cx + 1, cy + 1)] := by
  have h : ∀ c : Int, unitSteps (c - 1) (c + 1) = [c - 1, c, c + 1] := by
    intro c
    unfold unitSteps
    have h3 : (c + 1 + 1 - (c - 1)).toNat = 3 := by omega
    rw [h3]
    simp only [List.range_succ, List.range_zero, List.nil_append, List.cons_append, List.map_cons,
      List.map_nil, Nat.cast_zero, Nat.cast_one, Nat.cast_ofNat, add_zero]
    congr 2
    · omega
    · congr 1; omega
  unfold nearbySceneryTiles TRACK_NEARBY_SCENERY_DISTANCE
  rw [h cx, h cy]
  rfl

/-- Away from the boundary of the grid every tile that
`track_design_save_select_nearby_scenery_for_tile` scans has a run head. -/
theorem nearby_scenery_heads_interior (cfg : Config) (hcfg : cfg.MAXIMUM_MAP_SIZE_TECHNICAL = 256)
    (s : Store) (cx cy : Int) (hcx : 1 ≤ cx ∧ cx ≤ 254) (hcy : 1 ≤ cy ∧ cy ≤ 254) :
    ∀ xy ∈ nearbySceneryTiles cx cy, ∃ head, map_get_first_element_at cfg s xy.1 xy.2 = some head := by
  intro xy hxy
  rw [nearbySceneryTiles_eq] at hxy
  have hb : 0 ≤ xy.1 ∧ xy.1 ≤ 255 ∧ 0 ≤ xy.2 ∧ xy.2 ≤ 255 := by
    simp only [List.mem_cons, List.mem_singleton, List.not_mem_nil, or_false] at hxy
    rcases hxy with h | h | h | h | h | h | h | h | h <;> subst h <;> simp only [] <;> omega
  unfold map_get_first_element_at
  rw [hcfg]
  have hc : ¬ (xy.1 < 0 ∨ xy.2 < 0 ∨ xy.1 > ((256 : Nat) : Int) - 1 ∨ xy.2 > ((256 : Nat) : Int) - 1) := by
    push_cast
    omega
  rw [if_neg hc]
  exact ⟨_, rfl⟩

/-- C38: on the boundary of the 256 by 256 grid
`track_design_save_select_nearby_scenery_for_tile` scans a tile outside the
grid, for which `map_get_first_element_at` returns the null pointer, and the
walk of that run reads through it. -/
theorem track_design_save_select_nearby_scenery_null_run (cfg : Config)
    (hcfg : cfg.MAXIMUM_MAP_SIZE_TECHNICAL = 256) (fn : SceneryFunctions)
    (rf : RideElementFunctions) (s : Store) (st : TrackDesignSave) (rideIndex : Nat)
    (cx cy : Int)
    (hedge : cx = 0 ∨ cx = 255 ∨ cy = 0 ∨ cy = 255) :
    (∃ xy ∈ nearbySceneryTiles cx cy, map_get_first_element_at cfg s xy.1 xy.2 = none) ∧
    track_design_save_select_nearby_scenery_for_tile cfg fn rf s st rideIndex cx cy = none := by
  have hex : ∃ xy ∈ nearbySceneryTiles cx cy, map_get_first_element_at cfg s xy.1 xy.2 = none := by
    have hnull : ∀ x y : Int, (x < 0 ∨ y < 0 ∨ x > 255 ∨ y > 255) →
        map_get_first_element_at cfg s x y = none := by
      intro x y h
      unfold map_get_first_element_at
      rw [hcfg]
      have hc : x < 0 ∨ y < 0 ∨ x > ((256 : Nat) : Int) - 1 ∨ y > ((256 : Nat) : Int) - 1 := by
        push_cast
        omega
      rw [if_pos hc]
    rw [nearbySceneryTiles_eq]
    rcases hedge with h | h | h | h
    · exact ⟨(cx - 1, cy), by simp, hnull _ _ (by simp only []; omega)⟩
    · exact ⟨(cx + 1, cy), by simp, hnull _ _ (by simp only []; omega)⟩
    · exact ⟨(cx, cy - 1), by simp, hnull _ _ (by simp only []; omega)⟩
    · exact ⟨(cx, cy + 1), by simp, hnull _ _ (by simp only []; omega)⟩
  refine ⟨hex, ?_⟩
  obtain ⟨xy, hmem, hnone⟩ := hex
  unfold track_design_save_select_nearby_scenery_for_tile
  apply foldlM_none_of_mem _ _ xy hmem
  intro st1
  unfold track_design_save_select_nearby_scenery_body
  rw [hnone]

/-- C38 at a sample: tile (0, 5) of a 256 by 256 grid holds a track element of
ride 7, so `track_design_save_select_nearby_scenery` calls the scan for it; the
scan starts at tile (-1, 4), which has no run. -/
theorem track_design_save_select_nearby_scenery_null_run_witness :
    track_design_save_should_select_scenery_around sampleSceneryFunctions
      sampleRideElementFunctions 7
      (trackStore.gTileElements (trackStore.gTileElementTilePointers (0 + 5 * 256))) = true ∧
    map_get_first_element_at gameConfig trackStore (-1) 4 = none ∧
    (∃ xy ∈ nearbySceneryTiles 0 5, map_get_first_element_at gameConfig trackStore xy.1 xy.2 = none) ∧
    track_design_save_select_nearby_scenery_for_tile gameConfig sampleSceneryFunctions
      sampleRideElementFunctions trackStore track_design_save_init 7 0 5 = none :=
  ⟨by decide, by decide,
    track_design_save_select_nearby_scenery_null_run gameConfig rfl sampleSceneryFunctions
      sampleRideElementFunctions trackStore track_design_save_init 7 0 5 (Or.inl rfl)⟩

/-! ## The water that `WaterLowerAction` lowers -/

theorem mem_loopSteps (first last v : Int) :
    v ∈ loopSteps first last ↔ first ≤ v ∧ v ≤ last ∧ (v - first) % 32 = 0 := by
  unfold loopSteps
  split_ifs with h
  · rw [List.mem_map]
    constructor
    · rintro ⟨i, hi, rfl⟩
      rw [List.mem_range] at hi
      omega
    · rintro ⟨h1, h2, h3⟩
      refine ⟨((v - first) / 32).toNat, ?_, ?_⟩
      · rw [List.mem_range]; omega
      · omega
  · constructor
    · intro hm; cases hm
    · rintro ⟨h1, h2, _⟩; omega

theorem mem_rangeCoords_of (xs : List Int) :
    ∀ (ys : List Int) (p : Int × Int), p.1 ∈ xs → p.2 ∈ ys →
      p ∈ ys.foldr (fun y acc => xs.map (fun x => (x, y)) ++ acc) []
  | [], _, _, h => by cases h
  | y :: ys, p, hx, hy => by
    rw [List.foldr_cons, List.mem_append]
    rcases List.mem_cons.mp hy with h | h
    · left
      rw [List.mem_map]
      exact ⟨p.1, hx, by rw [← h]⟩
    · exact Or.inr (mem_rangeCoords_of xs ys p hx h)

theorem mem_rangeCoords (range : MapRange) (p : Int × Int) :
    p ∈ rangeCoords range ↔
      p.1 ∈ loopSteps range.Left range.Right ∧ p.2 ∈ loopSteps range.Top range.Bottom :=
  ⟨fun h => mem_rangeCoords_aux _ _ p h, fun h => mem_rangeCoords_of _ _ p h.1 h.2⟩

/-- The positions that the loops of `QueryExecute` visit in the clamped range
are among the positions that `GetLowestHeight` visits in the requested range,
when the requested range is aligned. -/
theorem rangeCoords_validRange_subset (range : MapRange) (st : GameState)
    (halign : range.Aligned) (p : Int × Int)
    (hp : p ∈ rangeCoords (WaterLowerAction.validRange range st)) : p ∈ rangeCoords range := by
  rw [mem_rangeCoords] at hp ⊢
  rw [mem_loopSteps, mem_loopSteps] at hp ⊢
  simp only [WaterLowerAction.validRange] at hp
  obtain ⟨hL, hT⟩ := halign
  omega

theorem waterHeightAt_total (cfg : Config) (s : Store) (hwf : WellFormed cfg s) (tx ty : Int) :
    ∃ r, waterHeightAt cfg s tx ty = some r := by
  unfold waterHeightAt
  obtain ⟨r, hr⟩ := map_get_surface_element_at_total cfg s hwf tx ty
  rw [hr]
  rcases r with _ | e
  · exact ⟨_, rfl⟩
  · exact ⟨_, rfl⟩

/-- The body of `GetLowestHeight` in terms of the water height of the tile. -/
theorem GetLowestHeight_body_eq (cfg : Config) (s : Store) (m0 : Nat) (xy : Int × Int)
    (r : Option Nat) (hr : waterHeightAt cfg s (tileOf xy).1 (tileOf xy).2 = some r) :
    WaterLowerAction.GetLowestHeight_body cfg s m0 xy =
      match r with
      | none => some m0
      | some w => some (if w ≠ 0 ∧ m0 < 2 * w then 2 * w else m0) := by
  unfold WaterLowerAction.GetLowestHeight_body map_get_surface_element_at_coords
  rcases r with _ | w
  · have := waterHeightAt_none cfg s _ _ hr
    simp only [tileOf] at this
    rw [this]
  · obtain ⟨e, he, hwe⟩ := waterHeightAt_some cfg s _ _ w hr
    simp only [tileOf] at he
    rw [he]
    simp only [hwe]
    have hlt : w < 32 := by rw [← hwe]; exact GetWaterHeight_lt _
    have e1 : w % 256 = w := by omega
    have e2 : w * 2 % 256 = 2 * w := by omega
    rw [e1, e2]
    split_ifs <;> first | rfl | omega

/-- The value of `GetLowestHeight` is the largest doubled water height among
the positions visited (and the start value). -/
theorem GetLowestHeight_max (cfg : Config) (s : Store) :
    ∀ (coords : List (Int × Int)) (m0 : Nat),
      (∀ xy ∈ coords, ∃ r, waterHeightAt cfg s (tileOf xy).1 (tileOf xy).2 = some r) →
      ∃ m, coords.foldlM (WaterLowerAction.GetLowestHeight_body cfg s) m0 = some m ∧ m0 ≤ m ∧
        (∀ xy ∈ coords, ∀ w, waterHeightAt cfg s (tileOf xy).1 (tileOf xy).2 = some (some w) →
          2 * w ≤ m) ∧
        (m = m0 ∨ ∃ xy ∈ coords, ∃ w,
          waterHeightAt cfg s (tileOf xy).1 (tileOf xy).2 = some (some w) ∧ w ≠ 0 ∧ m = 2 * w)
  | [], m0, _ => ⟨m0, rfl, le_refl _, fun _ h => absurd h (List.not_mem_nil _), Or.inl rfl⟩
  | xy :: rest, m0, htot => by
    obtain ⟨r, hr⟩ := htot xy (List.mem_cons_self _ _)
    have hrest := fun p (hp : p ∈ rest) => htot p (List.mem_cons_of_mem _ hp)
    rw [List.foldlM_cons, GetLowestHeight_body_eq cfg s m0 xy r hr]
    rcases r with _ | w
    · obtain ⟨m, h1, h2, h3, h4⟩ := GetLowestHeight_max cfg s rest m0 hrest
      refine ⟨m, h1, h2, ?_, ?_⟩
      · intro p hp w hw
        rcases List.mem_cons.mp hp with h | h
        · subst h; rw [hr] at hw; cases hw
        · exact h3 p h w hw
      · rcases h4 with h | ⟨p, hp, w, hw⟩
        · exact Or.inl h
        · exact Or.inr ⟨p, List.mem_cons_of_mem _ hp, w, hw⟩
    · obtain ⟨m, h1, h2, h3, h4⟩ := GetLowestHeight_max cfg s rest
        (if w ≠ 0 ∧ m0 < 2 * w then 2 * w else m0) hrest
      refine ⟨m, h1, ?_, ?_, ?_⟩
      · split_ifs at h2 <;> omega
      · intro p hp w2 hw
        rcases List.mem_cons.mp hp with h | h
        · subst h
          rw [hr] at hw
          have : w = w2 := by injection hw with hw; injection hw
          subst this
          split_ifs at h2 <;> omega
        · exact h3 p h w2 hw
      · rcases h4 with h | ⟨p, hp, w2, hw⟩
        · by_cases hc : w ≠ 0 ∧ m0 < 2 * w
          · rw [if_pos hc] at h
            exact Or.inr ⟨xy, List.mem_cons_self _ _, w, hr, hc.1, h⟩
          · rw [if_neg hc] at h
            exact Or.inl h
        · exact Or.inr ⟨p, List.mem_cons_of_mem _ hp, w2, hw⟩


/-- The body of the loops of `QueryExecute` in terms of the water height of
the tile. -/
theorem QueryExecute_body_eq (cfg : Config) (k : ActionConstants) (nested : NestedActions)
    (flags : Nat) (isExecuting : Bool) (minHeight : Nat) (l : WaterLowerLoop) (xy : Int × Int)
    (r : Option Nat)
    (hr : waterHeightAt cfg l.state.store (tileOf xy).1 (tileOf xy).2 = some r) :
    WaterLowerAction.QueryExecute_body cfg k nested flags isExecuting minHeight l xy =
      match r with
      | none => some l
      | some w =>
        if w ≠ 0 ∧ minHeight ≤ 2 * w then
          if (nested.call isExecuting (lowerWaterAt w flags xy) l.state).1.Error = GA_ERROR.OK then
            some ⟨l.res.addCost (nested.call isExecuting (lowerWaterAt w flags xy) l.state).1.Cost,
              true, (nested.call isExecuting (lowerWaterAt w flags xy) l.state).2, l.returned,
              l.issued ++ [lowerWaterAt w flags xy]⟩
          else
            some ⟨l.res, l.hasChanged,
              (nested.call isExecuting (lowerWaterAt w flags xy) l.state).2,
              some ((nested.call isExecuting (lowerWaterAt w flags xy) l.state).1.setErrorTitle
                k.STR_CANT_LOWER_WATER_LEVEL_HERE),
              l.issued ++ [lowerWaterAt w flags xy]⟩
        else some l := by
  unfold WaterLowerAction.QueryExecute_body
  rcases r with _ | w
  · have := waterHeightAt_none cfg l.state.store _ _ hr
    simp only [tileOf] at this
    rw [this]
  · obtain ⟨e, he, hwe⟩ := waterHeightAt_some cfg l.state.store _ _ w hr
    simp only [tileOf] at he
    rw [he]
    simp only [hwe]
    have hlt : w < 32 := by rw [← hwe]; exact GetWaterHeight_lt _
    have e1 : w % 256 = w := by omega
    have e2 : w * 2 % 256 = w * 2 := by omega
    rw [e1, e2]
    by_cases h0 : w = 0
    · rw [if_pos h0, if_neg (show ¬ (w ≠ 0 ∧ minHeight ≤ 2 * w) from fun h => h.1 h0)]
    · rw [if_neg h0]
      by_cases h1 : w * 2 < minHeight
      · rw [if_pos h1, if_neg (show ¬ (w ≠ 0 ∧ minHeight ≤ 2 * w) from fun h => by omega)]
      · have e3 : (w * 2 + 256 - 2) % 256 = 2 * w - 2 := by omega
        rw [if_neg h1, e3, if_pos (show w ≠ 0 ∧ minHeight ≤ 2 * w from ⟨h0, by omega⟩)]
        rfl

theorem expectedLowerAction_congr (cfg : Config) (s1 s2 : Store) (minHeight flags : Nat)
    (xy : Int × Int)
    (h : waterHeightAt cfg s1 (tileOf xy).1 (tileOf xy).2
      = waterHeightAt cfg s2 (tileOf xy).1 (tileOf xy).2) :
    expectedLowerAction cfg s1 minHeight flags xy = expectedLowerAction cfg s2 minHeight flags xy := by
  unfold expectedLowerAction
  rw [h]

/-- The loops of `QueryExecute` over positions on pairwise different tiles,
when every nested action succeeds and changes the water of its own tile only:
the nested actions issued are those of the tiles with a surface whose water
height `w` is not zero and has `minHeight ≤ 2 * w`, each lowering from `w`. -/
theorem QueryExecute_loop_select (cfg : Config) (k : ActionConstants)
    (nested : NestedActions) (flags : Nat) (isExecuting : Bool) (minHeight : Nat)
    (Inv : GameState → Prop) :
    ∀ (coords : List (Int × Int)) (l : WaterLowerLoop),
      nested.SucceedsOnOwnTile cfg isExecuting Inv flags coords → Inv l.state →
      coords.Pairwise (fun p q => tileOf p ≠ tileOf q) →
      (∀ xy ∈ coords, ∃ r, waterHeightAt cfg l.state.store (tileOf xy).1 (tileOf xy).2 = some r) →
      l.returned = none →
      ∃ l1, WaterLowerAction.QueryExecute_loop cfg k nested flags isExecuting minHeight coords l
          = some l1 ∧
        l1.returned = none ∧
        l1.issued = l.issued
          ++ coords.filterMap (expectedLowerAction cfg l.state.store minHeight flags)
  | [], l, _, _, _, _, hret => ⟨l, rfl, hret, by simp⟩
  | xy :: rest, l, hstep, hinv, hp, htot, hret => by
    rw [List.pairwise_cons] at hp
    have htot2 := fun p (hpm : p ∈ rest) => htot p (List.mem_cons_of_mem _ hpm)
    have hstep2 : nested.SucceedsOnOwnTile cfg isExecuting Inv flags rest :=
      fun p hpm => hstep p (List.mem_cons_of_mem _ hpm)
    obtain ⟨r, hr⟩ := htot xy (List.mem_cons_self _ _)
    have hskip : (r = none ∨ ∃ w, r = some w ∧ ¬ (w ≠ 0 ∧ minHeight ≤ 2 * w)) →
        ∃ l1, WaterLowerAction.QueryExecute_loop cfg k nested flags isExecuting minHeight
            (xy :: rest) l = some l1 ∧
          l1.returned = none ∧
          l1.issued = l.issued
            ++ (xy :: rest).filterMap (expectedLowerAction cfg l.state.store minHeight flags) := by
      intro hcase
      have hb : WaterLowerAction.QueryExecute_body cfg k nested flags isExecuting minHeight l xy
          = some l := by
        rcases hcase with h | ⟨w, h, hc⟩
        · subst h
          rw [QueryExecute_body_eq cfg k nested flags isExecuting minHeight l xy _ hr]
        · subst h
          rw [QueryExecute_body_eq cfg k nested flags isExecuting minHeight l xy _ hr]
          simp only []
          rw [if_neg hc]
      have he : expectedLowerAction cfg l.state.store minHeight flags xy = none := by
        unfold expectedLowerAction
        rw [hr]
        rcases hcase with h | ⟨w, h, hc⟩
        · subst h
          rfl
        · subst h
          simp only []
          rw [if_neg hc]
      obtain ⟨l1, h1, h2, h3⟩ := QueryExecute_loop_select cfg k nested flags isExecuting minHeight
        Inv rest l hstep2 hinv hp.2 htot2 hret
      refine ⟨l1, ?_, h2, ?_⟩
      · unfold WaterLowerAction.QueryExecute_loop
        rw [hb]
        simp only [hret, Option.isSome_none, Bool.false_eq_true, ↓reduceIte]
        exact h1
      · rw [h3, List.filterMap_cons, he]
    rcases r with _ | w
    · exact hskip (Or.inl rfl)
    · by_cases hc : w ≠ 0 ∧ minHeight ≤ 2 * w
      · obtain ⟨hok, hinv2, hframe⟩ := hstep xy (List.mem_cons_self _ _) w l.state hinv
        have hb : WaterLowerAction.QueryExecute_body cfg k nested flags isExecuting minHeight l xy
            = some ⟨l.res.addCost
                (nested.call isExecuting (lowerWaterAt w flags xy) l.state).1.Cost,
              true, (nested.call isExecuting (lowerWaterAt w flags xy) l.state).2, none,
              l.issued ++ [lowerWaterAt w flags xy]⟩ := by
          rw [QueryExecute_body_eq cfg k nested flags isExecuting minHeight l xy _ hr]
          simp only []
          rw [if_pos hc, if_pos hok, hret]
        have he : expectedLowerAction cfg l.state.store minHeight flags xy
            = some (lowerWaterAt w flags xy) := by
          unfold expectedLowerAction
          rw [hr]
          simp only []
          rw [if_pos hc]
        have hsame : ∀ p ∈ rest,
            waterHeightAt cfg (nested.call isExecuting (lowerWaterAt w flags xy) l.state).2.store
                (tileOf p).1 (tileOf p).2
              = waterHeightAt cfg l.state.store (tileOf p).1 (tileOf p).2 := by
          intro p hpm
          have hne : tileOf p ≠ tileOf xy := fun hx => hp.1 p hpm hx.symm
          exact hframe (tileOf p).1 (tileOf p).2 hne
        obtain ⟨l1, h1, h2, h3⟩ := QueryExecute_loop_select cfg k nested flags isExecuting
          minHeight Inv rest
          ⟨l.res.addCost (nested.call isExecuting (lowerWaterAt w flags xy) l.state).1.Cost,
            true, (nested.call isExecuting (lowerWaterAt w flags xy) l.state).2, none,
            l.issued ++ [lowerWaterAt w flags xy]⟩ hstep2 hinv2 hp.2
          (fun p hpm => by
            obtain ⟨r2, hr2⟩ := htot2 p hpm
            exact ⟨r2, by rw [← hr2]; exact hsame p hpm⟩) rfl
        refine ⟨l1, ?_, h2, ?_⟩
        · unfold WaterLowerAction.QueryExecute_loop
          rw [hb]
          simp only [Option.isSome_none, Bool.false_eq_true, ↓reduceIte]
          exact h1
        · rw [h3, List.filterMap_cons, he]
          simp only [List.append_assoc, List.singleton_append]
          congr 2
          apply List.filterMap_congr
          intro p hpm
          exact expectedLowerAction_congr cfg _ _ minHeight flags p (hsame p hpm)
      · exact hskip (Or.inr ⟨w, rfl, hc⟩)

theorem filterMap_eq_map_filter {α β : Type} (f : α → Option β) (p : α → Bool) (g : α → β) :
    ∀ (l : List α), (∀ x ∈ l, f x = if p x = true then some (g x) else none) →
      l.filterMap f = (l.filter p).map g
  | [], _ => rfl
  | a :: t, h => by
    have ht := filterMap_eq_map_filter f p g t (fun x hx => h x (List.mem_cons_of_mem _ hx))
    have ha := h a (List.mem_cons_self _ _)
    rw [List.filterMap_cons, List.filter_cons, ha]
    by_cases hp : p a = true
    · simp only [hp, ↓reduceIte, List.map_cons, ht]
    · simp only [hp, Bool.false_eq_true, ↓reduceIte, ht]


theorem mixedWaterStore_wellFormed : WellFormed waterConfig mixedWaterStore := by
  refine wellFormed_of_same_flags waterConfig waterStore mixedWaterStore rfl rfl ?_
    waterStore_wellFormed
  intro i
  simp only [mixedWaterStore, waterStore]
  split_ifs <;> rfl

theorem waterInvariant_mixed : waterInvariant mixedWaterState := by
  refine ⟨fun _ => rfl, ?_⟩
  intro i
  simp only [mixedWaterState, mixedWaterStore, waterStore]
  split_ifs <;> rfl

/-- C36 as it fails: with the range (10, 32)-(70, 32), whose left is not
aligned, `GetLowestHeight` looks at the tiles (0, 1) and (1, 1) only and
returns 6, the loops of `Execute` visit the tiles (1, 1) and (2, 1), and both
are lowered, the first from water height 3 and the second from water height 5;
and when the nested action at the second tile fails, the two later tiles with
the highest water get no nested action. -/
theorem water_lower_two_levels_counterexample :
    (∃ out, WaterLowerAction.Execute waterConfig sampleConstants lowerWaterActions
        ⟨10, 32, 70, 32⟩ 0 mixedWaterState = some out ∧
      WaterLowerAction.GetLowestHeight waterConfig ⟨10, 32, 70, 32⟩ mixedWaterStore = some 6 ∧
      out.issued = [⟨32, 32, 4, 0⟩, ⟨64, 32, 8, 0⟩] ∧
      out.result.Error = GA_ERROR.OK ∧
      [waterHeightAt waterConfig mixedWaterStore 1 1, waterHeightAt waterConfig mixedWaterStore 2 1]
        = [some (some 3), some (some 5)] ∧
      [waterHeightAt waterConfig out.state.store 1 1, waterHeightAt waterConfig out.state.store 2 1]
        = [some (some 2), some (some 4)]) ∧
    (∃ out, WaterLowerAction.Execute waterConfig sampleConstants obstructedWaterActions
        ⟨0, 0, 200, 200⟩ 0 waterState = some out ∧
      WaterLowerAction.GetLowestHeight waterConfig ⟨0, 0, 200, 200⟩ waterStore = some 6 ∧
      out.issued = [⟨32, 32, 4, 0⟩, ⟨64, 32, 4, 0⟩] ∧
      (32, 64) ∈ rangeCoords (WaterLowerAction.validRange ⟨0, 0, 200, 200⟩ waterState) ∧
      hasWaterLevelAt waterConfig waterStore 6 (32, 64) = true) :=
  ⟨⟨_, rfl, by decide, by decide, by decide, by decide, by decide⟩,
    ⟨_, rfl, by decide, by decide, by decide, by decide⟩⟩

/-- C36, amended: on a well-formed store, for a range whose left and top are
aligned and nested actions that succeed and change the water of their own
tile only, `WaterLowerAction` returns without error; the value `m` of
`GetLowestHeight` is the largest doubled water height among the positions of
the requested range (attained unless it is 0), and the nested actions issued
are exactly one per position of the clamped range whose tile has a surface
with non-zero water height `m / 2`, in loop order, all with the same raw
target height `m - 2`. -/
theorem water_lower_issues_highest (cfg : Config) (k : ActionConstants)
    (nested : NestedActions) (range : MapRange) (flags : Nat) (isExecuting : Bool)
    (st : GameState) (Inv : GameState → Prop)
    (hwf : WellFormed cfg st.store) (halign : range.Aligned) (hinv : Inv st)
    (hstep : nested.SucceedsOnOwnTile cfg isExecuting Inv flags
      (rangeCoords (WaterLowerAction.validRange range st))) :
    ∃ out m, WaterLowerAction.QueryExecute cfg k nested range flags isExecuting st = some out ∧
      WaterLowerAction.GetLowestHeight cfg range st.store = some m ∧
      (∀ xy ∈ rangeCoords range, ∀ w,
        waterHeightAt cfg st.store (tileOf xy).1 (tileOf xy).2 = some (some w) → 2 * w ≤ m) ∧
      (m = 0 ∨ ∃ xy ∈ rangeCoords range, hasWaterLevelAt cfg st.store m xy = true) ∧
      out.issued = ((rangeCoords (WaterLowerAction.validRange range st)).filter
        (hasWaterLevelAt cfg st.store m)).map (fun xy => ⟨xy.1, xy.2, m - 2, flags⟩) ∧
      out.result.Error = GA_ERROR.OK := by
  obtain ⟨m, hm, _, hmax, hatt⟩ := GetLowestHeight_max cfg st.store (rangeCoords range) 0
    (fun xy _ => waterHeightAt_total cfg st.store hwf _ _)
  have hpw : (rangeCoords (WaterLowerAction.validRange range st)).Pairwise
      (fun p q => tileOf p ≠ tileOf q) := by
    apply rangeCoords_pairwise
    · simp only [WaterLowerAction.validRange]; omega
    · simp only [WaterLowerAction.validRange]; omega
  have hloop := fun res0 : GameActionResult =>
    QueryExecute_loop_select cfg k nested flags isExecuting m Inv
      (rangeCoords (WaterLowerAction.validRange range st)) ⟨res0, false, st, none, []⟩
      hstep hinv hpw (fun xy _ => waterHeightAt_total cfg st.store hwf _ _) rfl
  obtain ⟨out, res0, l, ho, hl, hi, hcase⟩ := QueryExecute_core cfg k nested range flags
    isExecuting st hwf m hm (fun res0 => (hloop res0).imp (fun _ hx => hx.1))
  obtain ⟨l1, h1, h2, h3⟩ := hloop res0
  have hl1 : l = l1 := Option.some.inj (hl.symm.trans h1)
  subst hl1
  refine ⟨out, m, ho, hm, hmax, ?_, ?_, ?_⟩
  · rcases hatt with h | ⟨xy, hxy, w, hw, hw0, hmw⟩
    · exact Or.inl h
    · refine Or.inr ⟨xy, hxy, ?_⟩
      unfold hasWaterLevelAt
      rw [hw]
      exact decide_eq_true ⟨hw0, hmw.symm⟩
  · rw [hi, h3]
    show [] ++ _ = _
    rw [List.nil_append]
    apply filterMap_eq_map_filter
    intro xy hxy
    have hreq := rangeCoords_validRange_subset range st halign xy hxy
    unfold expectedLowerAction hasWaterLevelAt
    obtain ⟨r, hr⟩ := waterHeightAt_total cfg st.store hwf (tileOf xy).1 (tileOf xy).2
    rw [hr]
    rcases r with _ | w
    · rfl
    · have hle := hmax xy hreq w hr
      simp only [decide_eq_true_eq]
      by_cases hc : w ≠ 0 ∧ 2 * w = m
      · rw [if_pos ⟨hc.1, by omega⟩, if_pos hc]
        simp only [lowerWaterAt, hc.2]
      · rw [if_neg (fun h => hc ⟨h.1, by omega⟩), if_neg hc]
  · rcases hcase with ⟨_, hs⟩ | ⟨⟨r, hr⟩, _⟩
    · exact hs.2.1
    · rw [h2] at hr; exact absurd hr (by simp)

/-- C36 at a sample: on the map whose tiles (2, 1) and (1, 2) have water
height 5, the tile (2, 2) water height 2 and the others water height 3, the
range (0, 0)-(200, 200) has the highest doubled water height 10, and `Execute`
lowers the two tiles with water height 5 only. -/
theorem water_lower_issues_highest_witness :
    (∃ out m, WaterLowerAction.QueryExecute waterConfig sampleConstants lowerWaterActions
        ⟨0, 0, 200, 200⟩ 0 true mixedWaterState = some out ∧
      WaterLowerAction.GetLowestHeight waterConfig ⟨0, 0, 200, 200⟩ mixedWaterState.store
        = some m ∧
      (∀ xy ∈ rangeCoords ⟨0, 0, 200, 200⟩, ∀ w,
        waterHeightAt waterConfig mixedWaterState.store (tileOf xy).1 (tileOf xy).2
          = some (some w) → 2 * w ≤ m) ∧
      (m = 0 ∨ ∃ xy ∈ rangeCoords ⟨0, 0, 200, 200⟩,
        hasWaterLevelAt waterConfig mixedWaterState.store m xy = true) ∧
      out.issued = ((rangeCoords
          (WaterLowerAction.validRange ⟨0, 0, 200, 200⟩ mixedWaterState)).filter
        (hasWaterLevelAt waterConfig mixedWaterState.store m)).map
          (fun xy => ⟨xy.1, xy.2, m - 2, 0⟩) ∧
      out.result.Error = GA_ERROR.OK) ∧
    (∃ out, WaterLowerAction.QueryExecute waterConfig sampleConstants lowerWaterActions
        ⟨0, 0, 200, 200⟩ 0 true mixedWaterState = some out ∧
      WaterLowerAction.GetLowestHeight waterConfig ⟨0, 0, 200, 200⟩ mixedWaterStore = some 10 ∧
      out.issued = [⟨64, 32, 8, 0⟩, ⟨32, 64, 8, 0⟩]) :=
  ⟨water_lower_issues_highest waterConfig sampleConstants lowerWaterActions
    ⟨0, 0, 200, 200⟩ 0 true mixedWaterState waterInvariant mixedWaterStore_wellFormed
    (by decide) waterInvariant_mixed
    (fun xy hxy h st hinv =>
      lowerWaterActions_step h 0 xy
        (by
          have hm : xy ∈ [((32 : Int), (32 : Int)), (64, 32), (32, 64), (64, 64)] := hxy
          simp only [List.mem_cons, List.mem_singleton, List.not_mem_nil, or_false] at hm
          rcases hm with rfl | rfl | rfl | rfl <;> decide)
        (by
          have hm : xy ∈ [((32 : Int), (32 : Int)), (64, 32), (32, 64), (64, 64)] := hxy
          simp only [List.mem_cons, List.mem_singleton, List.not_mem_nil, or_false] at hm
          rcases hm with rfl | rfl | rfl | rfl <;> decide)
        st hinv),
    ⟨_, rfl, by decide, by decide⟩⟩

/-! ## Claims on the removal of walls -/

/-- C35, the divergence: in a compacted store the run of tile 1 starts with two
walls of direction 0 that intersect the heights 0 to 255.
`wall_remove_intersecting_walls` removes the wall at the head of the run,
steps back to the last element of tile 0, finds it flagged last-for-tile and
stops: the second wall of direction 0 is still in the run.  `wall_remove_at`,
which restarts at the head after each removal, removes all three walls. -/
theorem wall_remove_intersecting_walls_stops_after_head :
    WellFormed smallConfig wallStore ∧
    tileRun smallConfig wallStore 1 = some
      [wallElement 0x00 0 14 18, wallElement 0x00 0 20 24, wallElement 0x00 1 14 18,
        sampleElement 0x80 14 2] ∧
    (∃ s1, wall_remove_intersecting_walls smallConfig wallStore 32 0 0 255 0 12 = some s1 ∧
      tileRun smallConfig s1 1 = some
        [wallElement 0x00 0 20 24, wallElement 0x00 1 14 18, sampleElement 0x80 14 2] ∧
      wall_remove_intersecting_walls_test 0 255 0 (wallElement 0x00 0 20 24) = true) ∧
    (∃ s1, wall_remove_intersecting_walls smallConfig wallStore 32 0 0 255 1 12 = some s1 ∧
      tileRun smallConfig s1 1 = some
        [wallElement 0x00 0 14 18, wallElement 0x00 0 20 24, sampleElement 0x80 14 2]) ∧
    (∃ s1, wall_remove_at smallConfig wallStore 32 0 0 2040 12 = some s1 ∧
      tileRun smallConfig s1 1 = some [sampleElement 0x80 14 2]) :=
  ⟨by decide, by decide, ⟨_, rfl, by decide, by decide⟩, ⟨_, rfl, by decide⟩,
    ⟨_, rfl, by decide⟩⟩


theorem wall_remove_at_test_clearLast (z0 z1 : Int) (e : TileElement) :
    wall_remove_at_test z0 z1 e.clearLast = wall_remove_at_test z0 z1 e := rfl

theorem wall_remove_at_test_setLast (z0 z1 : Int) (e : TileElement) :
    wall_remove_at_test z0 z1 e.setLast = wall_remove_at_test z0 z1 e := rfl

theorem wall_remove_at_test_wall (z0 z1 : Int) (e : TileElement)
    (h : wall_remove_at_test z0 z1 e = true) : e.GetType = TILE_ELEMENT_TYPE_WALL := by
  unfold wall_remove_at_test at h
  by_contra hne
  rw [if_pos hne] at h
  cases h

theorem wall_remove_at_test_iff (z0 z1 : Int) (e : TileElement) :
    wall_remove_at_test z0 z1 e = true ↔
      e.GetType = TILE_ELEMENT_TYPE_WALL ∧ z0 < (e.clearance_height.val : Int)
        ∧ (e.base_height.val : Int) < z1 := by
  unfold wall_remove_at_test
  split_ifs with h1 h2 h3
  · constructor
    · intro h; cases h
    · intro h; exact absurd h.1 h1
  · constructor
    · intro h; cases h
    · intro h; omega
  · constructor
    · intro h; cases h
    · intro h; omega
  · constructor
    · intro _
      exact ⟨not_not.mp h1, by omega, by omega⟩
    · intro _; rfl

set_option maxRecDepth 100000 in
theorem clearLast_setLast_flags (f : uint8_t) :
    toU8 ((toU8 (f.val ||| TILE_ELEMENT_FLAG_LAST_TILE)).val &&& NOT_TILE_ELEMENT_FLAG_LAST_TILE)
      = toU8 (f.val &&& NOT_TILE_ELEMENT_FLAG_LAST_TILE) := by
  revert f; decide

theorem clearLast_setLast (e : TileElement) : e.setLast.clearLast = e.clearLast := by
  simp [TileElement.clearLast, TileElement.setLast, clearLast_setLast_flags]

/-- The scan of `wall_remove_at` over a run none of whose remaining elements
passes the tests ends normally. -/
theorem wall_remove_at_scan_none (cfg : Config) (mem : Nat → TileElement) (z0 z1 : Int)
    (p k : Nat) (hrun : IsRun mem p k) (hb : p + k ≤ arraySize cfg) :
    ∀ (n i fuel : Nat), i + n = k → 0 < n → n ≤ fuel →
      (∀ j, i ≤ j → j < k → wall_remove_at_test z0 z1 (mem (p + j)) = false) →
      wall_remove_at_scan cfg mem z0 z1 fuel (p + i) = some none
  | 0, _, _, _, h, _, _ => absurd h (Nat.lt_irrefl 0)
  | n + 1, i, 0, _, _, h, _ => absurd h (by omega)
  | n + 1, i, fuel + 1, hin, _, hf, hno => by
    unfold wall_remove_at_scan
    rw [if_pos (by omega), hno i (le_refl _) (by omega)]
    simp only [Bool.false_eq_true, ↓reduceIte]
    by_cases hl : (mem (p + i)).IsLastForTile = true
    · rw [if_pos hl]
    · rw [if_neg hl]
      have hne : i + 1 ≠ k := fun h => hl ((hrun.2 i (by omega)).2 h)
      have := wall_remove_at_scan_none cfg mem z0 z1 p k hrun hb n (i + 1) fuel (by omega)
        (by omega) (by omega) (fun j hj hjk => hno j (by omega) hjk)
      rw [← this]
      rfl

/-- The scan of `wall_remove_at` over a run stops at the first element that
passes the tests. -/
theorem wall_remove_at_scan_some (cfg : Config) (mem : Nat → TileElement) (z0 z1 : Int)
    (p k j0 : Nat) (hrun : IsRun mem p k) (hb : p + k ≤ arraySize cfg) (hj0 : j0 < k)
    (hyes : wall_remove_at_test z0 z1 (mem (p + j0)) = true) :
    ∀ (n i fuel : Nat), i + n = j0 → n < fuel →
      (∀ j, i ≤ j → j < j0 → wall_remove_at_test z0 z1 (mem (p + j)) = false) →
      wall_remove_at_scan cfg mem z0 z1 fuel (p + i) = some (some (p + j0))
  | _, _, 0, _, h, _ => absurd h (by omega)
  | 0, i, fuel + 1, hin, _, _ => by
    have : i = j0 := by omega
    subst this
    unfold wall_remove_at_scan
    rw [if_pos (by omega), hyes]
    rfl
  | n + 1, i, fuel + 1, hin, hf, hno => by
    unfold wall_remove_at_scan
    rw [if_pos (by omega), hno i (le_refl _) (by omega)]
    simp only [Bool.false_eq_true, ↓reduceIte]
    have hl : ¬ (mem (p + i)).IsLastForTile = true := fun h => by
      have := (hrun.2 i (by omega)).1 h
      omega
    rw [if_neg hl]
    have := wall_remove_at_scan_some cfg mem z0 z1 p k j0 hrun hb hj0 hyes n (i + 1) fuel
      (by omega) (by omega) (fun j hj hjk => hno j (by omega) hjk)
    rw [← this]
    rfl

theorem filter_eraseIdx_of_false {α : Type} (q : α → Bool) :
    ∀ (l : List α) (j : Nat) (h : j < l.length), q l[j] = false →
      (l.eraseIdx j).filter q = l.filter q
  | [], _, h, _ => absurd h (by simp)
  | a :: t, 0, _, hq => by
    have hq2 : q a = false := hq
    rw [List.eraseIdx_cons_zero, List.filter_cons, hq2]
    rfl
  | a :: t, j + 1, h, hq => by
    have h2 : j < t.length := by simpa using h
    have hq2 : q t[j] = false := hq
    rw [List.eraseIdx_cons_succ, List.filter_cons, List.filter_cons,
      filter_eraseIdx_of_false q t j h2 hq2]


theorem filter_map_clearLast (z0 z1 : Int) (l : List TileElement) :
    (l.filter (fun e => !wall_remove_at_test z0 z1 e)).map TileElement.clearLast
      = (l.map TileElement.clearLast).filter (fun e => !wall_remove_at_test z0 z1 e) := by
  rw [List.filter_map]
  rfl

/-- One removal by `tile_element_remove` in terms of lists: up to the
last-for-tile flags the new run is the old one without the element removed. -/
theorem remove_run_clearLast (old new : List TileElement) (j : Nat)
    (hget : ∀ i, new[i]? = (old.eraseIdx j)[i]?.map
      (fun e => if i + 1 = new.length then e.setLast else e)) :
    new.map TileElement.clearLast = (old.eraseIdx j).map TileElement.clearLast := by
  apply List.ext_getElem?
  intro i
  rw [List.getElem?_map, List.getElem?_map, hget i]
  cases (old.eraseIdx j)[i]? with
  | none => rfl
  | some e =>
    simp only [Option.map_some']
    split_ifs
    · rw [clearLast_setLast]
    · rfl

/-- The passes of `wall_remove_at` from the label `repeat` on, on the tile
with table index `t`: with fuel for one pass per element of the run they end,
and up to the last-for-tile flags the run left is the old run without the
elements that pass the tests. -/
theorem wall_remove_at_repeat_spec (cfg : Config) (x y z0 z1 : Int) (t : Nat)
    (ht : t < MAX_TILE_TILE_ELEMENT_POINTERS cfg)
    (hhead : ∀ s : Store, map_get_first_element_at cfg s (x >>> 5) (y >>> 5)
      = some (s.gTileElementTilePointers t)) :
    ∀ (n : Nat) (s : Store) (old : List TileElement), WellFormed cfg s →
      tileRun cfg s t = some old → old.length ≤ n →
      (∃ e ∈ old, e.GetType ≠ TILE_ELEMENT_TYPE_WALL) →
      ∃ s1 new,
        (∀ fuel, n ≤ fuel → wall_remove_at_repeat cfg x y z0 z1 fuel s = some s1) ∧
        WellFormed cfg s1 ∧
        s1.gTileElementTilePointers = s.gTileElementTilePointers ∧
        tileRun cfg s1 t = some new ∧
        new.map TileElement.clearLast
          = (old.filter (fun e => !wall_remove_at_test z0 z1 e)).map TileElement.clearLast ∧
        (∀ u, u < MAX_TILE_TILE_ELEMENT_POINTERS cfg → u ≠ t → tileRun cfg s1 u = tileRun cfg s u)
  | 0, s, old, _, _, hlen, hnw => by
    obtain ⟨e, he, _⟩ := hnw
    have : old.length = 0 := by omega
    rw [List.length_eq_zero] at this
    rw [this] at he
    cases he
  | n + 1, s, old, hwf, hold, hlen, hnw => by
    obtain ⟨k, hold_eq, hrun, hb⟩ := tileRun_some cfg s t old hold
    have hk : old.length = k := by rw [hold_eq, readRun_length]
    have hkl : tileRunLength cfg s t = k := (tileRun_of_isRun cfg s t k hrun hb).2.1
    by_cases hex : ∃ j, j < k ∧
        wall_remove_at_test z0 z1 (s.gTileElements (s.gTileElementTilePointers t + j)) = true
    · -- the first element that passes the tests is removed
      have hj0 := Nat.find_spec hex
      have hmin := fun j (hj : j < Nat.find hex) => Nat.find_min hex hj
      generalize Nat.find hex = j0 at hj0 hmin
      have hjl : j0 < old.length := by omega
      have hoj : old[j0] = s.gTileElements (s.gTileElementTilePointers t + j0) := by
        have h2 : old[j0]? = some (s.gTileElements (s.gTileElementTilePointers t + j0)) := by
          rw [hold_eq, readRun_getElem?, if_pos hj0.1]
        rw [List.getElem?_eq_getElem hjl] at h2
        exact Option.some.inj h2
      have hq : (fun e => !wall_remove_at_test z0 z1 e) old[j0] = false := by
        simp only [hoj, hj0.2, Bool.not_true]
      have hfil := filter_eraseIdx_of_false (fun e => !wall_remove_at_test z0 z1 e) old j0 hjl hq
      obtain ⟨e, he, hew⟩ := hnw
      have heq : (fun e => !wall_remove_at_test z0 z1 e) e = true := by
        simp only [Bool.not_eq_true']
        by_contra hne
        have : wall_remove_at_test z0 z1 e = true := by
          cases h : wall_remove_at_test z0 z1 e
          · exact absurd h hne
          · rfl
        exact hew (wall_remove_at_test_wall z0 z1 e this)
      have hee : e ∈ old.eraseIdx j0 := by
        have : e ∈ (old.eraseIdx j0).filter (fun e => !wall_remove_at_test z0 z1 e) := by
          rw [hfil]
          exact List.mem_filter.mpr ⟨he, heq⟩
        exact (List.mem_filter.mp this).1
      have hk2 : 2 ≤ old.length := by
        have h1 : 0 < (old.eraseIdx j0).length := List.length_pos_of_mem hee
        rw [List.length_eraseIdx, if_pos hjl] at h1
        omega
      obtain ⟨s1, new, hrem, hptr, hnew, hnl, hget, _, _, _, _⟩ :=
        tile_element_remove_run cfg s t j0 old hold hk2 hjl
      obtain ⟨s1b, hremb, hwf1⟩ := remove_wellFormed cfg s t j0 hwf ht (by omega) (by omega)
      have hs1 : s1b = s1 := Option.some.inj (hremb.symm.trans hrem)
      subst hs1
      obtain ⟨s1c, hremc, _, hframe1⟩ := remove_frame cfg s t j0 hwf ht (by omega) (by omega)
      have hs1c : s1c = s1b := Option.some.inj (hremc.symm.trans hrem)
      subst hs1c
      have hmap := remove_run_clearLast old new j0 hget
      have hnw1 : ∃ e1 ∈ new, e1.GetType ≠ TILE_ELEMENT_TYPE_WALL := by
        have h1 : e.clearLast ∈ new.map TileElement.clearLast := by
          rw [hmap]
          exact List.mem_map_of_mem _ hee
        obtain ⟨e1, he1, hc⟩ := List.mem_map.mp h1
        refine ⟨e1, he1, ?_⟩
        have : e1.GetType = e.GetType := by
          have h2 : e1.clearLast.GetType = e.clearLast.GetType := by rw [hc]
          exact h2
        rw [this]
        exact hew
      obtain ⟨s2, new2, hfuel, hwf2, hptr2, hnew2, hmap2, hframe2⟩ :=
        wall_remove_at_repeat_spec cfg x y z0 z1 t ht hhead n s1c new hwf1 hnew (by omega) hnw1
      refine ⟨s2, new2, ?_, hwf2, hptr2.trans hptr, hnew2, ?_, ?_⟩
      · intro fuel hf
        obtain ⟨f, rfl⟩ : ∃ f, fuel = f + 1 := ⟨fuel - 1, by omega⟩
        unfold wall_remove_at_repeat
        rw [hhead s]
        simp only []
        have hscan := wall_remove_at_scan_some cfg s.gTileElements z0 z1
          (s.gTileElementTilePointers t) k j0 hrun hb hj0.1 hj0.2 j0 0
          (arraySize cfg - s.gTileElementTilePointers t) (by omega) (by omega)
          (fun j _ hj => by
            have := hmin j hj
            cases h : wall_remove_at_test z0 z1
              (s.gTileElements (s.gTileElementTilePointers t + j))
            · rfl
            · exact absurd ⟨by omega, h⟩ this)
        rw [Nat.add_zero] at hscan
        rw [hscan]
        simp only []
        rw [hrem]
        exact hfuel f (by omega)
      · rw [hmap2, filter_map_clearLast, hmap, ← filter_map_clearLast, hfil]
      · intro u hu hne
        rw [hframe2 u hu hne]
        exact (hframe1 u hu hne).1
    · -- no element passes the tests
      have hno : ∀ j, j < k →
          wall_remove_at_test z0 z1 (s.gTileElements (s.gTileElementTilePointers t + j))
            = false := by
        intro j hj
        cases h : wall_remove_at_test z0 z1 (s.gTileElements (s.gTileElementTilePointers t + j))
        · rfl
        · exact absurd ⟨j, hj, h⟩ hex
      refine ⟨s, old, ?_, hwf, rfl, hold, ?_, fun _ _ _ => rfl⟩
      · intro fuel hf
        obtain ⟨f, rfl⟩ : ∃ f, fuel = f + 1 := ⟨fuel - 1, by omega⟩
        unfold wall_remove_at_repeat
        rw [hhead s]
        simp only []
        have hscan := wall_remove_at_scan_none cfg s.gTileElements z0 z1
          (s.gTileElementTilePointers t) k hrun hb k 0
          (arraySize cfg - s.gTileElementTilePointers t) (by omega) hrun.1 (by omega)
          (fun j _ hj => hno j hj)
        rw [Nat.add_zero] at hscan
        rw [hscan]
      · congr 1
        symm
        rw [List.filter_eq_self]
        intro e he
        rw [hold_eq] at he
        unfold readRun at he
        obtain ⟨j, hj, rfl⟩ := List.mem_map.mp he
        rw [hno j (List.mem_range.mp hj)]
        rfl


theorem shiftRight_five_tile (t l : Nat) (hl : l < 32) :
    (((32 * t + l : Nat) : Int) >>> 5) = (t : Int) := by
  show ((32 * t + l : Nat) : Int) >>> ((5 : Nat) : Int) = (t : Int)
  rw [Int.shiftRight_coe_nat, Nat.shiftRight_eq_div_pow]
  congr 1
  omega

/-- C34: on a well-formed store, for a position on a tile of the map whose
run holds an element that is not a wall, `wall_remove_at` ends (with fuel for
one pass per element of the run), the store it leaves is well formed with the
same pointer table, the run of the tile no longer holds a wall with
`clearance_height > z0 / 8` and `base_height < z1 / 8`, and up to the
last-for-tile flags it is the old run without exactly those walls, in the old
order; the runs of the other tiles are as before. -/
theorem wall_remove_at_removes (cfg : Config) (s : Store) (tx ty xl yl : Nat) (z0 z1 : Int)
    (old : List TileElement) (hwf : WellFormed cfg s)
    (htx : tx < cfg.MAXIMUM_MAP_SIZE_TECHNICAL) (hty : ty < cfg.MAXIMUM_MAP_SIZE_TECHNICAL)
    (hxl : xl < 32) (hyl : yl < 32)
    (hold : tileRun cfg s (tx + ty * cfg.MAXIMUM_MAP_SIZE_TECHNICAL) = some old)
    (hnw : ∃ e ∈ old, e.GetType ≠ TILE_ELEMENT_TYPE_WALL) :
    ∃ s1 new,
      (∀ fuel, old.length ≤ fuel →
        wall_remove_at cfg s ((32 * tx + xl : Nat) : Int) ((32 * ty + yl : Nat) : Int) z0 z1 fuel
          = some s1) ∧
      tileRun cfg s1 (tx + ty * cfg.MAXIMUM_MAP_SIZE_TECHNICAL) = some new ∧
      (∀ e ∈ new, ¬ (e.GetType = TILE_ELEMENT_TYPE_WALL
        ∧ Int.tdiv z0 8 < (e.clearance_height.val : Int)
        ∧ (e.base_height.val : Int) < Int.tdiv z1 8)) ∧
      new.map TileElement.clearLast
        = (old.filter (fun e => !decide (e.GetType = TILE_ELEMENT_TYPE_WALL
            ∧ Int.tdiv z0 8 < (e.clearance_height.val : Int)
            ∧ (e.base_height.val : Int) < Int.tdiv z1 8))).map TileElement.clearLast ∧
      WellFormed cfg s1 ∧
      s1.gTileElementTilePointers = s.gTileElementTilePointers ∧
      (∀ u, u < MAX_TILE_TILE_ELEMENT_POINTERS cfg →
        u ≠ tx + ty * cfg.MAXIMUM_MAP_SIZE_TECHNICAL → tileRun cfg s1 u = tileRun cfg s u) := by
  have ht := tile_index_lt cfg tx ty htx hty
  have hhead : ∀ s : Store, map_get_first_element_at cfg s
      (((32 * tx + xl : Nat) : Int) >>> 5) (((32 * ty + yl : Nat) : Int) >>> 5)
      = some (s.gTileElementTilePointers (tx + ty * cfg.MAXIMUM_MAP_SIZE_TECHNICAL)) := by
    intro s
    rw [shiftRight_five_tile tx xl hxl, shiftRight_five_tile ty yl hyl]
    exact first_element_at_nat cfg s tx ty htx hty
  obtain ⟨s1, new, hfuel, hwf1, hptr, hnew, hmap, hframe⟩ :=
    wall_remove_at_repeat_spec cfg _ _ (Int.tdiv z0 8) (Int.tdiv z1 8) _ ht hhead old.length s old
      hwf hold (le_refl _) hnw
  have hpred : (fun e : TileElement => !wall_remove_at_test (Int.tdiv z0 8) (Int.tdiv z1 8) e)
      = (fun e => !decide (e.GetType = TILE_ELEMENT_TYPE_WALL
            ∧ Int.tdiv z0 8 < (e.clearance_height.val : Int)
            ∧ (e.base_height.val : Int) < Int.tdiv z1 8)) := by
    funext e
    congr 1
    rw [Bool.eq_iff_iff, wall_remove_at_test_iff, decide_eq_true_iff]
  refine ⟨s1, new, hfuel, hnew, ?_, ?_, hwf1, hptr, hframe⟩
  · intro e he hc
    have h1 : e.clearLast ∈ new.map TileElement.clearLast := List.mem_map_of_mem _ he
    rw [hmap] at h1
    obtain ⟨e0, he0, hce⟩ := List.mem_map.mp h1
    have hq := (List.mem_filter.mp he0).2
    have ht0 : wall_remove_at_test (Int.tdiv z0 8) (Int.tdiv z1 8) e0 = false := by
      simpa using hq
    have hte : wall_remove_at_test (Int.tdiv z0 8) (Int.tdiv z1 8) e = true :=
      (wall_remove_at_test_iff _ _ e).mpr hc
    rw [← wall_remove_at_test_clearLast, ← hce, wall_remove_at_test_clearLast, ht0] at hte
    cases hte
  · rw [hmap, hpred]

/-- C34 at a sample: the run of tile (1, 0) of `wallStore` holds the walls
with heights 14 to 18 (direction 0), 20 to 24 and 14 to 18 (direction 1) and a
surface; `wall_remove_at` for the heights 0 to 128 removes the two walls of
base height 14 and keeps the wall of base height 20 and the surface. -/
theorem wall_remove_at_removes_witness :
    (∃ s1 new,
      (∀ fuel, [wallElement 0x00 0 14 18, wallElement 0x00 0 20 24, wallElement 0x00 1 14 18,
          sampleElement 0x80 14 2].length ≤ fuel →
        wall_remove_at smallConfig wallStore ((32 * 1 + 5 : Nat) : Int) ((32 * 0 + 7 : Nat) : Int)
          0 128 fuel = some s1) ∧
      tileRun smallConfig s1 (1 + 0 * smallConfig.MAXIMUM_MAP_SIZE_TECHNICAL) = some new ∧
      (∀ e ∈ new, ¬ (e.GetType = TILE_ELEMENT_TYPE_WALL
        ∧ Int.tdiv 0 8 < (e.clearance_height.val : Int)
        ∧ (e.base_height.val : Int) < Int.tdiv 128 8)) ∧
      new.map TileElement.clearLast
        = ([wallElement 0x00 0 14 18, wallElement 0x00 0 20 24, wallElement 0x00 1 14 18,
            sampleElement 0x80 14 2].filter (fun e => !decide (e.GetType = TILE_ELEMENT_TYPE_WALL
            ∧ Int.tdiv 0 8 < (e.clearance_height.val : Int)
            ∧ (e.base_height.val : Int) < Int.tdiv 128 8))).map TileElement.clearLast ∧
      WellFormed smallConfig s1 ∧
      s1.gTileElementTilePointers = wallStore.gTileElementTilePointers ∧
      (∀ u, u < MAX_TILE_TILE_ELEMENT_POINTERS smallConfig →
        u ≠ 1 + 0 * smallConfig.MAXIMUM_MAP_SIZE_TECHNICAL →
        tileRun smallConfig s1 u = tileRun smallConfig wallStore u)) ∧
    (∃ s1, wall_remove_at smallConfig wallStore 37 7 0 128 4 = some s1 ∧
      tileRun smallConfig s1 1 = some [wallElement 0x00 0 20 24, sampleElement 0x80 14 2]) :=
  ⟨wall_remove_at_removes smallConfig wallStore 1 0 5 7 0 128
      [wallElement 0x00 0 14 18, wallElement 0x00 0 20 24, wallElement 0x00 1 14 18,
        sampleElement 0x80 14 2]
      (by decide) (by decide) (by decide) (by decide) (by decide) (by decide)
      ⟨sampleElement 0x80 14 2, by decide, by decide⟩,
    ⟨_, rfl, by decide⟩⟩

end OpenRCT2
